import Mathlib

/-!
# Product Requirements Documents: data model, validation and JSON codec

A shallow embedding of `prd/prd.go` and `prd/markdown.go` of
grokify/product-artifacts, and of the templates of `templates.go` and
`commands.go`.

Conventions of the embedding.

* A Go `string` is a Lean `String`: the Go strings that hold valid UTF-8.
* A Go slice `[]T` is an `Option (List T)`: `none` is the nil slice,
  `some []` the empty non-nil slice.  `len` of both is zero, and
  `reflect.DeepEqual` tells them apart.
* A Go pointer `*T` is an `Option T`: `none` is the nil pointer.
* A Go `error` is an `Option String` (`none` is the nil error) for `Validate`,
  and an `Except` for the operations that also return a value.
* `time.Time` is a type parameter `Time`; its JSON text form is supplied by a
  `TimeCodec` (the methods `Time.MarshalJSON` and `Time.UnmarshalJSON` of the
  Go standard library).  What `time.Now()` returns is an input of the
  definition that calls it, and so is `Time.Format` with a given layout.
* A JSON text is a `String` as well; between the text and the documents stands
  the type `JSON` of JSON values, which keeps every literal as it is spelled.
* The files are a value of the type `FileSystem`; an operation that writes
  returns the files after it.

The file has two halves: the definitions (data model, `Validate`, the JSON
writer and reader, the tables of the struct tags, `ToJSON` and `FromJSON`, the
predicates the theorems speak about, sample documents, `UpdateLastModified`,
`LoadFromFile` and `SaveToFile`, `ToMarkdown`, the templates), and then the
theorems.
-/

namespace prd

/-! ## Data model (prd.go, lines 10 to 187) -/

/-- Owner represents the product owner. -/
structure Owner where
  Name : String
  Email : String
  Team : String
deriving DecidableEq, Repr, Inhabited

/-- Stakeholder represents a project stakeholder. -/
structure Stakeholder where
  Name : String
  Email : String
  Role : String
  Team : String
deriving DecidableEq, Repr, Inhabited

/-- Overview contains the high-level product overview. -/
structure Overview where
  ProblemStatement : String
  SolutionSummary : String
  TargetAudience : String
  MarketContext : String
deriving DecidableEq, Repr, Inhabited

/-- SuccessMetric represents a measurable success indicator. -/
structure SuccessMetric where
  Metric : String
  Target : String
  MeasurementMethod : String
deriving DecidableEq, Repr, Inhabited

/-- OKR represents an Objective and its Key Results. -/
structure OKR where
  Objective : String
  KeyResults : Option (List String)
deriving DecidableEq, Repr, Inhabited

/-- Objectives contains business goals and success metrics. -/
structure Objectives where
  BusinessGoals : Option (List String)
  SuccessMetrics : Option (List SuccessMetric)
  OKRs : Option (List OKR)
deriving DecidableEq, Repr, Inhabited

/-- UserPersona represents a target user persona. -/
structure UserPersona where
  Name : String
  Description : String
  Goals : Option (List String)
  PainPoints : Option (List String)
deriving DecidableEq, Repr, Inhabited

/-- UserStory represents a user story. -/
structure UserStory where
  ID : String
  Story : String
  AcceptanceCriteria : Option (List String)
  Priority : String
  EffortEstimate : String
deriving DecidableEq, Repr, Inhabited

/-- FunctionalRequirement represents a functional requirement. -/
structure FunctionalRequirement where
  ID : String
  Description : String
  Priority : String
  Dependencies : Option (List String)
deriving DecidableEq, Repr, Inhabited

/-- NonFunctionalRequirement represents a non-functional requirement. -/
structure NonFunctionalRequirement where
  ID : String
  Category : String
  Description : String
  AcceptanceCriteria : String
deriving DecidableEq, Repr, Inhabited

/-- Requirements contains functional and non-functional requirements. -/
structure Requirements where
  Functional : Option (List FunctionalRequirement)
  NonFunctional : Option (List NonFunctionalRequirement)
deriving DecidableEq, Repr, Inhabited

/-- TechnologyStack represents the technology stack. -/
structure TechnologyStack where
  Frontend : Option (List String)
  Backend : Option (List String)
  Database : Option (List String)
  Infrastructure : Option (List String)
deriving DecidableEq, Repr, Inhabited

/-- APISpecification represents an API endpoint specification. -/
structure APISpecification where
  Endpoint : String
  Method : String
  Description : String
  RequestFormat : String
  ResponseFormat : String
deriving DecidableEq, Repr, Inhabited

/-- TechnicalSpecifications contains technical details. -/
structure TechnicalSpecifications where
  ArchitectureOverview : String
  TechnologyStack : Option TechnologyStack
  APISpecifications : Option (List APISpecification)
  SecurityConsiderations : Option (List String)
deriving DecidableEq, Repr, Inhabited

/-- Milestone represents a project milestone. -/
structure Milestone where
  Name : String
  Description : String
  TargetDate : String
  Dependencies : Option (List String)
deriving DecidableEq, Repr, Inhabited

/-- Timeline contains project timeline information. -/
structure Timeline where
  Milestones : Option (List Milestone)
  LaunchDate : String
deriving DecidableEq, Repr, Inhabited

/-- Risk represents a project risk. -/
structure Risk where
  Description : String
  Impact : String
  Probability : String
  MitigationStrategy : String
deriving DecidableEq, Repr, Inhabited

/-- RisksAndAssumptions contains risks and assumptions. -/
structure RisksAndAssumptions where
  Risks : Option (List Risk)
  Assumptions : Option (List String)
deriving DecidableEq, Repr, Inhabited

/-- MockupWireframe represents a mockup or wireframe reference. -/
structure MockupWireframe where
  Name : String
  URL : String
  Description : String
deriving DecidableEq, Repr, Inhabited

/-- RelatedDocument represents a related document reference. -/
structure RelatedDocument where
  Title : String
  URL : String
  Type_ : String
deriving DecidableEq, Repr, Inhabited

/-- Appendices contains supporting documents and references. -/
structure Appendices where
  ResearchData : String
  MockupsWireframes : Option (List MockupWireframe)
  RelatedDocuments : Option (List RelatedDocument)
deriving DecidableEq, Repr, Inhabited

/-- PRD represents a Product Requirements Document.  `Time` stands for
`time.Time`. -/
structure PRD (Time : Type) where
  ID : String
  Title : String
  Version : String
  CreatedDate : String
  LastUpdated : Option Time
  Owner : Owner
  Stakeholders : Option (List Stakeholder)
  Status : String
  Priority : String
  Overview : Overview
  Objectives : Objectives
  UserPersonas : Option (List UserPersona)
  UserStories : Option (List UserStory)
  Requirements : Requirements
  TechnicalSpecifications : Option TechnicalSpecifications
  Timeline : Option Timeline
  RisksAndAssumptions : Option RisksAndAssumptions
  OutOfScope : Option (List String)
  Appendices : Option Appendices
deriving DecidableEq, Repr, Inhabited

/-- The Go builtin `len` on a slice: a nil slice has length zero. -/
def len {α : Type} : Option (List α) → Nat
  | none => 0
  | some xs => xs.length

/-! ## Validate (prd.go, lines 242 to 286) -/

/-- The keys of the map literal `validStatuses`; every key is mapped to
`true`, and a lookup of any other key yields the zero value `false`. -/
def validStatuses (s : String) : Bool :=
  s = "draft" || s = "review" || s = "approved" || s = "in_development" ||
    s = "completed" || s = "archived"

/-- Validate performs basic validation on the PRD: `none` is the nil error,
`some msg` the error made by `fmt.Errorf`. -/
def Validate {Time : Type} (p : PRD Time) : Option String :=
  if p.ID = "" then some "PRD ID is required"
  else if p.Title = "" then some "PRD title is required"
  else if p.Version = "" then some "PRD version is required"
  else if p.Owner.Name = "" then some "owner name is required"
  else if p.Owner.Email = "" then some "owner email is required"
  else if p.Overview.ProblemStatement = "" then some "problem statement is required"
  else if p.Overview.SolutionSummary = "" then some "solution summary is required"
  else if len p.Objectives.BusinessGoals = 0 then
    some "at least one business goal is required"
  else if len p.Requirements.Functional = 0 then
    some "at least one functional requirement is required"
  else if !validStatuses p.Status then some ("invalid status: " ++ p.Status)
  else none

/-! ## JSON texts (the part of encoding/json that ToJSON and FromJSON use)

`ToJSON` calls `json.MarshalIndent(p, "", "  ")` and `FromJSON` calls
`json.Unmarshal`.  What these two library functions do with the struct types of
prd.go is modelled here: the writer (`quoteBody`, `render`), the scanner
(`scanString`, `scanNumber`, `parseValue`) and, further down, the encoders and
decoders that follow the struct tags (`Codec`, `StructField`, `structCodec`).
The string escapes are those of Go 1.22 and later (`\b` and `\f` are written
in their short form). -/

/-- A JSON value as its text spells it.  A string and an object key are kept as
the body of their literal (the characters between the quotes, escapes not yet
resolved), a number as its literal. -/
inductive JSON where
  | null
  | bool (b : Bool)
  | num (lit : List Char)
  | str (lit : List Char)
  | arr (elems : List JSON)
  | obj (members : List (List Char × JSON))
deriving Repr, Inhabited

/-- The keys of an object, in the order of its members; no keys for any other
value. -/
def JSON.keys : JSON → List (List Char)
  | .obj ms => ms.map (fun m => m.1)
  | _ => []

/-- The value of the first member with the given key. -/
def JSON.lookup (k : List Char) : JSON → Option JSON
  | .obj ms => (ms.find? (fun m => m.1 = k)).map (fun m => m.2)
  | _ => none

/-! ### Writing: `json.MarshalIndent(v, "", "  ")` -/

/-- The digit of `n % 16` in lower-case hexadecimal (the table `hex` of
encoding/json). -/
def hexDigit (n : Nat) : Char :=
  if n % 16 < 10 then Char.ofNat (48 + n % 16) else Char.ofNat (87 + n % 16)

/-- The table `htmlSafeSet`: the ASCII characters written as they are. -/
def htmlSafe (c : Char) : Bool :=
  decide (0x20 ≤ c.toNat) && decide (c.toNat < 0x80) && c != '"' && c != '\\' &&
    c != '<' && c != '>' && c != '&'

/-- How `appendString` (with HTML escaping, as `Marshal` sets it) writes one
character of a string. -/
def quoteChar (c : Char) : List Char :=
  if c.toNat < 0x80 then
    if htmlSafe c then [c]
    else if c = '\\' ∨ c = '"' then ['\\', c]
    else if c = Char.ofNat 8 then ['\\', 'b']
    else if c = Char.ofNat 12 then ['\\', 'f']
    else if c = '\n' then ['\\', 'n']
    else if c = '\r' then ['\\', 'r']
    else if c = '\t' then ['\\', 't']
    else ['\\', 'u', '0', '0', hexDigit (c.toNat / 16), hexDigit c.toNat]
  else if c = Char.ofNat 0x2028 ∨ c = Char.ofNat 0x2029 then
    ['\\', 'u', '2', '0', '2', hexDigit c.toNat]
  else [c]

/-- The body of the string literal written for `s`. -/
def quoteBody : List Char → List Char
  | [] => []
  | c :: cs => quoteChar c ++ quoteBody cs

/-- A line break followed by the indentation of nesting level `d`: the empty
line prefix and `d` times the two-blank indent. -/
def newline (d : Nat) : List Char := '\n' :: List.replicate (2 * d) ' '

/-- One member of an object as it is written: the key, a colon and a blank,
the value. -/
def memberHead (k : List Char) : List Char := '"' :: k ++ ['"', ':', ' ']

mutual
/-- The indented text of a value at nesting level `d`: what `Indent` makes of
the compact encoding.  Empty arrays and objects stay `[]` and `\x7b\x7d`. -/
def render (d : Nat) : JSON → List Char
  | .null => ['n', 'u', 'l', 'l']
  | .bool true => ['t', 'r', 'u', 'e']
  | .bool false => ['f', 'a', 'l', 's', 'e']
  | .num l => l
  | .str l => '"' :: l ++ ['"']
  | .arr [] => ['[', ']']
  | .arr (x :: xs) =>
      '[' :: newline (d + 1) ++ render (d + 1) x ++ renderElems (d + 1) xs ++
        newline d ++ [']']
  | .obj [] => ['{', '}']
  | .obj ((k, v) :: ms) =>
      '{' :: newline (d + 1) ++ memberHead k ++ render (d + 1) v ++
        renderMembers (d + 1) ms ++ newline d ++ ['}']
/-- The elements of an array after the first, each after a comma and a line
break. -/
def renderElems (d : Nat) : List JSON → List Char
  | [] => []
  | x :: xs => ',' :: newline d ++ render d x ++ renderElems d xs
/-- The members of an object after the first. -/
def renderMembers (d : Nat) : List (List Char × JSON) → List Char
  | [] => []
  | (k, v) :: ms =>
      ',' :: newline d ++ memberHead k ++ render d v ++ renderMembers d ms
end

/-! ### Reading: the scanner of `json.Unmarshal` -/

/-- The white space between tokens. -/
def isSpace (c : Char) : Bool := c = ' ' || c = '\t' || c = '\r' || c = '\n'

/-- Drops leading white space. -/
def skipSpace : List Char → List Char
  | [] => []
  | c :: cs => if isSpace c then skipSpace cs else c :: cs

/-- A hexadecimal digit, either case. -/
def isHex (c : Char) : Bool :=
  ('0' ≤ c && c ≤ '9') || ('a' ≤ c && c ≤ 'f') || ('A' ≤ c && c ≤ 'F')

/-- The characters that may follow a backslash, `u` apart. -/
def isSimpleEscape (c : Char) : Bool :=
  c = 'b' || c = 'f' || c = 'n' || c = 'r' || c = 't' || c = '\\' || c = '/' || c = '"'

/-- The scanner's states inside a string literal: in the text, after a
backslash, and inside a `\u` escape with `n + 1` hexadecimal digits to come. -/
inductive StrState where
  | text
  | esc
  | hex (n : Nat)
deriving DecidableEq, Repr

/-- Scans a string literal after its opening quote: the body and the text
after the closing quote, or `none` when the literal is malformed. -/
def scanString : StrState → List Char → Option (List Char × List Char)
  | _, [] => none
  | .text, c :: cs =>
      if c = '"' then some ([], cs)
      else if c = '\\' then (scanString .esc cs).map (fun r => (c :: r.1, r.2))
      else if c.toNat < 0x20 then none
      else (scanString .text cs).map (fun r => (c :: r.1, r.2))
  | .esc, c :: cs =>
      if c = 'u' then (scanString (.hex 3) cs).map (fun r => (c :: r.1, r.2))
      else if isSimpleEscape c then (scanString .text cs).map (fun r => (c :: r.1, r.2))
      else none
  | .hex n, c :: cs =>
      if isHex c then
        (scanString (match n with | 0 => .text | k + 1 => .hex k) cs).map
          (fun r => (c :: r.1, r.2))
      else none

/-- The longest run of decimal digits at the head of the text, and the rest. -/
def spanDigits : List Char → List Char × List Char
  | [] => ([], [])
  | c :: cs =>
      if c.isDigit then ((c :: (spanDigits cs).1), (spanDigits cs).2) else ([], c :: cs)

/-- The integer part of a number: a single `0`, or a digit from 1 to 9 and
further digits. -/
def scanInt : List Char → Option (List Char × List Char)
  | [] => none
  | c :: cs =>
      if c = '0' then some ([c], cs)
      else if c.isDigit then some (c :: (spanDigits cs).1, (spanDigits cs).2)
      else none

/-- The optional fraction of a number: a dot and at least one digit. -/
def scanFrac : List Char → Option (List Char × List Char)
  | [] => some ([], [])
  | c :: cs =>
      if c = '.' then
        if (spanDigits cs).1 = [] then none
        else some (c :: (spanDigits cs).1, (spanDigits cs).2)
      else some ([], c :: cs)

/-- The optional exponent of a number: `e` or `E`, an optional sign, and at
least one digit. -/
def scanExp : List Char → Option (List Char × List Char)
  | [] => some ([], [])
  | c :: cs =>
      if c = 'e' ∨ c = 'E' then
        match cs with
        | [] => none
        | s :: cs1 =>
            if s = '+' ∨ s = '-' then
              if (spanDigits cs1).1 = [] then none
              else some (c :: s :: (spanDigits cs1).1, (spanDigits cs1).2)
            else if (spanDigits cs).1 = [] then none
            else some (c :: (spanDigits cs).1, (spanDigits cs).2)
      else some ([], c :: cs)

/-- Scans a number literal: an optional minus, the integer part, an optional
fraction and an optional exponent. -/
def scanNumber (cs : List Char) : Option (List Char × List Char) :=
  let body := match cs with
    | [] => cs
    | c :: r => if c = '-' then r else cs
  let sign : List Char := match cs with
    | [] => []
    | c :: _ => if c = '-' then [c] else []
  match scanInt body with
  | none => none
  | some (i, r1) =>
      match scanFrac r1 with
      | none => none
      | some (f, r2) =>
          match scanExp r2 with
          | none => none
          | some (e, r3) => some (sign ++ i ++ f ++ e, r3)

/-- The text without `pre` when it starts with `pre`. -/
def dropLiteral : List Char → List Char → Option (List Char)
  | [], cs => some cs
  | _ :: _, [] => none
  | p :: ps, c :: cs => if p = c then dropLiteral ps cs else none

/-- The limit `maxNestingDepth` of the scanner on nested arrays and objects. -/
def maxNestingDepth : Nat := 10000

mutual
/-- Reads one value, white space before it skipped, at nesting level `depth`;
`fuel` bounds the number of nested calls. -/
def parseValue : Nat → Nat → List Char → Option (JSON × List Char)
  | 0, _, _ => none
  | fuel + 1, depth, cs =>
      match skipSpace cs with
      | [] => none
      | c :: r =>
          if c = '{' then
            if maxNestingDepth < depth + 1 then none
            else
              match skipSpace r with
              | [] => none
              | c1 :: r1 =>
                  if c1 = '}' then some (.obj [], r1)
                  else
                    (parseMembers fuel (depth + 1) (c1 :: r1)).map
                      (fun p => (.obj p.1, p.2))
          else if c = '[' then
            if maxNestingDepth < depth + 1 then none
            else
              match skipSpace r with
              | [] => none
              | c1 :: r1 =>
                  if c1 = ']' then some (.arr [], r1)
                  else
                    (parseElems fuel (depth + 1) (c1 :: r1)).map
                      (fun p => (.arr p.1, p.2))
          else if c = '"' then (scanString .text r).map (fun p => (.str p.1, p.2))
          else if c = 't' then (dropLiteral ['r', 'u', 'e'] r).map (fun p => (.bool true, p))
          else if c = 'f' then
            (dropLiteral ['a', 'l', 's', 'e'] r).map (fun p => (.bool false, p))
          else if c = 'n' then (dropLiteral ['u', 'l', 'l'] r).map (fun p => (.null, p))
          else (scanNumber (c :: r)).map (fun p => (.num p.1, p.2))
/-- Reads the elements of a non-empty array up to and including the closing
bracket; the text starts at the first element. -/
def parseElems : Nat → Nat → List Char → Option (List JSON × List Char)
  | 0, _, _ => none
  | fuel + 1, depth, cs =>
      match parseValue fuel depth cs with
      | none => none
      | some (v, r) =>
          match skipSpace r with
          | [] => none
          | c :: r1 =>
              if c = ',' then (parseElems fuel depth r1).map (fun p => (v :: p.1, p.2))
              else if c = ']' then some ([v], r1)
              else none
/-- Reads the members of a non-empty object up to and including the closing
brace; the text starts at the first key, white space skipped. -/
def parseMembers : Nat → Nat → List Char → Option (List (List Char × JSON) × List Char)
  | 0, _, _ => none
  | fuel + 1, depth, cs =>
      match cs with
      | [] => none
      | q :: r =>
          if q = '"' then
            match scanString .text r with
            | none => none
            | some (k, r1) =>
                match skipSpace r1 with
                | [] => none
                | c :: r2 =>
                    if c = ':' then
                      match parseValue fuel depth r2 with
                      | none => none
                      | some (v, r3) =>
                          match skipSpace r3 with
                          | [] => none
                          | c1 :: r4 =>
                              if c1 = ',' then
                                (parseMembers fuel depth (skipSpace r4)).map
                                  (fun p => ((k, v) :: p.1, p.2))
                              else if c1 = '}' then some ([(k, v)], r4)
                              else none
                    else none
          else none
end

/-- Reads a whole text: one value with white space around it and nothing
else.  The fuel is one more than the length of the text. -/
def parseJSON (cs : List Char) : Option JSON :=
  match parseValue (cs.length + 1) 0 cs with
  | none => none
  | some (v, r) => if skipSpace r = [] then some v else none

/-! ### Reading: string literals and field names -/

/-- The value of a hexadecimal digit. -/
def hexVal (c : Char) : Option Nat :=
  if '0' ≤ c ∧ c ≤ '9' then some (c.toNat - 48)
  else if 'a' ≤ c ∧ c ≤ 'f' then some (c.toNat - 87)
  else if 'A' ≤ c ∧ c ≤ 'F' then some (c.toNat - 55)
  else none

/-- The function `getu4`: the number of a `\uXXXX` escape at the head of the
text, `none` when the text does not start with one. -/
def getu4 : List Char → Option Nat
  | b :: u :: h1 :: h2 :: h3 :: h4 :: _ =>
      if b = '\\' ∧ u = 'u' then
        match hexVal h1, hexVal h2, hexVal h3, hexVal h4 with
        | some a, some b, some c, some d => some (((a * 16 + b) * 16 + c) * 16 + d)
        | _, _, _, _ => none
      else none
  | _ => none

/-- A UTF-16 surrogate code unit. -/
def isSurrogate (n : Nat) : Bool := decide (0xd800 ≤ n) && decide (n < 0xe000)

/-- The function `utf16.DecodeRune`: the code point of a surrogate pair, and
U+FFFD when the two units are not a high and a low surrogate. -/
def decodeSurrogates (hi : Nat) (lo : Option Nat) : Nat :=
  match lo with
  | some l =>
      if 0xd800 ≤ hi ∧ hi < 0xdc00 ∧ 0xdc00 ≤ l ∧ l < 0xe000 then
        (hi - 0xd800) * 1024 + (l - 0xdc00) + 0x10000
      else 0xfffd
  | none => 0xfffd

/-- The character a single-letter escape stands for. -/
def simpleEscape (c : Char) : Option Char :=
  if c = '"' ∨ c = '\\' ∨ c = '/' ∨ c = '\'' then some c
  else if c = 'b' then some (Char.ofNat 8)
  else if c = 'f' then some (Char.ofNat 12)
  else if c = 'n' then some '\n'
  else if c = 'r' then some '\r'
  else if c = 't' then some '\t'
  else none

/-- The loop of `unquoteBytes` on the body of a string literal: escapes are
resolved, a lone surrogate escape becomes U+FFFD.  Every round consumes a
character, so the length of the body is fuel enough. -/
def unquoteAux : Nat → List Char → Option (List Char)
  | _, [] => some []
  | 0, _ :: _ => none
  | fuel + 1, c :: cs =>
      if c = '\\' then
        match cs with
        | [] => none
        | e :: cs1 =>
            if e = 'u' then
              match getu4 (c :: cs) with
              | none => none
              | some rr =>
                  if isSurrogate rr then
                    if decodeSurrogates rr (getu4 (cs1.drop 4)) ≠ 0xfffd then
                      (unquoteAux fuel (cs1.drop 10)).map
                        (fun r => Char.ofNat (decodeSurrogates rr (getu4 (cs1.drop 4))) :: r)
                    else (unquoteAux fuel (cs1.drop 4)).map (fun r => Char.ofNat 0xfffd :: r)
                  else (unquoteAux fuel (cs1.drop 4)).map (fun r => Char.ofNat rr :: r)
            else
              match simpleEscape e with
              | none => none
              | some x => (unquoteAux fuel cs1).map (fun r => x :: r)
      else if c = '"' ∨ c.toNat < 0x20 then none
      else (unquoteAux fuel cs).map (fun r => c :: r)

/-- The string a literal body stands for. -/
def unquote (lit : List Char) : Option (List Char) := unquoteAux lit.length lit

/-- The folding of one character of a field name: ASCII letters to upper case,
and the two characters outside ASCII whose case folding is an ASCII letter
(the Kelvin sign and the long s) to that letter.  Other characters outside
ASCII never fold to an ASCII character and are left as they are. -/
def foldChar (c : Char) : Char :=
  if 'a' ≤ c ∧ c ≤ 'z' then Char.ofNat (c.toNat - 32)
  else if c = Char.ofNat 0x212a then 'K'
  else if c = Char.ofNat 0x17f then 'S'
  else c

/-- The function `foldName`: two keys match the same field when their folded
names are equal. -/
def foldName (s : List Char) : List Char := s.map foldChar

/-! ### Codecs: how a Go type is written and read -/

/-- What encoding/json does with the values of one Go type. -/
structure Codec (β : Type) where
  /-- The zero value of the type. -/
  zero : β
  /-- Whether `omitempty` leaves the value out. -/
  isEmpty : β → Bool
  /-- The JSON value written for a value, or the error of the marshaler. -/
  enc : β → Except String JSON
  /-- The value left in a variable holding `cur` after a JSON value has been
  decoded into it, or the error. -/
  dec : β → JSON → Except String β

/-- One field of a struct type: its key, whether it is tagged `omitempty`, how
to read and to assign it, and how its type is written and read. -/
structure StructField (S : Type) where
  name : String
  omitempty : Bool
  β : Type
  get : S → β
  set : S → β → S
  codec : Codec β

/-- The name of the kind of a JSON value in an `UnmarshalTypeError`. -/
def JSON.kind : JSON → String
  | .null => "null"
  | .bool _ => "bool"
  | .num _ => "number"
  | .str _ => "string"
  | .arr _ => "array"
  | .obj _ => "object"

/-- The text of an `UnmarshalTypeError`. -/
def typeError (j : JSON) (goType : String) : String :=
  "json: cannot unmarshal " ++ j.kind ++ " into Go value of type " ++ goType

/-- The codec of `string`.  Decoding `null` leaves the variable as it is. -/
def stringCodec : Codec String where
  zero := ""
  isEmpty := fun s => s = ""
  enc := fun s => .ok (.str (quoteBody s.data))
  dec := fun cur j =>
    match j with
    | .null => .ok cur
    | .str lit =>
        match unquote lit with
        | some s => .ok (String.mk s)
        | none => .error "json: invalid string literal"
    | j => .error (typeError j "string")

/-- Encodes the elements of a slice in order; the first error ends it. -/
def encodeElems {α : Type} (c : Codec α) : List α → Except String (List JSON)
  | [] => .ok []
  | x :: xs =>
      match c.enc x with
      | .error e => .error e
      | .ok j =>
          match encodeElems c xs with
          | .error e => .error e
          | .ok js => .ok (j :: js)

/-- Decodes the elements of an array: element `i` is decoded into element `i`
of the slice the variable held when it has one, and into a zero value
otherwise.  (Storage between the length and the capacity of the old slice is
not modelled.) -/
def decodeElems {α : Type} (c : Codec α) : List α → List JSON → Except String (List α)
  | _, [] => .ok []
  | cur, j :: js =>
      match c.dec (cur.headD c.zero) j with
      | .error e => .error e
      | .ok x =>
          match decodeElems c cur.tail js with
          | .error e => .error e
          | .ok xs => .ok (x :: xs)

/-- The codec of a slice type `[]T`: nil is written `null`, and `null` is read
as nil; an array is read as a non-nil slice, empty for `[]`. -/
def sliceCodec {α : Type} (c : Codec α) : Codec (Option (List α)) where
  zero := none
  isEmpty := fun xs => len xs = 0
  enc := fun xs =>
    match xs with
    | none => .ok .null
    | some l =>
        match encodeElems c l with
        | .error e => .error e
        | .ok js => .ok (.arr js)
  dec := fun cur j =>
    match j with
    | .null => .ok none
    | .arr js =>
        match decodeElems c (cur.getD []) js with
        | .error e => .error e
        | .ok xs => .ok (some xs)
    | j => .error (typeError j "slice")

/-- The codec of a pointer type `*T`: nil is written `null`, and `null` is read
as nil; any other value is decoded into the pointee, a new zero value when the
pointer was nil. -/
def ptrCodec {α : Type} (c : Codec α) : Codec (Option α) where
  zero := none
  isEmpty := fun p => p.isNone
  enc := fun p =>
    match p with
    | none => .ok .null
    | some x => c.enc x
  dec := fun cur j =>
    match j with
    | .null => .ok none
    | j =>
        match c.dec (cur.getD c.zero) j with
        | .error e => .error e
        | .ok x => .ok (some x)

/-- The characters of an RFC 3339 time. -/
def isTimeChar (c : Char) : Bool :=
  c.isDigit || c = '-' || c = ':' || c = 'T' || c = 'Z' || c = '+' || c = '.'

/-- The JSON text form of `time.Time`: `MarshalJSON` gives the RFC 3339 text
that is written between quotes, or the error for a time that has none (a year
outside 0 to 9999); `UnmarshalJSON` reads the body of a string literal as it is
spelled.  The text holds only digits and the signs of RFC 3339, and what
`MarshalJSON` writes `UnmarshalJSON` accepts. -/
structure TimeCodec (Time : Type) where
  MarshalJSON : Time → Except String String
  UnmarshalJSON : String → Except String Time
  marshal_chars : ∀ t s, MarshalJSON t = .ok s → ∀ c ∈ s.data, isTimeChar c = true
  marshal_read : ∀ t s, MarshalJSON t = .ok s → ∃ t1, UnmarshalJSON s = .ok t1

/-- The codec of `*time.Time`: the type has its own marshaler and
unmarshaler. -/
def timePtrCodec {Time : Type} (tc : TimeCodec Time) : Codec (Option Time) where
  zero := none
  isEmpty := fun p => p.isNone
  enc := fun p =>
    match p with
    | none => .ok .null
    | some t =>
        match tc.MarshalJSON t with
        | .error e => .error ("json: error calling MarshalJSON for type *time.Time: " ++ e)
        | .ok s => .ok (.str s.data)
  dec := fun _ j =>
    match j with
    | .null => .ok none
    | .str lit =>
        match tc.UnmarshalJSON (String.mk lit) with
        | .error e => .error e
        | .ok t => .ok (some t)
    | _ => .error "Time.UnmarshalJSON: input is not a JSON string"

/-- The member written for one field of a struct value, `none` when the field
is tagged `omitempty` and empty. -/
def encodeField {S : Type} (f : StructField S) (s : S) :
    Except String (Option (List Char × JSON)) :=
  if f.omitempty && f.codec.isEmpty (f.get s) then .ok none
  else
    match f.codec.enc (f.get s) with
    | .error e => .error e
    | .ok j => .ok (some (quoteBody f.name.data, j))

/-- The members written for a struct value, in the order of the fields. -/
def encodeFields {S : Type} : List (StructField S) → S → Except String (List (List Char × JSON))
  | [], _ => .ok []
  | f :: fs, s =>
      match encodeField f s with
      | .error e => .error e
      | .ok m =>
          match encodeFields fs s with
          | .error e => .error e
          | .ok ms => .ok (m.toList ++ ms)

/-- The field a key is decoded into: the field of that name, or else the first
field whose name equals the key after folding. -/
def findField {S : Type} (fs : List (StructField S)) (key : List Char) : Option (StructField S) :=
  match fs.find? (fun f => f.name.data = key) with
  | some f => some f
  | none => fs.find? (fun f => foldName f.name.data = foldName key)

/-- Decodes one member of an object into a struct value: a key that matches no
field is skipped. -/
def decodeMember {S : Type} (fs : List (StructField S)) (cur : S) (m : List Char × JSON) :
    Except String S :=
  match unquote m.1 with
  | none => .error "json: invalid string literal"
  | some key =>
      match findField fs key with
      | none => .ok cur
      | some f =>
          match f.codec.dec (f.get cur) m.2 with
          | .error e => .error e
          | .ok v => .ok (f.set cur v)

/-- Decodes the members of an object one after the other. -/
def decodeMembers {S : Type} (fs : List (StructField S)) : S → List (List Char × JSON) →
    Except String S
  | cur, [] => .ok cur
  | cur, m :: ms =>
      match decodeMember fs cur m with
      | .error e => .error e
      | .ok cur1 => decodeMembers fs cur1 ms

/-- The codec of a struct type with the given fields.  A struct is never empty
for `omitempty`; `null` leaves the variable as it is, and an object is decoded
into it member by member. -/
def structCodec {S : Type} (goType : String) (zero : S) (fs : List (StructField S)) : Codec S where
  zero := zero
  isEmpty := fun _ => false
  enc := fun s =>
    match encodeFields fs s with
    | .error e => .error e
    | .ok ms => .ok (.obj ms)
  dec := fun cur j =>
    match j with
    | .null => .ok cur
    | .obj ms => decodeMembers fs cur ms
    | j => .error (typeError j goType)

/-! ### Measures of a JSON value -/

/-- The body of a string literal that the scanner reads back as it is, whatever
follows the closing quote. -/
def ValidBody (l : List Char) : Prop :=
  ∀ rest, scanString .text (l ++ '"' :: rest) = some (l, rest)

mutual
/-- The values whose text is read back as the same value: every string and key
is a valid literal body.  (Numbers are left out: no field of the schema is
written as a number.) -/
def JSON.Clean : JSON → Prop
  | .null => True
  | .bool _ => True
  | .num _ => False
  | .str l => ValidBody l
  | .arr xs => JSON.CleanElems xs
  | .obj ms => JSON.CleanMembers ms
/-- All elements are clean. -/
def JSON.CleanElems : List JSON → Prop
  | [] => True
  | x :: xs => JSON.Clean x ∧ JSON.CleanElems xs
/-- All keys are valid literal bodies and all values are clean. -/
def JSON.CleanMembers : List (List Char × JSON) → Prop
  | [] => True
  | (k, v) :: ms => ValidBody k ∧ JSON.Clean v ∧ JSON.CleanMembers ms
end

mutual
/-- The depth of nesting of arrays and objects in a value. -/
def JSON.height : JSON → Nat
  | .null => 0
  | .bool _ => 0
  | .num _ => 0
  | .str _ => 0
  | .arr xs => JSON.heightElems xs + 1
  | .obj ms => JSON.heightMembers ms + 1
/-- The greatest height of an element. -/
def JSON.heightElems : List JSON → Nat
  | [] => 0
  | x :: xs => max (JSON.height x) (JSON.heightElems xs)
/-- The greatest height of a member's value. -/
def JSON.heightMembers : List (List Char × JSON) → Nat
  | [] => 0
  | (_, v) :: ms => max (JSON.height v) (JSON.heightMembers ms)
end

mutual
/-- The number of values, elements and members in a value: the fuel that
reading its text takes. -/
def JSON.size : JSON → Nat
  | .null => 1
  | .bool _ => 1
  | .num _ => 1
  | .str _ => 1
  | .arr xs => JSON.sizeElems xs + 1
  | .obj ms => JSON.sizeMembers ms + 1
/-- The size of the elements, one more for each. -/
def JSON.sizeElems : List JSON → Nat
  | [] => 0
  | x :: xs => JSON.size x + JSON.sizeElems xs + 1
/-- The size of the members, one more for each. -/
def JSON.sizeMembers : List (List Char × JSON) → Nat
  | [] => 0
  | (_, v) :: ms => JSON.size v + JSON.sizeMembers ms + 1
end

/-! ### Properties of codecs -/

/-- Everything the codec writes is a clean value of height at most `h`. -/
def Codec.CleanEnc {β : Type} (c : Codec β) (h : Nat) : Prop :=
  ∀ x j, c.enc x = .ok j → j.Clean ∧ j.height ≤ h

/-- The codec never writes `null`. -/
def Codec.NonNull {β : Type} (c : Codec β) : Prop :=
  ∀ x j, c.enc x = .ok j → j ≠ .null

/-- Whatever the codec writes it can decode into a zero value. -/
def Codec.Reads {β : Type} (c : Codec β) : Prop :=
  ∀ x j, c.enc x = .ok j → ∃ y, c.dec c.zero j = .ok y

/-- Decoding what the codec writes for `x` into a zero value gives `x`. -/
def Codec.Stable {β : Type} (c : Codec β) (x : β) : Prop :=
  ∀ j, c.enc x = .ok j → c.dec c.zero j = .ok x

/-- Whether a field of a struct value is left out of the output. -/
def StructField.omitted {S : Type} (f : StructField S) (x : S) : Bool :=
  f.omitempty && f.codec.isEmpty (f.get x)

/-- What a field holds after the output for `x` has been decoded into a zero
value: its zero value when the field was left out, and otherwise the decoding
of what was written for it. -/
def StructField.DecodedAs {S : Type} (f : StructField S) (x : S) (v : f.β) : Prop :=
  if f.omitted x then v = f.codec.zero
  else ∃ j, f.codec.enc (f.get x) = .ok j ∧ f.codec.dec f.codec.zero j = .ok v

/-- The laws of a table of fields: the keys are distinct, `get` and `set`
read and assign one field and leave the others alone, the zero value holds the
zero value of every field, and a struct value is determined by its fields. -/
structure LawfulFields {S : Type} (zero : S) (fs : List (StructField S)) : Prop where
  names_nodup : (fs.map (fun f => f.name)).Nodup
  get_set : ∀ f ∈ fs, ∀ (s : S) (v : f.β), f.get (f.set s v) = v
  get_set_other : ∀ f ∈ fs, ∀ g ∈ fs, f.name ≠ g.name →
    ∀ (s : S) (v : g.β), f.get (g.set s v) = f.get s
  get_zero : ∀ f ∈ fs, f.get zero = f.codec.zero
  ext : ∀ s t : S, (∀ f ∈ fs, f.get s = f.get t) → s = t

/-- The codec writes every value: its marshaler never fails. -/
def Codec.Total {β : Type} (c : Codec β) : Prop :=
  ∀ x, ∃ j, c.enc x = .ok j

/-! ### The layout of an indented text -/

/-- Where a reader of an indented JSON text stands: where a value must start
(`value`), inside a line after a token (`inline`), right after an opening
bracket (`opened`), a comma (`comma`) or a colon (`colon`), at the start of a
line after `n` blanks (`indent n`), inside a string literal (`str`) or after a
backslash in one (`esc`). -/
inductive Layout where
  | value
  | inline
  | opened
  | comma
  | colon
  | indent (n : Nat)
  | str
  | esc
deriving DecidableEq, Repr

/-- The first character of a token at nesting level `d`: a quote opens a string,
a bracket opens an array or object one level deeper, and white space, commas,
colons and closing brackets are not allowed here. -/
def layoutToken (c : Char) (d : Nat) : Option (Layout × Nat) :=
  if c = '"' then some (.str, d)
  else if c = '{' ∨ c = '[' then some (.opened, d + 1)
  else if isSpace c ∨ c = ',' ∨ c = ':' ∨ c = '}' ∨ c = ']' then none
  else some (.inline, d)

/-- One character of an indented text, read at nesting level `d`: `none` when
the character breaks the layout.  A line may break only after an opening
bracket, after a comma and before a closing bracket; an empty array or object
closes right after it opens; a colon is followed by one blank; and a line
starts with two blanks for every array or object that is open, the one a
closing bracket closes not counted, and with nothing else before its first
token. -/
def layoutStep : Layout → Nat → Char → Option (Layout × Nat)
  | .str, d, c =>
      if c = '"' then some (.inline, d)
      else if c = '\\' then some (.esc, d)
      else some (.str, d)
  | .esc, d, _ => some (.str, d)
  | .value, d, c => layoutToken c d
  | .inline, d, c =>
      if c = ',' then some (.comma, d)
      else if c = ':' then some (.colon, d)
      else if c = '\n' then some (.indent 0, d)
      else if isSpace c ∨ c = '"' ∨ c = '{' ∨ c = '[' ∨ c = '}' ∨ c = ']' then none
      else some (.inline, d)
  | .opened, d, c =>
      if c = '\n' then some (.indent 0, d)
      else if c = '}' ∨ c = ']' then some (.inline, d - 1)
      else none
  | .comma, d, c => if c = '\n' then some (.indent 0, d) else none
  | .colon, d, c => if c = ' ' then some (.value, d) else none
  | .indent n, d, c =>
      if c = ' ' then some (.indent (n + 1), d)
      else if c = '}' ∨ c = ']' then
        if 0 < d ∧ n = 2 * (d - 1) then some (.inline, d - 1) else none
      else if n = 2 * d then layoutToken c d
      else none

/-- Reads a text character by character; at the end a token must be complete
and every array and object closed. -/
def checkLayout : Layout → Nat → List Char → Bool
  | m, d, [] => m = .inline && d = 0
  | m, d, c :: cs =>
      match layoutStep m d c with
      | none => false
      | some (m1, d1) => checkLayout m1 d1 cs

/-- The text is laid out as `MarshalIndent` with an empty line prefix and an
indent of two blanks lays it out. -/
def indentedByTwo (text : List Char) : Bool := checkLayout .value 0 text

/-- The layout position that corresponds to a state of the scanner inside a
string literal. -/
def StrState.layout : StrState → Layout
  | .text => .str
  | .esc => .esc
  | .hex _ => .str

/-! ## The struct types of prd.go as encoding/json sees them

One table per struct type: a line per field, in the order of declaration, with
the key and the `omitempty` option of its tag. -/

/-- The zero value of `Owner`. -/
def zeroOwner : Owner :=
  { Name := "", Email := "", Team := "" }

/-- The fields of `Owner`. -/
def ownerFields : List (StructField Owner) :=
  [ { name := "name", omitempty := false, β := String,
      get := fun s => s.Name, set := fun s v => { s with Name := v },
      codec := stringCodec },
    { name := "email", omitempty := false, β := String,
      get := fun s => s.Email, set := fun s v => { s with Email := v },
      codec := stringCodec },
    { name := "team", omitempty := true, β := String,
      get := fun s => s.Team, set := fun s v => { s with Team := v },
      codec := stringCodec } ]

/-- The codec of `Owner`. -/
def ownerCodec : Codec Owner :=
  structCodec "prd.Owner" zeroOwner ownerFields

/-- The zero value of `Stakeholder`. -/
def zeroStakeholder : Stakeholder :=
  { Name := "", Email := "", Role := "", Team := "" }

/-- The fields of `Stakeholder`. -/
def stakeholderFields : List (StructField Stakeholder) :=
  [ { name := "name", omitempty := false, β := String,
      get := fun s => s.Name, set := fun s v => { s with Name := v },
      codec := stringCodec },
    { name := "email", omitempty := true, β := String,
      get := fun s => s.Email, set := fun s v => { s with Email := v },
      codec := stringCodec },
    { name := "role", omitempty := false, β := String,
      get := fun s => s.Role, set := fun s v => { s with Role := v },
      codec := stringCodec },
    { name := "team", omitempty := true, β := String,
      get := fun s => s.Team, set := fun s v => { s with Team := v },
      codec := stringCodec } ]

/-- The codec of `Stakeholder`. -/
def stakeholderCodec : Codec Stakeholder :=
  structCodec "prd.Stakeholder" zeroStakeholder stakeholderFields

/-- The zero value of `Overview`. -/
def zeroOverview : Overview :=
  { ProblemStatement := "", SolutionSummary := "", TargetAudience := "", MarketContext := "" }

/-- The fields of `Overview`. -/
def overviewFields : List (StructField Overview) :=
  [ { name := "problem_statement", omitempty := false, β := String,
      get := fun s => s.ProblemStatement, set := fun s v => { s with ProblemStatement := v },
      codec := stringCodec },
    { name := "solution_summary", omitempty := false, β := String,
      get := fun s => s.SolutionSummary, set := fun s v => { s with SolutionSummary := v },
      codec := stringCodec },
    { name := "target_audience", omitempty := true, β := String,
      get := fun s => s.TargetAudience, set := fun s v => { s with TargetAudience := v },
      codec := stringCodec },
    { name := "market_context", omitempty := true, β := String,
      get := fun s => s.MarketContext, set := fun s v => { s with MarketContext := v },
      codec := stringCodec } ]

/-- The codec of `Overview`. -/
def overviewCodec : Codec Overview :=
  structCodec "prd.Overview" zeroOverview overviewFields

/-- The zero value of `SuccessMetric`. -/
def zeroSuccessMetric : SuccessMetric :=
  { Metric := "", Target := "", MeasurementMethod := "" }

/-- The fields of `SuccessMetric`. -/
def successMetricFields : List (StructField SuccessMetric) :=
  [ { name := "metric", omitempty := false, β := String,
      get := fun s => s.Metric, set := fun s v => { s with Metric := v },
      codec := stringCodec },
    { name := "target", omitempty := false, β := String,
      get := fun s => s.Target, set := fun s v => { s with Target := v },
      codec := stringCodec },
    { name := "measurement_method", omitempty := true, β := String,
      get := fun s => s.MeasurementMethod, set := fun s v => { s with MeasurementMethod := v },
      codec := stringCodec } ]

/-- The codec of `SuccessMetric`. -/
def successMetricCodec : Codec SuccessMetric :=
  structCodec "prd.SuccessMetric" zeroSuccessMetric successMetricFields

/-- The zero value of `OKR`. -/
def zeroOKR : OKR :=
  { Objective := "", KeyResults := none }

/-- The fields of `OKR`. -/
def okrFields : List (StructField OKR) :=
  [ { name := "objective", omitempty := false, β := String,
      get := fun s => s.Objective, set := fun s v => { s with Objective := v },
      codec := stringCodec },
    { name := "key_results", omitempty := false, β := Option (List String),
      get := fun s => s.KeyResults, set := fun s v => { s with KeyResults := v },
      codec := sliceCodec stringCodec } ]

/-- The codec of `OKR`. -/
def okrCodec : Codec OKR :=
  structCodec "prd.OKR" zeroOKR okrFields

/-- The zero value of `Objectives`. -/
def zeroObjectives : Objectives :=
  { BusinessGoals := none, SuccessMetrics := none, OKRs := none }

/-- The fields of `Objectives`. -/
def objectivesFields : List (StructField Objectives) :=
  [ { name := "business_goals", omitempty := false, β := Option (List String),
      get := fun s => s.BusinessGoals, set := fun s v => { s with BusinessGoals := v },
      codec := sliceCodec stringCodec },
    { name := "success_metrics", omitempty := true, β := Option (List SuccessMetric),
      get := fun s => s.SuccessMetrics, set := fun s v => { s with SuccessMetrics := v },
      codec := sliceCodec successMetricCodec },
    { name := "okrs", omitempty := true, β := Option (List OKR),
      get := fun s => s.OKRs, set := fun s v => { s with OKRs := v },
      codec := sliceCodec okrCodec } ]

/-- The codec of `Objectives`. -/
def objectivesCodec : Codec Objectives :=
  structCodec "prd.Objectives" zeroObjectives objectivesFields

/-- The zero value of `UserPersona`. -/
def zeroUserPersona : UserPersona :=
  { Name := "", Description := "", Goals := none, PainPoints := none }

/-- The fields of `UserPersona`. -/
def userPersonaFields : List (StructField UserPersona) :=
  [ { name := "name", omitempty := false, β := String,
      get := fun s => s.Name, set := fun s v => { s with Name := v },
      codec := stringCodec },
    { name := "description", omitempty := false, β := String,
      get := fun s => s.Description, set := fun s v => { s with Description := v },
      codec := stringCodec },
    { name := "goals", omitempty := true, β := Option (List String),
      get := fun s => s.Goals, set := fun s v => { s with Goals := v },
      codec := sliceCodec stringCodec },
    { name := "pain_points", omitempty := true, β := Option (List String),
      get := fun s => s.PainPoints, set := fun s v => { s with PainPoints := v },
      codec := sliceCodec stringCodec } ]

/-- The codec of `UserPersona`. -/
def userPersonaCodec : Codec UserPersona :=
  structCodec "prd.UserPersona" zeroUserPersona userPersonaFields

/-- The zero value of `UserStory`. -/
def zeroUserStory : UserStory :=
  { ID := "", Story := "", AcceptanceCriteria := none, Priority := "", EffortEstimate := "" }

/-- The fields of `UserStory`. -/
def userStoryFields : List (StructField UserStory) :=
  [ { name := "id", omitempty := false, β := String,
      get := fun s => s.ID, set := fun s v => { s with ID := v },
      codec := stringCodec },
    { name := "story", omitempty := false, β := String,
      get := fun s => s.Story, set := fun s v => { s with Story := v },
      codec := stringCodec },
    { name := "acceptance_criteria", omitempty := false, β := Option (List String),
      get := fun s => s.AcceptanceCriteria, set := fun s v => { s with AcceptanceCriteria := v },
      codec := sliceCodec stringCodec },
    { name := "priority", omitempty := true, β := String,
      get := fun s => s.Priority, set := fun s v => { s with Priority := v },
      codec := stringCodec },
    { name := "effort_estimate", omitempty := true, β := String,
      get := fun s => s.EffortEstimate, set := fun s v => { s with EffortEstimate := v },
      codec := stringCodec } ]

/-- The codec of `UserStory`. -/
def userStoryCodec : Codec UserStory :=
  structCodec "prd.UserStory" zeroUserStory userStoryFields

/-- The zero value of `FunctionalRequirement`. -/
def zeroFunctionalRequirement : FunctionalRequirement :=
  { ID := "", Description := "", Priority := "", Dependencies := none }

/-- The fields of `FunctionalRequirement`. -/
def functionalRequirementFields : List (StructField FunctionalRequirement) :=
  [ { name := "id", omitempty := false, β := String,
      get := fun s => s.ID, set := fun s v => { s with ID := v },
      codec := stringCodec },
    { name := "description", omitempty := false, β := String,
      get := fun s => s.Description, set := fun s v => { s with Description := v },
      codec := stringCodec },
    { name := "priority", omitempty := true, β := String,
      get := fun s => s.Priority, set := fun s v => { s with Priority := v },
      codec := stringCodec },
    { name := "dependencies", omitempty := true, β := Option (List String),
      get := fun s => s.Dependencies, set := fun s v => { s with Dependencies := v },
      codec := sliceCodec stringCodec } ]

/-- The codec of `FunctionalRequirement`. -/
def functionalRequirementCodec : Codec FunctionalRequirement :=
  structCodec "prd.FunctionalRequirement" zeroFunctionalRequirement functionalRequirementFields

/-- The zero value of `NonFunctionalRequirement`. -/
def zeroNonFunctionalRequirement : NonFunctionalRequirement :=
  { ID := "", Category := "", Description := "", AcceptanceCriteria := "" }

/-- The fields of `NonFunctionalRequirement`. -/
def nonFunctionalRequirementFields : List (StructField NonFunctionalRequirement) :=
  [ { name := "id", omitempty := false, β := String,
      get := fun s => s.ID, set := fun s v => { s with ID := v },
      codec := stringCodec },
    { name := "category", omitempty := false, β := String,
      get := fun s => s.Category, set := fun s v => { s with Category := v },
      codec := stringCodec },
    { name := "description", omitempty := false, β := String,
      get := fun s => s.Description, set := fun s v => { s with Description := v },
      codec := stringCodec },
    { name := "acceptance_criteria", omitempty := true, β := String,
      get := fun s => s.AcceptanceCriteria, set := fun s v => { s with AcceptanceCriteria := v },
      codec := stringCodec } ]

/-- The codec of `NonFunctionalRequirement`. -/
def nonFunctionalRequirementCodec : Codec NonFunctionalRequirement :=
  structCodec "prd.NonFunctionalRequirement" zeroNonFunctionalRequirement nonFunctionalRequirementFields

/-- The zero value of `Requirements`. -/
def zeroRequirements : Requirements :=
  { Functional := none, NonFunctional := none }

/-- The fields of `Requirements`. -/
def requirementsFields : List (StructField Requirements) :=
  [ { name := "functional", omitempty := false, β := Option (List FunctionalRequirement),
      get := fun s => s.Functional, set := fun s v => { s with Functional := v },
      codec := sliceCodec functionalRequirementCodec },
    { name := "non_functional", omitempty := true, β := Option (List NonFunctionalRequirement),
      get := fun s => s.NonFunctional, set := fun s v => { s with NonFunctional := v },
      codec := sliceCodec nonFunctionalRequirementCodec } ]

/-- The codec of `Requirements`. -/
def requirementsCodec : Codec Requirements :=
  structCodec "prd.Requirements" zeroRequirements requirementsFields

/-- The zero value of `TechnologyStack`. -/
def zeroTechnologyStack : TechnologyStack :=
  { Frontend := none, Backend := none, Database := none, Infrastructure := none }

/-- The fields of `TechnologyStack`. -/
def technologyStackFields : List (StructField TechnologyStack) :=
  [ { name := "frontend", omitempty := true, β := Option (List String),
      get := fun s => s.Frontend, set := fun s v => { s with Frontend := v },
      codec := sliceCodec stringCodec },
    { name := "backend", omitempty := true, β := Option (List String),
      get := fun s => s.Backend, set := fun s v => { s with Backend := v },
      codec := sliceCodec stringCodec },
    { name := "database", omitempty := true, β := Option (List String),
      get := fun s => s.Database, set := fun s v => { s with Database := v },
      codec := sliceCodec stringCodec },
    { name := "infrastructure", omitempty := true, β := Option (List String),
      get := fun s => s.Infrastructure, set := fun s v => { s with Infrastructure := v },
      codec := sliceCodec stringCodec } ]

/-- The codec of `TechnologyStack`. -/
def technologyStackCodec : Codec TechnologyStack :=
  structCodec "prd.TechnologyStack" zeroTechnologyStack technologyStackFields

/-- The zero value of `APISpecification`. -/
def zeroAPISpecification : APISpecification :=
  { Endpoint := "", Method := "", Description := "", RequestFormat := "", ResponseFormat := "" }

/-- The fields of `APISpecification`. -/
def apiSpecificationFields : List (StructField APISpecification) :=
  [ { name := "endpoint", omitempty := true, β := String,
      get := fun s => s.Endpoint, set := fun s v => { s with Endpoint := v },
      codec := stringCodec },
    { name := "method", omitempty := true, β := String,
      get := fun s => s.Method, set := fun s v => { s with Method := v },
      codec := stringCodec },
    { name := "description", omitempty := true, β := String,
      get := fun s => s.Description, set := fun s v => { s with Description := v },
      codec := stringCodec },
    { name := "request_format", omitempty := true, β := String,
      get := fun s => s.RequestFormat, set := fun s v => { s with RequestFormat := v },
      codec := stringCodec },
    { name := "response_format", omitempty := true, β := String,
      get := fun s => s.ResponseFormat, set := fun s v => { s with ResponseFormat := v },
      codec := stringCodec } ]

/-- The codec of `APISpecification`. -/
def apiSpecificationCodec : Codec APISpecification :=
  structCodec "prd.APISpecification" zeroAPISpecification apiSpecificationFields

/-- The zero value of `TechnicalSpecifications`. -/
def zeroTechnicalSpecifications : TechnicalSpecifications :=
  { ArchitectureOverview := "", TechnologyStack := none, APISpecifications := none,
    SecurityConsiderations := none }

/-- The fields of `TechnicalSpecifications`. -/
def technicalSpecificationsFields : List (StructField TechnicalSpecifications) :=
  [ { name := "architecture_overview", omitempty := true, β := String,
      get := fun s => s.ArchitectureOverview, set := fun s v => { s with ArchitectureOverview := v },
      codec := stringCodec },
    { name := "technology_stack", omitempty := true, β := Option TechnologyStack,
      get := fun s => s.TechnologyStack, set := fun s v => { s with TechnologyStack := v },
      codec := ptrCodec technologyStackCodec },
    { name := "api_specifications", omitempty := true, β := Option (List APISpecification),
      get := fun s => s.APISpecifications, set := fun s v => { s with APISpecifications := v },
      codec := sliceCodec apiSpecificationCodec },
    { name := "security_considerations", omitempty := true, β := Option (List String),
      get := fun s => s.SecurityConsiderations, set := fun s v => { s with SecurityConsiderations := v },
      codec := sliceCodec stringCodec } ]

/-- The codec of `TechnicalSpecifications`. -/
def technicalSpecificationsCodec : Codec TechnicalSpecifications :=
  structCodec "prd.TechnicalSpecifications" zeroTechnicalSpecifications technicalSpecificationsFields

/-- The zero value of `Milestone`. -/
def zeroMilestone : Milestone :=
  { Name := "", Description := "", TargetDate := "", Dependencies := none }

/-- The fields of `Milestone`. -/
def milestoneFields : List (StructField Milestone) :=
  [ { name := "name", omitempty := false, β := String,
      get := fun s => s.Name, set := fun s v => { s with Name := v },
      codec := stringCodec },
    { name := "description", omitempty := true, β := String,
      get := fun s => s.Description, set := fun s v => { s with Description := v },
      codec := stringCodec },
    { name := "target_date", omitempty := false, β := String,
      get := fun s => s.TargetDate, set := fun s v => { s with TargetDate := v },
      codec := stringCodec },
    { name := "dependencies", omitempty := true, β := Option (List String),
      get := fun s => s.Dependencies, set := fun s v => { s with Dependencies := v },
      codec := sliceCodec stringCodec } ]

/-- The codec of `Milestone`. -/
def milestoneCodec : Codec Milestone :=
  structCodec "prd.Milestone" zeroMilestone milestoneFields

/-- The zero value of `Timeline`. -/
def zeroTimeline : Timeline :=
  { Milestones := none, LaunchDate := "" }

/-- The fields of `Timeline`. -/
def timelineFields : List (StructField Timeline) :=
  [ { name := "milestones", omitempty := true, β := Option (List Milestone),
      get := fun s => s.Milestones, set := fun s v => { s with Milestones := v },
      codec := sliceCodec milestoneCodec },
    { name := "launch_date", omitempty := true, β := String,
      get := fun s => s.LaunchDate, set := fun s v => { s with LaunchDate := v },
      codec := stringCodec } ]

/-- The codec of `Timeline`. -/
def timelineCodec : Codec Timeline :=
  structCodec "prd.Timeline" zeroTimeline timelineFields

/-- The zero value of `Risk`. -/
def zeroRisk : Risk :=
  { Description := "", Impact := "", Probability := "", MitigationStrategy := "" }

/-- The fields of `Risk`. -/
def riskFields : List (StructField Risk) :=
  [ { name := "description", omitempty := false, β := String,
      get := fun s => s.Description, set := fun s v => { s with Description := v },
      codec := stringCodec },
    { name := "impact", omitempty := false, β := String,
      get := fun s => s.Impact, set := fun s v => { s with Impact := v },
      codec := stringCodec },
    { name := "probability", omitempty := false, β := String,
      get := fun s => s.Probability, set := fun s v => { s with Probability := v },
      codec := stringCodec },
    { name := "mitigation_strategy", omitempty := true, β := String,
      get := fun s => s.MitigationStrategy, set := fun s v => { s with MitigationStrategy := v },
      codec := stringCodec } ]

/-- The codec of `Risk`. -/
def riskCodec : Codec Risk :=
  structCodec "prd.Risk" zeroRisk riskFields

/-- The zero value of `RisksAndAssumptions`. -/
def zeroRisksAndAssumptions : RisksAndAssumptions :=
  { Risks := none, Assumptions := none }

/-- The fields of `RisksAndAssumptions`. -/
def risksAndAssumptionsFields : List (StructField RisksAndAssumptions) :=
  [ { name := "risks", omitempty := true, β := Option (List Risk),
      get := fun s => s.Risks, set := fun s v => { s with Risks := v },
      codec := sliceCodec riskCodec },
    { name := "assumptions", omitempty := true, β := Option (List String),
      get := fun s => s.Assumptions, set := fun s v => { s with Assumptions := v },
      codec := sliceCodec stringCodec } ]

/-- The codec of `RisksAndAssumptions`. -/
def risksAndAssumptionsCodec : Codec RisksAndAssumptions :=
  structCodec "prd.RisksAndAssumptions" zeroRisksAndAssumptions risksAndAssumptionsFields

/-- The zero value of `MockupWireframe`. -/
def zeroMockupWireframe : MockupWireframe :=
  { Name := "", URL := "", Description := "" }

/-- The fields of `MockupWireframe`. -/
def mockupWireframeFields : List (StructField MockupWireframe) :=
  [ { name := "name", omitempty := true, β := String,
      get := fun s => s.Name, set := fun s v => { s with Name := v },
      codec := stringCodec },
    { name := "url", omitempty := true, β := String,
      get := fun s => s.URL, set := fun s v => { s with URL := v },
      codec := stringCodec },
    { name := "description", omitempty := true, β := String,
      get := fun s => s.Description, set := fun s v => { s with Description := v },
      codec := stringCodec } ]

/-- The codec of `MockupWireframe`. -/
def mockupWireframeCodec : Codec MockupWireframe :=
  structCodec "prd.MockupWireframe" zeroMockupWireframe mockupWireframeFields

/-- The zero value of `RelatedDocument`. -/
def zeroRelatedDocument : RelatedDocument :=
  { Title := "", URL := "", Type_ := "" }

/-- The fields of `RelatedDocument`. -/
def relatedDocumentFields : List (StructField RelatedDocument) :=
  [ { name := "title", omitempty := true, β := String,
      get := fun s => s.Title, set := fun s v => { s with Title := v },
      codec := stringCodec },
    { name := "url", omitempty := true, β := String,
      get := fun s => s.URL, set := fun s v => { s with URL := v },
      codec := stringCodec },
    { name := "type", omitempty := true, β := String,
      get := fun s => s.Type_, set := fun s v => { s with Type_ := v },
      codec := stringCodec } ]

/-- The codec of `RelatedDocument`. -/
def relatedDocumentCodec : Codec RelatedDocument :=
  structCodec "prd.RelatedDocument" zeroRelatedDocument relatedDocumentFields

/-- The zero value of `Appendices`. -/
def zeroAppendices : Appendices :=
  { ResearchData := "", MockupsWireframes := none, RelatedDocuments := none }

/-- The fields of `Appendices`. -/
def appendicesFields : List (StructField Appendices) :=
  [ { name := "research_data", omitempty := true, β := String,
      get := fun s => s.ResearchData, set := fun s v => { s with ResearchData := v },
      codec := stringCodec },
    { name := "mockups_wireframes", omitempty := true, β := Option (List MockupWireframe),
      get := fun s => s.MockupsWireframes, set := fun s v => { s with MockupsWireframes := v },
      codec := sliceCodec mockupWireframeCodec },
    { name := "related_documents", omitempty := true, β := Option (List RelatedDocument),
      get := fun s => s.RelatedDocuments, set := fun s v => { s with RelatedDocuments := v },
      codec := sliceCodec relatedDocumentCodec } ]

/-- The codec of `Appendices`. -/
def appendicesCodec : Codec Appendices :=
  structCodec "prd.Appendices" zeroAppendices appendicesFields

/-- The zero value of `PRD`. -/
def zeroPRD {Time : Type} : PRD Time :=
  { ID := "", Title := "", Version := "", CreatedDate := "", LastUpdated := none,
    Owner := zeroOwner, Stakeholders := none, Status := "", Priority := "",
    Overview := zeroOverview, Objectives := zeroObjectives, UserPersonas := none,
    UserStories := none, Requirements := zeroRequirements, TechnicalSpecifications := none,
    Timeline := none, RisksAndAssumptions := none, OutOfScope := none, Appendices := none }

/-- The fields of `PRD`. -/
def prdFields {Time : Type} (tc : TimeCodec Time) : List (StructField (PRD Time)) :=
  [ { name := "id", omitempty := false, β := String,
      get := fun s => s.ID, set := fun s v => { s with ID := v },
      codec := stringCodec },
    { name := "title", omitempty := false, β := String,
      get := fun s => s.Title, set := fun s v => { s with Title := v },
      codec := stringCodec },
    { name := "version", omitempty := false, β := String,
      get := fun s => s.Version, set := fun s v => { s with Version := v },
      codec := stringCodec },
    { name := "created_date", omitempty := false, β := String,
      get := fun s => s.CreatedDate, set := fun s v => { s with CreatedDate := v },
      codec := stringCodec },
    { name := "last_updated", omitempty := true, β := Option Time,
      get := fun s => s.LastUpdated, set := fun s v => { s with LastUpdated := v },
      codec := timePtrCodec tc },
    { name := "owner", omitempty := false, β := Owner,
      get := fun s => s.Owner, set := fun s v => { s with Owner := v },
      codec := ownerCodec },
    { name := "stakeholders", omitempty := true, β := Option (List Stakeholder),
      get := fun s => s.Stakeholders, set := fun s v => { s with Stakeholders := v },
      codec := sliceCodec stakeholderCodec },
    { name := "status", omitempty := false, β := String,
      get := fun s => s.Status, set := fun s v => { s with Status := v },
      codec := stringCodec },
    { name := "priority", omitempty := true, β := String,
      get := fun s => s.Priority, set := fun s v => { s with Priority := v },
      codec := stringCodec },
    { name := "overview", omitempty := false, β := Overview,
      get := fun s => s.Overview, set := fun s v => { s with Overview := v },
      codec := overviewCodec },
    { name := "objectives", omitempty := false, β := Objectives,
      get := fun s => s.Objectives, set := fun s v => { s with Objectives := v },
      codec := objectivesCodec },
    { name := "user_personas", omitempty := true, β := Option (List UserPersona),
      get := fun s => s.UserPersonas, set := fun s v => { s with UserPersonas := v },
      codec := sliceCodec userPersonaCodec },
    { name := "user_stories", omitempty := true, β := Option (List UserStory),
      get := fun s => s.UserStories, set := fun s v => { s with UserStories := v },
      codec := sliceCodec userStoryCodec },
    { name := "requirements", omitempty := false, β := Requirements,
      get := fun s => s.Requirements, set := fun s v => { s with Requirements := v },
      codec := requirementsCodec },
    { name := "technical_specifications", omitempty := true, β := Option TechnicalSpecifications,
      get := fun s => s.TechnicalSpecifications, set := fun s v => { s with TechnicalSpecifications := v },
      codec := ptrCodec technicalSpecificationsCodec },
    { name := "timeline", omitempty := true, β := Option Timeline,
      get := fun s => s.Timeline, set := fun s v => { s with Timeline := v },
      codec := ptrCodec timelineCodec },
    { name := "risks_and_assumptions", omitempty := true, β := Option RisksAndAssumptions,
      get := fun s => s.RisksAndAssumptions, set := fun s v => { s with RisksAndAssumptions := v },
      codec := ptrCodec risksAndAssumptionsCodec },
    { name := "out_of_scope", omitempty := true, β := Option (List String),
      get := fun s => s.OutOfScope, set := fun s v => { s with OutOfScope := v },
      codec := sliceCodec stringCodec },
    { name := "appendices", omitempty := true, β := Option Appendices,
      get := fun s => s.Appendices, set := fun s v => { s with Appendices := v },
      codec := ptrCodec appendicesCodec } ]

/-- The codec of `PRD`. -/
def prdCodec {Time : Type} (tc : TimeCodec Time) : Codec (PRD Time) :=
  structCodec "prd.PRD" zeroPRD (prdFields tc)

/-! ## ToJSON and FromJSON (prd.go, lines 218 to 234) -/

/-- ToJSON converts the PRD to a JSON string: `json.MarshalIndent(p, "", "  ")`,
its error wrapped. -/
def ToJSON {Time : Type} (tc : TimeCodec Time) (p : PRD Time) : Except String String :=
  match (prdCodec tc).enc p with
  | .error e => .error ("failed to marshal PRD to JSON: " ++ e)
  | .ok j => .ok (String.mk (render 0 j))

/-- FromJSON creates a PRD from a JSON string: `json.Unmarshal` into a zero
`PRD`, its error wrapped; the text is checked as a whole before anything is
decoded. -/
def FromJSON {Time : Type} (tc : TimeCodec Time) (jsonStr : String) :
    Except String (PRD Time) :=
  match parseJSON jsonStr.data with
  | none => .error ("failed to unmarshal JSON: " ++ "invalid character in JSON text")
  | some j =>
      match (prdCodec tc).dec zeroPRD j with
      | .error e => .error ("failed to unmarshal JSON: " ++ e)
      | .ok p => .ok p

/-! ## A sample time codec -/

/-- The decimal digit of `n % 10`. -/
def decDigit (n : Nat) : Char := Char.ofNat (48 + n % 10)

/-- The RFC 3339 text of the first instant of year `y`, UTC. -/
def yearText (y : Nat) : String :=
  String.mk ([decDigit (y / 1000), decDigit (y / 100), decDigit (y / 10), decDigit y] ++
    ['-', '0', '1', '-', '0', '1', 'T', '0', '0', ':', '0', '0', ':', '0', '0', 'Z'])

/-- Reads the text of the first instant of a year. -/
def readYear (s : String) : Except String Nat :=
  match s.data with
  | a :: b :: c :: d :: rest =>
      if a.isDigit ∧ b.isDigit ∧ c.isDigit ∧ d.isDigit ∧
          rest = ['-', '0', '1', '-', '0', '1', 'T', '0', '0', ':', '0', '0', ':', '0', '0', 'Z']
      then .ok ((((a.toNat - 48) * 10 + (b.toNat - 48)) * 10 + (c.toNat - 48)) * 10 +
        (d.toNat - 48))
      else .error "parsing time: not the first instant of a year"
  | _ => .error "parsing time: not the first instant of a year"

/-- The text form of a year; years after 9999 have none. -/
def marshalYear (y : Nat) : Except String String :=
  if y ≤ 9999 then .ok (yearText y)
  else .error "Time.MarshalJSON: year outside of range [0,9999]"

/-- A sample time codec: a time is a calendar year, standing for its first
instant in UTC. -/
def yearCodec : TimeCodec Nat where
  MarshalJSON := marshalYear
  UnmarshalJSON := readYear
  marshal_chars := by
    have hd : ∀ n : Nat, (decDigit n).isDigit = true := by
      intro n
      unfold decDigit
      have h : n % 10 < 10 := Nat.mod_lt _ (by decide)
      interval_cases n % 10 <;> decide
    intro t s h c hc
    unfold marshalYear at h
    split at h
    · cases h
      simp only [yearText, List.cons_append, List.nil_append, List.mem_cons,
        List.mem_singleton, List.not_mem_nil, or_false] at hc
      rcases hc with hc | hc | hc | hc | hc
      · subst hc; simp [isTimeChar, hd]
      · subst hc; simp [isTimeChar, hd]
      · subst hc; simp [isTimeChar, hd]
      · subst hc; simp [isTimeChar, hd]
      · rcases hc with hc | hc | hc | hc | hc | hc | hc | hc | hc | hc | hc | hc | hc | hc |
          hc | hc <;> subst hc <;> decide
    · cases h
  marshal_read := by
    have hd : ∀ n : Nat, (decDigit n).isDigit = true := by
      intro n
      unfold decDigit
      have h : n % 10 < 10 := Nat.mod_lt _ (by decide)
      interval_cases n % 10 <;> decide
    intro t s h
    unfold marshalYear at h
    split at h
    · cases h
      simp [yearText, readYear, hd]
    · cases h

/-! ## The validation rules as the specification lists them -/

/-- One rule of the specification: the field it is about (its path in the
schema), when a document violates it, and the error reported then. -/
structure Rule (Time : Type) where
  field : String
  violated : PRD Time → Bool
  message : PRD Time → String

/-- The rules in the order the specification gives them. -/
def specRules (Time : Type) : List (Rule Time) :=
  [ ⟨"id", fun p => p.ID = "", fun _ => "PRD ID is required"⟩,
    ⟨"title", fun p => p.Title = "", fun _ => "PRD title is required"⟩,
    ⟨"version", fun p => p.Version = "", fun _ => "PRD version is required"⟩,
    ⟨"owner.name", fun p => p.Owner.Name = "", fun _ => "owner name is required"⟩,
    ⟨"owner.email", fun p => p.Owner.Email = "", fun _ => "owner email is required"⟩,
    ⟨"overview.problem_statement", fun p => p.Overview.ProblemStatement = "",
      fun _ => "problem statement is required"⟩,
    ⟨"overview.solution_summary", fun p => p.Overview.SolutionSummary = "",
      fun _ => "solution summary is required"⟩,
    ⟨"objectives.business_goals", fun p => len p.Objectives.BusinessGoals = 0,
      fun _ => "at least one business goal is required"⟩,
    ⟨"requirements.functional", fun p => len p.Requirements.Functional = 0,
      fun _ => "at least one functional requirement is required"⟩,
    ⟨"status", fun p => !validStatuses p.Status,
      fun p => "invalid status: " ++ p.Status⟩ ]

/-- The error of the earliest rule of `specRules` a document violates, and
`none` when it violates no rule. -/
def firstViolation {Time : Type} (p : PRD Time) : Option String :=
  ((specRules Time).find? (fun r => r.violated p)).map (fun r => r.message p)

/-- The name by which an error message refers to a field: the last component
of the field's path, its underscores read as blanks. -/
def fieldWords (path : String) : String :=
  String.mk ((path.data.foldl (fun acc c => if c = '.' then [] else acc ++ [c]) []).map
    (fun c => if c = '_' then ' ' else c))

/-- Whether `needle` occurs in `hay`, letter case ignored. -/
def containsFold (hay needle : String) : Bool :=
  (hay.data.map Char.toLower).tails.any
    (fun t => (needle.data.map Char.toLower).isPrefixOf t)

/-! ## Sample documents -/

/-- The document of the specification's end-to-end scenario. -/
def minimalPRD : PRD Nat :=
  { ID := "PRD-1", Title := "X", Version := "1.0.0", CreatedDate := "",
    LastUpdated := none,
    Owner := { Name := "A", Email := "a@b.com", Team := "" },
    Stakeholders := none, Status := "draft", Priority := "",
    Overview := { ProblemStatement := "p", SolutionSummary := "s",
                  TargetAudience := "", MarketContext := "" },
    Objectives := { BusinessGoals := some ["g1"], SuccessMetrics := none, OKRs := none },
    UserPersonas := none, UserStories := none,
    Requirements :=
      { Functional := some [{ ID := "FR-001", Description := "d", Priority := "",
                              Dependencies := none }],
        NonFunctional := none },
    TechnicalSpecifications := none, Timeline := none, RisksAndAssumptions := none,
    OutOfScope := none, Appendices := none }

/-- A document that differs from `minimalPRD` in fields Validate does not
read. -/
def uncheckedVariantPRD : PRD Nat :=
  { minimalPRD with
    CreatedDate := "next tuesday", LastUpdated := some 2024, Priority := "urgent!",
    Owner := { minimalPRD.Owner with Team := "T" },
    Objectives := { minimalPRD.Objectives with BusinessGoals := some ["", "g2"] },
    UserStories := some [{ ID := "", Story := "", AcceptanceCriteria := none,
                           Priority := "whenever", EffortEstimate := "" }],
    Requirements :=
      { Functional := some [{ ID := "", Description := "", Priority := "no such priority",
                              Dependencies := some ["FR-404"] }],
        NonFunctional := some [] } }

/-! ## The keys of the schema -/

/-- The keys of the document in the order of the schema. -/
def schemaKeys : List (List Char) :=
  ["id".data, "title".data, "version".data, "created_date".data, "last_updated".data,
   "owner".data, "stakeholders".data, "status".data, "priority".data, "overview".data,
   "objectives".data, "user_personas".data, "user_stories".data, "requirements".data,
   "technical_specifications".data, "timeline".data, "risks_and_assumptions".data,
   "out_of_scope".data, "appendices".data]

/-- The keys of the optional fields of the document. -/
def optionalKeys : List (List Char) :=
  ["last_updated".data, "stakeholders".data, "priority".data, "user_personas".data,
   "user_stories".data, "technical_specifications".data, "timeline".data,
   "risks_and_assumptions".data, "out_of_scope".data, "appendices".data]

/-- The keys of the required fields of the document. -/
def requiredKeys : List (List Char) :=
  ["id".data, "title".data, "version".data, "created_date".data, "owner".data,
   "status".data, "overview".data, "objectives".data, "requirements".data]

mutual
/-- Whether an object with the key `k` occurs in the value, at any depth. -/
def JSON.hasKey (k : List Char) : JSON → Bool
  | .arr xs => JSON.hasKeyElems k xs
  | .obj ms => JSON.hasKeyMembers k ms
  | _ => false
/-- Whether one of the elements has the key, at any depth. -/
def JSON.hasKeyElems (k : List Char) : List JSON → Bool
  | [] => false
  | x :: xs => JSON.hasKey k x || JSON.hasKeyElems k xs
/-- Whether one of the members has the key or a value that has it. -/
def JSON.hasKeyMembers (k : List Char) : List (List Char × JSON) → Bool
  | [] => false
  | (k1, v) :: ms => k1 = k || JSON.hasKey k v || JSON.hasKeyMembers k ms
end

/-! ## Documents whose empty lists are all absent

A list tagged `omitempty` is left out of the output when it is nil and also
when it is empty but not nil.  `NoEmptyOmitted` holds of a value in which no
such list is empty but not nil, at any depth. -/

/-- No list of the value tagged `omitempty` is empty but not nil. -/
def Objectives.NoEmptyOmitted (x : Objectives) : Prop :=
  (x.SuccessMetrics ≠ some []) ∧
    (x.OKRs ≠ some [])

/-- No list of the value tagged `omitempty` is empty but not nil. -/
def UserPersona.NoEmptyOmitted (x : UserPersona) : Prop :=
  (x.Goals ≠ some []) ∧
    (x.PainPoints ≠ some [])

/-- No list of the value tagged `omitempty` is empty but not nil. -/
def FunctionalRequirement.NoEmptyOmitted (x : FunctionalRequirement) : Prop :=
  x.Dependencies ≠ some []

/-- No list of the value tagged `omitempty` is empty but not nil. -/
def Requirements.NoEmptyOmitted (x : Requirements) : Prop :=
  (∀ u ∈ x.Functional.getD [], FunctionalRequirement.NoEmptyOmitted u) ∧
    (x.NonFunctional ≠ some [])

/-- No list of the value tagged `omitempty` is empty but not nil. -/
def TechnologyStack.NoEmptyOmitted (x : TechnologyStack) : Prop :=
  (x.Frontend ≠ some []) ∧
    (x.Backend ≠ some []) ∧
    (x.Database ≠ some []) ∧
    (x.Infrastructure ≠ some [])

/-- No list of the value tagged `omitempty` is empty but not nil. -/
def TechnicalSpecifications.NoEmptyOmitted (x : TechnicalSpecifications) : Prop :=
  (∀ u ∈ x.TechnologyStack, TechnologyStack.NoEmptyOmitted u) ∧
    (x.APISpecifications ≠ some []) ∧
    (x.SecurityConsiderations ≠ some [])

/-- No list of the value tagged `omitempty` is empty but not nil. -/
def Milestone.NoEmptyOmitted (x : Milestone) : Prop :=
  x.Dependencies ≠ some []

/-- No list of the value tagged `omitempty` is empty but not nil. -/
def Timeline.NoEmptyOmitted (x : Timeline) : Prop :=
  (x.Milestones ≠ some []) ∧
    (∀ u ∈ x.Milestones.getD [], Milestone.NoEmptyOmitted u)

/-- No list of the value tagged `omitempty` is empty but not nil. -/
def RisksAndAssumptions.NoEmptyOmitted (x : RisksAndAssumptions) : Prop :=
  (x.Risks ≠ some []) ∧
    (x.Assumptions ≠ some [])

/-- No list of the value tagged `omitempty` is empty but not nil. -/
def Appendices.NoEmptyOmitted (x : Appendices) : Prop :=
  (x.MockupsWireframes ≠ some []) ∧
    (x.RelatedDocuments ≠ some [])

/-- No list of the document tagged `omitempty` is empty but not nil. -/
def PRD.NoEmptyOmitted {Time : Type} (x : PRD Time) : Prop :=
  (x.Stakeholders ≠ some []) ∧
    (Objectives.NoEmptyOmitted x.Objectives) ∧
    (x.UserPersonas ≠ some []) ∧
    (∀ u ∈ x.UserPersonas.getD [], UserPersona.NoEmptyOmitted u) ∧
    (x.UserStories ≠ some []) ∧
    (Requirements.NoEmptyOmitted x.Requirements) ∧
    (∀ u ∈ x.TechnicalSpecifications, TechnicalSpecifications.NoEmptyOmitted u) ∧
    (∀ u ∈ x.Timeline, Timeline.NoEmptyOmitted u) ∧
    (∀ u ∈ x.RisksAndAssumptions, RisksAndAssumptions.NoEmptyOmitted u) ∧
    (x.OutOfScope ≠ some []) ∧
    (∀ u ∈ x.Appendices, Appendices.NoEmptyOmitted u)

/-! ## Further sample documents -/

/-- The minimal document after `editSingleRequirement` has been told to update
the dependencies of its requirement and got an empty answer: the editor stores
an empty list that is not nil. -/
def emptyDepsPRD : PRD Nat :=
  { minimalPRD with
    Requirements :=
      { Functional := some [{ ID := "FR-001", Description := "d", Priority := "",
                              Dependencies := some [] }],
        NonFunctional := none } }

/-- A document with every optional part set: lists with elements, nested
records that are present (one of them with all its fields empty), a timestamp
and a priority. -/
def fullPRD : PRD Nat :=
  { minimalPRD with
    CreatedDate := "2024-01-15", LastUpdated := some 2024, Priority := "high",
    Owner := { Name := "A", Email := "a@b.com", Team := "Core <dev> & \"ops\"" },
    Stakeholders := some [{ Name := "S", Email := "", Role := "sponsor", Team := "" }],
    Objectives :=
      { BusinessGoals := some ["g1", "g2"],
        SuccessMetrics := some [{ Metric := "m", Target := "100%", MeasurementMethod := "" }],
        OKRs := some [{ Objective := "o", KeyResults := some [] },
                      { Objective := "p", KeyResults := none }] },
    UserPersonas := some [{ Name := "n", Description := "line1\nline2", Goals := some ["x"],
                            PainPoints := none }],
    UserStories := some [{ ID := "US-1", Story := "s", AcceptanceCriteria := some [],
                           Priority := "must_have", EffortEstimate := "" }],
    Requirements :=
      { Functional := some [{ ID := "FR-001", Description := "d", Priority := "must_have",
                              Dependencies := some ["FR-000"] }],
        NonFunctional := some [{ ID := "NFR-1", Category := "performance",
                                 Description := "fast", AcceptanceCriteria := "" }] },
    TechnicalSpecifications :=
      some { ArchitectureOverview := "", TechnologyStack := none, APISpecifications := none,
             SecurityConsiderations := none },
    Timeline := some { Milestones := some [{ Name := "M1", Description := "",
                                             TargetDate := "2024-06-01",
                                             Dependencies := none }],
                       LaunchDate := "2024-12-01" },
    RisksAndAssumptions := some { Risks := none, Assumptions := some ["a1"] },
    OutOfScope := some ["mobile"],
    Appendices := none }

/-- The minimal document with the priority of its requirement set, as in the
documents of `example_test.go`; its own priority is unset. -/
def reqPriorityPRD : PRD Nat :=
  { minimalPRD with
    Requirements :=
      { Functional := some [{ ID := "FR-001", Description := "d", Priority := "must_have",
                              Dependencies := none }],
        NonFunctional := none } }

/-- The JSON value written for `reqPriorityPRD` (`null` stands in when nothing
is written). -/
def reqPriorityJSON : JSON :=
  match (prdCodec yearCodec).enc reqPriorityPRD with
  | .ok j => j
  | .error _ => .null

/-! ## UpdateLastModified (prd.go, lines 236 to 240) -/

/-- UpdateLastModified updates the last_updated timestamp to now: `now` is the
time `time.Now()` returns at the call, and the result is the document the
receiver points to after the call. -/
def UpdateLastModified {Time : Type} (now : Time) (p : PRD Time) : PRD Time :=
  { p with LastUpdated := some now }

/-! ## Files (the functions `os.ReadFile` and `os.WriteFile`)

The files are what the two functions of the package `os` show of them: what
reading a path returns, and whether a text can be written to a path.  A path
is taken as it is spelled.  A write that fails is taken to fail before
anything is written (the file cannot be opened); a write that fails half-way
is not modelled. -/

/-- The files as the program sees them. -/
structure FileSystem where
  /-- What `os.ReadFile` returns for a path: the content of the file, or the
  text of the error. -/
  read : String → Except String String
  /-- The text of the error with which `os.WriteFile` fails for a path and a
  content, `none` when the content can be written. -/
  writeError : String → String → Option String

/-- The function `os.ReadFile`. -/
def ReadFile (fs : FileSystem) (name : String) : Except String String :=
  fs.read name

/-- The function `os.WriteFile`: the error and the files after the call.  After
a write that succeeds the path holds the content that was written. -/
def WriteFile (fs : FileSystem) (name data : String) : Option String × FileSystem :=
  match fs.writeError name data with
  | some e => (some e, fs)
  | none => (none, { fs with read := fun q => if q = name then .ok data else fs.read q })

/-- A directory without files in which every path can be written. -/
def emptyFS : FileSystem where
  read := fun name => .error ("open " ++ name ++ ": no such file or directory")
  writeError := fun _ _ => none

/-! ## LoadFromFile and SaveToFile (prd.go, lines 189 to 216) -/

/-- LoadFromFile loads a PRD from a JSON file: the error of `os.ReadFile` is
wrapped, and so is the error of `json.Unmarshal` into a zero `PRD`. -/
def LoadFromFile {Time : Type} (tc : TimeCodec Time) (fs : FileSystem) (filename : String) :
    Except String (PRD Time) :=
  match ReadFile fs filename with
  | .error err => .error ("failed to read file " ++ filename ++ ": " ++ err)
  | .ok data =>
      match parseJSON data.data with
      | none => .error ("failed to unmarshal JSON: " ++ "invalid character in JSON text")
      | some j =>
          match (prdCodec tc).dec zeroPRD j with
          | .error e => .error ("failed to unmarshal JSON: " ++ e)
          | .ok p => .ok p

/-- SaveToFile saves a PRD to a JSON file: the error (`none` is the nil error)
and the files after the call.  The text of `json.MarshalIndent(p, "", "  ")` is
written with `os.WriteFile`; the errors of both are wrapped. -/
def SaveToFile {Time : Type} (tc : TimeCodec Time) (fs : FileSystem) (p : PRD Time)
    (filename : String) : Option String × FileSystem :=
  match (prdCodec tc).enc p with
  | .error e => (some ("failed to marshal PRD to JSON: " ++ e), fs)
  | .ok j =>
      match WriteFile fs filename (String.mk (render 0 j)) with
      | (some err, fs1) => (some ("failed to write file " ++ filename ++ ": " ++ err), fs1)
      | (none, fs1) => (none, fs1)

/-! ## ToMarkdown (markdown.go) -/

/-- The elements a `range` loop over a slice visits: none for a nil slice. -/
def elems {α : Type} : Option (List α) → List α
  | none => []
  | some xs => xs

/-- The loop that writes every string of a slice as a list item
(`"- %s\n"`). -/
def writeItems (xs : Option (List String)) : String :=
  String.join ((elems xs).map (fun x => "- " ++ x ++ "\n"))

/-- ToMarkdown converts the PRD struct into a formatted Markdown document: the
text the builder holds at the end, piece by piece in the order of the
`WriteString` calls.  `format` is `Time.Format` with the layout
`"2006-01-02 15:04:05"`. -/
def ToMarkdown {Time : Type} (format : Time → String) (p : PRD Time) : String :=
  String.join
    [ -- Header
      "# " ++ p.Title ++ "\n\n",
      -- Metadata table
      "| Field | Value |\n",
      "|-------|-------|\n",
      "| **ID** | " ++ p.ID ++ " |\n",
      "| **Version** | " ++ p.Version ++ " |\n",
      "| **Created Date** | " ++ p.CreatedDate ++ " |\n",
      (match p.LastUpdated with
        | some t => "| **Last Updated** | " ++ format t ++ " |\n"
        | none => ""),
      "| **Status** | " ++ p.Status ++ " |\n",
      (if p.Priority ≠ "" then "| **Priority** | " ++ p.Priority ++ " |\n" else ""),
      "\n",
      -- Owner and Stakeholders
      "## Owner\n\n",
      "**Name:** " ++ p.Owner.Name ++ "  \n",
      "**Email:** " ++ p.Owner.Email ++ "  \n",
      (if p.Owner.Team ≠ "" then "**Team:** " ++ p.Owner.Team ++ "  \n" else ""),
      "\n",
      (if len p.Stakeholders > 0 then
        String.join
          [ "## Stakeholders\n\n",
            String.join ((elems p.Stakeholders).map (fun stakeholder =>
              String.join
                [ "- **" ++ stakeholder.Name ++ "** (" ++ stakeholder.Role ++ ")",
                  (if stakeholder.Email ≠ "" then " - " ++ stakeholder.Email else ""),
                  (if stakeholder.Team ≠ "" then " - Team: " ++ stakeholder.Team else ""),
                  "\n" ])),
            "\n" ]
      else ""),
      -- Overview
      "## Overview\n\n",
      "### Problem Statement\n\n",
      p.Overview.ProblemStatement ++ "\n\n",
      "### Solution Summary\n\n",
      p.Overview.SolutionSummary ++ "\n\n",
      (if p.Overview.TargetAudience ≠ "" then
        "### Target Audience\n\n" ++ (p.Overview.TargetAudience ++ "\n\n")
      else ""),
      (if p.Overview.MarketContext ≠ "" then
        "### Market Context\n\n" ++ (p.Overview.MarketContext ++ "\n\n")
      else ""),
      -- Objectives
      "## Objectives\n\n",
      "### Business Goals\n\n",
      String.join ((elems p.Objectives.BusinessGoals).enum.map (fun ig =>
        toString (ig.1 + 1) ++ ". " ++ ig.2 ++ "\n")),
      "\n",
      (if len p.Objectives.SuccessMetrics > 0 then
        String.join
          [ "### Success Metrics\n\n",
            "| Metric | Target | Measurement Method |\n",
            "|--------|--------|--------------------|",
            "\n",
            String.join ((elems p.Objectives.SuccessMetrics).map (fun metric =>
              "| " ++ metric.Metric ++ " | " ++ metric.Target ++ " | " ++
                metric.MeasurementMethod ++ " |\n")),
            "\n" ]
      else ""),
      (if len p.Objectives.OKRs > 0 then
        String.join
          [ "### OKRs\n\n",
            String.join ((elems p.Objectives.OKRs).map (fun okr =>
              String.join
                [ "**Objective:** " ++ okr.Objective ++ "\n\n",
                  "**Key Results:**\n",
                  writeItems okr.KeyResults,
                  "\n" ])) ]
      else ""),
      -- User Personas
      (if len p.UserPersonas > 0 then
        String.join
          [ "## User Personas\n\n",
            String.join ((elems p.UserPersonas).map (fun persona =>
              String.join
                [ "### " ++ persona.Name ++ "\n\n",
                  persona.Description ++ "\n\n",
                  (if len persona.Goals > 0 then
                    String.join [ "**Goals:**\n", writeItems persona.Goals, "\n" ]
                  else ""),
                  (if len persona.PainPoints > 0 then
                    String.join [ "**Pain Points:**\n", writeItems persona.PainPoints, "\n" ]
                  else "") ])) ]
      else ""),
      -- User Stories
      (if len p.UserStories > 0 then
        String.join
          [ "## User Stories\n\n",
            String.join ((elems p.UserStories).map (fun story =>
              String.join
                [ "### " ++ story.ID ++ "\n\n",
                  "**Story:** " ++ story.Story ++ "\n\n",
                  (if len story.AcceptanceCriteria > 0 then
                    String.join
                      [ "**Acceptance Criteria:**\n",
                        writeItems story.AcceptanceCriteria,
                        "\n" ]
                  else ""),
                  (if story.Priority ≠ "" then "**Priority:** " ++ story.Priority ++ "\n"
                  else ""),
                  (if story.EffortEstimate ≠ "" then
                    "**Effort Estimate:** " ++ story.EffortEstimate ++ "\n"
                  else ""),
                  "\n" ])) ]
      else ""),
      -- Requirements
      "## Requirements\n\n",
      "### Functional Requirements\n\n",
      String.join ((elems p.Requirements.Functional).map (fun req =>
        String.join
          [ "#### " ++ req.ID ++ "\n\n",
            req.Description ++ "\n\n",
            (if req.Priority ≠ "" then "**Priority:** " ++ req.Priority ++ "\n" else ""),
            (if len req.Dependencies > 0 then
              String.join [ "**Dependencies:**\n", writeItems req.Dependencies ]
            else ""),
            "\n" ])),
      (if len p.Requirements.NonFunctional > 0 then
        String.join
          [ "### Non-Functional Requirements\n\n",
            String.join ((elems p.Requirements.NonFunctional).map (fun req =>
              String.join
                [ "#### " ++ req.ID ++ " (" ++ req.Category ++ ")\n\n",
                  req.Description ++ "\n\n",
                  (if req.AcceptanceCriteria ≠ "" then
                    "**Acceptance Criteria:** " ++ req.AcceptanceCriteria ++ "\n\n"
                  else "") ])) ]
      else ""),
      -- Technical Specifications
      (match p.TechnicalSpecifications with
        | none => ""
        | some ts =>
            String.join
              [ "## Technical Specifications\n\n",
                (if ts.ArchitectureOverview ≠ "" then
                  "### Architecture Overview\n\n" ++ (ts.ArchitectureOverview ++ "\n\n")
                else ""),
                (match ts.TechnologyStack with
                  | none => ""
                  | some stack =>
                      String.join
                        [ "### Technology Stack\n\n",
                          (if len stack.Frontend > 0 then
                            String.join [ "**Frontend:**\n", writeItems stack.Frontend, "\n" ]
                          else ""),
                          (if len stack.Backend > 0 then
                            String.join [ "**Backend:**\n", writeItems stack.Backend, "\n" ]
                          else ""),
                          (if len stack.Database > 0 then
                            String.join [ "**Database:**\n", writeItems stack.Database, "\n" ]
                          else ""),
                          (if len stack.Infrastructure > 0 then
                            String.join
                              [ "**Infrastructure:**\n",
                                writeItems stack.Infrastructure,
                                "\n" ]
                          else "") ]),
                (if len ts.APISpecifications > 0 then
                  String.join
                    [ "### API Specifications\n\n",
                      String.join ((elems ts.APISpecifications).map (fun api =>
                        String.join
                          [ (if api.Endpoint ≠ "" ∧ api.Method ≠ "" then
                              "#### " ++ api.Method ++ " " ++ api.Endpoint ++ "\n\n"
                            else ""),
                            (if api.Description ≠ "" then api.Description ++ "\n\n" else ""),
                            (if api.RequestFormat ≠ "" then
                              "**Request Format:** " ++ api.RequestFormat ++ "\n"
                            else ""),
                            (if api.ResponseFormat ≠ "" then
                              "**Response Format:** " ++ api.ResponseFormat ++ "\n"
                            else ""),
                            "\n" ])) ]
                else ""),
                (if len ts.SecurityConsiderations > 0 then
                  String.join
                    [ "### Security Considerations\n\n",
                      writeItems ts.SecurityConsiderations,
                      "\n" ]
                else "") ]),
      -- Timeline
      (match p.Timeline with
        | none => ""
        | some tl =>
            String.join
              [ "## Timeline\n\n",
                (if len tl.Milestones > 0 then
                  String.join
                    [ "### Milestones\n\n",
                      String.join ((elems tl.Milestones).map (fun milestone =>
                        String.join
                          [ "#### " ++ milestone.Name ++ "\n\n",
                            (if milestone.Description ≠ "" then
                              milestone.Description ++ "\n\n"
                            else ""),
                            "**Target Date:** " ++ milestone.TargetDate ++ "\n",
                            (if len milestone.Dependencies > 0 then
                              String.join
                                [ "**Dependencies:**\n", writeItems milestone.Dependencies ]
                            else ""),
                            "\n" ])) ]
                else ""),
                (if tl.LaunchDate ≠ "" then "### Launch Date: " ++ tl.LaunchDate ++ "\n\n"
                else "") ]),
      -- Risks and Assumptions
      (match p.RisksAndAssumptions with
        | none => ""
        | some ra =>
            String.join
              [ "## Risks and Assumptions\n\n",
                (if len ra.Risks > 0 then
                  String.join
                    [ "### Risks\n\n",
                      "| Risk | Impact | Probability | Mitigation Strategy |\n",
                      "|------|--------|-------------|--------------------|\n",
                      String.join ((elems ra.Risks).map (fun risk =>
                        "| " ++ risk.Description ++ " | " ++ risk.Impact ++ " | " ++
                          risk.Probability ++ " | " ++ risk.MitigationStrategy ++ " |\n")),
                      "\n" ]
                else ""),
                (if len ra.Assumptions > 0 then
                  String.join [ "### Assumptions\n\n", writeItems ra.Assumptions, "\n" ]
                else "") ]),
      -- Out of Scope
      (if len p.OutOfScope > 0 then
        String.join [ "## Out of Scope\n\n", writeItems p.OutOfScope, "\n" ]
      else ""),
      -- Appendices
      (match p.Appendices with
        | none => ""
        | some ap =>
            String.join
              [ "## Appendices\n\n",
                (if ap.ResearchData ≠ "" then
                  "### Research Data\n\n" ++ (ap.ResearchData ++ "\n\n")
                else ""),
                (if len ap.MockupsWireframes > 0 then
                  String.join
                    [ "### Mockups and Wireframes\n\n",
                      String.join ((elems ap.MockupsWireframes).map (fun mockup =>
                        String.join
                          [ (if mockup.Name ≠ "" then "#### " ++ mockup.Name ++ "\n\n"
                            else ""),
                            (if mockup.Description ≠ "" then mockup.Description ++ "\n\n"
                            else ""),
                            (if mockup.URL ≠ "" then
                              "[View Mockup](" ++ mockup.URL ++ ")\n\n"
                            else "") ])) ]
                else ""),
                (if len ap.RelatedDocuments > 0 then
                  String.join
                    [ "### Related Documents\n\n",
                      String.join ((elems ap.RelatedDocuments).map (fun doc =>
                        if doc.Title ≠ "" ∧ doc.URL ≠ "" then
                          String.join
                            [ "- [" ++ doc.Title ++ "](" ++ doc.URL ++ ")",
                              (if doc.Type_ ≠ "" then " (" ++ doc.Type_ ++ ")" else ""),
                              "\n" ]
                        else "")),
                      "\n" ]
                else "") ]) ]

/-- The template `basic` (templates.go, lines 75 to 128); `created` is the
text of `time.Now().Format("2006-01-02")`.  The fields the literal leaves out
hold their zero value. -/
def createBasicTemplate {Time : Type} (created : String) : PRD Time :=
  { ID := "PRD-BASIC-TEMPLATE",
    Title := "[TEMPLATE] Basic Product Feature",
    Version := "1.0.0",
    CreatedDate := created,
    LastUpdated := none,
    Owner :=
      { Name := "[OWNER_NAME]",
        Email := "[OWNER_EMAIL]",
        Team := "[TEAM_NAME]" },
    Stakeholders := none,
    Status := "draft",
    Priority := "medium",
    Overview :=
      { ProblemStatement := "Define the specific problem or opportunity that this product/feature addresses. What user pain points are we solving?",
        SolutionSummary := "Provide a high-level description of the proposed solution. How will this solve the identified problem?",
        TargetAudience := "Describe the primary users or customers who will benefit from this product/feature.",
        MarketContext := "" },
    Objectives :=
      { BusinessGoals :=
          some ["[PRIMARY_BUSINESS_GOAL] - e.g., Increase user retention by 15%",
                "[SECONDARY_BUSINESS_GOAL] - e.g., Reduce support tickets by 20%"],
        SuccessMetrics :=
          some [{ Metric := "Primary Success Metric",
                  Target := "[TARGET_VALUE] - e.g., 15% increase",
                  MeasurementMethod := "How will this be measured? - e.g., Monthly active users" }],
        OKRs := none },
    UserPersonas := none,
    UserStories := none,
    Requirements :=
      { Functional :=
          some [{ ID := "FR-001",
                  Description := "Define the first functional requirement",
                  Priority := "must_have",
                  Dependencies := none },
                { ID := "FR-002",
                  Description := "Define the second functional requirement",
                  Priority := "should_have",
                  Dependencies := none }],
        NonFunctional :=
          some [{ ID := "NFR-001",
                  Category := "performance",
                  Description := "Define performance requirements - e.g., Page load time < 2 seconds",
                  AcceptanceCriteria := "" }] },
    TechnicalSpecifications := none,
    Timeline := none,
    RisksAndAssumptions := none,
    OutOfScope := none,
    Appendices := none }

/-- The template `feature` (templates.go, lines 130 to 301); `created` is the
text of `time.Now().Format("2006-01-02")`.  The fields the literal leaves out
hold their zero value. -/
def createFeatureTemplate {Time : Type} (created : String) : PRD Time :=
  { ID := "PRD-FEATURE-TEMPLATE",
    Title := "[TEMPLATE] New Product Feature",
    Version := "1.0.0",
    CreatedDate := created,
    LastUpdated := none,
    Owner :=
      { Name := "[PRODUCT_MANAGER_NAME]",
        Email := "[PM_EMAIL]",
        Team := "[PRODUCT_TEAM]" },
    Stakeholders :=
      some [{ Name := "[ENGINEERING_LEAD]",
              Email := "",
              Role := "stakeholder",
              Team := "Engineering" },
            { Name := "[DESIGN_LEAD]",
              Email := "",
              Role := "contributor",
              Team := "Design" }],
    Status := "draft",
    Priority := "high",
    Overview :=
      { ProblemStatement := "Users are struggling with [SPECIFIC_PROBLEM]. Current data shows [SUPPORTING_METRICS]. This is impacting [BUSINESS_IMPACT].",
        SolutionSummary := "We will build [FEATURE_NAME] that allows users to [KEY_CAPABILITY]. This will solve the problem by [SOLUTION_MECHANISM].",
        TargetAudience := "Primary: [PRIMARY_USER_SEGMENT] - [CHARACTERISTICS]\nSecondary: [SECONDARY_USER_SEGMENT] - [CHARACTERISTICS]",
        MarketContext := "Competitive analysis shows [COMPETITOR_LANDSCAPE]. Market opportunity: [MARKET_SIZE/OPPORTUNITY]." },
    Objectives :=
      { BusinessGoals :=
          some ["Increase user engagement metrics",
                "Reduce user friction in core workflow",
                "Drive revenue growth through improved conversion"],
        SuccessMetrics :=
          some [{ Metric := "Feature Adoption Rate",
                  Target := "60% of active users within 3 months",
                  MeasurementMethod := "Analytics tracking of feature usage" },
                { Metric := "Task Completion Time",
                  Target := "30% reduction in average task time",
                  MeasurementMethod := "User session analytics and A/B testing" }],
        OKRs := none },
    UserPersonas :=
      some [{ Name := "Primary User Persona",
              Description := "[PERSONA_NAME] - [AGE_RANGE] - [ROLE/TITLE] - [KEY_CHARACTERISTICS]",
              Goals :=
                some ["[PRIMARY_GOAL]",
                      "[SECONDARY_GOAL]"],
              PainPoints :=
                some ["[MAIN_PAIN_POINT]",
                      "[SECONDARY_PAIN_POINT]"] }],
    UserStories :=
      some [{ ID := "US-001",
              Story := "As a [USER_TYPE], I want to [DESIRED_ACTION] so that [BENEFIT/VALUE]",
              AcceptanceCriteria :=
                some ["Given [PRECONDITION], when [ACTION], then [EXPECTED_RESULT]",
                      "[ADDITIONAL_CRITERIA]"],
              Priority := "must_have",
              EffortEstimate := "[STORY_POINTS]" }],
    Requirements :=
      { Functional :=
          some [{ ID := "FR-001",
                  Description := "System shall provide [CORE_FUNCTIONALITY]",
                  Priority := "must_have",
                  Dependencies := none },
                { ID := "FR-002",
                  Description := "System shall support [SECONDARY_FUNCTIONALITY]",
                  Priority := "should_have",
                  Dependencies := none },
                { ID := "FR-003",
                  Description := "System shall integrate with [EXTERNAL_SYSTEM]",
                  Priority := "must_have",
                  Dependencies :=
                    some ["FR-001"] }],
        NonFunctional :=
          some [{ ID := "NFR-001",
                  Category := "performance",
                  Description := "Feature response time shall be under 500ms for 95% of requests",
                  AcceptanceCriteria := "Load testing shows 95th percentile < 500ms" },
                { ID := "NFR-002",
                  Category := "usability",
                  Description := "Feature shall be accessible to users with disabilities",
                  AcceptanceCriteria := "WCAG 2.1 Level AA compliance verified" }] },
    TechnicalSpecifications :=
      some { ArchitectureOverview := "Feature will be implemented as [ARCHITECTURE_PATTERN]. Integration points: [INTEGRATION_DETAILS].",
             TechnologyStack :=
               some { Frontend :=
                        some ["[FRONTEND_TECH]",
                              "[UI_FRAMEWORK]"],
                      Backend :=
                        some ["[BACKEND_TECH]",
                              "[API_FRAMEWORK]"],
                      Database :=
                        some ["[DATABASE_TYPE]"],
                      Infrastructure := none },
             APISpecifications := none,
             SecurityConsiderations :=
               some ["Data encryption for sensitive information",
                     "Authentication and authorization controls",
                     "Input validation and sanitization"] },
    Timeline :=
      some { Milestones :=
               some [{ Name := "Design & Planning Complete",
                       Description := "UI/UX designs approved, technical design finalized",
                       TargetDate := "[DATE]",
                       Dependencies := none },
                     { Name := "MVP Development Complete",
                       Description := "Core functionality implemented and tested",
                       TargetDate := "[DATE]",
                       Dependencies :=
                         some ["Design & Planning Complete"] },
                     { Name := "Beta Release",
                       Description := "Feature available to beta users for testing",
                       TargetDate := "[DATE]",
                       Dependencies :=
                         some ["MVP Development Complete"] }],
             LaunchDate := "[LAUNCH_DATE]" },
    RisksAndAssumptions :=
      some { Risks :=
               some [{ Description := "Technical complexity may lead to delays",
                       Impact := "medium",
                       Probability := "medium",
                       MitigationStrategy := "Conduct technical spike, break into smaller phases" },
                     { Description := "User adoption may be lower than expected",
                       Impact := "high",
                       Probability := "low",
                       MitigationStrategy := "Conduct user research, A/B test different approaches" }],
             Assumptions :=
               some ["Users are familiar with similar features in other products",
                     "Current infrastructure can support the additional load",
                     "Third-party integrations will remain stable"] },
    OutOfScope :=
      some ["[FEATURE_NOT_INCLUDED] - planned for future release",
            "[ANOTHER_EXCLUSION] - requires separate project"],
    Appendices := none }

/-- The template `epic` (templates.go, lines 303 to 557); `created` is the
text of `time.Now().Format("2006-01-02")`.  The fields the literal leaves out
hold their zero value. -/
def createEpicTemplate {Time : Type} (created : String) : PRD Time :=
  { ID := "PRD-EPIC-TEMPLATE",
    Title := "[TEMPLATE] Major Product Initiative",
    Version := "1.0.0",
    CreatedDate := created,
    LastUpdated := none,
    Owner :=
      { Name := "[SENIOR_PM_NAME]",
        Email := "[SENIOR_PM_EMAIL]",
        Team := "[PRODUCT_ORGANIZATION]" },
    Stakeholders :=
      some [{ Name := "[EXECUTIVE_SPONSOR]",
              Email := "",
              Role := "approver",
              Team := "Leadership" },
            { Name := "[ENGINEERING_DIRECTOR]",
              Email := "",
              Role := "stakeholder",
              Team := "Engineering" },
            { Name := "[DESIGN_DIRECTOR]",
              Email := "",
              Role := "stakeholder",
              Team := "Design" },
            { Name := "[MARKETING_LEAD]",
              Email := "",
              Role := "contributor",
              Team := "Marketing" }],
    Status := "review",
    Priority := "critical",
    Overview :=
      { ProblemStatement := "Market research indicates [MARKET_OPPORTUNITY]. Current product limitations: [CURRENT_LIMITATIONS]. Customer feedback shows: [CUSTOMER_FEEDBACK]. Business impact: [REVENUE_IMPACT].",
        SolutionSummary := "Launch comprehensive [PRODUCT_AREA] initiative including [MAJOR_COMPONENTS]. This multi-phase project will [TRANSFORMATION_GOAL].",
        TargetAudience := "Primary: [MARKET_SEGMENT] worth $[MARKET_SIZE]\nSecondary: [EXPANSION_SEGMENT]\nTertiary: [FUTURE_SEGMENT]",
        MarketContext := "Market size: $[SIZE]. Growth rate: [RATE]%. Key competitors: [COMPETITORS]. Our differentiation: [UNIQUE_VALUE_PROP]." },
    Objectives :=
      { BusinessGoals :=
          some ["Drive $[REVENUE_TARGET] in additional annual revenue",
                "Expand market share in [TARGET_SEGMENT] by [PERCENTAGE]%",
                "Establish leadership position in [PRODUCT_CATEGORY]",
                "Improve customer satisfaction scores by [IMPROVEMENT]"],
        SuccessMetrics :=
          some [{ Metric := "Revenue Impact",
                  Target := "$[AMOUNT] ARR within 12 months",
                  MeasurementMethod := "Financial reporting and customer analytics" },
                { Metric := "Market Share",
                  Target := "[PERCENTAGE]% of [MARKET_SEGMENT]",
                  MeasurementMethod := "Third-party market research and internal data" },
                { Metric := "Customer Satisfaction",
                  Target := "NPS score improvement of [POINTS] points",
                  MeasurementMethod := "Quarterly customer surveys" }],
        OKRs :=
          some [{ Objective := "Establish market-leading [PRODUCT_CAPABILITY]",
                  KeyResults :=
                    some ["Launch [CAPABILITY] to 100% of customers",
                          "Achieve [METRIC] improvement in [MEASUREMENT]",
                          "Secure [NUMBER] strategic customer wins"] },
                { Objective := "Drive significant revenue growth",
                  KeyResults :=
                    some ["Generate $[AMOUNT] in new revenue",
                          "Increase average contract value by [PERCENTAGE]%",
                          "Improve customer retention to [PERCENTAGE]%"] }] },
    UserPersonas :=
      some [{ Name := "Enterprise Decision Maker",
              Description := "C-level or VP responsible for [DOMAIN] strategy and budget decisions",
              Goals :=
                some ["Improve [BUSINESS_OUTCOME] for organization",
                      "Reduce operational costs and complexity",
                      "Stay competitive in rapidly evolving market"],
              PainPoints :=
                some ["Current solutions don't scale with business growth",
                      "Integration challenges with existing systems",
                      "Lack of comprehensive analytics and insights"] },
            { Name := "Power User",
              Description := "Daily user who leverages advanced features for [USE_CASE]",
              Goals :=
                some ["Increase productivity and efficiency",
                      "Access advanced capabilities and customization",
                      "Streamline complex workflows"],
              PainPoints :=
                some ["Feature limitations prevent optimal workflows",
                      "Time-consuming manual processes",
                      "Inadequate reporting and analysis tools"] }],
    UserStories := none,
    Requirements :=
      { Functional :=
          some [{ ID := "FR-001",
                  Description := "Core platform foundation supporting [SCALE] concurrent users",
                  Priority := "must_have",
                  Dependencies := none },
                { ID := "FR-002",
                  Description := "Advanced analytics and reporting engine",
                  Priority := "must_have",
                  Dependencies := none },
                { ID := "FR-003",
                  Description := "Enterprise-grade security and compliance features",
                  Priority := "must_have",
                  Dependencies := none },
                { ID := "FR-004",
                  Description := "API ecosystem for third-party integrations",
                  Priority := "should_have",
                  Dependencies := none },
                { ID := "FR-005",
                  Description := "Mobile application with offline capabilities",
                  Priority := "should_have",
                  Dependencies := none }],
        NonFunctional :=
          some [{ ID := "NFR-001",
                  Category := "scalability",
                  Description := "System shall support [NUMBER] concurrent users with [RESPONSE_TIME] response time",
                  AcceptanceCriteria := "Load testing demonstrates sustained performance under peak load" },
                { ID := "NFR-002",
                  Category := "security",
                  Description := "Achieve [COMPLIANCE_STANDARD] certification",
                  AcceptanceCriteria := "Third-party audit confirms compliance" },
                { ID := "NFR-003",
                  Category := "reliability",
                  Description := "System uptime of 99.9% with disaster recovery < 4 hours",
                  AcceptanceCriteria := "SLA monitoring and incident response testing" }] },
    TechnicalSpecifications :=
      some { ArchitectureOverview := "Microservices architecture with [CLOUD_PROVIDER] infrastructure. Event-driven design with [MESSAGE_BROKER]. Multi-tenant SaaS platform.",
             TechnologyStack :=
               some { Frontend :=
                        some ["[FRONTEND_FRAMEWORK]",
                              "[MOBILE_PLATFORM]",
                              "[WEB_FRAMEWORK]"],
                      Backend :=
                        some ["[BACKEND_LANGUAGE]",
                              "[API_FRAMEWORK]",
                              "[MESSAGE_QUEUE]"],
                      Database :=
                        some ["[PRIMARY_DB]",
                              "[ANALYTICS_DB]",
                              "[CACHE_LAYER]"],
                      Infrastructure :=
                        some ["[CLOUD_PROVIDER]",
                              "[CONTAINER_PLATFORM]",
                              "[MONITORING_STACK]"] },
             APISpecifications := none,
             SecurityConsiderations :=
               some ["End-to-end encryption for all data transmission",
                     "Role-based access control with enterprise SSO",
                     "Regular security audits and penetration testing",
                     "Compliance with [REGULATORY_REQUIREMENTS]",
                     "Data residency and sovereignty requirements"] },
    Timeline :=
      some { Milestones :=
               some [{ Name := "Phase 1: Foundation",
                       Description := "Core platform infrastructure and basic functionality",
                       TargetDate := "[Q1_DATE]",
                       Dependencies := none },
                     { Name := "Phase 2: Advanced Features",
                       Description := "Analytics, integrations, and enterprise features",
                       TargetDate := "[Q2_DATE]",
                       Dependencies :=
                         some ["Phase 1: Foundation"] },
                     { Name := "Phase 3: Scale & Polish",
                       Description := "Performance optimization, mobile app, and market launch",
                       TargetDate := "[Q3_DATE]",
                       Dependencies :=
                         some ["Phase 2: Advanced Features"] }],
             LaunchDate := "[GENERAL_AVAILABILITY_DATE]" },
    RisksAndAssumptions :=
      some { Risks :=
               some [{ Description := "Technical complexity may exceed current team capabilities",
                       Impact := "high",
                       Probability := "medium",
                       MitigationStrategy := "Hire additional senior engineers, engage technical consultants" },
                     { Description := "Market conditions may change during development",
                       Impact := "high",
                       Probability := "low",
                       MitigationStrategy := "Quarterly market reviews, flexible roadmap planning" },
                     { Description := "Competitive response may impact differentiation",
                       Impact := "medium",
                       Probability := "high",
                       MitigationStrategy := "Accelerate unique features, build patent portfolio" }],
             Assumptions :=
               some ["Market demand will remain stable throughout development",
                     "Key talent will be available for hiring",
                     "Technology choices will remain viable for 3+ years",
                     "Regulatory environment will not significantly change",
                     "Customer budget allocation for [CATEGORY] will increase"] },
    OutOfScope :=
      some ["International localization - Phase 4 initiative",
            "Advanced AI/ML capabilities - separate R&D project",
            "Acquisition of external companies or technologies",
            "On-premises deployment options - cloud-first strategy"],
    Appendices :=
      some { ResearchData := "Market research conducted by [FIRM]. Customer interviews: [NUMBER] participants. Competitive analysis: [DATE].",
             MockupsWireframes := none,
             RelatedDocuments :=
               some [{ Title := "Market Research Report",
                       URL := "",
                       Type_ := "market_research" },
                     { Title := "Technical Architecture Design",
                       URL := "",
                       Type_ := "technical_spec" },
                     { Title := "Financial Business Case",
                       URL := "",
                       Type_ := "business_case" }] } }

/-! ## createFromTemplate (commands.go, lines 176 to 199) -/

/-- Create from template: the error (`none` is the nil error) and the files
after the call.  `clock n` is the time the call number `n` of `time.Now()`
returns (the three templates of the map literal are built first, each reading
the clock once, and the fourth reading is `now`), and `date` is `Time.Format`
with the layout `"2006-01-02"`.  What is printed is left out. -/
def createFromTemplate {Time : Type} (tc : TimeCodec Time) (date : Time → String)
    (clock : Nat → Time) (fs : FileSystem) (filename templateType : String) :
    Option String × FileSystem :=
  let templates : List (String × PRD Time) :=
    [ ("basic", createBasicTemplate (date (clock 0))),
      ("feature", createFeatureTemplate (date (clock 1))),
      ("epic", createEpicTemplate (date (clock 2))) ]
  match templates.lookup templateType with
  | none =>
      (some ("template '" ++ templateType ++ "' not found. Available: basic, feature, epic"),
        fs)
  | some template =>
      let now := clock 3
      let template := { template with LastUpdated := some now }
      let template := { template with CreatedDate := date now }
      match SaveToFile tc fs template filename with
      | (some err, fs1) => (some ("failed to save PRD: " ++ err), fs1)
      | (none, fs1) => (none, fs1)

/-! ## The methods as steps on their receiver

A method of `*PRD` may assign to the fields of the document its receiver
points to.  For each method the following gives, next to what the method
returns, the document the receiver points to after the call.  Only
`UpdateLastModified` holds an assignment through `p`; the bodies of `Validate`,
`ToJSON`, `SaveToFile` and `ToMarkdown` read fields of `p` and assign to
none. -/

/-- The call `p.Validate()`: the error and the document afterwards. -/
def callValidate {Time : Type} (p : PRD Time) : Option String × PRD Time :=
  (Validate p, p)

/-- The call `p.ToJSON()`: the text or the error, and the document
afterwards. -/
def callToJSON {Time : Type} (tc : TimeCodec Time) (p : PRD Time) :
    Except String String × PRD Time :=
  (ToJSON tc p, p)

/-- The call `p.SaveToFile(filename)`: the error and the files afterwards, and
the document afterwards. -/
def callSaveToFile {Time : Type} (tc : TimeCodec Time) (fs : FileSystem) (p : PRD Time)
    (filename : String) : (Option String × FileSystem) × PRD Time :=
  (SaveToFile tc fs p filename, p)

/-- The call `p.ToMarkdown()`: the text and the document afterwards. -/
def callToMarkdown {Time : Type} (format : Time → String) (p : PRD Time) :
    String × PRD Time :=
  (ToMarkdown format p, p)

/-- The call `p.UpdateLastModified()` at the time `now`: the document
afterwards. -/
def callUpdateLastModified {Time : Type} (now : Time) (p : PRD Time) : Unit × PRD Time :=
  ((), UpdateLastModified now p)

/-! ## Relations between JSON values and the schema -/

/-- The key names of the schema: the names of the fields of every record, the
document first. -/
def schemaKeyNames : List String :=
  (prdFields yearCodec).map (fun f => f.name) ++ ownerFields.map (fun f => f.name) ++
    stakeholderFields.map (fun f => f.name) ++ overviewFields.map (fun f => f.name) ++
    objectivesFields.map (fun f => f.name) ++ successMetricFields.map (fun f => f.name) ++
    okrFields.map (fun f => f.name) ++ userPersonaFields.map (fun f => f.name) ++
    userStoryFields.map (fun f => f.name) ++ requirementsFields.map (fun f => f.name) ++
    functionalRequirementFields.map (fun f => f.name) ++
    nonFunctionalRequirementFields.map (fun f => f.name) ++
    technicalSpecificationsFields.map (fun f => f.name) ++
    technologyStackFields.map (fun f => f.name) ++
    apiSpecificationFields.map (fun f => f.name) ++ timelineFields.map (fun f => f.name) ++
    milestoneFields.map (fun f => f.name) ++ risksAndAssumptionsFields.map (fun f => f.name) ++
    riskFields.map (fun f => f.name) ++ appendicesFields.map (fun f => f.name) ++
    mockupWireframeFields.map (fun f => f.name) ++
    relatedDocumentFields.map (fun f => f.name)

/-- The relation `AddsUnknown c j j1`: the JSON value `j1` is `j` with one
member more, added to an object that is read as a record (the value read by
`c` itself, or one reached from it through members that are read into fields,
elements of arrays and pointers), the key of the new member matching no field
name of that record, also when the case of letters is ignored. -/
inductive AddsUnknown : {β : Type} → Codec β → JSON → JSON → Prop
  | here {S : Type} (goType : String) (zero : S) (fs : List (StructField S))
      (pre post : List (List Char × JSON)) (k : List Char) (v : JSON) (key : List Char) :
      unquote k = some key → (∀ f ∈ fs, foldName f.name.data ≠ foldName key) →
      AddsUnknown (structCodec goType zero fs) (.obj (pre ++ post))
        (.obj (pre ++ (k, v) :: post))
  | field {S : Type} (goType : String) (zero : S) (fs : List (StructField S))
      (pre post : List (List Char × JSON)) (k : List Char) (key : List Char)
      (f : StructField S) (v v1 : JSON) :
      unquote k = some key → findField fs key = some f → AddsUnknown f.codec v v1 →
      AddsUnknown (structCodec goType zero fs) (.obj (pre ++ (k, v) :: post))
        (.obj (pre ++ (k, v1) :: post))
  | elem {α : Type} (c : Codec α) (pre post : List JSON) (v v1 : JSON) :
      AddsUnknown c v v1 →
      AddsUnknown (sliceCodec c) (.arr (pre ++ v :: post)) (.arr (pre ++ v1 :: post))
  | ptr {α : Type} (c : Codec α) (v v1 : JSON) :
      AddsUnknown c v v1 → AddsUnknown (ptrCodec c) v v1

/-- The relation `Incompatible c j`: the JSON value `j` does not have the
structure the type read by `c` takes.  It is of another kind than the type
takes (a string takes a string literal, a record an object, a list an array, a
time a string literal), or it holds such a value in a member that is read into
a field or in an element of an array.  The value `null` is taken by every
type. -/
inductive Incompatible : {β : Type} → Codec β → JSON → Prop
  | string (j : JSON) : j ≠ .null → (∀ lit, j ≠ .str lit) → Incompatible stringCodec j
  | time {Time : Type} (tc : TimeCodec Time) (j : JSON) :
      j ≠ .null → (∀ lit, j ≠ .str lit) → Incompatible (timePtrCodec tc) j
  | record {S : Type} (goType : String) (zero : S) (fs : List (StructField S)) (j : JSON) :
      j ≠ .null → (∀ ms, j ≠ .obj ms) → Incompatible (structCodec goType zero fs) j
  | list {α : Type} (c : Codec α) (j : JSON) :
      j ≠ .null → (∀ js, j ≠ .arr js) → Incompatible (sliceCodec c) j
  | member {S : Type} (goType : String) (zero : S) (fs : List (StructField S))
      (ms : List (List Char × JSON)) (k : List Char) (key : List Char)
      (f : StructField S) (v : JSON) :
      (k, v) ∈ ms → unquote k = some key → findField fs key = some f →
      Incompatible f.codec v → Incompatible (structCodec goType zero fs) (.obj ms)
  | elem {α : Type} (c : Codec α) (js : List JSON) (v : JSON) :
      v ∈ js → Incompatible c v → Incompatible (sliceCodec c) (.arr js)
  | ptr {α : Type} (c : Codec α) (v : JSON) :
      Incompatible c v → Incompatible (ptrCodec c) v

/-! ## Documents that hold only the required fields -/

/-- A document that holds only required fields: every field tagged
`omitempty`, of the document and of the records its required fields hold, is
unset (an empty string, a nil list, a nil pointer). -/
def PRD.OnlyRequired {Time : Type} (x : PRD Time) : Prop :=
  x.LastUpdated = none ∧ x.Stakeholders = none ∧ x.Priority = "" ∧ x.UserPersonas = none ∧
    x.UserStories = none ∧ x.TechnicalSpecifications = none ∧ x.Timeline = none ∧
    x.RisksAndAssumptions = none ∧ x.OutOfScope = none ∧ x.Appendices = none ∧
    x.Owner.Team = "" ∧ x.Overview.TargetAudience = "" ∧ x.Overview.MarketContext = "" ∧
    x.Objectives.SuccessMetrics = none ∧ x.Objectives.OKRs = none ∧
    x.Requirements.NonFunctional = none ∧
    ∀ r ∈ x.Requirements.Functional.getD [], r.Priority = "" ∧ r.Dependencies = none

/-! ## Functions of the Go library on strings

The functions of the packages `strings`, `unicode` and `strconv` the command
line tool calls, on strings that hold valid UTF-8. -/

/-- The function `unicode.IsSpace`: the characters with the property
White_Space. -/
def IsSpace (c : Char) : Bool :=
  c = '\t' || c = '\n' || c = Char.ofNat 0x0b || c = Char.ofNat 0x0c || c = '\r' || c = ' ' ||
    c = Char.ofNat 0x85 || c = Char.ofNat 0xa0 || c = Char.ofNat 0x1680 ||
    (decide (0x2000 ≤ c.toNat) && decide (c.toNat ≤ 0x200a)) ||
    c = Char.ofNat 0x2028 || c = Char.ofNat 0x2029 || c = Char.ofNat 0x202f ||
    c = Char.ofNat 0x205f || c = Char.ofNat 0x3000

/-- The function `strings.TrimSpace`: the string without the white space at
its two ends. -/
def TrimSpace (s : String) : String :=
  String.mk ((s.data.dropWhile IsSpace).reverse.dropWhile IsSpace).reverse

/-- The lower-case form of a character as far as it can be an ASCII letter:
the capital ASCII letters, the Kelvin sign and the capital I with a dot, the
only characters outside ASCII whose lower-case form lies in ASCII.  Other
capital letters are left as they are; their lower-case forms lie outside
ASCII as well. -/
def toLowerChar (c : Char) : Char :=
  if 'A' ≤ c ∧ c ≤ 'Z' then Char.ofNat (c.toNat + 32)
  else if c = Char.ofNat 0x212a then 'k'
  else if c = Char.ofNat 0x130 then 'i'
  else c

/-- The function `strings.ToLower`, as far as its result is compared with
words of ASCII letters. -/
def ToLower (s : String) : String := String.mk (s.data.map toLowerChar)

/-- The function `strconv.Atoi`: the number a decimal numeral with an optional
sign stands for, `none` (an error) for every other string and for a number
outside the 64 bits of an `int`. -/
def Atoi (s : String) : Option Int :=
  let ds := match s.data with
    | '-' :: r => r
    | '+' :: r => r
    | r => r
  if ds = [] ∨ ¬ ds.all Char.isDigit then none
  else
    let n : Int := ds.foldl (fun n c => n * 10 + ((c.toNat - 48 : Nat) : Int)) 0
    let v : Int := if s.data.head? = some '-' then -n else n
    if -9223372036854775808 ≤ v ∧ v ≤ 9223372036854775807 then some v else none

/-- The builtin `len` on a string: the number of bytes of its UTF-8 form. -/
def byteLen (s : List Char) : Nat := (s.map Char.utf8Size).sum

/-- The loop of `strings.Fields`: `cur` holds, last character first, the
field that is being read. -/
def fieldsAux : List Char → List Char → List (List Char)
  | cur, [] => if cur = [] then [] else [cur.reverse]
  | cur, c :: cs =>
      if IsSpace c then
        if cur = [] then fieldsAux [] cs else cur.reverse :: fieldsAux [] cs
      else fieldsAux (c :: cur) cs

/-- The function `strings.Fields`: the maximal runs of characters that are not
white space, in order. -/
def Fields (s : List Char) : List (List Char) := fieldsAux [] s

/-- The function `fmt.Sprintf` with the verb `%03d` on a number that is not
negative: its decimal numeral, with zeros in front up to three digits. -/
def sprintf03d (n : Nat) : String :=
  String.mk (List.replicate (3 - (toString n).length) '0') ++ toString n

/-! ## truncateString (commands.go, lines 469 to 474) and wrapText
(display.go, lines 414 to 440) -/

/-- The function `truncateString` on the bytes of a string; `none` is the
run-time panic of a slice bound out of range.  The three bytes appended are
the dots of `"..."`. -/
def truncateString (s : List UInt8) (length : Int) : Option (List UInt8) :=
  if (s.length : Int) ≤ length then some s
  else if 0 ≤ length - 3 ∧ length - 3 ≤ (s.length : Int) then
    some (s.take (length - 3).toNat ++ [46, 46, 46])
  else none

/-- The lengths `truncateString` is called with: in `listPRDs`, in
`displayRequirementsTable`, `displayUserStoriesTable` and
`displayTimelineTable`, in `editRequirements`, `selectGoalToRemove`,
`selectRequirementToRemove` and `selectRequirementToEdit`. -/
def truncateCallLengths : List Int := [30, 40, 35, 25, 50, 60, 50, 50]

/-- The loop of `wrapText` from the word of index `i` on, `lineLength` being
the length of the line written so far: the text written for the words that
are left. -/
def wrapWords (width : Int) : Nat → Nat → List (List Char) → List Char
  | _, _, [] => []
  | i, lineLength, word :: words =>
      let newline := decide (i > 0) && decide ((lineLength : Int) + byteLen word + 1 > width)
      let lineLength1 := if newline then 0 else lineLength
      (if newline then ['\n'] else []) ++ (if lineLength1 > 0 then [' '] else []) ++ word ++
        wrapWords width (i + 1) ((if lineLength1 > 0 then lineLength1 + 1 else lineLength1) +
          byteLen word) words

/-- The function `wrapText`: a text longer than `width` bytes is written word
by word, with a new line before a word that does not fit. -/
def wrapText (text : String) (width : Int) : String :=
  if (byteLen text.data : Int) ≤ width then text
  else String.mk (wrapWords width 0 0 (Fields text.data))

/-- The lines of a text: the runs between its newline characters; the empty
text has no line. -/
def linesAux : List Char → List Char → List (List Char)
  | cur, [] => [cur.reverse]
  | cur, c :: cs => if c = '\n' then cur.reverse :: linesAux [] cs else linesAux (c :: cur) cs

/-- The lines of a text. -/
def textLines (s : List Char) : List (List Char) :=
  if s = [] then [] else linesAux [] s

/-! ## The answers typed at the terminal

The wizard and the editors read the standard input line by line, each time
through a new `bufio.Reader`.  `Input` is the sequence of the lines the user
types, one for every prompt; a reading takes the next line.  What is printed
is left out. -/

/-- The lines the user has yet to type. -/
abbrev Input := List String

/-- The call `reader.ReadString('\n')`: the next line, and the lines left.  At
the end of the input the call returns an empty string (and an error every
caller ignores). -/
def ReadString (inp : Input) : String × Input :=
  match inp with
  | [] => ("", [])
  | line :: rest => (line, rest)

/-- The Go builtin `append` with a list of elements to add: without elements
the slice is returned as it is, nil or not. -/
def append {α : Type} (s : Option (List α)) (xs : List α) : Option (List α) :=
  match xs with
  | [] => s
  | _ :: _ => some (elems s ++ xs)

/-! ## Helpers of the wizard (commands.go, lines 407 to 467) -/

/-- The function `selectFromOptions`: the option whose number the user types,
and the first option for every other answer.  Every call passes a list of at
least three options. -/
def selectFromOptions (options : List String) (inp : Input) : String × Input :=
  let r := ReadString inp
  match Atoi (TrimSpace r.1) with
  | some choice =>
      if choice > 0 ∧ choice ≤ (options.length : Int) then
        (options.getD (choice - 1).toNat "", r.2)
      else (options.headD "", r.2)
  | none => (options.headD "", r.2)

/-- The loop of `collectMultipleInputs` with `n` rounds left: the answers up
to the first empty one. -/
def collectInputs : Nat → Input → List String × Input
  | 0, inp => ([], inp)
  | n + 1, inp =>
      let r := ReadString inp
      if TrimSpace r.1 = "" then ([], r.2)
      else ((TrimSpace r.1) :: (collectInputs n r.2).1, (collectInputs n r.2).2)

/-- The function `collectMultipleInputs`: at most `maxItems` answers; the
slice is nil when there is none. -/
def collectMultipleInputs (maxItems : Nat) (inp : Input) : Option (List String) × Input :=
  let r := collectInputs maxItems inp
  (if r.1 = [] then none else some r.1, r.2)

/-- The loop of `collectFunctionalRequirements` from the round `i` on, with
`n` rounds left: a description and a priority for each requirement, numbered
`FR-001`, `FR-002` and so on. -/
def collectRequirements : Nat → Nat → Input → List FunctionalRequirement × Input
  | _, 0, inp => ([], inp)
  | i, n + 1, inp =>
      let r := ReadString inp
      if TrimSpace r.1 = "" then ([], r.2)
      else
        let p := selectFromOptions ["must_have", "should_have", "could_have", "wont_have"] r.2
        ({ ID := "FR-" ++ sprintf03d (i + 1), Description := TrimSpace r.1, Priority := p.1,
           Dependencies := none } :: (collectRequirements (i + 1) n p.2).1,
          (collectRequirements (i + 1) n p.2).2)

/-- The function `collectFunctionalRequirements`: at most five requirements;
the slice is nil when there is none. -/
def collectFunctionalRequirements (inp : Input) :
    Option (List FunctionalRequirement) × Input :=
  let r := collectRequirements 0 5 inp
  (if r.1 = [] then none else some r.1, r.2)

/-! ## Helpers of the editors (editors.go, lines 202 to 345) -/

/-- The function `confirmChange`: whether the answer is `y` or `yes`, in
small or capital letters. -/
def confirmChange (inp : Input) : Bool × Input :=
  let r := ReadString inp
  (ToLower (TrimSpace r.1) = "y" || ToLower (TrimSpace r.1) = "yes", r.2)

/-- The body the four functions that ask for an item of a list share: the
index of the item whose number the user types, and `-1` for every other
answer. -/
def selectNumber (n : Nat) (inp : Input) : Int × Input :=
  let r := ReadString inp
  match Atoi (TrimSpace r.1) with
  | some choice => if choice > 0 ∧ choice ≤ (n : Int) then (choice - 1, r.2) else (-1, r.2)
  | none => (-1, r.2)

/-- The function `selectGoalToRemove`. -/
def selectGoalToRemove (goals : Option (List String)) (inp : Input) : Int × Input :=
  selectNumber (len goals) inp

/-- The function `selectMetricToRemove`. -/
def selectMetricToRemove (metrics : Option (List SuccessMetric)) (inp : Input) :
    Int × Input :=
  selectNumber (len metrics) inp

/-- The function `selectRequirementToRemove`. -/
def selectRequirementToRemove (requirements : Option (List FunctionalRequirement))
    (inp : Input) : Int × Input :=
  selectNumber (len requirements) inp

/-- The function `selectRequirementToEdit`. -/
def selectRequirementToEdit (requirements : Option (List FunctionalRequirement))
    (inp : Input) : Int × Input :=
  selectNumber (len requirements) inp

/-- The loop of `collectSuccessMetrics` with `n` rounds left: a name, a target
and a method for each metric, up to the first empty name. -/
def collectMetrics : Nat → Input → List SuccessMetric × Input
  | 0, inp => ([], inp)
  | n + 1, inp =>
      let r := ReadString inp
      if TrimSpace r.1 = "" then ([], r.2)
      else
        let t := ReadString r.2
        let m := ReadString t.2
        ({ Metric := TrimSpace r.1, Target := TrimSpace t.1,
           MeasurementMethod := TrimSpace m.1 } :: (collectMetrics n m.2).1,
          (collectMetrics n m.2).2)

/-- The function `collectSuccessMetrics`: at most `maxMetrics` metrics; the
slice is nil when there is none. -/
def collectSuccessMetrics (maxMetrics : Nat) (inp : Input) :
    Option (List SuccessMetric) × Input :=
  let r := collectMetrics maxMetrics inp
  (if r.1 = [] then none else some r.1, r.2)

/-- The function `editSingleRequirement`: the requirement after the edit. -/
def editSingleRequirement (req : FunctionalRequirement) (inp : Input) :
    FunctionalRequirement × Input :=
  let c1 := confirmChange inp
  let d : String × Input :=
    if c1.1 then
      let r := ReadString c1.2
      (if TrimSpace r.1 ≠ "" then TrimSpace r.1 else req.Description, r.2)
    else (req.Description, c1.2)
  let c2 := confirmChange d.2
  let p : String × Input :=
    if c2.1 then selectFromOptions ["must_have", "should_have", "could_have", "wont_have"] c2.2
    else (req.Priority, c2.2)
  let c3 := confirmChange p.2
  let deps : Option (List String) × Input :=
    if c3.1 then
      let r := ReadString c3.2
      if TrimSpace r.1 ≠ "" then
        (some (((TrimSpace r.1).data.splitOn ',').map (fun x => TrimSpace (String.mk x))), r.2)
      else (some [], r.2)
    else (req.Dependencies, c3.2)
  ({ req with Description := d.1, Priority := p.1, Dependencies := deps.1 }, deps.2)

/-! ## The editors (editors.go, lines 15 to 200) -/

/-- Edit basic information: the document after the edit, and the lines left. -/
def editBasicInfo {Time : Type} (prdDoc : PRD Time) (inp : Input) : PRD Time × Input :=
  let r1 := ReadString inp
  let title := if TrimSpace r1.1 ≠ "" then TrimSpace r1.1 else prdDoc.Title
  let r2 := ReadString r1.2
  let version := if TrimSpace r2.1 ≠ "" then TrimSpace r2.1 else prdDoc.Version
  let c3 := confirmChange r2.2
  let status : String × Input :=
    if c3.1 then
      selectFromOptions ["draft", "review", "approved", "in_development", "completed",
        "archived"] c3.2
    else (prdDoc.Status, c3.2)
  let c4 := confirmChange status.2
  let priority : String × Input :=
    if c4.1 then selectFromOptions ["critical", "high", "medium", "low"] c4.2
    else (prdDoc.Priority, c4.2)
  ({ prdDoc with Title := title, Version := version, Status := status.1,
                 Priority := priority.1 }, priority.2)

/-- The part of `editOverview` written three times: a new text for a field
when the user confirms and the answer is not empty. -/
def editText (current : String) (inp : Input) : String × Input :=
  let c := confirmChange inp
  if c.1 then
    let r := ReadString c.2
    (if TrimSpace r.1 ≠ "" then TrimSpace r.1 else current, r.2)
  else (current, c.2)

/-- Edit overview section: the document after the edit, and the lines left. -/
def editOverview {Time : Type} (prdDoc : PRD Time) (inp : Input) : PRD Time × Input :=
  let p := editText prdDoc.Overview.ProblemStatement inp
  let s := editText prdDoc.Overview.SolutionSummary p.2
  let t := editText prdDoc.Overview.TargetAudience s.2
  ({ prdDoc with
      Overview := { prdDoc.Overview with ProblemStatement := p.1, SolutionSummary := s.1,
                                         TargetAudience := t.1 } }, t.2)

/-- The slice `append(s[:idx], s[idx+1:]...)` for an index within the slice:
the slice without the element of that index, not nil. -/
def removeAt {α : Type} (s : Option (List α)) (idx : Int) : Option (List α) :=
  some ((elems s).eraseIdx idx.toNat)

/-- Edit objectives: the document after the edit, and the lines left. -/
def editObjectives {Time : Type} (prdDoc : PRD Time) (inp : Input) : PRD Time × Input :=
  let c1 := confirmChange inp
  let goals : Option (List String) × Input :=
    if c1.1 then
      let action := selectFromOptions ["add", "remove", "replace_all"] c1.2
      if action.1 = "add" then
        let newGoals := collectMultipleInputs 3 action.2
        (append prdDoc.Objectives.BusinessGoals (elems newGoals.1), newGoals.2)
      else if action.1 = "remove" then
        if len prdDoc.Objectives.BusinessGoals > 0 then
          let idx := selectGoalToRemove prdDoc.Objectives.BusinessGoals action.2
          if idx.1 ≥ 0 ∧ idx.1 < (len prdDoc.Objectives.BusinessGoals : Int) then
            (removeAt prdDoc.Objectives.BusinessGoals idx.1, idx.2)
          else (prdDoc.Objectives.BusinessGoals, idx.2)
        else (prdDoc.Objectives.BusinessGoals, action.2)
      else if action.1 = "replace_all" then
        let newGoals := collectMultipleInputs 5 action.2
        (if len newGoals.1 > 0 then newGoals.1 else prdDoc.Objectives.BusinessGoals,
          newGoals.2)
      else (prdDoc.Objectives.BusinessGoals, action.2)
    else (prdDoc.Objectives.BusinessGoals, c1.2)
  let c2 := confirmChange goals.2
  let metrics : Option (List SuccessMetric) × Input :=
    if c2.1 then
      let action := selectFromOptions ["add", "remove", "replace_all"] c2.2
      if action.1 = "add" then
        let newMetrics := collectSuccessMetrics 3 action.2
        (append prdDoc.Objectives.SuccessMetrics (elems newMetrics.1), newMetrics.2)
      else if action.1 = "remove" then
        if len prdDoc.Objectives.SuccessMetrics > 0 then
          let idx := selectMetricToRemove prdDoc.Objectives.SuccessMetrics action.2
          if idx.1 ≥ 0 ∧ idx.1 < (len prdDoc.Objectives.SuccessMetrics : Int) then
            (removeAt prdDoc.Objectives.SuccessMetrics idx.1, idx.2)
          else (prdDoc.Objectives.SuccessMetrics, idx.2)
        else (prdDoc.Objectives.SuccessMetrics, action.2)
      else if action.1 = "replace_all" then
        let newMetrics := collectSuccessMetrics 5 action.2
        (if len newMetrics.1 > 0 then newMetrics.1 else prdDoc.Objectives.SuccessMetrics,
          newMetrics.2)
      else (prdDoc.Objectives.SuccessMetrics, action.2)
    else (prdDoc.Objectives.SuccessMetrics, c2.2)
  ({ prdDoc with
      Objectives := { prdDoc.Objectives with BusinessGoals := goals.1,
                                             SuccessMetrics := metrics.1 } }, metrics.2)

/-- The loop of the action `add` that numbers the new requirements from
`startID` on. -/
def renumber (startID : Nat) (newReqs : List FunctionalRequirement) :
    List FunctionalRequirement :=
  newReqs.enum.map (fun ir => { ir.2 with ID := "FR-" ++ sprintf03d (startID + ir.1) })

/-- Edit requirements: the document after the edit, and the lines left. -/
def editRequirements {Time : Type} (prdDoc : PRD Time) (inp : Input) : PRD Time × Input :=
  let c1 := confirmChange inp
  let reqs : Option (List FunctionalRequirement) × Input :=
    if c1.1 then
      let action := selectFromOptions ["add", "remove", "edit", "replace_all"] c1.2
      if action.1 = "add" then
        let newReqs := collectFunctionalRequirements action.2
        (append prdDoc.Requirements.Functional
          (renumber (len prdDoc.Requirements.Functional + 1) (elems newReqs.1)), newReqs.2)
      else if action.1 = "remove" then
        if len prdDoc.Requirements.Functional > 0 then
          let idx := selectRequirementToRemove prdDoc.Requirements.Functional action.2
          if idx.1 ≥ 0 ∧ idx.1 < (len prdDoc.Requirements.Functional : Int) then
            (removeAt prdDoc.Requirements.Functional idx.1, idx.2)
          else (prdDoc.Requirements.Functional, idx.2)
        else (prdDoc.Requirements.Functional, action.2)
      else if action.1 = "edit" then
        if len prdDoc.Requirements.Functional > 0 then
          let idx := selectRequirementToEdit prdDoc.Requirements.Functional action.2
          if idx.1 ≥ 0 ∧ idx.1 < (len prdDoc.Requirements.Functional : Int) then
            match (elems prdDoc.Requirements.Functional).get? idx.1.toNat with
            | some req =>
                let e := editSingleRequirement req idx.2
                (some ((elems prdDoc.Requirements.Functional).set idx.1.toNat e.1), e.2)
            | none => (prdDoc.Requirements.Functional, idx.2)
          else (prdDoc.Requirements.Functional, idx.2)
        else (prdDoc.Requirements.Functional, action.2)
      else if action.1 = "replace_all" then
        let newReqs := collectFunctionalRequirements action.2
        (if len newReqs.1 > 0 then newReqs.1 else prdDoc.Requirements.Functional, newReqs.2)
      else (prdDoc.Requirements.Functional, action.2)
    else (prdDoc.Requirements.Functional, c1.2)
  ({ prdDoc with Requirements := { prdDoc.Requirements with Functional := reqs.1 } }, reqs.2)

/-! ## The commands create, edit and validate (commands.go) -/

/-- The document `createInteractivePRD` builds from the answers of the wizard
(commands.go, lines 23 to 106); `now` is the time read after the last answer,
and `date` is `Time.Format` with the layout `"2006-01-02"`. -/
def interactiveDocument {Time : Type} (date : Time → String) (now : Time) (inp : Input) :
    PRD Time :=
  let id := ReadString inp
  let title := ReadString id.2
  let version := ReadString title.2
  let ownerName := ReadString version.2
  let ownerEmail := ReadString ownerName.2
  let ownerTeam := ReadString ownerEmail.2
  let status := selectFromOptions ["draft", "review", "approved", "in_development",
    "completed"] ownerTeam.2
  let priority := selectFromOptions ["critical", "high", "medium", "low"] status.2
  let problemStatement := ReadString priority.2
  let solutionSummary := ReadString problemStatement.2
  let targetAudience := ReadString solutionSummary.2
  let businessGoals := collectMultipleInputs 3 targetAudience.2
  let functionalReqs := collectFunctionalRequirements businessGoals.2
  { ID := TrimSpace id.1,
    Title := TrimSpace title.1,
    Version := TrimSpace version.1,
    CreatedDate := date now,
    LastUpdated := some now,
    Owner := { Name := TrimSpace ownerName.1, Email := TrimSpace ownerEmail.1,
               Team := TrimSpace ownerTeam.1 },
    Stakeholders := none,
    Status := status.1,
    Priority := priority.1,
    Overview := { ProblemStatement := TrimSpace problemStatement.1,
                  SolutionSummary := TrimSpace solutionSummary.1,
                  TargetAudience := TrimSpace targetAudience.1, MarketContext := "" },
    Objectives := { BusinessGoals := businessGoals.1, SuccessMetrics := none, OKRs := none },
    UserPersonas := none,
    UserStories := none,
    Requirements := { Functional := functionalReqs.1, NonFunctional := none },
    TechnicalSpecifications := none,
    Timeline := none,
    RisksAndAssumptions := none,
    OutOfScope := none,
    Appendices := none }

/-- Interactive PRD creation wizard: the error (`none` is the nil error) and
the files after the call.  The document is validated and then saved. -/
def createInteractivePRD {Time : Type} (tc : TimeCodec Time) (date : Time → String)
    (now : Time) (fs : FileSystem) (inp : Input) (filename : String) :
    Option String × FileSystem :=
  let prdDoc : PRD Time := interactiveDocument date now inp
  match Validate prdDoc with
  | some err => (some ("validation failed: " ++ err), fs)
  | none =>
      match SaveToFile tc fs prdDoc filename with
      | (some err, fs1) => (some ("failed to save PRD: " ++ err), fs1)
      | (none, fs1) => (none, fs1)

/-- The document `createBasicPRD` builds from its three answers (commands.go,
lines 123 to 165); `unix` is `Time.Unix`, the seconds since 1970. -/
def basicDocument {Time : Type} (date : Time → String) (unix : Time → Int) (now : Time)
    (inp : Input) : PRD Time :=
  let title := ReadString inp
  let name := ReadString title.2
  let email := ReadString name.2
  { ID := "PRD-" ++ toString (unix now),
    Title := TrimSpace title.1,
    Version := "1.0.0",
    CreatedDate := date now,
    LastUpdated := some now,
    Owner := { Name := TrimSpace name.1, Email := TrimSpace email.1, Team := "" },
    Stakeholders := none,
    Status := "draft",
    Priority := "",
    Overview := { ProblemStatement := "TODO: Define the problem this product/feature solves",
                  SolutionSummary := "TODO: Describe the proposed solution",
                  TargetAudience := "", MarketContext := "" },
    Objectives := { BusinessGoals := some ["TODO: Add business goals"],
                    SuccessMetrics := none, OKRs := none },
    UserPersonas := none,
    UserStories := none,
    Requirements :=
      { Functional := some [{ ID := "FR-001",
                              Description := "TODO: Define functional requirements",
                              Priority := "must_have", Dependencies := none }],
        NonFunctional := none },
    TechnicalSpecifications := none,
    Timeline := none,
    RisksAndAssumptions := none,
    OutOfScope := none,
    Appendices := none }

/-- Create basic PRD with minimal input: the error and the files after the
call.  The document is saved as it is. -/
def createBasicPRD {Time : Type} (tc : TimeCodec Time) (date : Time → String)
    (unix : Time → Int) (now : Time) (fs : FileSystem) (inp : Input) (filename : String) :
    Option String × FileSystem :=
  let prdDoc : PRD Time := basicDocument date unix now inp
  match SaveToFile tc fs prdDoc filename with
  | (some err, fs1) => (some ("failed to save PRD: " ++ err), fs1)
  | (none, fs1) => (none, fs1)

/-- The document `editPRD` saves: the document the editor of the section
leaves, `none` for a section without an editor. -/
def editedDocument {Time : Type} (prdDoc : PRD Time) (section_ : String) (inp : Input) :
    Option (PRD Time × Input) :=
  if section_ = "basic" then some (editBasicInfo prdDoc inp)
  else if section_ = "overview" then some (editOverview prdDoc inp)
  else if section_ = "objectives" then some (editObjectives prdDoc inp)
  else if section_ = "requirements" then some (editRequirements prdDoc inp)
  else none

/-- Edit PRD: the error and the files after the call.  The document is
loaded, edited, given the timestamp `now` and saved. -/
def editPRD {Time : Type} (tc : TimeCodec Time) (now : Time) (fs : FileSystem) (inp : Input)
    (filename section_ : String) : Option String × FileSystem :=
  match LoadFromFile tc fs filename with
  | .error err => (some err, fs)
  | .ok prdDoc =>
      let sec : String × Input :=
        if section_ = "" then
          selectFromOptions ["basic", "overview", "objectives", "requirements", "timeline",
            "risks"] inp
        else (section_, inp)
      match editedDocument prdDoc sec.1 sec.2 with
      | none => (some ("section '" ++ sec.1 ++ "' not supported for editing"), fs)
      | some e =>
          match SaveToFile tc fs (UpdateLastModified now e.1) filename with
          | (some err, fs1) => (some ("failed to save PRD: " ++ err), fs1)
          | (none, fs1) => (none, fs1)

/-- Validate PRD: the error the command returns, and the warnings it prints
after the message that the validation passed. -/
def validatePRD {Time : Type} (tc : TimeCodec Time) (fs : FileSystem) (filename : String)
    (strict : Bool) : Option String × List String :=
  match LoadFromFile tc fs filename with
  | .error err => (some err, [])
  | .ok prdDoc =>
      match Validate prdDoc with
      | some err => (some err, [])
      | none =>
          let warnings : List String :=
            if strict then
              (if len prdDoc.UserStories = 0 then ["No user stories defined"] else []) ++
                (if prdDoc.Timeline = none then ["No timeline specified"] else []) ++
                (if len prdDoc.Requirements.NonFunctional = 0 then
                  ["No non-functional requirements"] else [])
            else []
          (none, warnings)

/-! ## The command export (export.go, and commands.go, lines 381 to 405) -/

/-- The text `or` when the string is empty, and the string otherwise. -/
def orElse (s or : String) : String := if s = "" then or else s

/-- The function `strings.Join` with the separator `", "` on a slice. -/
def joinComma (xs : Option (List String)) : String := String.intercalate ", " (elems xs)

/-- The text `exportToMarkdown` builds (export.go, lines 16 to 257); `format`
is `Time.Format` with the layout `"2006-01-02 15:04"`, and `now` the time read
for the footer. -/
def exportToMarkdownText {Time : Type} (format : Time → String) (now : Time)
    (prdDoc : PRD Time) : String :=
  String.join
    [ -- Header
      "# " ++ prdDoc.Title ++ "\n\n",
      "---\n\n",
      "**Document ID:** " ++ prdDoc.ID ++ "  \n",
      "**Version:** " ++ prdDoc.Version ++ "  \n",
      "**Status:** " ++ prdDoc.Status ++ "  \n",
      (if prdDoc.Priority ≠ "" then "**Priority:** " ++ prdDoc.Priority ++ "  \n" else ""),
      "**Owner:** " ++ prdDoc.Owner.Name ++ " (" ++ prdDoc.Owner.Email ++ ")  \n",
      (if prdDoc.Owner.Team ≠ "" then "**Team:** " ++ prdDoc.Owner.Team ++ "  \n" else ""),
      "**Created:** " ++ prdDoc.CreatedDate ++ "  \n",
      (match prdDoc.LastUpdated with
        | some t => "**Last Updated:** " ++ format t ++ "  \n"
        | none => ""),
      "\n---\n\n",
      -- Table of Contents
      "## Table of Contents\n\n",
      "1. [Overview](#overview)\n",
      "2. [Objectives](#objectives)\n",
      "3. [User Stories](#user-stories)\n",
      "4. [Requirements](#requirements)\n",
      (if prdDoc.TechnicalSpecifications ≠ none then
        "5. [Technical Specifications](#technical-specifications)\n" else ""),
      (if prdDoc.Timeline ≠ none then "6. [Timeline](#timeline)\n" else ""),
      (if prdDoc.RisksAndAssumptions ≠ none then
        "7. [Risks and Assumptions](#risks-and-assumptions)\n" else ""),
      "\n",
      -- Overview
      "## Overview\n\n",
      "### Problem Statement\n\n",
      prdDoc.Overview.ProblemStatement ++ "\n\n",
      "### Solution Summary\n\n",
      prdDoc.Overview.SolutionSummary ++ "\n\n",
      (if prdDoc.Overview.TargetAudience ≠ "" then
        "### Target Audience\n\n" ++ (prdDoc.Overview.TargetAudience ++ "\n\n")
      else ""),
      (if prdDoc.Overview.MarketContext ≠ "" then
        "### Market Context\n\n" ++ (prdDoc.Overview.MarketContext ++ "\n\n")
      else ""),
      -- Objectives
      "## Objectives\n\n",
      (if len prdDoc.Objectives.BusinessGoals > 0 then
        String.join
          [ "### Business Goals\n\n", writeItems prdDoc.Objectives.BusinessGoals, "\n" ]
      else ""),
      (if len prdDoc.Objectives.SuccessMetrics > 0 then
        String.join
          [ "### Success Metrics\n\n",
            "| Metric | Target | Measurement Method |\n",
            "|--------|--------|-----------------|\n",
            String.join ((elems prdDoc.Objectives.SuccessMetrics).map (fun metric =>
              "| " ++ metric.Metric ++ " | " ++ metric.Target ++ " | " ++
                orElse metric.MeasurementMethod "TBD" ++ " |\n")),
            "\n" ]
      else ""),
      -- User Stories
      (if len prdDoc.UserStories > 0 then
        String.join
          [ "## User Stories\n\n",
            String.join ((elems prdDoc.UserStories).map (fun story =>
              String.join
                [ "### " ++ story.ID,
                  (if story.Priority ≠ "" then " [" ++ story.Priority ++ "]" else ""),
                  (if story.EffortEstimate ≠ "" then " (" ++ story.EffortEstimate ++ ")"
                  else ""),
                  "\n\n",
                  "**User Story:** " ++ story.Story ++ "\n\n",
                  (if len story.AcceptanceCriteria > 0 then
                    String.join
                      [ "**Acceptance Criteria:**\n\n",
                        writeItems story.AcceptanceCriteria,
                        "\n" ]
                  else "") ])) ]
      else ""),
      -- Requirements
      "## Requirements\n\n",
      (if len prdDoc.Requirements.Functional > 0 then
        String.join
          [ "### Functional Requirements\n\n",
            "| ID | Description | Priority | Dependencies |\n",
            "|----|-------------|----------|-------------|\n",
            String.join ((elems prdDoc.Requirements.Functional).map (fun req =>
              "| " ++ req.ID ++ " | " ++ req.Description ++ " | " ++
                orElse req.Priority "TBD" ++ " | " ++
                orElse (joinComma req.Dependencies) "None" ++ " |\n")),
            "\n" ]
      else ""),
      (if len prdDoc.Requirements.NonFunctional > 0 then
        String.join
          [ "### Non-Functional Requirements\n\n",
            "| ID | Category | Description | Acceptance Criteria |\n",
            "|----|----------|-------------|-------------------|\n",
            String.join ((elems prdDoc.Requirements.NonFunctional).map (fun req =>
              "| " ++ req.ID ++ " | " ++ req.Category ++ " | " ++ req.Description ++ " | " ++
                orElse req.AcceptanceCriteria "TBD" ++ " |\n")),
            "\n" ]
      else ""),
      -- Technical Specifications
      (match prdDoc.TechnicalSpecifications with
        | none => ""
        | some ts =>
            String.join
              [ "## Technical Specifications\n\n",
                (if ts.ArchitectureOverview ≠ "" then
                  "### Architecture Overview\n\n" ++ (ts.ArchitectureOverview ++ "\n\n")
                else ""),
                (match ts.TechnologyStack with
                  | none => ""
                  | some stack =>
                      String.join
                        [ "### Technology Stack\n\n",
                          (if len stack.Frontend > 0 then
                            "**Frontend:** " ++ joinComma stack.Frontend ++ "\n\n" else ""),
                          (if len stack.Backend > 0 then
                            "**Backend:** " ++ joinComma stack.Backend ++ "\n\n" else ""),
                          (if len stack.Database > 0 then
                            "**Database:** " ++ joinComma stack.Database ++ "\n\n" else ""),
                          (if len stack.Infrastructure > 0 then
                            "**Infrastructure:** " ++ joinComma stack.Infrastructure ++ "\n\n"
                          else "") ]),
                (if len ts.SecurityConsiderations > 0 then
                  String.join
                    [ "### Security Considerations\n\n",
                      writeItems ts.SecurityConsiderations,
                      "\n" ]
                else "") ]),
      -- Timeline
      (match prdDoc.Timeline with
        | none => ""
        | some tl =>
            String.join
              [ "## Timeline\n\n",
                (if tl.LaunchDate ≠ "" then
                  "**Target Launch Date:** " ++ tl.LaunchDate ++ "\n\n" else ""),
                (if len tl.Milestones > 0 then
                  String.join
                    [ "### Milestones\n\n",
                      "| Milestone | Target Date | Description | Dependencies |\n",
                      "|-----------|-------------|-------------|-------------|\n",
                      String.join ((elems tl.Milestones).map (fun milestone =>
                        "| " ++ milestone.Name ++ " | " ++ milestone.TargetDate ++ " | " ++
                          orElse milestone.Description "TBD" ++ " | " ++
                          orElse (joinComma milestone.Dependencies) "None" ++ " |\n")),
                      "\n" ]
                else "") ]),
      -- Risks and Assumptions
      (match prdDoc.RisksAndAssumptions with
        | none => ""
        | some ra =>
            String.join
              [ "## Risks and Assumptions\n\n",
                (if len ra.Risks > 0 then
                  String.join
                    [ "### Risks\n\n",
                      "| Risk | Impact | Probability | Mitigation Strategy |\n",
                      "|------|--------|-------------|-------------------|\n",
                      String.join ((elems ra.Risks).map (fun risk =>
                        "| " ++ risk.Description ++ " | " ++ risk.Impact ++ " | " ++
                          risk.Probability ++ " | " ++
                          orElse risk.MitigationStrategy "TBD" ++ " |\n")),
                      "\n" ]
                else ""),
                (if len ra.Assumptions > 0 then
                  String.join [ "### Assumptions\n\n", writeItems ra.Assumptions, "\n" ]
                else "") ]),
      -- Out of Scope
      (if len prdDoc.OutOfScope > 0 then
        String.join [ "## Out of Scope\n\n", writeItems prdDoc.OutOfScope, "\n" ]
      else ""),
      -- Footer
      "---\n\n",
      "*Document generated on " ++ format now ++ "*\n" ]

/-- Export PRD to Markdown: the error and the files after the call; the text
is written with `os.WriteFile`. -/
def exportToMarkdown {Time : Type} (format : Time → String) (now : Time) (fs : FileSystem)
    (prdDoc : PRD Time) (filename : String) : Option String × FileSystem :=
  match WriteFile fs filename (exportToMarkdownText format now prdDoc) with
  | (some err, fs1) => (some ("failed to write markdown file: " ++ err), fs1)
  | (none, fs1) => (none, fs1)

/-- The function `getHTMLCSS`: the style sheet of the HTML export, line by
line. -/
def getHTMLCSS : String :=
  String.join
    [
      "\n",
      "        body \x7b\n",
      "            font-family: 'Segoe UI', Tahoma, Geneva, Verdana, sans-serif;\n",
      "            line-height: 1.6;\n",
      "            max-width: 1200px;\n",
      "            margin: 0 auto;\n",
      "            padding: 20px;\n",
      "            color: #333;\n",
      "        \x7d\n",
      "        .header \x7b\n",
      "            background: linear-gradient(135deg, #667eea 0%, #764ba2 100%);\n",
      "            color: white;\n",
      "            padding: 2rem;\n",
      "            border-radius: 10px;\n",
      "            margin-bottom: 2rem;\n",
      "            text-align: center;\n",
      "        \x7d\n",
      "        .header h1 \x7b\n",
      "            margin: 0;\n",
      "            font-size: 2.5rem;\n",
      "        \x7d\n",
      "        .metadata \x7b\n",
      "            margin-top: 1rem;\n",
      "        \x7d\n",
      "        .badge \x7b\n",
      "            display: inline-block;\n",
      "            padding: 0.25rem 0.75rem;\n",
      "            background: rgba(255,255,255,0.2);\n",
      "            border-radius: 20px;\n",
      "            font-size: 0.875rem;\n",
      "            margin: 0 0.5rem;\n",
      "            text-transform: uppercase;\n",
      "        \x7d\n",
      "        .priority-critical \x7b background: #e74c3c; \x7d\n",
      "        .priority-high \x7b background: #e67e22; \x7d\n",
      "        .priority-medium \x7b background: #f39c12; \x7d\n",
      "        .priority-low \x7b background: #27ae60; \x7d\n",
      "        .doc-info \x7b\n",
      "            background: #f8f9fa;\n",
      "            padding: 1.5rem;\n",
      "            border-radius: 8px;\n",
      "            margin-bottom: 2rem;\n",
      "        \x7d\n",
      "        .info-grid \x7b\n",
      "            display: grid;\n",
      "            grid-template-columns: repeat(auto-fit, minmax(200px, 1fr));\n",
      "            gap: 1rem;\n",
      "        \x7d\n",
      "        .section \x7b\n",
      "            margin-bottom: 3rem;\n",
      "        \x7d\n",
      "        .section h2 \x7b\n",
      "            color: #2c3e50;\n",
      "            border-bottom: 3px solid #3498db;\n",
      "            padding-bottom: 0.5rem;\n",
      "        \x7d\n",
      "        .subsection \x7b\n",
      "            margin: 2rem 0;\n",
      "        \x7d\n",
      "        .subsection h3 \x7b\n",
      "            color: #34495e;\n",
      "        \x7d\n",
      "        table \x7b\n",
      "            width: 100%;\n",
      "            border-collapse: collapse;\n",
      "            margin: 1rem 0;\n",
      "        \x7d\n",
      "        th, td \x7b\n",
      "            text-align: left;\n",
      "            padding: 0.75rem;\n",
      "            border-bottom: 1px solid #ddd;\n",
      "        \x7d\n",
      "        th \x7b\n",
      "            background: #f4f4f4;\n",
      "            font-weight: 600;\n",
      "        \x7d\n",
      "        tr:hover \x7b\n",
      "            background: #f9f9f9;\n",
      "        \x7d\n",
      "        ul, ol \x7b\n",
      "            padding-left: 2rem;\n",
      "        \x7d\n",
      "        li \x7b\n",
      "            margin: 0.5rem 0;\n",
      "        \x7d\n",
      "        footer \x7b\n",
      "            margin-top: 3rem;\n",
      "            padding-top: 2rem;\n",
      "            border-top: 1px solid #eee;\n",
      "            text-align: center;\n",
      "            color: #666;\n",
      "            font-size: 0.9rem;\n",
      "        \x7d\n",
      "    " ]

/-- The text `exportToHTML` builds (export.go, lines 270 to 364); `formatLong`
is `Time.Format` with the layout `"January 2, 2006 at 3:04 PM"`, and `now` the
time read for the footer. -/
def exportToHTMLText {Time : Type} (formatLong : Time → String) (now : Time)
    (prdDoc : PRD Time) : String :=
  String.join
    [ -- HTML Header
      "<!DOCTYPE html>\n",
      "<html lang=\"en\">\n",
      "<head>\n",
      "    <meta charset=\"UTF-8\">\n",
      "    <meta name=\"viewport\" content=\"width=device-width, initial-scale=1.0\">\n",
      "    <title>" ++ prdDoc.Title ++ " - PRD</title>\n",
      "    <style>\n",
      getHTMLCSS,
      "    </style>\n",
      "</head>\n",
      "<body>\n",
      -- Header
      "    <div class=\"header\">\n",
      "        <h1>" ++ prdDoc.Title ++ "</h1>\n",
      "        <div class=\"metadata\">\n",
      "            <span class=\"badge\">" ++ prdDoc.Status ++ "</span>\n",
      (if prdDoc.Priority ≠ "" then
        "            <span class=\"badge priority-" ++ prdDoc.Priority ++ "\">" ++
          prdDoc.Priority ++ "</span>\n"
      else ""),
      "        </div>\n",
      "    </div>\n\n",
      -- Document Info
      "    <div class=\"doc-info\">\n",
      "        <div class=\"info-grid\">\n",
      "            <div><strong>ID:</strong> " ++ prdDoc.ID ++ "</div>\n",
      "            <div><strong>Version:</strong> " ++ prdDoc.Version ++ "</div>\n",
      "            <div><strong>Owner:</strong> " ++ prdDoc.Owner.Name ++ "</div>\n",
      "            <div><strong>Created:</strong> " ++ prdDoc.CreatedDate ++ "</div>\n",
      "        </div>\n",
      "    </div>\n\n",
      -- Overview
      "    <section class=\"section\">\n",
      "        <h2>Overview</h2>\n",
      "        <div class=\"subsection\">\n",
      "            <h3>Problem Statement</h3>\n",
      "            <p>" ++ prdDoc.Overview.ProblemStatement ++ "</p>\n",
      "        </div>\n",
      "        <div class=\"subsection\">\n",
      "            <h3>Solution Summary</h3>\n",
      "            <p>" ++ prdDoc.Overview.SolutionSummary ++ "</p>\n",
      "        </div>\n",
      "    </section>\n\n",
      -- Objectives
      "    <section class=\"section\">\n",
      "        <h2>Objectives</h2>\n",
      (if len prdDoc.Objectives.BusinessGoals > 0 then
        String.join
          [ "        <div class=\"subsection\">\n",
            "            <h3>Business Goals</h3>\n",
            "            <ul>\n",
            String.join ((elems prdDoc.Objectives.BusinessGoals).map (fun goal =>
              "                <li>" ++ goal ++ "</li>\n")),
            "            </ul>\n",
            "        </div>\n" ]
      else ""),
      "    </section>\n\n",
      -- Requirements
      "    <section class=\"section\">\n",
      "        <h2>Requirements</h2>\n",
      (if len prdDoc.Requirements.Functional > 0 then
        String.join
          [ "        <div class=\"subsection\">\n",
            "            <h3>Functional Requirements</h3>\n",
            "            <table>\n",
            "                <thead>\n",
            "                    <tr><th>ID</th><th>Description</th><th>Priority</th></tr>\n",
            "                </thead>\n",
            "                <tbody>\n",
            String.join ((elems prdDoc.Requirements.Functional).map (fun req =>
              "                    <tr><td>" ++ req.ID ++ "</td><td>" ++ req.Description ++
                "</td><td>" ++ orElse req.Priority "TBD" ++ "</td></tr>\n")),
            "                </tbody>\n",
            "            </table>\n",
            "        </div>\n" ]
      else ""),
      "    </section>\n\n",
      -- Footer
      "    <footer>\n",
      "        <p>Generated on " ++ formatLong now ++ "</p>\n",
      "    </footer>\n",
      "</body>\n",
      "</html>\n" ]

/-- Export PRD to HTML: the error and the files after the call. -/
def exportToHTML {Time : Type} (formatLong : Time → String) (now : Time) (fs : FileSystem)
    (prdDoc : PRD Time) (filename : String) : Option String × FileSystem :=
  match WriteFile fs filename (exportToHTMLText formatLong now prdDoc) with
  | (some err, fs1) => (some ("failed to write HTML file: " ++ err), fs1)
  | (none, fs1) => (none, fs1)

/-- The function `strings.TrimSuffix`. -/
def TrimSuffix (s suffix : String) : String :=
  if suffix.data.isSuffixOf s.data then String.mk (s.data.take (s.length - suffix.length))
  else s

/-- The map literal `ext` of `exportPRD`: the extension of the file for a
format, and the empty string (the zero value) for any other key. -/
def ext (format : String) : String :=
  if format = "markdown" then ".md"
  else if format = "html" then ".html"
  else if format = "pdf" then ".pdf"
  else ""

/-- Export PRD to different formats: the error and the files after the call.
`now` is the time the exporter reads for its footer. -/
def exportPRD {Time : Type} (tc : TimeCodec Time) (format16 formatLong : Time → String)
    (now : Time) (fs : FileSystem) (filename format output : String) :
    Option String × FileSystem :=
  match LoadFromFile tc fs filename with
  | .error err => (some err, fs)
  | .ok prdDoc =>
      let output := if output = "" then TrimSuffix filename ".json" ++ ext format else output
      if format = "markdown" then exportToMarkdown format16 now fs prdDoc output
      else if format = "html" then exportToHTML formatLong now fs prdDoc output
      else (some ("export format '" ++ format ++ "' not supported"), fs)

/-! ## Samples for the commands -/

/-- The identifiers of the functional requirements of a document, in
order. -/
def functionalIDs {Time : Type} (p : PRD Time) : List String :=
  (elems p.Requirements.Functional).map (fun r => r.ID)

/-- The minimal document with three functional requirements, numbered as
`collectFunctionalRequirements` numbers them. -/
def threeRequirementsPRD : PRD Nat :=
  { minimalPRD with
    Requirements :=
      { Functional := some [{ ID := "FR-001", Description := "a", Priority := "must_have",
                              Dependencies := none },
                            { ID := "FR-002", Description := "b", Priority := "must_have",
                              Dependencies := none },
                            { ID := "FR-003", Description := "c", Priority := "must_have",
                              Dependencies := none }],
        NonFunctional := none } }

/-- The files after the minimal document has been saved to `prd.json` in an
empty directory. -/
def savedMinimalFS : FileSystem :=
  (SaveToFile yearCodec emptyFS minimalPRD "prd.json").2

/-- The seconds since 1970 of the first instant of a year, leap days left
out: a sample for `Time.Unix`. -/
def yearUnix (y : Nat) : Int := ((y : Int) - 1970) * 31536000

/-! ## Documents whose optional fields are unset or empty -/

/-- A technology stack whose fields are all unset or empty. -/
def TechnologyStack.AllEmpty (s : TechnologyStack) : Prop :=
  len s.Frontend = 0 ∧ len s.Backend = 0 ∧ len s.Database = 0 ∧ len s.Infrastructure = 0

/-- Technical specifications whose fields are all unset or empty: the
technology stack is absent, or present with all its fields unset or empty. -/
def TechnicalSpecifications.AllEmpty (ts : TechnicalSpecifications) : Prop :=
  ts.ArchitectureOverview = "" ∧ (∀ s, ts.TechnologyStack = some s → s.AllEmpty) ∧
    len ts.APISpecifications = 0 ∧ len ts.SecurityConsiderations = 0

/-- A timeline whose fields are all unset or empty. -/
def Timeline.AllEmpty (tl : Timeline) : Prop :=
  len tl.Milestones = 0 ∧ tl.LaunchDate = ""

/-- Risks and assumptions whose fields are all unset or empty. -/
def RisksAndAssumptions.AllEmpty (ra : RisksAndAssumptions) : Prop :=
  len ra.Risks = 0 ∧ len ra.Assumptions = 0

/-- Appendices whose fields are all unset or empty. -/
def Appendices.AllEmpty (ap : Appendices) : Prop :=
  ap.ResearchData = "" ∧ len ap.MockupsWireframes = 0 ∧ len ap.RelatedDocuments = 0

/-- A document whose optional fields are all unset or empty: the optional
strings are empty, the optional lists are nil or empty, the optional time is
unset, every optional nested record is absent or present with all its fields
unset or empty, and so for the optional fields of every functional
requirement. -/
def PRD.OptionalEmpty {Time : Type} (x : PRD Time) : Prop :=
  x.LastUpdated = none ∧ x.Priority = "" ∧ x.Owner.Team = "" ∧ len x.Stakeholders = 0 ∧
    x.Overview.TargetAudience = "" ∧ x.Overview.MarketContext = "" ∧
    len x.Objectives.SuccessMetrics = 0 ∧ len x.Objectives.OKRs = 0 ∧
    len x.UserPersonas = 0 ∧ len x.UserStories = 0 ∧
    (∀ r ∈ elems x.Requirements.Functional, r.Priority = "" ∧ len r.Dependencies = 0) ∧
    len x.Requirements.NonFunctional = 0 ∧
    (∀ ts, x.TechnicalSpecifications = some ts → ts.AllEmpty) ∧
    (∀ tl, x.Timeline = some tl → tl.AllEmpty) ∧
    (∀ ra, x.RisksAndAssumptions = some ra → ra.AllEmpty) ∧ len x.OutOfScope = 0 ∧
    (∀ ap, x.Appendices = some ap → ap.AllEmpty)

/-- The text the specification gives for a document whose optional fields are
all unset or empty: the title heading, the metadata table with the rows ID,
Version, Created Date and Status, the Owner section with Name and Email, the
Overview with Problem Statement and Solution Summary, the Business Goals
numbered from 1 in the order of the list, and one entry with identifier and
description per functional requirement in the order of the list. -/
def requiredMarkdown {Time : Type} (p : PRD Time) : String :=
  "# " ++ p.Title ++ "\n\n" ++
  "| Field | Value |\n" ++
  "|-------|-------|\n" ++
  "| **ID** | " ++ p.ID ++ " |\n" ++
  "| **Version** | " ++ p.Version ++ " |\n" ++
  "| **Created Date** | " ++ p.CreatedDate ++ " |\n" ++
  "| **Status** | " ++ p.Status ++ " |\n" ++
  "\n" ++
  "## Owner\n\n" ++
  "**Name:** " ++ p.Owner.Name ++ "  \n" ++
  "**Email:** " ++ p.Owner.Email ++ "  \n" ++
  "\n" ++
  "## Overview\n\n" ++
  "### Problem Statement\n\n" ++
  p.Overview.ProblemStatement ++ "\n\n" ++
  "### Solution Summary\n\n" ++
  p.Overview.SolutionSummary ++ "\n\n" ++
  "## Objectives\n\n" ++
  "### Business Goals\n\n" ++
  String.join (List.zipWith (fun i goal => toString i ++ ". " ++ goal ++ "\n")
    (List.range' 1 (len p.Objectives.BusinessGoals)) (elems p.Objectives.BusinessGoals)) ++
  "\n" ++
  "## Requirements\n\n" ++
  "### Functional Requirements\n\n" ++
  String.join ((elems p.Requirements.Functional).map (fun req =>
    "#### " ++ req.ID ++ "\n\n" ++ req.Description ++ "\n\n" ++ "\n"))

/-- The section headings of the optional nested records that are present, in
the order of the sections: Technical Specifications (with the heading of the
technology stack when that record is present), Timeline, Risks and Assumptions,
Appendices. -/
def presentHeadings {Time : Type} (p : PRD Time) : String :=
  (match p.TechnicalSpecifications with
    | none => ""
    | some ts =>
        "## Technical Specifications\n\n" ++
          (match ts.TechnologyStack with
            | none => ""
            | some _ => "### Technology Stack\n\n")) ++
  (match p.Timeline with
    | none => ""
    | some _ => "## Timeline\n\n") ++
  (match p.RisksAndAssumptions with
    | none => ""
    | some _ => "## Risks and Assumptions\n\n") ++
  (match p.Appendices with
    | none => ""
    | some _ => "## Appendices\n\n")

/-- A document with two business goals and two functional requirements whose
optional lists are empty, some of them nil and some not, and whose optional
nested records are absent. -/
def twoGoalsPRD : PRD Nat :=
  { minimalPRD with
    Stakeholders := some [], UserStories := some [], OutOfScope := some [],
    Objectives := { BusinessGoals := some ["g1", "g2"], SuccessMetrics := some [],
                    OKRs := none },
    Requirements :=
      { Functional := some [{ ID := "FR-001", Description := "d", Priority := "",
                              Dependencies := some [] },
                            { ID := "FR-002", Description := "e", Priority := "",
                              Dependencies := none }],
        NonFunctional := some [] } }

/-- The minimal document with a timeline that is present and has no milestones
and no launch date (`&Timeline{}`). -/
def emptyTimelinePRD : PRD Nat :=
  { minimalPRD with Timeline := some { Milestones := none, LaunchDate := "" } }

/-- The minimal document with the four optional nested records present, all
their fields unset or empty; the technology stack is present too. -/
def emptyRecordsPRD : PRD Nat :=
  { minimalPRD with
    TechnicalSpecifications :=
      some { ArchitectureOverview := "",
             TechnologyStack := some { Frontend := none, Backend := some [], Database := none,
                                       Infrastructure := none },
             APISpecifications := none, SecurityConsiderations := some [] },
    Timeline := some { Milestones := some [], LaunchDate := "" },
    RisksAndAssumptions := some { Risks := none, Assumptions := none },
    Appendices := some { ResearchData := "", MockupsWireframes := none,
                         RelatedDocuments := none } }

/-! ## Theorems about Validate -/

theorem validStatuses_iff (s : String) :
    validStatuses s = true ↔
      s ∈ ["draft", "review", "approved", "in_development", "completed", "archived"] := by
  simp [validStatuses, or_assoc]

theorem Validate_eq_firstViolation {Time : Type} (p : PRD Time) :
    Validate p = firstViolation p := by
  unfold Validate firstViolation specRules
  by_cases h1 : p.ID = ""
  · simp [h1]
  by_cases h2 : p.Title = ""
  · simp [h1, h2]
  by_cases h3 : p.Version = ""
  · simp [h1, h2, h3]
  by_cases h4 : p.Owner.Name = ""
  · simp [h1, h2, h3, h4]
  by_cases h5 : p.Owner.Email = ""
  · simp [h1, h2, h3, h4, h5]
  by_cases h6 : p.Overview.ProblemStatement = ""
  · simp [h1, h2, h3, h4, h5, h6]
  by_cases h7 : p.Overview.SolutionSummary = ""
  · simp [h1, h2, h3, h4, h5, h6, h7]
  by_cases h8 : len p.Objectives.BusinessGoals = 0
  · simp [h1, h2, h3, h4, h5, h6, h7, h8]
  by_cases h9 : len p.Requirements.Functional = 0
  · simp [h1, h2, h3, h4, h5, h6, h7, h8, h9]
  by_cases h10 : validStatuses p.Status = true
  · simp [h1, h2, h3, h4, h5, h6, h7, h8, h9, h10]
  · simp [h1, h2, h3, h4, h5, h6, h7, h8, h9, h10]

theorem find?_eq_of_first {α : Type} (f : α → Bool) :
    ∀ (l : List α) (i : Nat) (r : α), l[i]? = some r →
      (∀ x ∈ l.take i, f x = false) → f r = true → l.find? f = some r
  | [], i, r, h, _, _ => by simp at h
  | a :: l, 0, r, h, _, hr => by
      simp only [List.getElem?_cons_zero, Option.some.injEq] at h
      subst h
      simp [List.find?, hr]
  | a :: l, i + 1, r, h, hb, hr => by
      have ha : f a = false := hb a (by simp)
      simp only [List.getElem?_cons_succ] at h
      simp only [List.find?, ha]
      exact find?_eq_of_first f l i r h (fun x hx => hb x (by simp [hx])) hr

/-- C2. Validate reports the earliest violated rule of the fixed order id,
title, version, owner.name, owner.email, overview.problem_statement,
overview.solution_summary, objectives.business_goals, requirements.functional,
status, and that rule's error alone; a document with an empty id and the
status "invalid_status" gets the id error. -/
theorem Validate_first_violation :
    (specRules Unit).map (fun r => r.field) =
        ["id", "title", "version", "owner.name", "owner.email",
         "overview.problem_statement", "overview.solution_summary",
         "objectives.business_goals", "requirements.functional", "status"] ∧
      (∀ (Time : Type) (p : PRD Time), Validate p = firstViolation p) ∧
      Validate { minimalPRD with ID := "", Status := "invalid_status" } =
        some "PRD ID is required" :=
  ⟨rfl, fun _ p => Validate_eq_firstViolation p, by decide⟩

/-- C3. A document in which one of the seven required strings is empty, or in
which business_goals or functional has no entry (a nil or an empty slice), is
rejected by Validate, whatever its other fields hold. -/
theorem Validate_rejects_missing {Time : Type} (p : PRD Time)
    (h : p.ID = "" ∨ p.Title = "" ∨ p.Version = "" ∨ p.Owner.Name = "" ∨
      p.Owner.Email = "" ∨ p.Overview.ProblemStatement = "" ∨
      p.Overview.SolutionSummary = "" ∨ len p.Objectives.BusinessGoals = 0 ∨
      len p.Requirements.Functional = 0) :
    Validate p ≠ none := by
  unfold Validate
  repeat' split
  all_goals first
    | exact Option.some_ne_none _
    | (exfalso; rcases h with h | h | h | h | h | h | h | h | h <;> contradiction)

theorem Validate_rejects_missing_witness :
    len ({ minimalPRD with Objectives :=
            { minimalPRD.Objectives with BusinessGoals := some [] } } :
          PRD Nat).Objectives.BusinessGoals = 0 ∧
      Validate { minimalPRD with Objectives :=
            { minimalPRD.Objectives with BusinessGoals := some [] } } ≠ none :=
  ⟨rfl, Validate_rejects_missing _ (by decide)⟩

/-- C4. When the seven required strings are non-empty and both required lists
have an entry, Validate succeeds exactly when status is one of draft, review,
approved, in_development, completed, archived. -/
theorem Validate_ok_iff_status {Time : Type} (p : PRD Time)
    (h1 : p.ID ≠ "") (h2 : p.Title ≠ "") (h3 : p.Version ≠ "")
    (h4 : p.Owner.Name ≠ "") (h5 : p.Owner.Email ≠ "")
    (h6 : p.Overview.ProblemStatement ≠ "") (h7 : p.Overview.SolutionSummary ≠ "")
    (h8 : len p.Objectives.BusinessGoals ≠ 0)
    (h9 : len p.Requirements.Functional ≠ 0) :
    Validate p = none ↔
      p.Status ∈ ["draft", "review", "approved", "in_development", "completed",
                  "archived"] := by
  rw [← validStatuses_iff]
  unfold Validate
  simp only [h1, h2, h3, h4, h5, h6, h7, h8, h9, if_false]
  cases validStatuses p.Status <;> simp

theorem Validate_ok_iff_status_witness :
    (Validate minimalPRD = none ↔
        minimalPRD.Status ∈ ["draft", "review", "approved", "in_development",
                             "completed", "archived"]) ∧
      (Validate { minimalPRD with Status := "Draft" } = none ↔
        "Draft" ∈ ["draft", "review", "approved", "in_development", "completed",
                   "archived"]) ∧
      Validate minimalPRD = none ∧
      Validate { minimalPRD with Status := "Draft" } = some "invalid status: Draft" ∧
      Validate { minimalPRD with Status := "" } = some "invalid status: " :=
  ⟨Validate_ok_iff_status minimalPRD (by decide) (by decide) (by decide) (by decide)
      (by decide) (by decide) (by decide) (by decide) (by decide),
   Validate_ok_iff_status _ (by decide) (by decide) (by decide) (by decide)
      (by decide) (by decide) (by decide) (by decide) (by decide),
   by decide, by decide, by decide⟩

/-- C5. The result of Validate is a function of the seven required strings, of
whether business_goals and functional are empty, and of status: two documents
that agree on these get the same result, whatever priority, the priorities of
requirements and stories, created_date, last_updated or any other field hold. -/
theorem Validate_depends_only_on_checked {Time : Type} (p q : PRD Time)
    (h1 : p.ID = q.ID) (h2 : p.Title = q.Title) (h3 : p.Version = q.Version)
    (h4 : p.Owner.Name = q.Owner.Name) (h5 : p.Owner.Email = q.Owner.Email)
    (h6 : p.Overview.ProblemStatement = q.Overview.ProblemStatement)
    (h7 : p.Overview.SolutionSummary = q.Overview.SolutionSummary)
    (h8 : len p.Objectives.BusinessGoals = 0 ↔ len q.Objectives.BusinessGoals = 0)
    (h9 : len p.Requirements.Functional = 0 ↔ len q.Requirements.Functional = 0)
    (h10 : p.Status = q.Status) :
    Validate p = Validate q := by
  unfold Validate
  simp only [h1, h2, h3, h4, h5, h6, h7, h8, h9, h10]

theorem Validate_depends_only_on_checked_witness :
    minimalPRD ≠ uncheckedVariantPRD ∧
      Validate minimalPRD = Validate uncheckedVariantPRD ∧
      Validate uncheckedVariantPRD = none :=
  ⟨by decide,
   Validate_depends_only_on_checked minimalPRD uncheckedVariantPRD rfl rfl rfl rfl rfl rfl
     rfl (by decide) (by decide) rfl,
   by decide⟩

theorem status_message_ne (s m : String)
    (h : "invalid status: ".data.isPrefixOf m.data = false) :
    "invalid status: " ++ s ≠ m := by
  intro e
  have hp : "invalid status: ".data <+: m.data := by
    rw [← e, String.data_append]
    exact List.prefix_append _ _
  rw [← List.isPrefixOf_iff_prefix] at hp
  rw [hp] at h
  exact Bool.noConfusion h

/-- C6. A failing Validate names the first failing rule: when rule `i` of the
fixed order is the earliest one violated, the error is that rule's message; for
the seven required strings (`i < 7`) the message contains the field's name (the
words of its key, letter case ignored); for status (`i = 9`) it is exactly
"invalid status: " followed by the status value; and no other rule produces the
same message on any document. -/
theorem Validate_error_names_rule {Time : Type} (p : PRD Time) (i : Nat) (r : Rule Time)
    (hr : (specRules Time)[i]? = some r)
    (hbefore : ∀ r' ∈ (specRules Time).take i, r'.violated p = false)
    (hv : r.violated p = true) :
    Validate p = some (r.message p) ∧
      (i < 7 → containsFold (r.message p) (fieldWords r.field) = true) ∧
      (i = 9 → r.message p = "invalid status: " ++ p.Status) ∧
      (∀ (j : Nat) (r' : Rule Time) (q : PRD Time), j ≠ i →
        (specRules Time)[j]? = some r' → r'.message q ≠ r.message p) := by
  have hi : i < 10 := by
    have := (List.getElem?_eq_some.mp hr).1
    simpa [specRules] using this
  have hdist : ∀ (j : Nat) (r' : Rule Time) (q : PRD Time), j ≠ i →
      (specRules Time)[j]? = some r' → r'.message q ≠ r.message p := by
    intro j r' q hji hr'
    have hj : j < 10 := by
      have := (List.getElem?_eq_some.mp hr').1
      simpa [specRules] using this
    interval_cases i <;> simp only [specRules, List.getElem?_cons_zero, List.getElem?_cons_succ,
        Option.some.injEq] at hr <;> subst hr <;>
      interval_cases j <;> simp only [specRules, List.getElem?_cons_zero,
        List.getElem?_cons_succ, Option.some.injEq] at hr' <;> subst hr' <;>
      first
        | exact absurd rfl hji
        | (dsimp only; exact status_message_ne _ _ (by decide))
        | (dsimp only; exact (status_message_ne _ _ (by decide)).symm)
        | (dsimp only; decide)
  refine ⟨?_, ?_, ?_, hdist⟩
  · rw [Validate_eq_firstViolation, firstViolation,
      find?_eq_of_first (fun r => r.violated p) _ i r hr hbefore hv]
    rfl
  · intro h7
    interval_cases i <;> simp only [specRules, List.getElem?_cons_zero,
      List.getElem?_cons_succ, Option.some.injEq] at hr <;> subst hr <;> dsimp only <;> decide
  · intro h9
    subst h9
    simp only [specRules, List.getElem?_cons_zero, List.getElem?_cons_succ,
      Option.some.injEq] at hr
    subst hr
    rfl

theorem Validate_error_names_rule_witness :
    Validate { minimalPRD with Owner := { minimalPRD.Owner with Email := "" },
                               Status := "bogus" } =
        some "owner email is required" ∧
      containsFold "owner email is required" (fieldWords "owner.email") = true :=
  have h := Validate_error_names_rule
    { minimalPRD with Owner := { minimalPRD.Owner with Email := "" }, Status := "bogus" }
    4 ⟨"owner.email", fun p => p.Owner.Email = "", fun _ => "owner email is required"⟩
    rfl (by decide) (by decide)
  ⟨h.1, h.2.1 (by decide)⟩

/-! ## String literals: what is written is read back -/

theorem isHex_hexDigit (n : Nat) : isHex (hexDigit n) = true := by
  unfold hexDigit
  have h : n % 16 < 16 := Nat.mod_lt _ (by decide)
  generalize n % 16 = m at h
  interval_cases m <;> decide

theorem hexVal_hexDigit (n : Nat) : hexVal (hexDigit n) = some (n % 16) := by
  unfold hexDigit
  have h : n % 16 < 16 := Nat.mod_lt _ (by decide)
  generalize n % 16 = m at h
  interval_cases m <;> decide

/-- Scanning the escape of one character consumes exactly that escape. -/
theorem scanString_quoteChar (c : Char) (t : List Char) :
    scanString .text (quoteChar c ++ t) =
      (scanString .text t).map (fun r => (quoteChar c ++ r.1, r.2)) := by
  unfold quoteChar
  split_ifs with h1 h2 h3 h4 h5 h6 h7 h8 h9
  · simp only [htmlSafe, Bool.and_eq_true, decide_eq_true_eq, bne_iff_ne, ne_eq] at h2
    obtain ⟨⟨⟨⟨⟨⟨hlo, _⟩, hq⟩, hb⟩, _⟩, _⟩, _⟩ := h2
    have hlo' : ¬ c.toNat < 32 := by omega
    simp [scanString, hq, hb, hlo']
  · rcases h3 with h3 | h3 <;> subst h3 <;> simp [scanString, isSimpleEscape] <;> rfl
  · simp [scanString, isSimpleEscape]; rfl
  · simp [scanString, isSimpleEscape]; rfl
  · simp [scanString, isSimpleEscape]; rfl
  · simp [scanString, isSimpleEscape]; rfl
  · simp [scanString, isSimpleEscape]; rfl
  · simp [scanString, isSimpleEscape, isHex_hexDigit, (by decide : isHex '0' = true),
      (by decide : isHex '2' = true)]
    rfl
  · simp [scanString, isSimpleEscape, isHex_hexDigit, (by decide : isHex '0' = true),
      (by decide : isHex '2' = true)]
    rfl
  · have hq : c ≠ '"' := by rintro rfl; exact h1 (by decide)
    have hb : c ≠ '\\' := by rintro rfl; exact h1 (by decide)
    have hlo' : ¬ c.toNat < 32 := by omega
    simp [scanString, hq, hb, hlo']

theorem validBody_quoteBody (s : List Char) : ValidBody (quoteBody s) := by
  intro rest
  induction s with
  | nil => simp [quoteBody, scanString]
  | cons c s ih =>
      rw [quoteBody, List.append_assoc, scanString_quoteChar, ih]
      rfl

/-- A text without quotes, backslashes and control characters is a valid
literal body. -/
theorem validBody_of_plain (l : List Char)
    (h : ∀ c ∈ l, c ≠ '"' ∧ c ≠ '\\' ∧ ¬ c.toNat < 0x20) : ValidBody l := by
  intro rest
  induction l with
  | nil => simp [scanString]
  | cons c l ih =>
      obtain ⟨hq, hb, hlo⟩ := h c (by simp)
      have := ih (fun x hx => h x (by simp [hx]))
      simp [scanString, hq, hb, hlo, this]

theorem isTimeChar_plain (c : Char) (h : isTimeChar c = true) :
    c ≠ '"' ∧ c ≠ '\\' ∧ ¬ c.toNat < 0x20 := by
  refine ⟨?_, ?_, ?_⟩
  · rintro rfl; exact absurd h (by decide)
  · rintro rfl; exact absurd h (by decide)
  · intro hlt
    simp only [isTimeChar, Bool.or_eq_true, decide_eq_true_eq] at h
    rcases h with (((((h | h) | h) | h) | h) | h) | h
    · simp only [Char.isDigit, Bool.and_eq_true, decide_eq_true_eq] at h
      have h48 : (48 : UInt32).toNat ≤ c.val.toNat := h.1
      have : c.toNat = c.val.toNat := rfl
      have h48' : (48 : UInt32).toNat = 48 := rfl
      omega
    all_goals (subst h; exact absurd hlt (by decide))

theorem getu4_eq (a b c d : Char) (t : List Char) (va vb vc vd : Nat)
    (ha : hexVal a = some va) (hb : hexVal b = some vb) (hc : hexVal c = some vc)
    (hd : hexVal d = some vd) :
    getu4 ('\\' :: 'u' :: a :: b :: c :: d :: t) = some (((va * 16 + vb) * 16 + vc) * 16 + vd) := by
  simp [getu4, ha, hb, hc, hd]

/-- Resolving the escape of one character gives the character back. -/
theorem unquoteAux_quoteChar (c : Char) (t : List Char) (f : Nat) :
    unquoteAux (f + 1) (quoteChar c ++ t) = (unquoteAux f t).map (fun r => c :: r) := by
  unfold quoteChar
  split_ifs with h1 h2 h3 h4 h5 h6 h7 h8 h9
  · simp only [htmlSafe, Bool.and_eq_true, decide_eq_true_eq, bne_iff_ne, ne_eq] at h2
    obtain ⟨⟨⟨⟨⟨⟨hlo, _⟩, hq⟩, hb⟩, _⟩, _⟩, _⟩ := h2
    have hlo' : ¬ c.toNat < 32 := by omega
    simp [unquoteAux, hq, hb, hlo']
  · rcases h3 with h3 | h3 <;> subst h3 <;> simp [unquoteAux, simpleEscape]
  · subst h4; simp [unquoteAux, simpleEscape]
  · subst h5; simp [unquoteAux, simpleEscape]
  · subst h6; simp [unquoteAux, simpleEscape]
  · subst h7; simp [unquoteAux, simpleEscape]
  · subst h8; simp [unquoteAux, simpleEscape]
  · have hg := getu4_eq '0' '0' (hexDigit (c.toNat / 16)) (hexDigit c.toNat) t 0 0
      (c.toNat / 16 % 16) (c.toNat % 16) (by decide) (by decide) (hexVal_hexDigit _)
      (hexVal_hexDigit _)
    have hv : ((0 * 16 + 0) * 16 + c.toNat / 16 % 16) * 16 + c.toNat % 16 = c.toNat := by omega
    rw [hv] at hg
    have hns : isSurrogate c.toNat = false := by
      simp only [isSurrogate, Bool.and_eq_false_iff, decide_eq_false_iff_not]
      left; omega
    simp [unquoteAux, hg, hns, Char.ofNat_toNat]
  · have hg := getu4_eq '2' '0' '2' (hexDigit c.toNat) t 2 0 2 (c.toNat % 16) (by decide)
      (by decide) (by decide) (hexVal_hexDigit _)
    have hv : ((2 * 16 + 0) * 16 + 2) * 16 + c.toNat % 16 = c.toNat := by
      rcases h9 with h9 | h9 <;> subst h9 <;> decide
    rw [hv] at hg
    have hns : isSurrogate c.toNat = false := by
      rcases h9 with h9 | h9 <;> subst h9 <;> decide
    simp [unquoteAux, hg, hns, Char.ofNat_toNat]
  · have hq : c ≠ '"' := by rintro rfl; exact h1 (by decide)
    have hb : c ≠ '\\' := by rintro rfl; exact h1 (by decide)
    have hlo' : ¬ c.toNat < 32 := by omega
    simp [unquoteAux, hq, hb, hlo']

theorem length_quoteBody (s : List Char) : s.length ≤ (quoteBody s).length := by
  induction s with
  | nil => simp [quoteBody]
  | cons c s ih =>
      have h : 1 ≤ (quoteChar c).length := by
        unfold quoteChar
        split_ifs <;> simp
      simp only [quoteBody, List.length_append, List.length_cons]
      omega

theorem unquoteAux_quoteBody (s : List Char) :
    ∀ f : Nat, s.length ≤ f → unquoteAux f (quoteBody s) = some s := by
  induction s with
  | nil => intro f _; cases f <;> simp [quoteBody, unquoteAux]
  | cons c s ih =>
      intro f hf
      obtain ⟨g, rfl⟩ : ∃ g, f = g + 1 := ⟨f - 1, by simp only [List.length_cons] at hf; omega⟩
      have h := unquoteAux_quoteChar c (quoteBody s ++ []) g
      rw [List.append_nil] at h
      rw [quoteBody, h, ih g (by simp only [List.length_cons] at hf; omega)]
      rfl

/-- The literal written for a string stands for that string. -/
theorem unquote_quoteBody (s : List Char) : unquote (quoteBody s) = some s :=
  unquoteAux_quoteBody s _ (length_quoteBody s)

/-! ## Reading back what was written -/

theorem skipSpace_idem (cs : List Char) : skipSpace (skipSpace cs) = skipSpace cs := by
  induction cs with
  | nil => rfl
  | cons c cs ih =>
      by_cases h : isSpace c = true
      · simp [skipSpace, h, ih]
      · simp [skipSpace, h]

theorem skipSpace_cons_of_not_space (c : Char) (cs : List Char) (h : isSpace c = false) :
    skipSpace (c :: cs) = c :: cs := by
  simp [skipSpace, h]

theorem skipSpace_replicate (n : Nat) (cs : List Char) :
    skipSpace (List.replicate n ' ' ++ cs) = skipSpace cs := by
  induction n with
  | zero => rfl
  | succ n ih =>
      rw [List.replicate_succ, List.cons_append, skipSpace]
      simpa [isSpace] using ih

theorem skipSpace_newline (d : Nat) (cs : List Char) :
    skipSpace (newline d ++ cs) = skipSpace cs := by
  rw [newline, List.cons_append, skipSpace]
  simpa [isSpace] using skipSpace_replicate (2 * d) cs

theorem parseValue_skipSpace (n depth : Nat) (cs : List Char) :
    parseValue n depth (skipSpace cs) = parseValue n depth cs := by
  cases n with
  | zero => simp [parseValue]
  | succ n => simp only [parseValue, skipSpace_idem]

theorem parseElems_skipSpace (n depth : Nat) (cs : List Char) :
    parseElems n depth (skipSpace cs) = parseElems n depth cs := by
  cases n with
  | zero => simp [parseElems]
  | succ n => simp only [parseElems, parseValue_skipSpace]

/-- The first character of the text of a clean value is no white space and
closes no array or object. -/
theorem render_head (d : Nat) (j : JSON) (hj : j.Clean) :
    ∃ c cs, render d j = c :: cs ∧ isSpace c = false ∧ c ≠ ']' ∧ c ≠ '}' := by
  cases j with
  | null => exact ⟨'n', _, by rw [render], by decide, by decide, by decide⟩
  | bool b =>
      cases b
      · exact ⟨'f', _, by rw [render], by decide, by decide, by decide⟩
      · exact ⟨'t', _, by rw [render], by decide, by decide, by decide⟩
  | num l => simp [JSON.Clean] at hj
  | str l => exact ⟨'"', _, by rw [render]; rfl, by decide, by decide, by decide⟩
  | arr xs =>
      cases xs with
      | nil => exact ⟨'[', _, by rw [render], by decide, by decide, by decide⟩
      | cons x xs =>
          exact ⟨'[', _, by rw [render]; rfl, by decide, by decide, by decide⟩
  | obj ms =>
      cases ms with
      | nil => exact ⟨'{', _, by rw [render], by decide, by decide, by decide⟩
      | cons m ms =>
          obtain ⟨k, v⟩ := m
          exact ⟨'{', _, by rw [render]; rfl, by decide, by decide, by decide⟩

theorem parse_render_aux (n : Nat) :
    (∀ (j : JSON) (depth d : Nat) (rest : List Char), j.Clean → j.size ≤ n →
        depth + j.height ≤ maxNestingDepth →
        parseValue n depth (render d j ++ rest) = some (j, rest)) ∧
    (∀ (x : JSON) (xs : List JSON) (depth d e : Nat) (rest : List Char),
        x.Clean → JSON.CleanElems xs → x.size + JSON.sizeElems xs + 1 ≤ n →
        depth + max x.height (JSON.heightElems xs) ≤ maxNestingDepth →
        parseElems n depth
            (render d x ++ (renderElems d xs ++ (newline e ++ ']' :: rest))) =
          some (x :: xs, rest)) ∧
    (∀ (k : List Char) (v : JSON) (ms : List (List Char × JSON)) (depth d e : Nat)
        (rest : List Char),
        ValidBody k → v.Clean → JSON.CleanMembers ms →
        v.size + JSON.sizeMembers ms + 1 ≤ n →
        depth + max v.height (JSON.heightMembers ms) ≤ maxNestingDepth →
        parseMembers n depth
            (memberHead k ++ (render d v ++ (renderMembers d ms ++ (newline e ++ '}' :: rest)))) =
          some ((k, v) :: ms, rest)) := by
  induction n with
  | zero =>
      refine ⟨?_, ?_, ?_⟩
      · intro j depth d rest _ hs _
        cases j <;> simp [JSON.size] at hs
      · intro x xs depth d e rest _ _ hs _
        omega
      · intro k v ms depth d e rest _ _ _ hs _
        omega
  | succ n ih =>
      obtain ⟨ihV, ihE, ihM⟩ := ih
      refine ⟨?_, ?_, ?_⟩
      · intro j depth d rest hc hs hh
        cases j with
        | null => simp [parseValue, render, skipSpace, isSpace, dropLiteral]
        | bool b => cases b <;> simp [parseValue, render, skipSpace, isSpace, dropLiteral]
        | num l => simp [JSON.Clean] at hc
        | str l =>
            simp only [JSON.Clean] at hc
            have := hc rest
            simp [parseValue, render, skipSpace, isSpace, this]
        | arr xs =>
            cases xs with
            | nil =>
                simp only [JSON.height, JSON.heightElems] at hh
                have hdepth : ¬ maxNestingDepth < depth + 1 := by omega
                simp [parseValue, render, skipSpace, isSpace, hdepth]
            | cons x xs =>
                simp only [JSON.Clean, JSON.CleanElems] at hc
                simp only [JSON.size, JSON.sizeElems] at hs
                simp only [JSON.height, JSON.heightElems] at hh
                obtain ⟨c, cs, hcs, hsp, hb, _⟩ := render_head (d + 1) x hc.1
                have hE := ihE x xs (depth + 1) (d + 1) d rest hc.1 hc.2 (by omega) (by omega)
                have hdepth : ¬ maxNestingDepth < depth + 1 := by omega
                have hsk : skipSpace (newline (d + 1) ++ (render (d + 1) x ++
                    (renderElems (d + 1) xs ++ (newline d ++ ']' :: rest)))) =
                    c :: (cs ++ (renderElems (d + 1) xs ++ (newline d ++ ']' :: rest))) := by
                  rw [skipSpace_newline, hcs, List.cons_append, skipSpace]
                  simp [hsp]
                rw [hcs, List.cons_append] at hE
                simp only [render, List.cons_append, List.append_assoc, List.nil_append,
                  parseValue, skipSpace_cons_of_not_space '[' _ (by decide), hsk]
                simp [hdepth, hb, hE]
        | obj ms =>
            cases ms with
            | nil =>
                simp only [JSON.height, JSON.heightMembers] at hh
                have hdepth : ¬ maxNestingDepth < depth + 1 := by omega
                simp [parseValue, render, skipSpace, isSpace, hdepth]
            | cons m ms =>
                obtain ⟨k, v⟩ := m
                simp only [JSON.Clean, JSON.CleanMembers] at hc
                simp only [JSON.size, JSON.sizeMembers] at hs
                simp only [JSON.height, JSON.heightMembers] at hh
                have hM := ihM k v ms (depth + 1) (d + 1) d rest hc.1 hc.2.1 hc.2.2
                  (by omega) (by omega)
                have hdepth : ¬ maxNestingDepth < depth + 1 := by omega
                have hsk : skipSpace (newline (d + 1) ++ (memberHead k ++ (render (d + 1) v ++
                    (renderMembers (d + 1) ms ++ (newline d ++ '}' :: rest))))) =
                    '"' :: (k ++ '"' :: ':' :: ' ' :: (render (d + 1) v ++
                      (renderMembers (d + 1) ms ++ (newline d ++ '}' :: rest)))) := by
                  rw [skipSpace_newline]
                  simp only [memberHead, List.cons_append, List.append_assoc, List.nil_append]
                  exact skipSpace_cons_of_not_space _ _ (by decide)
                simp only [memberHead, List.cons_append, List.append_assoc,
                  List.nil_append] at hM
                simp only [render, List.cons_append, List.append_assoc, List.nil_append,
                  parseValue, skipSpace_cons_of_not_space '{' _ (by decide), hsk]
                simp [hdepth, hM]
      · intro x xs depth d e rest hx hxs hs hh
        have hV := ihV x depth d (renderElems d xs ++ (newline e ++ ']' :: rest)) hx
          (by omega) (by have := le_max_left x.height (JSON.heightElems xs); omega)
        rw [parseElems, hV]
        cases xs with
        | nil =>
            have hsk : skipSpace (renderElems d [] ++ (newline e ++ ']' :: rest)) =
                ']' :: rest := by
              rw [renderElems, List.nil_append, skipSpace_newline]
              exact skipSpace_cons_of_not_space _ _ (by decide)
            simp [hsk]
        | cons y ys =>
            simp only [JSON.CleanElems] at hxs
            simp only [JSON.sizeElems] at hs
            simp only [JSON.heightElems] at hh
            have hE := ihE y ys depth d e rest hxs.1 hxs.2 (by omega)
              (by
                have := le_max_right x.height (max y.height (JSON.heightElems ys))
                omega)
            have hsk : skipSpace (renderElems d (y :: ys) ++ (newline e ++ ']' :: rest)) =
                ',' :: (newline d ++ (render d y ++ (renderElems d ys ++
                  (newline e ++ ']' :: rest)))) := by
              rw [renderElems]
              simp only [List.cons_append, List.append_assoc]
              exact skipSpace_cons_of_not_space _ _ (by decide)
            have hE2 : parseElems n depth (newline d ++ (render d y ++ (renderElems d ys ++
                (newline e ++ ']' :: rest)))) = some (y :: ys, rest) := by
              rw [← parseElems_skipSpace, skipSpace_newline, parseElems_skipSpace, hE]
            simp [hsk, hE2]
      · intro k v ms depth d e rest hk hv hms hs hh
        have hV := ihV v depth d (renderMembers d ms ++ (newline e ++ '}' :: rest)) hv
          (by omega) (by have := le_max_left v.height (JSON.heightMembers ms); omega)
        have hV2 : parseValue n depth (' ' :: (render d v ++ (renderMembers d ms ++
            (newline e ++ '}' :: rest)))) =
            some (v, renderMembers d ms ++ (newline e ++ '}' :: rest)) := by
          rw [← parseValue_skipSpace, skipSpace]
          simp only [isSpace, decide_True, Bool.true_or, if_true]
          rw [parseValue_skipSpace, hV]
        have hscan := hk (':' :: ' ' :: (render d v ++ (renderMembers d ms ++
            (newline e ++ '}' :: rest))))
        simp only [memberHead, List.cons_append, List.append_assoc, List.nil_append,
          parseMembers, hscan, skipSpace_cons_of_not_space ':' _ (by decide), hV2]
        cases ms with
        | nil =>
            have hsk : skipSpace (renderMembers d [] ++ (newline e ++ '}' :: rest)) =
                '}' :: rest := by
              rw [renderMembers, List.nil_append, skipSpace_newline]
              exact skipSpace_cons_of_not_space _ _ (by decide)
            simp [hsk]
        | cons m ms =>
            obtain ⟨k1, v1⟩ := m
            simp only [JSON.CleanMembers] at hms
            simp only [JSON.sizeMembers] at hs
            simp only [JSON.heightMembers] at hh
            have hM := ihM k1 v1 ms depth d e rest hms.1 hms.2.1 hms.2.2 (by omega)
              (by
                have := le_max_right v.height (max v1.height (JSON.heightMembers ms))
                omega)
            have hsk : skipSpace (renderMembers d ((k1, v1) :: ms) ++
                (newline e ++ '}' :: rest)) =
                ',' :: (newline d ++ (memberHead k1 ++ (render d v1 ++ (renderMembers d ms ++
                  (newline e ++ '}' :: rest))))) := by
              rw [renderMembers]
              simp only [List.cons_append, List.append_assoc]
              exact skipSpace_cons_of_not_space _ _ (by decide)
            have hsk2 : skipSpace (newline d ++ (memberHead k1 ++ (render d v1 ++
                (renderMembers d ms ++ (newline e ++ '}' :: rest))))) =
                memberHead k1 ++ (render d v1 ++ (renderMembers d ms ++
                  (newline e ++ '}' :: rest))) := by
              rw [skipSpace_newline]
              simp only [memberHead, List.cons_append]
              exact skipSpace_cons_of_not_space _ _ (by decide)
            simp [hsk, hsk2, hM]

mutual
theorem size_le_render : ∀ (j : JSON) (d : Nat), j.Clean → j.size ≤ (render d j).length
  | .null, d, _ => by simp [JSON.size, render]
  | .bool true, d, _ => by simp [JSON.size, render]
  | .bool false, d, _ => by simp [JSON.size, render]
  | .num l, d, h => by simp [JSON.Clean] at h
  | .str l, d, _ => by simp [JSON.size, render]
  | .arr [], d, _ => by simp [JSON.size, JSON.sizeElems, render]
  | .arr (x :: xs), d, h => by
      simp only [JSON.Clean, JSON.CleanElems] at h
      have h1 := size_le_render x (d + 1) h.1
      have h2 := sizeElems_le_render xs (d + 1) h.2
      simp only [JSON.size, JSON.sizeElems, render, List.length_append, List.length_cons,
        List.length_nil]
      omega
  | .obj [], d, _ => by simp [JSON.size, JSON.sizeMembers, render]
  | .obj ((k, v) :: ms), d, h => by
      simp only [JSON.Clean, JSON.CleanMembers] at h
      have h1 := size_le_render v (d + 1) h.2.1
      have h2 := sizeMembers_le_render ms (d + 1) h.2.2
      simp only [JSON.size, JSON.sizeMembers, render, List.length_append, List.length_cons,
        List.length_nil]
      omega
theorem sizeElems_le_render : ∀ (xs : List JSON) (d : Nat), JSON.CleanElems xs →
    JSON.sizeElems xs ≤ (renderElems d xs).length
  | [], d, _ => by simp [JSON.sizeElems]
  | x :: xs, d, h => by
      simp only [JSON.CleanElems] at h
      have h1 := size_le_render x d h.1
      have h2 := sizeElems_le_render xs d h.2
      simp only [JSON.sizeElems, renderElems, List.length_append, List.length_cons]
      omega
theorem sizeMembers_le_render : ∀ (ms : List (List Char × JSON)) (d : Nat),
    JSON.CleanMembers ms → JSON.sizeMembers ms ≤ (renderMembers d ms).length
  | [], d, _ => by simp [JSON.sizeMembers]
  | (k, v) :: ms, d, h => by
      simp only [JSON.CleanMembers] at h
      have h1 := size_le_render v d h.2.1
      have h2 := sizeMembers_le_render ms d h.2.2
      simp only [JSON.sizeMembers, renderMembers, List.length_append, List.length_cons]
      omega
end

/-- The text written for a clean value of admissible depth is read back as that
value. -/
theorem parseJSON_render (j : JSON) (hc : j.Clean) (hh : j.height ≤ maxNestingDepth) :
    parseJSON (render 0 j) = some j := by
  have h := (parse_render_aux ((render 0 j).length + 1)).1 j 0 0 [] hc
    (by have := size_le_render j 0 hc; omega) (by omega)
  rw [List.append_nil] at h
  simp [parseJSON, h, skipSpace]

/-! ## Struct values: decoding what was written -/

theorem find?_name {S : Type} (g : StructField S) :
    ∀ (l : List (StructField S)), g ∈ l → (l.map (fun f => f.name)).Nodup →
      l.find? (fun f => f.name.data = g.name.data) = some g := by
  intro l
  induction l with
  | nil => intro h; simp at h
  | cons a l ih =>
      intro hg hn
      simp only [List.map_cons, List.nodup_cons, List.mem_map, not_exists, not_and] at hn
      by_cases ha : a.name = g.name
      · have hag : a = g := by
          rcases List.mem_cons.mp hg with h | h
          · exact h.symm
          · exact absurd ha.symm (hn.1 g h)
        subst hag
        simp [List.find?]
      · have hg' : g ∈ l := by
          rcases List.mem_cons.mp hg with h | h
          · exact absurd (h ▸ rfl) ha
          · exact h
        have hd : ¬ a.name.data = g.name.data := fun h => ha (String.ext h)
        simp only [List.find?, hd, decide_False]
        exact ih hg' hn.2

theorem findField_name {S : Type} (fs : List (StructField S)) (g : StructField S)
    (hg : g ∈ fs) (hn : (fs.map (fun f => f.name)).Nodup) :
    findField fs g.name.data = some g := by
  simp [findField, find?_name g fs hg hn]

theorem decodeMembers_suffix {S : Type} {zero : S} {fs : List (StructField S)}
    (laws : LawfulFields zero fs) (hreads : ∀ f ∈ fs, f.codec.Reads) (x : S) :
    ∀ (gs ps : List (StructField S)) (cur : S) (ms : List (List Char × JSON)),
      ps ++ gs = fs → (∀ f ∈ ps, f.DecodedAs x (f.get cur)) →
      (∀ f ∈ gs, f.get cur = f.codec.zero) → encodeFields gs x = .ok ms →
      ∃ y, decodeMembers fs cur ms = .ok y ∧ ∀ f ∈ fs, f.DecodedAs x (f.get y) := by
  intro gs
  induction gs with
  | nil =>
      intro ps cur ms hfs hps _ henc
      simp only [encodeFields, Except.ok.injEq] at henc
      subst henc
      rw [List.append_nil] at hfs
      subst hfs
      exact ⟨cur, rfl, hps⟩
  | cons g gs ih =>
      intro ps cur ms hfs hps hgs henc
      have hgfs : g ∈ fs := by rw [← hfs]; simp
      have hnd := laws.names_nodup
      rw [← hfs, List.map_append, List.map_cons, List.nodup_append] at hnd
      obtain ⟨_, hnd2, hdisj⟩ := hnd
      have hne_ps : ∀ f ∈ ps, f.name ≠ g.name := by
        intro f hf he
        exact hdisj (List.mem_map_of_mem _ hf) (by rw [he]; simp)
      have hne_gs : ∀ f ∈ gs, f.name ≠ g.name := by
        intro f hf he
        rw [List.nodup_cons] at hnd2
        exact hnd2.1 (by rw [← he]; exact List.mem_map_of_mem _ hf)
      have hmem_ps : ∀ f ∈ ps, f ∈ fs := by intro f hf; rw [← hfs]; simp [hf]
      have hmem_gs : ∀ f ∈ gs, f ∈ fs := by intro f hf; rw [← hfs]; simp [hf]
      have hfs' : (ps ++ [g]) ++ gs = fs := by rw [← hfs]; simp
      simp only [encodeFields] at henc
      cases hm : encodeField g x with
      | error e => simp [hm] at henc
      | ok m =>
          cases hms : encodeFields gs x with
          | error e => simp [hm, hms] at henc
          | ok ms1 =>
              simp only [hm, hms, Except.ok.injEq] at henc
              subst henc
              by_cases hom : g.omitted x = true
              · have hm' : m = none := by
                  simp only [encodeField] at hm
                  simp only [StructField.omitted] at hom
                  simpa [hom] using hm.symm
                subst hm'
                refine ih (ps ++ [g]) cur ms1 hfs' ?_ (fun f hf => hgs f (by simp [hf])) hms
                intro f hf
                rcases List.mem_append.mp hf with hf | hf
                · exact hps f hf
                · simp only [List.mem_singleton] at hf
                  subst hf
                  simp only [StructField.DecodedAs, hom, if_true]
                  exact hgs f (by simp)
              · obtain ⟨j, hj, hm'⟩ : ∃ j, g.codec.enc (g.get x) = .ok j ∧
                    m = some (quoteBody g.name.data, j) := by
                  simp only [encodeField] at hm
                  simp only [StructField.omitted] at hom
                  simp only [hom] at hm
                  cases he : g.codec.enc (g.get x) with
                  | error e => simp [he] at hm
                  | ok j => exact ⟨j, rfl, by simpa [he] using hm.symm⟩
                subst hm'
                obtain ⟨v, hv⟩ := hreads g hgfs (g.get x) j hj
                have hstep : decodeMember fs cur (quoteBody g.name.data, j) =
                    .ok (g.set cur v) := by
                  simp only [decodeMember, unquote_quoteBody,
                    findField_name fs g hgfs laws.names_nodup, hgs g (by simp), hv]
                simp only [Option.toList, List.cons_append, List.nil_append, decodeMembers,
                  hstep]
                refine ih (ps ++ [g]) (g.set cur v) ms1 hfs' ?_ ?_ hms
                · intro f hf
                  rcases List.mem_append.mp hf with hf | hf
                  · rw [laws.get_set_other f (hmem_ps f hf) g hgfs (hne_ps f hf)]
                    exact hps f hf
                  · simp only [List.mem_singleton] at hf
                    subst hf
                    rw [laws.get_set f hgfs]
                    simp only [StructField.DecodedAs, hom]
                    exact ⟨j, hj, hv⟩
                · intro f hf
                  rw [laws.get_set_other f (hmem_gs f hf) g hgfs (hne_gs f hf)]
                  exact hgs f (by simp [hf])

/-- Decoding the members written for a struct value into the zero value
succeeds, and gives every field what `DecodedAs` says. -/
theorem decodeMembers_encodeFields {S : Type} {zero : S} {fs : List (StructField S)}
    (laws : LawfulFields zero fs) (hreads : ∀ f ∈ fs, f.codec.Reads) (x : S)
    (ms : List (List Char × JSON)) (h : encodeFields fs x = .ok ms) :
    ∃ y, decodeMembers fs zero ms = .ok y ∧ ∀ f ∈ fs, f.DecodedAs x (f.get y) :=
  decodeMembers_suffix laws hreads x fs [] zero ms rfl (fun _ h => by simp at h)
    (fun f hf => laws.get_zero f hf) h

/-! ## The codecs of strings, slices, pointers and times -/

theorem stringCodec_cleanEnc (h : Nat) : stringCodec.CleanEnc h := by
  intro x j hj
  simp only [stringCodec, Except.ok.injEq] at hj
  subst hj
  exact ⟨validBody_quoteBody _, Nat.zero_le _⟩

theorem stringCodec_nonNull : stringCodec.NonNull := by
  intro x j hj
  simp only [stringCodec, Except.ok.injEq] at hj
  subst hj
  exact fun h => JSON.noConfusion h

theorem stringCodec_stable (s : String) : stringCodec.Stable s := by
  intro j hj
  simp only [stringCodec, Except.ok.injEq] at hj
  subst hj
  simp [stringCodec, unquote_quoteBody]

theorem stringCodec_reads : stringCodec.Reads :=
  fun x j hj => ⟨x, stringCodec_stable x j hj⟩

theorem encodeElems_clean {α : Type} (c : Codec α) (h : Nat) (hc : c.CleanEnc h) :
    ∀ (l : List α) (js : List JSON), encodeElems c l = .ok js →
      JSON.CleanElems js ∧ JSON.heightElems js ≤ h := by
  intro l
  induction l with
  | nil =>
      intro js hjs
      simp only [encodeElems, Except.ok.injEq] at hjs
      subst hjs
      exact ⟨trivial, Nat.zero_le _⟩
  | cons x l ih =>
      intro js hjs
      simp only [encodeElems] at hjs
      cases hx : c.enc x with
      | error e => simp [hx] at hjs
      | ok j =>
          cases hl : encodeElems c l with
          | error e => simp [hx, hl] at hjs
          | ok js1 =>
              simp only [hx, hl, Except.ok.injEq] at hjs
              subst hjs
              obtain ⟨h1, h2⟩ := hc x j hx
              obtain ⟨h3, h4⟩ := ih js1 hl
              exact ⟨⟨h1, h3⟩, by simp only [JSON.heightElems]; exact max_le h2 h4⟩

theorem sliceCodec_cleanEnc {α : Type} (c : Codec α) (h : Nat) (hc : c.CleanEnc h) :
    (sliceCodec c).CleanEnc (h + 1) := by
  intro xs j hj
  cases xs with
  | none =>
      simp only [sliceCodec, Except.ok.injEq] at hj
      subst hj
      exact ⟨trivial, Nat.zero_le _⟩
  | some l =>
      simp only [sliceCodec] at hj
      cases hl : encodeElems c l with
      | error e => simp [hl] at hj
      | ok js =>
          simp only [hl, Except.ok.injEq] at hj
          subst hj
          obtain ⟨h1, h2⟩ := encodeElems_clean c h hc l js hl
          exact ⟨h1, by simp only [JSON.height]; omega⟩

theorem decodeElems_reads {α : Type} (c : Codec α) (hc : c.Reads) :
    ∀ (l : List α) (js : List JSON), encodeElems c l = .ok js →
      ∃ ys, decodeElems c [] js = .ok ys := by
  intro l
  induction l with
  | nil =>
      intro js hjs
      simp only [encodeElems, Except.ok.injEq] at hjs
      subst hjs
      exact ⟨[], rfl⟩
  | cons x l ih =>
      intro js hjs
      simp only [encodeElems] at hjs
      cases hx : c.enc x with
      | error e => simp [hx] at hjs
      | ok j =>
          cases hl : encodeElems c l with
          | error e => simp [hx, hl] at hjs
          | ok js1 =>
              simp only [hx, hl, Except.ok.injEq] at hjs
              subst hjs
              obtain ⟨y, hy⟩ := hc x j hx
              obtain ⟨ys, hys⟩ := ih js1 hl
              exact ⟨y :: ys, by simp [decodeElems, hy, hys]⟩

theorem sliceCodec_reads {α : Type} (c : Codec α) (hc : c.Reads) : (sliceCodec c).Reads := by
  intro xs j hj
  cases xs with
  | none =>
      simp only [sliceCodec, Except.ok.injEq] at hj
      subst hj
      exact ⟨none, rfl⟩
  | some l =>
      simp only [sliceCodec] at hj
      cases hl : encodeElems c l with
      | error e => simp [hl] at hj
      | ok js =>
          simp only [hl, Except.ok.injEq] at hj
          subst hj
          obtain ⟨ys, hys⟩ := decodeElems_reads c hc l js hl
          exact ⟨some ys, by simp [sliceCodec, hys]⟩

theorem decodeElems_stable {α : Type} (c : Codec α) :
    ∀ (l : List α) (js : List JSON), (∀ x ∈ l, c.Stable x) → encodeElems c l = .ok js →
      decodeElems c [] js = .ok l := by
  intro l
  induction l with
  | nil =>
      intro js _ hjs
      simp only [encodeElems, Except.ok.injEq] at hjs
      subst hjs
      rfl
  | cons x l ih =>
      intro js hst hjs
      simp only [encodeElems] at hjs
      cases hx : c.enc x with
      | error e => simp [hx] at hjs
      | ok j =>
          cases hl : encodeElems c l with
          | error e => simp [hx, hl] at hjs
          | ok js1 =>
              simp only [hx, hl, Except.ok.injEq] at hjs
              subst hjs
              have hy := hst x (by simp) j hx
              have hys := ih js1 (fun y hy => hst y (by simp [hy])) hl
              simp [decodeElems, hy, hys]

/-- A slice is read back as it is when its elements are: nil as nil, and a
non-nil slice as a non-nil slice of the same length. -/
theorem sliceCodec_stable {α : Type} (c : Codec α) (xs : Option (List α))
    (h : ∀ l, xs = some l → ∀ x ∈ l, c.Stable x) : (sliceCodec c).Stable xs := by
  intro j hj
  cases xs with
  | none =>
      simp only [sliceCodec, Except.ok.injEq] at hj
      subst hj
      rfl
  | some l =>
      simp only [sliceCodec] at hj
      cases hl : encodeElems c l with
      | error e => simp [hl] at hj
      | ok js =>
          simp only [hl, Except.ok.injEq] at hj
          subst hj
          have := decodeElems_stable c l js (h l rfl) hl
          simp [sliceCodec, this]

theorem ptrCodec_cleanEnc {α : Type} (c : Codec α) (h : Nat) (hc : c.CleanEnc h) :
    (ptrCodec c).CleanEnc h := by
  intro p j hj
  cases p with
  | none =>
      simp only [ptrCodec, Except.ok.injEq] at hj
      subst hj
      exact ⟨trivial, Nat.zero_le _⟩
  | some x => exact hc x j hj

theorem ptrCodec_reads {α : Type} (c : Codec α) (hc : c.Reads) : (ptrCodec c).Reads := by
  intro p j hj
  cases p with
  | none =>
      simp only [ptrCodec, Except.ok.injEq] at hj
      subst hj
      exact ⟨none, rfl⟩
  | some x =>
      obtain ⟨y, hy⟩ := hc x j hj
      cases j with
      | null => exact ⟨none, rfl⟩
      | _ => exact ⟨some y, by simp only [ptrCodec] at hy ⊢; simp [hy]⟩

/-- A pointer is read back as it is when its pointee is: nil as nil, and a
pointer to a value as a pointer to that value. -/
theorem ptrCodec_stable {α : Type} (c : Codec α) (hn : c.NonNull) (p : Option α)
    (h : ∀ x, p = some x → c.Stable x) : (ptrCodec c).Stable p := by
  intro j hj
  cases p with
  | none =>
      simp only [ptrCodec, Except.ok.injEq] at hj
      subst hj
      rfl
  | some x =>
      have hx := h x rfl j hj
      have hnn := hn x j hj
      cases j with
      | null => exact absurd rfl hnn
      | _ => simp only [ptrCodec] at hx ⊢; simp [hx]

theorem timePtrCodec_cleanEnc {Time : Type} (tc : TimeCodec Time) (h : Nat) :
    (timePtrCodec tc).CleanEnc h := by
  intro p j hj
  cases p with
  | none =>
      simp only [timePtrCodec, Except.ok.injEq] at hj
      subst hj
      exact ⟨trivial, Nat.zero_le _⟩
  | some t =>
      simp only [timePtrCodec] at hj
      cases hs : tc.MarshalJSON t with
      | error e => simp [hs] at hj
      | ok s =>
          simp only [hs, Except.ok.injEq] at hj
          subst hj
          exact ⟨validBody_of_plain _
            (fun c hc => isTimeChar_plain c (tc.marshal_chars t s hs c hc)), Nat.zero_le _⟩

theorem timePtrCodec_reads {Time : Type} (tc : TimeCodec Time) : (timePtrCodec tc).Reads := by
  intro p j hj
  cases p with
  | none =>
      simp only [timePtrCodec, Except.ok.injEq] at hj
      subst hj
      exact ⟨none, rfl⟩
  | some t =>
      simp only [timePtrCodec] at hj
      cases hs : tc.MarshalJSON t with
      | error e => simp [hs] at hj
      | ok s =>
          simp only [hs, Except.ok.injEq] at hj
          subst hj
          obtain ⟨t1, ht1⟩ := tc.marshal_read t s hs
          exact ⟨some t1, by simp [timePtrCodec, ht1]⟩

/-- A timestamp is read back as it is when `UnmarshalJSON` gives it back from
the text `MarshalJSON` writes for it. -/
theorem timePtrCodec_stable {Time : Type} (tc : TimeCodec Time) (p : Option Time)
    (h : ∀ t s, p = some t → tc.MarshalJSON t = .ok s → tc.UnmarshalJSON s = .ok t) :
    (timePtrCodec tc).Stable p := by
  intro j hj
  cases p with
  | none =>
      simp only [timePtrCodec, Except.ok.injEq] at hj
      subst hj
      rfl
  | some t =>
      simp only [timePtrCodec] at hj
      cases hs : tc.MarshalJSON t with
      | error e => simp [hs] at hj
      | ok s =>
          simp only [hs, Except.ok.injEq] at hj
          subst hj
          have := h t s rfl hs
          simp [timePtrCodec, this]

/-! ## The codec of a struct type -/

theorem encodeFields_clean {S : Type} (h : Nat) (x : S) :
    ∀ (fs : List (StructField S)), (∀ f ∈ fs, f.codec.CleanEnc h) →
      ∀ ms, encodeFields fs x = .ok ms → JSON.CleanMembers ms ∧ JSON.heightMembers ms ≤ h := by
  intro fs
  induction fs with
  | nil =>
      intro _ ms hms
      simp only [encodeFields, Except.ok.injEq] at hms
      subst hms
      exact ⟨trivial, Nat.zero_le _⟩
  | cons f fs ih =>
      intro hc ms hms
      simp only [encodeFields] at hms
      cases hm : encodeField f x with
      | error e => simp [hm] at hms
      | ok m =>
          cases hl : encodeFields fs x with
          | error e => simp [hm, hl] at hms
          | ok ms1 =>
              simp only [hm, hl, Except.ok.injEq] at hms
              subst hms
              obtain ⟨h3, h4⟩ := ih (fun g hg => hc g (by simp [hg])) ms1 hl
              cases m with
              | none => exact ⟨h3, h4⟩
              | some kv =>
                  simp only [encodeField] at hm
                  split at hm
                  · simp at hm
                  · cases he : f.codec.enc (f.get x) with
                    | error e => simp [he] at hm
                    | ok j =>
                        simp only [he, Except.ok.injEq, Option.some.injEq] at hm
                        subst hm
                        obtain ⟨h1, h2⟩ := hc f (by simp) (f.get x) j he
                        exact ⟨⟨validBody_quoteBody _, h1, h3⟩,
                          by simp only [Option.toList, List.cons_append, List.nil_append,
                               JSON.heightMembers]; exact max_le h2 h4⟩

theorem structCodec_cleanEnc {S : Type} (goType : String) (zero : S)
    (fs : List (StructField S)) (h : Nat) (hc : ∀ f ∈ fs, f.codec.CleanEnc h) :
    (structCodec goType zero fs).CleanEnc (h + 1) := by
  intro x j hj
  simp only [structCodec] at hj
  cases hl : encodeFields fs x with
  | error e => simp [hl] at hj
  | ok ms =>
      simp only [hl, Except.ok.injEq] at hj
      subst hj
      obtain ⟨h1, h2⟩ := encodeFields_clean h x fs hc ms hl
      exact ⟨h1, by simp only [JSON.height]; omega⟩

theorem structCodec_nonNull {S : Type} (goType : String) (zero : S)
    (fs : List (StructField S)) : (structCodec goType zero fs).NonNull := by
  intro x j hj
  simp only [structCodec] at hj
  cases hl : encodeFields fs x with
  | error e => simp [hl] at hj
  | ok ms =>
      simp only [hl, Except.ok.injEq] at hj
      subst hj
      exact fun h => JSON.noConfusion h

/-- Decoding what is written for a struct value succeeds and gives every field
what `DecodedAs` says. -/
theorem structCodec_decodes {S : Type} (goType : String) {zero : S}
    {fs : List (StructField S)} (laws : LawfulFields zero fs)
    (hreads : ∀ f ∈ fs, f.codec.Reads) (x : S) (j : JSON)
    (hj : (structCodec goType zero fs).enc x = .ok j) :
    ∃ y, (structCodec goType zero fs).dec zero j = .ok y ∧
      ∀ f ∈ fs, f.DecodedAs x (f.get y) := by
  simp only [structCodec] at hj
  cases hl : encodeFields fs x with
  | error e => simp [hl] at hj
  | ok ms =>
      simp only [hl, Except.ok.injEq] at hj
      subst hj
      exact decodeMembers_encodeFields laws hreads x ms hl

theorem structCodec_reads {S : Type} (goType : String) {zero : S}
    {fs : List (StructField S)} (laws : LawfulFields zero fs)
    (hreads : ∀ f ∈ fs, f.codec.Reads) : (structCodec goType zero fs).Reads := by
  intro x j hj
  obtain ⟨y, hy, _⟩ := structCodec_decodes goType laws hreads x j hj
  exact ⟨y, hy⟩

/-- A struct value is read back as it is when every field that is left out
holds its zero value and every other field is read back as it is. -/
theorem structCodec_stable {S : Type} (goType : String) {zero : S}
    {fs : List (StructField S)} (laws : LawfulFields zero fs)
    (hreads : ∀ f ∈ fs, f.codec.Reads) (x : S)
    (h : ∀ f ∈ fs, (f.omitted x = true → f.get x = f.codec.zero) ∧
      (f.omitted x = false → f.codec.Stable (f.get x))) :
    (structCodec goType zero fs).Stable x := by
  intro j hj
  obtain ⟨y, hy, hf⟩ := structCodec_decodes goType laws hreads x j hj
  have hyx : y = x := by
    apply laws.ext
    intro f hfm
    have hd := hf f hfm
    simp only [StructField.DecodedAs] at hd
    by_cases hom : f.omitted x = true
    · rw [if_pos hom] at hd
      rw [hd, (h f hfm).1 hom]
    · rw [if_neg hom] at hd
      obtain ⟨j1, hj1, hv⟩ := hd
      have := (h f hfm).2 (by simpa using hom) j1 hj1
      rw [this] at hv
      exact (Except.ok.inj hv).symm
  rw [← hyx]
  exact hy

theorem Codec.CleanEnc.mono {β : Type} {c : Codec β} {h k : Nat} (hc : c.CleanEnc h)
    (hk : h ≤ k) : c.CleanEnc k :=
  fun x j hj => ⟨(hc x j hj).1, Nat.le_trans (hc x j hj).2 hk⟩

theorem field_stable_required {S : Type} (f : StructField S) (x : S)
    (h1 : f.omitempty = false) (h2 : f.codec.Stable (f.get x)) :
    (f.omitted x = true → f.get x = f.codec.zero) ∧
      (f.omitted x = false → f.codec.Stable (f.get x)) :=
  ⟨fun h => by simp [StructField.omitted, h1] at h, fun _ => h2⟩

theorem field_stable_omitempty {S : Type} (f : StructField S) (x : S)
    (h1 : f.codec.isEmpty (f.get x) = true → f.get x = f.codec.zero)
    (h2 : f.codec.Stable (f.get x)) :
    (f.omitted x = true → f.get x = f.codec.zero) ∧
      (f.omitted x = false → f.codec.Stable (f.get x)) :=
  ⟨fun h => h1 (by simp only [StructField.omitted, Bool.and_eq_true] at h; exact h.2),
   fun _ => h2⟩

theorem slice_isEmpty_zero {α : Type} (c : Codec α) (xs : Option (List α))
    (h : xs ≠ some []) : (sliceCodec c).isEmpty xs = true → xs = (sliceCodec c).zero := by
  intro he
  cases xs with
  | none => rfl
  | some l =>
      cases l with
      | nil => exact absurd rfl h
      | cons a l => simp [sliceCodec, len] at he

/-! ## The tables of prd.go are lawful -/

theorem ownerFields_lawful : LawfulFields zeroOwner ownerFields where
  names_nodup := by
    simp only [ownerFields, List.map_cons, List.map_nil]
    decide
  get_set := by
    intro f hf
    simp only [ownerFields, List.mem_cons, List.mem_singleton, List.not_mem_nil, or_false] at hf
    rcases hf with rfl | rfl | rfl <;> intro s v <;> rfl
  get_set_other := by
    intro f hf g hg hne
    simp only [ownerFields, List.mem_cons, List.mem_singleton, List.not_mem_nil, or_false] at hf hg
    rcases hf with rfl | rfl | rfl <;> rcases hg with rfl | rfl | rfl <;>
      first
        | exact absurd rfl hne
        | (intro s v; rfl)
  get_zero := by
    intro f hf
    simp only [ownerFields, List.mem_cons, List.mem_singleton, List.not_mem_nil, or_false] at hf
    rcases hf with rfl | rfl | rfl <;> rfl
  ext := by
    intro s t h
    cases s
    cases t
    simp only [ownerFields, List.forall_mem_cons, List.not_mem_nil, false_implies,
      implies_true, and_true] at h
    simp only [Owner.mk.injEq]
    exact ⟨h.1, h.2.1, h.2.2⟩

theorem ownerCodec_cleanEnc : ownerCodec.CleanEnc 1 :=
  structCodec_cleanEnc _ _ _ 0 (by
    intro f hf
    simp only [ownerFields, List.mem_cons, List.mem_singleton, List.not_mem_nil, or_false] at hf
    rcases hf with rfl | rfl | rfl
    exacts [stringCodec_cleanEnc _,
      stringCodec_cleanEnc _,
      stringCodec_cleanEnc _])

theorem ownerFields_reads : ∀ f ∈ ownerFields, f.codec.Reads := by
  intro f hf
  simp only [ownerFields, List.mem_cons, List.mem_singleton, List.not_mem_nil, or_false] at hf
  rcases hf with rfl | rfl | rfl
  exacts [stringCodec_reads,
      stringCodec_reads,
      stringCodec_reads]

theorem ownerCodec_reads : ownerCodec.Reads :=
  structCodec_reads _ (ownerFields_lawful) (ownerFields_reads)

theorem stakeholderFields_lawful : LawfulFields zeroStakeholder stakeholderFields where
  names_nodup := by
    simp only [stakeholderFields, List.map_cons, List.map_nil]
    decide
  get_set := by
    intro f hf
    simp only [stakeholderFields, List.mem_cons, List.mem_singleton, List.not_mem_nil, or_false] at hf
    rcases hf with rfl | rfl | rfl | rfl <;> intro s v <;> rfl
  get_set_other := by
    intro f hf g hg hne
    simp only [stakeholderFields, List.mem_cons, List.mem_singleton, List.not_mem_nil, or_false] at hf hg
    rcases hf with rfl | rfl | rfl | rfl <;> rcases hg with rfl | rfl | rfl | rfl <;>
      first
        | exact absurd rfl hne
        | (intro s v; rfl)
  get_zero := by
    intro f hf
    simp only [stakeholderFields, List.mem_cons, List.mem_singleton, List.not_mem_nil, or_false] at hf
    rcases hf with rfl | rfl | rfl | rfl <;> rfl
  ext := by
    intro s t h
    cases s
    cases t
    simp only [stakeholderFields, List.forall_mem_cons, List.not_mem_nil, false_implies,
      implies_true, and_true] at h
    simp only [Stakeholder.mk.injEq]
    exact ⟨h.1, h.2.1, h.2.2.1, h.2.2.2⟩

theorem stakeholderCodec_cleanEnc : stakeholderCodec.CleanEnc 1 :=
  structCodec_cleanEnc _ _ _ 0 (by
    intro f hf
    simp only [stakeholderFields, List.mem_cons, List.mem_singleton, List.not_mem_nil, or_false] at hf
    rcases hf with rfl | rfl | rfl | rfl
    exacts [stringCodec_cleanEnc _,
      stringCodec_cleanEnc _,
      stringCodec_cleanEnc _,
      stringCodec_cleanEnc _])

theorem stakeholderFields_reads : ∀ f ∈ stakeholderFields, f.codec.Reads := by
  intro f hf
  simp only [stakeholderFields, List.mem_cons, List.mem_singleton, List.not_mem_nil, or_false] at hf
  rcases hf with rfl | rfl | rfl | rfl
  exacts [stringCodec_reads,
      stringCodec_reads,
      stringCodec_reads,
      stringCodec_reads]

theorem stakeholderCodec_reads : stakeholderCodec.Reads :=
  structCodec_reads _ (stakeholderFields_lawful) (stakeholderFields_reads)

theorem overviewFields_lawful : LawfulFields zeroOverview overviewFields where
  names_nodup := by
    simp only [overviewFields, List.map_cons, List.map_nil]
    decide
  get_set := by
    intro f hf
    simp only [overviewFields, List.mem_cons, List.mem_singleton, List.not_mem_nil, or_false] at hf
    rcases hf with rfl | rfl | rfl | rfl <;> intro s v <;> rfl
  get_set_other := by
    intro f hf g hg hne
    simp only [overviewFields, List.mem_cons, List.mem_singleton, List.not_mem_nil, or_false] at hf hg
    rcases hf with rfl | rfl | rfl | rfl <;> rcases hg with rfl | rfl | rfl | rfl <;>
      first
        | exact absurd rfl hne
        | (intro s v; rfl)
  get_zero := by
    intro f hf
    simp only [overviewFields, List.mem_cons, List.mem_singleton, List.not_mem_nil, or_false] at hf
    rcases hf with rfl | rfl | rfl | rfl <;> rfl
  ext := by
    intro s t h
    cases s
    cases t
    simp only [overviewFields, List.forall_mem_cons, List.not_mem_nil, false_implies,
      implies_true, and_true] at h
    simp only [Overview.mk.injEq]
    exact ⟨h.1, h.2.1, h.2.2.1, h.2.2.2⟩

theorem overviewCodec_cleanEnc : overviewCodec.CleanEnc 1 :=
  structCodec_cleanEnc _ _ _ 0 (by
    intro f hf
    simp only [overviewFields, List.mem_cons, List.mem_singleton, List.not_mem_nil, or_false] at hf
    rcases hf with rfl | rfl | rfl | rfl
    exacts [stringCodec_cleanEnc _,
      stringCodec_cleanEnc _,
      stringCodec_cleanEnc _,
      stringCodec_cleanEnc _])

theorem overviewFields_reads : ∀ f ∈ overviewFields, f.codec.Reads := by
  intro f hf
  simp only [overviewFields, List.mem_cons, List.mem_singleton, List.not_mem_nil, or_false] at hf
  rcases hf with rfl | rfl | rfl | rfl
  exacts [stringCodec_reads,
      stringCodec_reads,
      stringCodec_reads,
      stringCodec_reads]

theorem overviewCodec_reads : overviewCodec.Reads :=
  structCodec_reads _ (overviewFields_lawful) (overviewFields_reads)

theorem successMetricFields_lawful : LawfulFields zeroSuccessMetric successMetricFields where
  names_nodup := by
    simp only [successMetricFields, List.map_cons, List.map_nil]
    decide
  get_set := by
    intro f hf
    simp only [successMetricFields, List.mem_cons, List.mem_singleton, List.not_mem_nil, or_false] at hf
    rcases hf with rfl | rfl | rfl <;> intro s v <;> rfl
  get_set_other := by
    intro f hf g hg hne
    simp only [successMetricFields, List.mem_cons, List.mem_singleton, List.not_mem_nil, or_false] at hf hg
    rcases hf with rfl | rfl | rfl <;> rcases hg with rfl | rfl | rfl <;>
      first
        | exact absurd rfl hne
        | (intro s v; rfl)
  get_zero := by
    intro f hf
    simp only [successMetricFields, List.mem_cons, List.mem_singleton, List.not_mem_nil, or_false] at hf
    rcases hf with rfl | rfl | rfl <;> rfl
  ext := by
    intro s t h
    cases s
    cases t
    simp only [successMetricFields, List.forall_mem_cons, List.not_mem_nil, false_implies,
      implies_true, and_true] at h
    simp only [SuccessMetric.mk.injEq]
    exact ⟨h.1, h.2.1, h.2.2⟩

theorem successMetricCodec_cleanEnc : successMetricCodec.CleanEnc 1 :=
  structCodec_cleanEnc _ _ _ 0 (by
    intro f hf
    simp only [successMetricFields, List.mem_cons, List.mem_singleton, List.not_mem_nil, or_false] at hf
    rcases hf with rfl | rfl | rfl
    exacts [stringCodec_cleanEnc _,
      stringCodec_cleanEnc _,
      stringCodec_cleanEnc _])

theorem successMetricFields_reads : ∀ f ∈ successMetricFields, f.codec.Reads := by
  intro f hf
  simp only [successMetricFields, List.mem_cons, List.mem_singleton, List.not_mem_nil, or_false] at hf
  rcases hf with rfl | rfl | rfl
  exacts [stringCodec_reads,
      stringCodec_reads,
      stringCodec_reads]

theorem successMetricCodec_reads : successMetricCodec.Reads :=
  structCodec_reads _ (successMetricFields_lawful) (successMetricFields_reads)

theorem okrFields_lawful : LawfulFields zeroOKR okrFields where
  names_nodup := by
    simp only [okrFields, List.map_cons, List.map_nil]
    decide
  get_set := by
    intro f hf
    simp only [okrFields, List.mem_cons, List.mem_singleton, List.not_mem_nil, or_false] at hf
    rcases hf with rfl | rfl <;> intro s v <;> rfl
  get_set_other := by
    intro f hf g hg hne
    simp only [okrFields, List.mem_cons, List.mem_singleton, List.not_mem_nil, or_false] at hf hg
    rcases hf with rfl | rfl <;> rcases hg with rfl | rfl <;>
      first
        | exact absurd rfl hne
        | (intro s v; rfl)
  get_zero := by
    intro f hf
    simp only [okrFields, List.mem_cons, List.mem_singleton, List.not_mem_nil, or_false] at hf
    rcases hf with rfl | rfl <;> rfl
  ext := by
    intro s t h
    cases s
    cases t
    simp only [okrFields, List.forall_mem_cons, List.not_mem_nil, false_implies,
      implies_true, and_true] at h
    simp only [OKR.mk.injEq]
    exact ⟨h.1, h.2⟩

theorem okrCodec_cleanEnc : okrCodec.CleanEnc 2 :=
  structCodec_cleanEnc _ _ _ 1 (by
    intro f hf
    simp only [okrFields, List.mem_cons, List.mem_singleton, List.not_mem_nil, or_false] at hf
    rcases hf with rfl | rfl
    exacts [stringCodec_cleanEnc _,
      (sliceCodec_cleanEnc _ 0 (stringCodec_cleanEnc _)).mono (by decide)])

theorem okrFields_reads : ∀ f ∈ okrFields, f.codec.Reads := by
  intro f hf
  simp only [okrFields, List.mem_cons, List.mem_singleton, List.not_mem_nil, or_false] at hf
  rcases hf with rfl | rfl
  exacts [stringCodec_reads,
      sliceCodec_reads _ stringCodec_reads]

theorem okrCodec_reads : okrCodec.Reads :=
  structCodec_reads _ (okrFields_lawful) (okrFields_reads)

theorem objectivesFields_lawful : LawfulFields zeroObjectives objectivesFields where
  names_nodup := by
    simp only [objectivesFields, List.map_cons, List.map_nil]
    decide
  get_set := by
    intro f hf
    simp only [objectivesFields, List.mem_cons, List.mem_singleton, List.not_mem_nil, or_false] at hf
    rcases hf with rfl | rfl | rfl <;> intro s v <;> rfl
  get_set_other := by
    intro f hf g hg hne
    simp only [objectivesFields, List.mem_cons, List.mem_singleton, List.not_mem_nil, or_false] at hf hg
    rcases hf with rfl | rfl | rfl <;> rcases hg with rfl | rfl | rfl <;>
      first
        | exact absurd rfl hne
        | (intro s v; rfl)
  get_zero := by
    intro f hf
    simp only [objectivesFields, List.mem_cons, List.mem_singleton, List.not_mem_nil, or_false] at hf
    rcases hf with rfl | rfl | rfl <;> rfl
  ext := by
    intro s t h
    cases s
    cases t
    simp only [objectivesFields, List.forall_mem_cons, List.not_mem_nil, false_implies,
      implies_true, and_true] at h
    simp only [Objectives.mk.injEq]
    exact ⟨h.1, h.2.1, h.2.2⟩

theorem objectivesCodec_cleanEnc : objectivesCodec.CleanEnc 4 :=
  structCodec_cleanEnc _ _ _ 3 (by
    intro f hf
    simp only [objectivesFields, List.mem_cons, List.mem_singleton, List.not_mem_nil, or_false] at hf
    rcases hf with rfl | rfl | rfl
    exacts [(sliceCodec_cleanEnc _ 0 (stringCodec_cleanEnc _)).mono (by decide),
      (sliceCodec_cleanEnc _ 1 (successMetricCodec_cleanEnc)).mono (by decide),
      (sliceCodec_cleanEnc _ 2 (okrCodec_cleanEnc)).mono (by decide)])

theorem objectivesFields_reads : ∀ f ∈ objectivesFields, f.codec.Reads := by
  intro f hf
  simp only [objectivesFields, List.mem_cons, List.mem_singleton, List.not_mem_nil, or_false] at hf
  rcases hf with rfl | rfl | rfl
  exacts [sliceCodec_reads _ stringCodec_reads,
      sliceCodec_reads _ (successMetricCodec_reads),
      sliceCodec_reads _ (okrCodec_reads)]

theorem objectivesCodec_reads : objectivesCodec.Reads :=
  structCodec_reads _ (objectivesFields_lawful) (objectivesFields_reads)

theorem userPersonaFields_lawful : LawfulFields zeroUserPersona userPersonaFields where
  names_nodup := by
    simp only [userPersonaFields, List.map_cons, List.map_nil]
    decide
  get_set := by
    intro f hf
    simp only [userPersonaFields, List.mem_cons, List.mem_singleton, List.not_mem_nil, or_false] at hf
    rcases hf with rfl | rfl | rfl | rfl <;> intro s v <;> rfl
  get_set_other := by
    intro f hf g hg hne
    simp only [userPersonaFields, List.mem_cons, List.mem_singleton, List.not_mem_nil, or_false] at hf hg
    rcases hf with rfl | rfl | rfl | rfl <;> rcases hg with rfl | rfl | rfl | rfl <;>
      first
        | exact absurd rfl hne
        | (intro s v; rfl)
  get_zero := by
    intro f hf
    simp only [userPersonaFields, List.mem_cons, List.mem_singleton, List.not_mem_nil, or_false] at hf
    rcases hf with rfl | rfl | rfl | rfl <;> rfl
  ext := by
    intro s t h
    cases s
    cases t
    simp only [userPersonaFields, List.forall_mem_cons, List.not_mem_nil, false_implies,
      implies_true, and_true] at h
    simp only [UserPersona.mk.injEq]
    exact ⟨h.1, h.2.1, h.2.2.1, h.2.2.2⟩

theorem userPersonaCodec_cleanEnc : userPersonaCodec.CleanEnc 2 :=
  structCodec_cleanEnc _ _ _ 1 (by
    intro f hf
    simp only [userPersonaFields, List.mem_cons, List.mem_singleton, List.not_mem_nil, or_false] at hf
    rcases hf with rfl | rfl | rfl | rfl
    exacts [stringCodec_cleanEnc _,
      stringCodec_cleanEnc _,
      (sliceCodec_cleanEnc _ 0 (stringCodec_cleanEnc _)).mono (by decide),
      (sliceCodec_cleanEnc _ 0 (stringCodec_cleanEnc _)).mono (by decide)])

theorem userPersonaFields_reads : ∀ f ∈ userPersonaFields, f.codec.Reads := by
  intro f hf
  simp only [userPersonaFields, List.mem_cons, List.mem_singleton, List.not_mem_nil, or_false] at hf
  rcases hf with rfl | rfl | rfl | rfl
  exacts [stringCodec_reads,
      stringCodec_reads,
      sliceCodec_reads _ stringCodec_reads,
      sliceCodec_reads _ stringCodec_reads]

theorem userPersonaCodec_reads : userPersonaCodec.Reads :=
  structCodec_reads _ (userPersonaFields_lawful) (userPersonaFields_reads)

theorem userStoryFields_lawful : LawfulFields zeroUserStory userStoryFields where
  names_nodup := by
    simp only [userStoryFields, List.map_cons, List.map_nil]
    decide
  get_set := by
    intro f hf
    simp only [userStoryFields, List.mem_cons, List.mem_singleton, List.not_mem_nil, or_false] at hf
    rcases hf with rfl | rfl | rfl | rfl | rfl <;> intro s v <;> rfl
  get_set_other := by
    intro f hf g hg hne
    simp only [userStoryFields, List.mem_cons, List.mem_singleton, List.not_mem_nil, or_false] at hf hg
    rcases hf with rfl | rfl | rfl | rfl | rfl <;> rcases hg with rfl | rfl | rfl | rfl | rfl <;>
      first
        | exact absurd rfl hne
        | (intro s v; rfl)
  get_zero := by
    intro f hf
    simp only [userStoryFields, List.mem_cons, List.mem_singleton, List.not_mem_nil, or_false] at hf
    rcases hf with rfl | rfl | rfl | rfl | rfl <;> rfl
  ext := by
    intro s t h
    cases s
    cases t
    simp only [userStoryFields, List.forall_mem_cons, List.not_mem_nil, false_implies,
      implies_true, and_true] at h
    simp only [UserStory.mk.injEq]
    exact ⟨h.1, h.2.1, h.2.2.1, h.2.2.2.1, h.2.2.2.2⟩

theorem userStoryCodec_cleanEnc : userStoryCodec.CleanEnc 2 :=
  structCodec_cleanEnc _ _ _ 1 (by
    intro f hf
    simp only [userStoryFields, List.mem_cons, List.mem_singleton, List.not_mem_nil, or_false] at hf
    rcases hf with rfl | rfl | rfl | rfl | rfl
    exacts [stringCodec_cleanEnc _,
      stringCodec_cleanEnc _,
      (sliceCodec_cleanEnc _ 0 (stringCodec_cleanEnc _)).mono (by decide),
      stringCodec_cleanEnc _,
      stringCodec_cleanEnc _])

theorem userStoryFields_reads : ∀ f ∈ userStoryFields, f.codec.Reads := by
  intro f hf
  simp only [userStoryFields, List.mem_cons, List.mem_singleton, List.not_mem_nil, or_false] at hf
  rcases hf with rfl | rfl | rfl | rfl | rfl
  exacts [stringCodec_reads,
      stringCodec_reads,
      sliceCodec_reads _ stringCodec_reads,
      stringCodec_reads,
      stringCodec_reads]

theorem userStoryCodec_reads : userStoryCodec.Reads :=
  structCodec_reads _ (userStoryFields_lawful) (userStoryFields_reads)

theorem functionalRequirementFields_lawful : LawfulFields zeroFunctionalRequirement functionalRequirementFields where
  names_nodup := by
    simp only [functionalRequirementFields, List.map_cons, List.map_nil]
    decide
  get_set := by
    intro f hf
    simp only [functionalRequirementFields, List.mem_cons, List.mem_singleton, List.not_mem_nil, or_false] at hf
    rcases hf with rfl | rfl | rfl | rfl <;> intro s v <;> rfl
  get_set_other := by
    intro f hf g hg hne
    simp only [functionalRequirementFields, List.mem_cons, List.mem_singleton, List.not_mem_nil, or_false] at hf hg
    rcases hf with rfl | rfl | rfl | rfl <;> rcases hg with rfl | rfl | rfl | rfl <;>
      first
        | exact absurd rfl hne
        | (intro s v; rfl)
  get_zero := by
    intro f hf
    simp only [functionalRequirementFields, List.mem_cons, List.mem_singleton, List.not_mem_nil, or_false] at hf
    rcases hf with rfl | rfl | rfl | rfl <;> rfl
  ext := by
    intro s t h
    cases s
    cases t
    simp only [functionalRequirementFields, List.forall_mem_cons, List.not_mem_nil, false_implies,
      implies_true, and_true] at h
    simp only [FunctionalRequirement.mk.injEq]
    exact ⟨h.1, h.2.1, h.2.2.1, h.2.2.2⟩

theorem functionalRequirementCodec_cleanEnc : functionalRequirementCodec.CleanEnc 2 :=
  structCodec_cleanEnc _ _ _ 1 (by
    intro f hf
    simp only [functionalRequirementFields, List.mem_cons, List.mem_singleton, List.not_mem_nil, or_false] at hf
    rcases hf with rfl | rfl | rfl | rfl
    exacts [stringCodec_cleanEnc _,
      stringCodec_cleanEnc _,
      stringCodec_cleanEnc _,
      (sliceCodec_cleanEnc _ 0 (stringCodec_cleanEnc _)).mono (by decide)])

theorem functionalRequirementFields_reads : ∀ f ∈ functionalRequirementFields, f.codec.Reads := by
  intro f hf
  simp only [functionalRequirementFields, List.mem_cons, List.mem_singleton, List.not_mem_nil, or_false] at hf
  rcases hf with rfl | rfl | rfl | rfl
  exacts [stringCodec_reads,
      stringCodec_reads,
      stringCodec_reads,
      sliceCodec_reads _ stringCodec_reads]

theorem functionalRequirementCodec_reads : functionalRequirementCodec.Reads :=
  structCodec_reads _ (functionalRequirementFields_lawful) (functionalRequirementFields_reads)

theorem nonFunctionalRequirementFields_lawful : LawfulFields zeroNonFunctionalRequirement nonFunctionalRequirementFields where
  names_nodup := by
    simp only [nonFunctionalRequirementFields, List.map_cons, List.map_nil]
    decide
  get_set := by
    intro f hf
    simp only [nonFunctionalRequirementFields, List.mem_cons, List.mem_singleton, List.not_mem_nil, or_false] at hf
    rcases hf with rfl | rfl | rfl | rfl <;> intro s v <;> rfl
  get_set_other := by
    intro f hf g hg hne
    simp only [nonFunctionalRequirementFields, List.mem_cons, List.mem_singleton, List.not_mem_nil, or_false] at hf hg
    rcases hf with rfl | rfl | rfl | rfl <;> rcases hg with rfl | rfl | rfl | rfl <;>
      first
        | exact absurd rfl hne
        | (intro s v; rfl)
  get_zero := by
    intro f hf
    simp only [nonFunctionalRequirementFields, List.mem_cons, List.mem_singleton, List.not_mem_nil, or_false] at hf
    rcases hf with rfl | rfl | rfl | rfl <;> rfl
  ext := by
    intro s t h
    cases s
    cases t
    simp only [nonFunctionalRequirementFields, List.forall_mem_cons, List.not_mem_nil, false_implies,
      implies_true, and_true] at h
    simp only [NonFunctionalRequirement.mk.injEq]
    exact ⟨h.1, h.2.1, h.2.2.1, h.2.2.2⟩

theorem nonFunctionalRequirementCodec_cleanEnc : nonFunctionalRequirementCodec.CleanEnc 1 :=
  structCodec_cleanEnc _ _ _ 0 (by
    intro f hf
    simp only [nonFunctionalRequirementFields, List.mem_cons, List.mem_singleton, List.not_mem_nil, or_false] at hf
    rcases hf with rfl | rfl | rfl | rfl
    exacts [stringCodec_cleanEnc _,
      stringCodec_cleanEnc _,
      stringCodec_cleanEnc _,
      stringCodec_cleanEnc _])

theorem nonFunctionalRequirementFields_reads : ∀ f ∈ nonFunctionalRequirementFields, f.codec.Reads := by
  intro f hf
  simp only [nonFunctionalRequirementFields, List.mem_cons, List.mem_singleton, List.not_mem_nil, or_false] at hf
  rcases hf with rfl | rfl | rfl | rfl
  exacts [stringCodec_reads,
      stringCodec_reads,
      stringCodec_reads,
      stringCodec_reads]

theorem nonFunctionalRequirementCodec_reads : nonFunctionalRequirementCodec.Reads :=
  structCodec_reads _ (nonFunctionalRequirementFields_lawful) (nonFunctionalRequirementFields_reads)

theorem requirementsFields_lawful : LawfulFields zeroRequirements requirementsFields where
  names_nodup := by
    simp only [requirementsFields, List.map_cons, List.map_nil]
    decide
  get_set := by
    intro f hf
    simp only [requirementsFields, List.mem_cons, List.mem_singleton, List.not_mem_nil, or_false] at hf
    rcases hf with rfl | rfl <;> intro s v <;> rfl
  get_set_other := by
    intro f hf g hg hne
    simp only [requirementsFields, List.mem_cons, List.mem_singleton, List.not_mem_nil, or_false] at hf hg
    rcases hf with rfl | rfl <;> rcases hg with rfl | rfl <;>
      first
        | exact absurd rfl hne
        | (intro s v; rfl)
  get_zero := by
    intro f hf
    simp only [requirementsFields, List.mem_cons, List.mem_singleton, List.not_mem_nil, or_false] at hf
    rcases hf with rfl | rfl <;> rfl
  ext := by
    intro s t h
    cases s
    cases t
    simp only [requirementsFields, List.forall_mem_cons, List.not_mem_nil, false_implies,
      implies_true, and_true] at h
    simp only [Requirements.mk.injEq]
    exact ⟨h.1, h.2⟩

theorem requirementsCodec_cleanEnc : requirementsCodec.CleanEnc 4 :=
  structCodec_cleanEnc _ _ _ 3 (by
    intro f hf
    simp only [requirementsFields, List.mem_cons, List.mem_singleton, List.not_mem_nil, or_false] at hf
    rcases hf with rfl | rfl
    exacts [(sliceCodec_cleanEnc _ 2 (functionalRequirementCodec_cleanEnc)).mono (by decide),
      (sliceCodec_cleanEnc _ 1 (nonFunctionalRequirementCodec_cleanEnc)).mono (by decide)])

theorem requirementsFields_reads : ∀ f ∈ requirementsFields, f.codec.Reads := by
  intro f hf
  simp only [requirementsFields, List.mem_cons, List.mem_singleton, List.not_mem_nil, or_false] at hf
  rcases hf with rfl | rfl
  exacts [sliceCodec_reads _ (functionalRequirementCodec_reads),
      sliceCodec_reads _ (nonFunctionalRequirementCodec_reads)]

theorem requirementsCodec_reads : requirementsCodec.Reads :=
  structCodec_reads _ (requirementsFields_lawful) (requirementsFields_reads)

theorem technologyStackFields_lawful : LawfulFields zeroTechnologyStack technologyStackFields where
  names_nodup := by
    simp only [technologyStackFields, List.map_cons, List.map_nil]
    decide
  get_set := by
    intro f hf
    simp only [technologyStackFields, List.mem_cons, List.mem_singleton, List.not_mem_nil, or_false] at hf
    rcases hf with rfl | rfl | rfl | rfl <;> intro s v <;> rfl
  get_set_other := by
    intro f hf g hg hne
    simp only [technologyStackFields, List.mem_cons, List.mem_singleton, List.not_mem_nil, or_false] at hf hg
    rcases hf with rfl | rfl | rfl | rfl <;> rcases hg with rfl | rfl | rfl | rfl <;>
      first
        | exact absurd rfl hne
        | (intro s v; rfl)
  get_zero := by
    intro f hf
    simp only [technologyStackFields, List.mem_cons, List.mem_singleton, List.not_mem_nil, or_false] at hf
    rcases hf with rfl | rfl | rfl | rfl <;> rfl
  ext := by
    intro s t h
    cases s
    cases t
    simp only [technologyStackFields, List.forall_mem_cons, List.not_mem_nil, false_implies,
      implies_true, and_true] at h
    simp only [TechnologyStack.mk.injEq]
    exact ⟨h.1, h.2.1, h.2.2.1, h.2.2.2⟩

theorem technologyStackCodec_cleanEnc : technologyStackCodec.CleanEnc 2 :=
  structCodec_cleanEnc _ _ _ 1 (by
    intro f hf
    simp only [technologyStackFields, List.mem_cons, List.mem_singleton, List.not_mem_nil, or_false] at hf
    rcases hf with rfl | rfl | rfl | rfl
    exacts [(sliceCodec_cleanEnc _ 0 (stringCodec_cleanEnc _)).mono (by decide),
      (sliceCodec_cleanEnc _ 0 (stringCodec_cleanEnc _)).mono (by decide),
      (sliceCodec_cleanEnc _ 0 (stringCodec_cleanEnc _)).mono (by decide),
      (sliceCodec_cleanEnc _ 0 (stringCodec_cleanEnc _)).mono (by decide)])

theorem technologyStackFields_reads : ∀ f ∈ technologyStackFields, f.codec.Reads := by
  intro f hf
  simp only [technologyStackFields, List.mem_cons, List.mem_singleton, List.not_mem_nil, or_false] at hf
  rcases hf with rfl | rfl | rfl | rfl
  exacts [sliceCodec_reads _ stringCodec_reads,
      sliceCodec_reads _ stringCodec_reads,
      sliceCodec_reads _ stringCodec_reads,
      sliceCodec_reads _ stringCodec_reads]

theorem technologyStackCodec_reads : technologyStackCodec.Reads :=
  structCodec_reads _ (technologyStackFields_lawful) (technologyStackFields_reads)

theorem apiSpecificationFields_lawful : LawfulFields zeroAPISpecification apiSpecificationFields where
  names_nodup := by
    simp only [apiSpecificationFields, List.map_cons, List.map_nil]
    decide
  get_set := by
    intro f hf
    simp only [apiSpecificationFields, List.mem_cons, List.mem_singleton, List.not_mem_nil, or_false] at hf
    rcases hf with rfl | rfl | rfl | rfl | rfl <;> intro s v <;> rfl
  get_set_other := by
    intro f hf g hg hne
    simp only [apiSpecificationFields, List.mem_cons, List.mem_singleton, List.not_mem_nil, or_false] at hf hg
    rcases hf with rfl | rfl | rfl | rfl | rfl <;> rcases hg with rfl | rfl | rfl | rfl | rfl <;>
      first
        | exact absurd rfl hne
        | (intro s v; rfl)
  get_zero := by
    intro f hf
    simp only [apiSpecificationFields, List.mem_cons, List.mem_singleton, List.not_mem_nil, or_false] at hf
    rcases hf with rfl | rfl | rfl | rfl | rfl <;> rfl
  ext := by
    intro s t h
    cases s
    cases t
    simp only [apiSpecificationFields, List.forall_mem_cons, List.not_mem_nil, false_implies,
      implies_true, and_true] at h
    simp only [APISpecification.mk.injEq]
    exact ⟨h.1, h.2.1, h.2.2.1, h.2.2.2.1, h.2.2.2.2⟩

theorem apiSpecificationCodec_cleanEnc : apiSpecificationCodec.CleanEnc 1 :=
  structCodec_cleanEnc _ _ _ 0 (by
    intro f hf
    simp only [apiSpecificationFields, List.mem_cons, List.mem_singleton, List.not_mem_nil, or_false] at hf
    rcases hf with rfl | rfl | rfl | rfl | rfl
    exacts [stringCodec_cleanEnc _,
      stringCodec_cleanEnc _,
      stringCodec_cleanEnc _,
      stringCodec_cleanEnc _,
      stringCodec_cleanEnc _])

theorem apiSpecificationFields_reads : ∀ f ∈ apiSpecificationFields, f.codec.Reads := by
  intro f hf
  simp only [apiSpecificationFields, List.mem_cons, List.mem_singleton, List.not_mem_nil, or_false] at hf
  rcases hf with rfl | rfl | rfl | rfl | rfl
  exacts [stringCodec_reads,
      stringCodec_reads,
      stringCodec_reads,
      stringCodec_reads,
      stringCodec_reads]

theorem apiSpecificationCodec_reads : apiSpecificationCodec.Reads :=
  structCodec_reads _ (apiSpecificationFields_lawful) (apiSpecificationFields_reads)

theorem technicalSpecificationsFields_lawful : LawfulFields zeroTechnicalSpecifications technicalSpecificationsFields where
  names_nodup := by
    simp only [technicalSpecificationsFields, List.map_cons, List.map_nil]
    decide
  get_set := by
    intro f hf
    simp only [technicalSpecificationsFields, List.mem_cons, List.mem_singleton, List.not_mem_nil, or_false] at hf
    rcases hf with rfl | rfl | rfl | rfl <;> intro s v <;> rfl
  get_set_other := by
    intro f hf g hg hne
    simp only [technicalSpecificationsFields, List.mem_cons, List.mem_singleton, List.not_mem_nil, or_false] at hf hg
    rcases hf with rfl | rfl | rfl | rfl <;> rcases hg with rfl | rfl | rfl | rfl <;>
      first
        | exact absurd rfl hne
        | (intro s v; rfl)
  get_zero := by
    intro f hf
    simp only [technicalSpecificationsFields, List.mem_cons, List.mem_singleton, List.not_mem_nil, or_false] at hf
    rcases hf with rfl | rfl | rfl | rfl <;> rfl
  ext := by
    intro s t h
    cases s
    cases t
    simp only [technicalSpecificationsFields, List.forall_mem_cons, List.not_mem_nil, false_implies,
      implies_true, and_true] at h
    simp only [TechnicalSpecifications.mk.injEq]
    exact ⟨h.1, h.2.1, h.2.2.1, h.2.2.2⟩

theorem technicalSpecificationsCodec_cleanEnc : technicalSpecificationsCodec.CleanEnc 3 :=
  structCodec_cleanEnc _ _ _ 2 (by
    intro f hf
    simp only [technicalSpecificationsFields, List.mem_cons, List.mem_singleton, List.not_mem_nil, or_false] at hf
    rcases hf with rfl | rfl | rfl | rfl
    exacts [stringCodec_cleanEnc _,
      (ptrCodec_cleanEnc _ 2 (technologyStackCodec_cleanEnc)).mono (by decide),
      (sliceCodec_cleanEnc _ 1 (apiSpecificationCodec_cleanEnc)).mono (by decide),
      (sliceCodec_cleanEnc _ 0 (stringCodec_cleanEnc _)).mono (by decide)])

theorem technicalSpecificationsFields_reads : ∀ f ∈ technicalSpecificationsFields, f.codec.Reads := by
  intro f hf
  simp only [technicalSpecificationsFields, List.mem_cons, List.mem_singleton, List.not_mem_nil, or_false] at hf
  rcases hf with rfl | rfl | rfl | rfl
  exacts [stringCodec_reads,
      ptrCodec_reads _ technologyStackCodec_reads,
      sliceCodec_reads _ (apiSpecificationCodec_reads),
      sliceCodec_reads _ stringCodec_reads]

theorem technicalSpecificationsCodec_reads : technicalSpecificationsCodec.Reads :=
  structCodec_reads _ (technicalSpecificationsFields_lawful) (technicalSpecificationsFields_reads)

theorem milestoneFields_lawful : LawfulFields zeroMilestone milestoneFields where
  names_nodup := by
    simp only [milestoneFields, List.map_cons, List.map_nil]
    decide
  get_set := by
    intro f hf
    simp only [milestoneFields, List.mem_cons, List.mem_singleton, List.not_mem_nil, or_false] at hf
    rcases hf with rfl | rfl | rfl | rfl <;> intro s v <;> rfl
  get_set_other := by
    intro f hf g hg hne
    simp only [milestoneFields, List.mem_cons, List.mem_singleton, List.not_mem_nil, or_false] at hf hg
    rcases hf with rfl | rfl | rfl | rfl <;> rcases hg with rfl | rfl | rfl | rfl <;>
      first
        | exact absurd rfl hne
        | (intro s v; rfl)
  get_zero := by
    intro f hf
    simp only [milestoneFields, List.mem_cons, List.mem_singleton, List.not_mem_nil, or_false] at hf
    rcases hf with rfl | rfl | rfl | rfl <;> rfl
  ext := by
    intro s t h
    cases s
    cases t
    simp only [milestoneFields, List.forall_mem_cons, List.not_mem_nil, false_implies,
      implies_true, and_true] at h
    simp only [Milestone.mk.injEq]
    exact ⟨h.1, h.2.1, h.2.2.1, h.2.2.2⟩

theorem milestoneCodec_cleanEnc : milestoneCodec.CleanEnc 2 :=
  structCodec_cleanEnc _ _ _ 1 (by
    intro f hf
    simp only [milestoneFields, List.mem_cons, List.mem_singleton, List.not_mem_nil, or_false] at hf
    rcases hf with rfl | rfl | rfl | rfl
    exacts [stringCodec_cleanEnc _,
      stringCodec_cleanEnc _,
      stringCodec_cleanEnc _,
      (sliceCodec_cleanEnc _ 0 (stringCodec_cleanEnc _)).mono (by decide)])

theorem milestoneFields_reads : ∀ f ∈ milestoneFields, f.codec.Reads := by
  intro f hf
  simp only [milestoneFields, List.mem_cons, List.mem_singleton, List.not_mem_nil, or_false] at hf
  rcases hf with rfl | rfl | rfl | rfl
  exacts [stringCodec_reads,
      stringCodec_reads,
      stringCodec_reads,
      sliceCodec_reads _ stringCodec_reads]

theorem milestoneCodec_reads : milestoneCodec.Reads :=
  structCodec_reads _ (milestoneFields_lawful) (milestoneFields_reads)

theorem timelineFields_lawful : LawfulFields zeroTimeline timelineFields where
  names_nodup := by
    simp only [timelineFields, List.map_cons, List.map_nil]
    decide
  get_set := by
    intro f hf
    simp only [timelineFields, List.mem_cons, List.mem_singleton, List.not_mem_nil, or_false] at hf
    rcases hf with rfl | rfl <;> intro s v <;> rfl
  get_set_other := by
    intro f hf g hg hne
    simp only [timelineFields, List.mem_cons, List.mem_singleton, List.not_mem_nil, or_false] at hf hg
    rcases hf with rfl | rfl <;> rcases hg with rfl | rfl <;>
      first
        | exact absurd rfl hne
        | (intro s v; rfl)
  get_zero := by
    intro f hf
    simp only [timelineFields, List.mem_cons, List.mem_singleton, List.not_mem_nil, or_false] at hf
    rcases hf with rfl | rfl <;> rfl
  ext := by
    intro s t h
    cases s
    cases t
    simp only [timelineFields, List.forall_mem_cons, List.not_mem_nil, false_implies,
      implies_true, and_true] at h
    simp only [Timeline.mk.injEq]
    exact ⟨h.1, h.2⟩

theorem timelineCodec_cleanEnc : timelineCodec.CleanEnc 4 :=
  structCodec_cleanEnc _ _ _ 3 (by
    intro f hf
    simp only [timelineFields, List.mem_cons, List.mem_singleton, List.not_mem_nil, or_false] at hf
    rcases hf with rfl | rfl
    exacts [(sliceCodec_cleanEnc _ 2 (milestoneCodec_cleanEnc)).mono (by decide),
      stringCodec_cleanEnc _])

theorem timelineFields_reads : ∀ f ∈ timelineFields, f.codec.Reads := by
  intro f hf
  simp only [timelineFields, List.mem_cons, List.mem_singleton, List.not_mem_nil, or_false] at hf
  rcases hf with rfl | rfl
  exacts [sliceCodec_reads _ (milestoneCodec_reads),
      stringCodec_reads]

theorem timelineCodec_reads : timelineCodec.Reads :=
  structCodec_reads _ (timelineFields_lawful) (timelineFields_reads)

theorem riskFields_lawful : LawfulFields zeroRisk riskFields where
  names_nodup := by
    simp only [riskFields, List.map_cons, List.map_nil]
    decide
  get_set := by
    intro f hf
    simp only [riskFields, List.mem_cons, List.mem_singleton, List.not_mem_nil, or_false] at hf
    rcases hf with rfl | rfl | rfl | rfl <;> intro s v <;> rfl
  get_set_other := by
    intro f hf g hg hne
    simp only [riskFields, List.mem_cons, List.mem_singleton, List.not_mem_nil, or_false] at hf hg
    rcases hf with rfl | rfl | rfl | rfl <;> rcases hg with rfl | rfl | rfl | rfl <;>
      first
        | exact absurd rfl hne
        | (intro s v; rfl)
  get_zero := by
    intro f hf
    simp only [riskFields, List.mem_cons, List.mem_singleton, List.not_mem_nil, or_false] at hf
    rcases hf with rfl | rfl | rfl | rfl <;> rfl
  ext := by
    intro s t h
    cases s
    cases t
    simp only [riskFields, List.forall_mem_cons, List.not_mem_nil, false_implies,
      implies_true, and_true] at h
    simp only [Risk.mk.injEq]
    exact ⟨h.1, h.2.1, h.2.2.1, h.2.2.2⟩

theorem riskCodec_cleanEnc : riskCodec.CleanEnc 1 :=
  structCodec_cleanEnc _ _ _ 0 (by
    intro f hf
    simp only [riskFields, List.mem_cons, List.mem_singleton, List.not_mem_nil, or_false] at hf
    rcases hf with rfl | rfl | rfl | rfl
    exacts [stringCodec_cleanEnc _,
      stringCodec_cleanEnc _,
      stringCodec_cleanEnc _,
      stringCodec_cleanEnc _])

theorem riskFields_reads : ∀ f ∈ riskFields, f.codec.Reads := by
  intro f hf
  simp only [riskFields, List.mem_cons, List.mem_singleton, List.not_mem_nil, or_false] at hf
  rcases hf with rfl | rfl | rfl | rfl
  exacts [stringCodec_reads,
      stringCodec_reads,
      stringCodec_reads,
      stringCodec_reads]

theorem riskCodec_reads : riskCodec.Reads :=
  structCodec_reads _ (riskFields_lawful) (riskFields_reads)

theorem risksAndAssumptionsFields_lawful : LawfulFields zeroRisksAndAssumptions risksAndAssumptionsFields where
  names_nodup := by
    simp only [risksAndAssumptionsFields, List.map_cons, List.map_nil]
    decide
  get_set := by
    intro f hf
    simp only [risksAndAssumptionsFields, List.mem_cons, List.mem_singleton, List.not_mem_nil, or_false] at hf
    rcases hf with rfl | rfl <;> intro s v <;> rfl
  get_set_other := by
    intro f hf g hg hne
    simp only [risksAndAssumptionsFields, List.mem_cons, List.mem_singleton, List.not_mem_nil, or_false] at hf hg
    rcases hf with rfl | rfl <;> rcases hg with rfl | rfl <;>
      first
        | exact absurd rfl hne
        | (intro s v; rfl)
  get_zero := by
    intro f hf
    simp only [risksAndAssumptionsFields, List.mem_cons, List.mem_singleton, List.not_mem_nil, or_false] at hf
    rcases hf with rfl | rfl <;> rfl
  ext := by
    intro s t h
    cases s
    cases t
    simp only [risksAndAssumptionsFields, List.forall_mem_cons, List.not_mem_nil, false_implies,
      implies_true, and_true] at h
    simp only [RisksAndAssumptions.mk.injEq]
    exact ⟨h.1, h.2⟩

theorem risksAndAssumptionsCodec_cleanEnc : risksAndAssumptionsCodec.CleanEnc 3 :=
  structCodec_cleanEnc _ _ _ 2 (by
    intro f hf
    simp only [risksAndAssumptionsFields, List.mem_cons, List.mem_singleton, List.not_mem_nil, or_false] at hf
    rcases hf with rfl | rfl
    exacts [(sliceCodec_cleanEnc _ 1 (riskCodec_cleanEnc)).mono (by decide),
      (sliceCodec_cleanEnc _ 0 (stringCodec_cleanEnc _)).mono (by decide)])

theorem risksAndAssumptionsFields_reads : ∀ f ∈ risksAndAssumptionsFields, f.codec.Reads := by
  intro f hf
  simp only [risksAndAssumptionsFields, List.mem_cons, List.mem_singleton, List.not_mem_nil, or_false] at hf
  rcases hf with rfl | rfl
  exacts [sliceCodec_reads _ (riskCodec_reads),
      sliceCodec_reads _ stringCodec_reads]

theorem risksAndAssumptionsCodec_reads : risksAndAssumptionsCodec.Reads :=
  structCodec_reads _ (risksAndAssumptionsFields_lawful) (risksAndAssumptionsFields_reads)

theorem mockupWireframeFields_lawful : LawfulFields zeroMockupWireframe mockupWireframeFields where
  names_nodup := by
    simp only [mockupWireframeFields, List.map_cons, List.map_nil]
    decide
  get_set := by
    intro f hf
    simp only [mockupWireframeFields, List.mem_cons, List.mem_singleton, List.not_mem_nil, or_false] at hf
    rcases hf with rfl | rfl | rfl <;> intro s v <;> rfl
  get_set_other := by
    intro f hf g hg hne
    simp only [mockupWireframeFields, List.mem_cons, List.mem_singleton, List.not_mem_nil, or_false] at hf hg
    rcases hf with rfl | rfl | rfl <;> rcases hg with rfl | rfl | rfl <;>
      first
        | exact absurd rfl hne
        | (intro s v; rfl)
  get_zero := by
    intro f hf
    simp only [mockupWireframeFields, List.mem_cons, List.mem_singleton, List.not_mem_nil, or_false] at hf
    rcases hf with rfl | rfl | rfl <;> rfl
  ext := by
    intro s t h
    cases s
    cases t
    simp only [mockupWireframeFields, List.forall_mem_cons, List.not_mem_nil, false_implies,
      implies_true, and_true] at h
    simp only [MockupWireframe.mk.injEq]
    exact ⟨h.1, h.2.1, h.2.2⟩

theorem mockupWireframeCodec_cleanEnc : mockupWireframeCodec.CleanEnc 1 :=
  structCodec_cleanEnc _ _ _ 0 (by
    intro f hf
    simp only [mockupWireframeFields, List.mem_cons, List.mem_singleton, List.not_mem_nil, or_false] at hf
    rcases hf with rfl | rfl | rfl
    exacts [stringCodec_cleanEnc _,
      stringCodec_cleanEnc _,
      stringCodec_cleanEnc _])

theorem mockupWireframeFields_reads : ∀ f ∈ mockupWireframeFields, f.codec.Reads := by
  intro f hf
  simp only [mockupWireframeFields, List.mem_cons, List.mem_singleton, List.not_mem_nil, or_false] at hf
  rcases hf with rfl | rfl | rfl
  exacts [stringCodec_reads,
      stringCodec_reads,
      stringCodec_reads]

theorem mockupWireframeCodec_reads : mockupWireframeCodec.Reads :=
  structCodec_reads _ (mockupWireframeFields_lawful) (mockupWireframeFields_reads)

theorem relatedDocumentFields_lawful : LawfulFields zeroRelatedDocument relatedDocumentFields where
  names_nodup := by
    simp only [relatedDocumentFields, List.map_cons, List.map_nil]
    decide
  get_set := by
    intro f hf
    simp only [relatedDocumentFields, List.mem_cons, List.mem_singleton, List.not_mem_nil, or_false] at hf
    rcases hf with rfl | rfl | rfl <;> intro s v <;> rfl
  get_set_other := by
    intro f hf g hg hne
    simp only [relatedDocumentFields, List.mem_cons, List.mem_singleton, List.not_mem_nil, or_false] at hf hg
    rcases hf with rfl | rfl | rfl <;> rcases hg with rfl | rfl | rfl <;>
      first
        | exact absurd rfl hne
        | (intro s v; rfl)
  get_zero := by
    intro f hf
    simp only [relatedDocumentFields, List.mem_cons, List.mem_singleton, List.not_mem_nil, or_false] at hf
    rcases hf with rfl | rfl | rfl <;> rfl
  ext := by
    intro s t h
    cases s
    cases t
    simp only [relatedDocumentFields, List.forall_mem_cons, List.not_mem_nil, false_implies,
      implies_true, and_true] at h
    simp only [RelatedDocument.mk.injEq]
    exact ⟨h.1, h.2.1, h.2.2⟩

theorem relatedDocumentCodec_cleanEnc : relatedDocumentCodec.CleanEnc 1 :=
  structCodec_cleanEnc _ _ _ 0 (by
    intro f hf
    simp only [relatedDocumentFields, List.mem_cons, List.mem_singleton, List.not_mem_nil, or_false] at hf
    rcases hf with rfl | rfl | rfl
    exacts [stringCodec_cleanEnc _,
      stringCodec_cleanEnc _,
      stringCodec_cleanEnc _])

theorem relatedDocumentFields_reads : ∀ f ∈ relatedDocumentFields, f.codec.Reads := by
  intro f hf
  simp only [relatedDocumentFields, List.mem_cons, List.mem_singleton, List.not_mem_nil, or_false] at hf
  rcases hf with rfl | rfl | rfl
  exacts [stringCodec_reads,
      stringCodec_reads,
      stringCodec_reads]

theorem relatedDocumentCodec_reads : relatedDocumentCodec.Reads :=
  structCodec_reads _ (relatedDocumentFields_lawful) (relatedDocumentFields_reads)

theorem appendicesFields_lawful : LawfulFields zeroAppendices appendicesFields where
  names_nodup := by
    simp only [appendicesFields, List.map_cons, List.map_nil]
    decide
  get_set := by
    intro f hf
    simp only [appendicesFields, List.mem_cons, List.mem_singleton, List.not_mem_nil, or_false] at hf
    rcases hf with rfl | rfl | rfl <;> intro s v <;> rfl
  get_set_other := by
    intro f hf g hg hne
    simp only [appendicesFields, List.mem_cons, List.mem_singleton, List.not_mem_nil, or_false] at hf hg
    rcases hf with rfl | rfl | rfl <;> rcases hg with rfl | rfl | rfl <;>
      first
        | exact absurd rfl hne
        | (intro s v; rfl)
  get_zero := by
    intro f hf
    simp only [appendicesFields, List.mem_cons, List.mem_singleton, List.not_mem_nil, or_false] at hf
    rcases hf with rfl | rfl | rfl <;> rfl
  ext := by
    intro s t h
    cases s
    cases t
    simp only [appendicesFields, List.forall_mem_cons, List.not_mem_nil, false_implies,
      implies_true, and_true] at h
    simp only [Appendices.mk.injEq]
    exact ⟨h.1, h.2.1, h.2.2⟩

theorem appendicesCodec_cleanEnc : appendicesCodec.CleanEnc 3 :=
  structCodec_cleanEnc _ _ _ 2 (by
    intro f hf
    simp only [appendicesFields, List.mem_cons, List.mem_singleton, List.not_mem_nil, or_false] at hf
    rcases hf with rfl | rfl | rfl
    exacts [stringCodec_cleanEnc _,
      (sliceCodec_cleanEnc _ 1 (mockupWireframeCodec_cleanEnc)).mono (by decide),
      (sliceCodec_cleanEnc _ 1 (relatedDocumentCodec_cleanEnc)).mono (by decide)])

theorem appendicesFields_reads : ∀ f ∈ appendicesFields, f.codec.Reads := by
  intro f hf
  simp only [appendicesFields, List.mem_cons, List.mem_singleton, List.not_mem_nil, or_false] at hf
  rcases hf with rfl | rfl | rfl
  exacts [stringCodec_reads,
      sliceCodec_reads _ (mockupWireframeCodec_reads),
      sliceCodec_reads _ (relatedDocumentCodec_reads)]

theorem appendicesCodec_reads : appendicesCodec.Reads :=
  structCodec_reads _ (appendicesFields_lawful) (appendicesFields_reads)

theorem prdFields_lawful {Time : Type} (tc : TimeCodec Time) : LawfulFields zeroPRD (prdFields tc) where
  names_nodup := by
    simp only [prdFields, List.map_cons, List.map_nil]
    decide
  get_set := by
    intro f hf
    simp only [prdFields, List.mem_cons, List.mem_singleton, List.not_mem_nil, or_false] at hf
    rcases hf with rfl | rfl | rfl | rfl | rfl | rfl | rfl | rfl | rfl | rfl | rfl | rfl | rfl | rfl | rfl | rfl | rfl | rfl | rfl <;> intro s v <;> rfl
  get_set_other := by
    intro f hf g hg hne
    simp only [prdFields, List.mem_cons, List.mem_singleton, List.not_mem_nil, or_false] at hf hg
    rcases hf with rfl | rfl | rfl | rfl | rfl | rfl | rfl | rfl | rfl | rfl | rfl | rfl | rfl | rfl | rfl | rfl | rfl | rfl | rfl <;> rcases hg with rfl | rfl | rfl | rfl | rfl | rfl | rfl | rfl | rfl | rfl | rfl | rfl | rfl | rfl | rfl | rfl | rfl | rfl | rfl <;>
      first
        | exact absurd rfl hne
        | (intro s v; rfl)
  get_zero := by
    intro f hf
    simp only [prdFields, List.mem_cons, List.mem_singleton, List.not_mem_nil, or_false] at hf
    rcases hf with rfl | rfl | rfl | rfl | rfl | rfl | rfl | rfl | rfl | rfl | rfl | rfl | rfl | rfl | rfl | rfl | rfl | rfl | rfl <;> rfl
  ext := by
    intro s t h
    cases s
    cases t
    simp only [prdFields, List.forall_mem_cons, List.not_mem_nil, false_implies,
      implies_true, and_true] at h
    simp only [PRD.mk.injEq]
    exact ⟨h.1, h.2.1, h.2.2.1, h.2.2.2.1, h.2.2.2.2.1, h.2.2.2.2.2.1, h.2.2.2.2.2.2.1, h.2.2.2.2.2.2.2.1, h.2.2.2.2.2.2.2.2.1, h.2.2.2.2.2.2.2.2.2.1, h.2.2.2.2.2.2.2.2.2.2.1, h.2.2.2.2.2.2.2.2.2.2.2.1, h.2.2.2.2.2.2.2.2.2.2.2.2.1, h.2.2.2.2.2.2.2.2.2.2.2.2.2.1, h.2.2.2.2.2.2.2.2.2.2.2.2.2.2.1, h.2.2.2.2.2.2.2.2.2.2.2.2.2.2.2.1, h.2.2.2.2.2.2.2.2.2.2.2.2.2.2.2.2.1, h.2.2.2.2.2.2.2.2.2.2.2.2.2.2.2.2.2.1, h.2.2.2.2.2.2.2.2.2.2.2.2.2.2.2.2.2.2⟩

theorem prdCodec_cleanEnc {Time : Type} (tc : TimeCodec Time) : (prdCodec tc).CleanEnc 5 :=
  structCodec_cleanEnc _ _ _ 4 (by
    intro f hf
    simp only [prdFields, List.mem_cons, List.mem_singleton, List.not_mem_nil, or_false] at hf
    rcases hf with rfl | rfl | rfl | rfl | rfl | rfl | rfl | rfl | rfl | rfl | rfl | rfl | rfl | rfl | rfl | rfl | rfl | rfl | rfl
    exacts [stringCodec_cleanEnc _,
      stringCodec_cleanEnc _,
      stringCodec_cleanEnc _,
      stringCodec_cleanEnc _,
      timePtrCodec_cleanEnc tc _,
      ownerCodec_cleanEnc.mono (by decide),
      (sliceCodec_cleanEnc _ 1 (stakeholderCodec_cleanEnc)).mono (by decide),
      stringCodec_cleanEnc _,
      stringCodec_cleanEnc _,
      overviewCodec_cleanEnc.mono (by decide),
      objectivesCodec_cleanEnc.mono (by decide),
      (sliceCodec_cleanEnc _ 2 (userPersonaCodec_cleanEnc)).mono (by decide),
      (sliceCodec_cleanEnc _ 2 (userStoryCodec_cleanEnc)).mono (by decide),
      requirementsCodec_cleanEnc.mono (by decide),
      (ptrCodec_cleanEnc _ 3 (technicalSpecificationsCodec_cleanEnc)).mono (by decide),
      (ptrCodec_cleanEnc _ 4 (timelineCodec_cleanEnc)).mono (by decide),
      (ptrCodec_cleanEnc _ 3 (risksAndAssumptionsCodec_cleanEnc)).mono (by decide),
      (sliceCodec_cleanEnc _ 0 (stringCodec_cleanEnc _)).mono (by decide),
      (ptrCodec_cleanEnc _ 3 (appendicesCodec_cleanEnc)).mono (by decide)])

theorem prdFields_reads {Time : Type} (tc : TimeCodec Time) : ∀ f ∈ (prdFields tc), f.codec.Reads := by
  intro f hf
  simp only [prdFields, List.mem_cons, List.mem_singleton, List.not_mem_nil, or_false] at hf
  rcases hf with rfl | rfl | rfl | rfl | rfl | rfl | rfl | rfl | rfl | rfl | rfl | rfl | rfl | rfl | rfl | rfl | rfl | rfl | rfl
  exacts [stringCodec_reads,
      stringCodec_reads,
      stringCodec_reads,
      stringCodec_reads,
      timePtrCodec_reads tc,
      ownerCodec_reads,
      sliceCodec_reads _ (stakeholderCodec_reads),
      stringCodec_reads,
      stringCodec_reads,
      overviewCodec_reads,
      objectivesCodec_reads,
      sliceCodec_reads _ (userPersonaCodec_reads),
      sliceCodec_reads _ (userStoryCodec_reads),
      requirementsCodec_reads,
      ptrCodec_reads _ technicalSpecificationsCodec_reads,
      ptrCodec_reads _ timelineCodec_reads,
      ptrCodec_reads _ risksAndAssumptionsCodec_reads,
      sliceCodec_reads _ stringCodec_reads,
      ptrCodec_reads _ appendicesCodec_reads]

theorem prdCodec_reads {Time : Type} (tc : TimeCodec Time) : (prdCodec tc).Reads :=
  structCodec_reads _ (prdFields_lawful tc) (prdFields_reads tc)

/-! ## Which values are read back as they are -/

/-- Every `Owner` is read back as it is. -/
theorem ownerCodec_stable (x : Owner) :
    ownerCodec.Stable x :=
  structCodec_stable _ (ownerFields_lawful) (ownerFields_reads) x (by
    intro f hf
    simp only [ownerFields, List.mem_cons, List.mem_singleton, List.not_mem_nil, or_false] at hf
    rcases hf with rfl | rfl | rfl
    exacts [field_stable_required _ x rfl (stringCodec_stable _),
      field_stable_required _ x rfl (stringCodec_stable _),
      field_stable_omitempty _ x (fun h => of_decide_eq_true h)
      (stringCodec_stable _)])

/-- Every `Stakeholder` is read back as it is. -/
theorem stakeholderCodec_stable (x : Stakeholder) :
    stakeholderCodec.Stable x :=
  structCodec_stable _ (stakeholderFields_lawful) (stakeholderFields_reads) x (by
    intro f hf
    simp only [stakeholderFields, List.mem_cons, List.mem_singleton, List.not_mem_nil, or_false] at hf
    rcases hf with rfl | rfl | rfl | rfl
    exacts [field_stable_required _ x rfl (stringCodec_stable _),
      field_stable_omitempty _ x (fun h => of_decide_eq_true h)
      (stringCodec_stable _),
      field_stable_required _ x rfl (stringCodec_stable _),
      field_stable_omitempty _ x (fun h => of_decide_eq_true h)
      (stringCodec_stable _)])

/-- Every `Overview` is read back as it is. -/
theorem overviewCodec_stable (x : Overview) :
    overviewCodec.Stable x :=
  structCodec_stable _ (overviewFields_lawful) (overviewFields_reads) x (by
    intro f hf
    simp only [overviewFields, List.mem_cons, List.mem_singleton, List.not_mem_nil, or_false] at hf
    rcases hf with rfl | rfl | rfl | rfl
    exacts [field_stable_required _ x rfl (stringCodec_stable _),
      field_stable_required _ x rfl (stringCodec_stable _),
      field_stable_omitempty _ x (fun h => of_decide_eq_true h)
      (stringCodec_stable _),
      field_stable_omitempty _ x (fun h => of_decide_eq_true h)
      (stringCodec_stable _)])

/-- Every `SuccessMetric` is read back as it is. -/
theorem successMetricCodec_stable (x : SuccessMetric) :
    successMetricCodec.Stable x :=
  structCodec_stable _ (successMetricFields_lawful) (successMetricFields_reads) x (by
    intro f hf
    simp only [successMetricFields, List.mem_cons, List.mem_singleton, List.not_mem_nil, or_false] at hf
    rcases hf with rfl | rfl | rfl
    exacts [field_stable_required _ x rfl (stringCodec_stable _),
      field_stable_required _ x rfl (stringCodec_stable _),
      field_stable_omitempty _ x (fun h => of_decide_eq_true h)
      (stringCodec_stable _)])

/-- Every `OKR` is read back as it is. -/
theorem okrCodec_stable (x : OKR) :
    okrCodec.Stable x :=
  structCodec_stable _ (okrFields_lawful) (okrFields_reads) x (by
    intro f hf
    simp only [okrFields, List.mem_cons, List.mem_singleton, List.not_mem_nil, or_false] at hf
    rcases hf with rfl | rfl
    exacts [field_stable_required _ x rfl (stringCodec_stable _),
      field_stable_required _ x rfl (sliceCodec_stable _ _ (fun _ _ y _ => stringCodec_stable y))])

/-- A `Objectives` in which no list tagged `omitempty` is empty but not nil is read
back as it is. -/
theorem objectivesCodec_stable (x : Objectives) (h : x.NoEmptyOmitted) :
    objectivesCodec.Stable x :=
  structCodec_stable _ (objectivesFields_lawful) (objectivesFields_reads) x (by
    obtain ⟨heSuccessMetrics, heOKRs⟩ := h
    intro f hf
    simp only [objectivesFields, List.mem_cons, List.mem_singleton, List.not_mem_nil, or_false] at hf
    rcases hf with rfl | rfl | rfl
    exacts [field_stable_required _ x rfl (sliceCodec_stable _ _ (fun _ _ y _ => stringCodec_stable y)),
      field_stable_omitempty _ x (slice_isEmpty_zero _ _ heSuccessMetrics)
      (sliceCodec_stable _ _ (fun _ _ y _ => successMetricCodec_stable y)),
      field_stable_omitempty _ x (slice_isEmpty_zero _ _ heOKRs)
      (sliceCodec_stable _ _ (fun _ _ y _ => okrCodec_stable y))])

/-- A `UserPersona` in which no list tagged `omitempty` is empty but not nil is read
back as it is. -/
theorem userPersonaCodec_stable (x : UserPersona) (h : x.NoEmptyOmitted) :
    userPersonaCodec.Stable x :=
  structCodec_stable _ (userPersonaFields_lawful) (userPersonaFields_reads) x (by
    obtain ⟨heGoals, hePainPoints⟩ := h
    intro f hf
    simp only [userPersonaFields, List.mem_cons, List.mem_singleton, List.not_mem_nil, or_false] at hf
    rcases hf with rfl | rfl | rfl | rfl
    exacts [field_stable_required _ x rfl (stringCodec_stable _),
      field_stable_required _ x rfl (stringCodec_stable _),
      field_stable_omitempty _ x (slice_isEmpty_zero _ _ heGoals)
      (sliceCodec_stable _ _ (fun _ _ y _ => stringCodec_stable y)),
      field_stable_omitempty _ x (slice_isEmpty_zero _ _ hePainPoints)
      (sliceCodec_stable _ _ (fun _ _ y _ => stringCodec_stable y))])

/-- Every `UserStory` is read back as it is. -/
theorem userStoryCodec_stable (x : UserStory) :
    userStoryCodec.Stable x :=
  structCodec_stable _ (userStoryFields_lawful) (userStoryFields_reads) x (by
    intro f hf
    simp only [userStoryFields, List.mem_cons, List.mem_singleton, List.not_mem_nil, or_false] at hf
    rcases hf with rfl | rfl | rfl | rfl | rfl
    exacts [field_stable_required _ x rfl (stringCodec_stable _),
      field_stable_required _ x rfl (stringCodec_stable _),
      field_stable_required _ x rfl (sliceCodec_stable _ _ (fun _ _ y _ => stringCodec_stable y)),
      field_stable_omitempty _ x (fun h => of_decide_eq_true h)
      (stringCodec_stable _),
      field_stable_omitempty _ x (fun h => of_decide_eq_true h)
      (stringCodec_stable _)])

/-- A `FunctionalRequirement` in which no list tagged `omitempty` is empty but not nil is read
back as it is. -/
theorem functionalRequirementCodec_stable (x : FunctionalRequirement) (h : x.NoEmptyOmitted) :
    functionalRequirementCodec.Stable x :=
  structCodec_stable _ (functionalRequirementFields_lawful) (functionalRequirementFields_reads) x (by
    have heDependencies := h
    intro f hf
    simp only [functionalRequirementFields, List.mem_cons, List.mem_singleton, List.not_mem_nil, or_false] at hf
    rcases hf with rfl | rfl | rfl | rfl
    exacts [field_stable_required _ x rfl (stringCodec_stable _),
      field_stable_required _ x rfl (stringCodec_stable _),
      field_stable_omitempty _ x (fun h => of_decide_eq_true h)
      (stringCodec_stable _),
      field_stable_omitempty _ x (slice_isEmpty_zero _ _ heDependencies)
      (sliceCodec_stable _ _ (fun _ _ y _ => stringCodec_stable y))])

/-- Every `NonFunctionalRequirement` is read back as it is. -/
theorem nonFunctionalRequirementCodec_stable (x : NonFunctionalRequirement) :
    nonFunctionalRequirementCodec.Stable x :=
  structCodec_stable _ (nonFunctionalRequirementFields_lawful) (nonFunctionalRequirementFields_reads) x (by
    intro f hf
    simp only [nonFunctionalRequirementFields, List.mem_cons, List.mem_singleton, List.not_mem_nil, or_false] at hf
    rcases hf with rfl | rfl | rfl | rfl
    exacts [field_stable_required _ x rfl (stringCodec_stable _),
      field_stable_required _ x rfl (stringCodec_stable _),
      field_stable_required _ x rfl (stringCodec_stable _),
      field_stable_omitempty _ x (fun h => of_decide_eq_true h)
      (stringCodec_stable _)])

/-- A `Requirements` in which no list tagged `omitempty` is empty but not nil is read
back as it is. -/
theorem requirementsCodec_stable (x : Requirements) (h : x.NoEmptyOmitted) :
    requirementsCodec.Stable x :=
  structCodec_stable _ (requirementsFields_lawful) (requirementsFields_reads) x (by
    obtain ⟨hiFunctional, heNonFunctional⟩ := h
    intro f hf
    simp only [requirementsFields, List.mem_cons, List.mem_singleton, List.not_mem_nil, or_false] at hf
    rcases hf with rfl | rfl
    exacts [field_stable_required _ x rfl (sliceCodec_stable _ _ (fun l hl y hy =>
        functionalRequirementCodec_stable y (hiFunctional y (by have hl1 : x.Functional = some l := hl; rw [hl1]; exact hy)))),
      field_stable_omitempty _ x (slice_isEmpty_zero _ _ heNonFunctional)
      (sliceCodec_stable _ _ (fun _ _ y _ => nonFunctionalRequirementCodec_stable y))])

/-- A `TechnologyStack` in which no list tagged `omitempty` is empty but not nil is read
back as it is. -/
theorem technologyStackCodec_stable (x : TechnologyStack) (h : x.NoEmptyOmitted) :
    technologyStackCodec.Stable x :=
  structCodec_stable _ (technologyStackFields_lawful) (technologyStackFields_reads) x (by
    obtain ⟨heFrontend, heBackend, heDatabase, heInfrastructure⟩ := h
    intro f hf
    simp only [technologyStackFields, List.mem_cons, List.mem_singleton, List.not_mem_nil, or_false] at hf
    rcases hf with rfl | rfl | rfl | rfl
    exacts [field_stable_omitempty _ x (slice_isEmpty_zero _ _ heFrontend)
      (sliceCodec_stable _ _ (fun _ _ y _ => stringCodec_stable y)),
      field_stable_omitempty _ x (slice_isEmpty_zero _ _ heBackend)
      (sliceCodec_stable _ _ (fun _ _ y _ => stringCodec_stable y)),
      field_stable_omitempty _ x (slice_isEmpty_zero _ _ heDatabase)
      (sliceCodec_stable _ _ (fun _ _ y _ => stringCodec_stable y)),
      field_stable_omitempty _ x (slice_isEmpty_zero _ _ heInfrastructure)
      (sliceCodec_stable _ _ (fun _ _ y _ => stringCodec_stable y))])

/-- Every `APISpecification` is read back as it is. -/
theorem apiSpecificationCodec_stable (x : APISpecification) :
    apiSpecificationCodec.Stable x :=
  structCodec_stable _ (apiSpecificationFields_lawful) (apiSpecificationFields_reads) x (by
    intro f hf
    simp only [apiSpecificationFields, List.mem_cons, List.mem_singleton, List.not_mem_nil, or_false] at hf
    rcases hf with rfl | rfl | rfl | rfl | rfl
    exacts [field_stable_omitempty _ x (fun h => of_decide_eq_true h)
      (stringCodec_stable _),
      field_stable_omitempty _ x (fun h => of_decide_eq_true h)
      (stringCodec_stable _),
      field_stable_omitempty _ x (fun h => of_decide_eq_true h)
      (stringCodec_stable _),
      field_stable_omitempty _ x (fun h => of_decide_eq_true h)
      (stringCodec_stable _),
      field_stable_omitempty _ x (fun h => of_decide_eq_true h)
      (stringCodec_stable _)])

/-- A `TechnicalSpecifications` in which no list tagged `omitempty` is empty but not nil is read
back as it is. -/
theorem technicalSpecificationsCodec_stable (x : TechnicalSpecifications) (h : x.NoEmptyOmitted) :
    technicalSpecificationsCodec.Stable x :=
  structCodec_stable _ (technicalSpecificationsFields_lawful) (technicalSpecificationsFields_reads) x (by
    obtain ⟨hiTechnologyStack, heAPISpecifications, heSecurityConsiderations⟩ := h
    intro f hf
    simp only [technicalSpecificationsFields, List.mem_cons, List.mem_singleton, List.not_mem_nil, or_false] at hf
    rcases hf with rfl | rfl | rfl | rfl
    exacts [field_stable_omitempty _ x (fun h => of_decide_eq_true h)
      (stringCodec_stable _),
      field_stable_omitempty _ x (fun h => Option.isNone_iff_eq_none.mp h)
      (ptrCodec_stable _ (structCodec_nonNull _ _ _) _ (fun y hy =>
        technologyStackCodec_stable y (hiTechnologyStack y (Option.mem_def.mpr hy)))),
      field_stable_omitempty _ x (slice_isEmpty_zero _ _ heAPISpecifications)
      (sliceCodec_stable _ _ (fun _ _ y _ => apiSpecificationCodec_stable y)),
      field_stable_omitempty _ x (slice_isEmpty_zero _ _ heSecurityConsiderations)
      (sliceCodec_stable _ _ (fun _ _ y _ => stringCodec_stable y))])

/-- A `Milestone` in which no list tagged `omitempty` is empty but not nil is read
back as it is. -/
theorem milestoneCodec_stable (x : Milestone) (h : x.NoEmptyOmitted) :
    milestoneCodec.Stable x :=
  structCodec_stable _ (milestoneFields_lawful) (milestoneFields_reads) x (by
    have heDependencies := h
    intro f hf
    simp only [milestoneFields, List.mem_cons, List.mem_singleton, List.not_mem_nil, or_false] at hf
    rcases hf with rfl | rfl | rfl | rfl
    exacts [field_stable_required _ x rfl (stringCodec_stable _),
      field_stable_omitempty _ x (fun h => of_decide_eq_true h)
      (stringCodec_stable _),
      field_stable_required _ x rfl (stringCodec_stable _),
      field_stable_omitempty _ x (slice_isEmpty_zero _ _ heDependencies)
      (sliceCodec_stable _ _ (fun _ _ y _ => stringCodec_stable y))])

/-- A `Timeline` in which no list tagged `omitempty` is empty but not nil is read
back as it is. -/
theorem timelineCodec_stable (x : Timeline) (h : x.NoEmptyOmitted) :
    timelineCodec.Stable x :=
  structCodec_stable _ (timelineFields_lawful) (timelineFields_reads) x (by
    obtain ⟨heMilestones, hiMilestones⟩ := h
    intro f hf
    simp only [timelineFields, List.mem_cons, List.mem_singleton, List.not_mem_nil, or_false] at hf
    rcases hf with rfl | rfl
    exacts [field_stable_omitempty _ x (slice_isEmpty_zero _ _ heMilestones)
      (sliceCodec_stable _ _ (fun l hl y hy =>
        milestoneCodec_stable y (hiMilestones y (by have hl1 : x.Milestones = some l := hl; rw [hl1]; exact hy)))),
      field_stable_omitempty _ x (fun h => of_decide_eq_true h)
      (stringCodec_stable _)])

/-- Every `Risk` is read back as it is. -/
theorem riskCodec_stable (x : Risk) :
    riskCodec.Stable x :=
  structCodec_stable _ (riskFields_lawful) (riskFields_reads) x (by
    intro f hf
    simp only [riskFields, List.mem_cons, List.mem_singleton, List.not_mem_nil, or_false] at hf
    rcases hf with rfl | rfl | rfl | rfl
    exacts [field_stable_required _ x rfl (stringCodec_stable _),
      field_stable_required _ x rfl (stringCodec_stable _),
      field_stable_required _ x rfl (stringCodec_stable _),
      field_stable_omitempty _ x (fun h => of_decide_eq_true h)
      (stringCodec_stable _)])

/-- A `RisksAndAssumptions` in which no list tagged `omitempty` is empty but not nil is read
back as it is. -/
theorem risksAndAssumptionsCodec_stable (x : RisksAndAssumptions) (h : x.NoEmptyOmitted) :
    risksAndAssumptionsCodec.Stable x :=
  structCodec_stable _ (risksAndAssumptionsFields_lawful) (risksAndAssumptionsFields_reads) x (by
    obtain ⟨heRisks, heAssumptions⟩ := h
    intro f hf
    simp only [risksAndAssumptionsFields, List.mem_cons, List.mem_singleton, List.not_mem_nil, or_false] at hf
    rcases hf with rfl | rfl
    exacts [field_stable_omitempty _ x (slice_isEmpty_zero _ _ heRisks)
      (sliceCodec_stable _ _ (fun _ _ y _ => riskCodec_stable y)),
      field_stable_omitempty _ x (slice_isEmpty_zero _ _ heAssumptions)
      (sliceCodec_stable _ _ (fun _ _ y _ => stringCodec_stable y))])

/-- Every `MockupWireframe` is read back as it is. -/
theorem mockupWireframeCodec_stable (x : MockupWireframe) :
    mockupWireframeCodec.Stable x :=
  structCodec_stable _ (mockupWireframeFields_lawful) (mockupWireframeFields_reads) x (by
    intro f hf
    simp only [mockupWireframeFields, List.mem_cons, List.mem_singleton, List.not_mem_nil, or_false] at hf
    rcases hf with rfl | rfl | rfl
    exacts [field_stable_omitempty _ x (fun h => of_decide_eq_true h)
      (stringCodec_stable _),
      field_stable_omitempty _ x (fun h => of_decide_eq_true h)
      (stringCodec_stable _),
      field_stable_omitempty _ x (fun h => of_decide_eq_true h)
      (stringCodec_stable _)])

/-- Every `RelatedDocument` is read back as it is. -/
theorem relatedDocumentCodec_stable (x : RelatedDocument) :
    relatedDocumentCodec.Stable x :=
  structCodec_stable _ (relatedDocumentFields_lawful) (relatedDocumentFields_reads) x (by
    intro f hf
    simp only [relatedDocumentFields, List.mem_cons, List.mem_singleton, List.not_mem_nil, or_false] at hf
    rcases hf with rfl | rfl | rfl
    exacts [field_stable_omitempty _ x (fun h => of_decide_eq_true h)
      (stringCodec_stable _),
      field_stable_omitempty _ x (fun h => of_decide_eq_true h)
      (stringCodec_stable _),
      field_stable_omitempty _ x (fun h => of_decide_eq_true h)
      (stringCodec_stable _)])

/-- A `Appendices` in which no list tagged `omitempty` is empty but not nil is read
back as it is. -/
theorem appendicesCodec_stable (x : Appendices) (h : x.NoEmptyOmitted) :
    appendicesCodec.Stable x :=
  structCodec_stable _ (appendicesFields_lawful) (appendicesFields_reads) x (by
    obtain ⟨heMockupsWireframes, heRelatedDocuments⟩ := h
    intro f hf
    simp only [appendicesFields, List.mem_cons, List.mem_singleton, List.not_mem_nil, or_false] at hf
    rcases hf with rfl | rfl | rfl
    exacts [field_stable_omitempty _ x (fun h => of_decide_eq_true h)
      (stringCodec_stable _),
      field_stable_omitempty _ x (slice_isEmpty_zero _ _ heMockupsWireframes)
      (sliceCodec_stable _ _ (fun _ _ y _ => mockupWireframeCodec_stable y)),
      field_stable_omitempty _ x (slice_isEmpty_zero _ _ heRelatedDocuments)
      (sliceCodec_stable _ _ (fun _ _ y _ => relatedDocumentCodec_stable y))])

/-- A `PRD` in which no list tagged `omitempty` is empty but not nil, and whose
timestamp its text form gives back, is read
back as it is. -/
theorem prdCodec_stable {Time : Type} (tc : TimeCodec Time) (x : PRD Time) (h : x.NoEmptyOmitted)
    (ht : ∀ t s, x.LastUpdated = some t → tc.MarshalJSON t = .ok s →
      tc.UnmarshalJSON s = .ok t) :
    (prdCodec tc).Stable x :=
  structCodec_stable _ (prdFields_lawful tc) (prdFields_reads tc) x (by
    obtain ⟨heStakeholders, hiObjectives, heUserPersonas, hiUserPersonas, heUserStories, hiRequirements, hiTechnicalSpecifications, hiTimeline, hiRisksAndAssumptions, heOutOfScope, hiAppendices⟩ := h
    intro f hf
    simp only [prdFields, List.mem_cons, List.mem_singleton, List.not_mem_nil, or_false] at hf
    rcases hf with rfl | rfl | rfl | rfl | rfl | rfl | rfl | rfl | rfl | rfl | rfl | rfl | rfl | rfl | rfl | rfl | rfl | rfl | rfl
    exacts [field_stable_required _ x rfl (stringCodec_stable _),
      field_stable_required _ x rfl (stringCodec_stable _),
      field_stable_required _ x rfl (stringCodec_stable _),
      field_stable_required _ x rfl (stringCodec_stable _),
      field_stable_omitempty _ x (fun h => Option.isNone_iff_eq_none.mp h)
      (timePtrCodec_stable tc _ ht),
      field_stable_required _ x rfl (ownerCodec_stable _),
      field_stable_omitempty _ x (slice_isEmpty_zero _ _ heStakeholders)
      (sliceCodec_stable _ _ (fun _ _ y _ => stakeholderCodec_stable y)),
      field_stable_required _ x rfl (stringCodec_stable _),
      field_stable_omitempty _ x (fun h => of_decide_eq_true h)
      (stringCodec_stable _),
      field_stable_required _ x rfl (overviewCodec_stable _),
      field_stable_required _ x rfl (objectivesCodec_stable _ hiObjectives),
      field_stable_omitempty _ x (slice_isEmpty_zero _ _ heUserPersonas)
      (sliceCodec_stable _ _ (fun l hl y hy =>
        userPersonaCodec_stable y (hiUserPersonas y (by have hl1 : x.UserPersonas = some l := hl; rw [hl1]; exact hy)))),
      field_stable_omitempty _ x (slice_isEmpty_zero _ _ heUserStories)
      (sliceCodec_stable _ _ (fun _ _ y _ => userStoryCodec_stable y)),
      field_stable_required _ x rfl (requirementsCodec_stable _ hiRequirements),
      field_stable_omitempty _ x (fun h => Option.isNone_iff_eq_none.mp h)
      (ptrCodec_stable _ (structCodec_nonNull _ _ _) _ (fun y hy =>
        technicalSpecificationsCodec_stable y (hiTechnicalSpecifications y (Option.mem_def.mpr hy)))),
      field_stable_omitempty _ x (fun h => Option.isNone_iff_eq_none.mp h)
      (ptrCodec_stable _ (structCodec_nonNull _ _ _) _ (fun y hy =>
        timelineCodec_stable y (hiTimeline y (Option.mem_def.mpr hy)))),
      field_stable_omitempty _ x (fun h => Option.isNone_iff_eq_none.mp h)
      (ptrCodec_stable _ (structCodec_nonNull _ _ _) _ (fun y hy =>
        risksAndAssumptionsCodec_stable y (hiRisksAndAssumptions y (Option.mem_def.mpr hy)))),
      field_stable_omitempty _ x (slice_isEmpty_zero _ _ heOutOfScope)
      (sliceCodec_stable _ _ (fun _ _ y _ => stringCodec_stable y)),
      field_stable_omitempty _ x (fun h => Option.isNone_iff_eq_none.mp h)
      (ptrCodec_stable _ (structCodec_nonNull _ _ _) _ (fun y hy =>
        appendicesCodec_stable y (hiAppendices y (Option.mem_def.mpr hy))))])

/-! ## What is written for a struct value -/

theorem quoteBody_injective (a b : List Char) (h : quoteBody a = quoteBody b) : a = b := by
  have h1 := unquote_quoteBody a
  rw [h, unquote_quoteBody] at h1
  exact (Option.some.inj h1).symm

theorem field_eq_of_name {S : Type} (fs : List (StructField S))
    (hn : (fs.map (fun f => f.name)).Nodup) (f g : StructField S) (hf : f ∈ fs) (hg : g ∈ fs)
    (h : f.name = g.name) : f = g :=
  List.inj_on_of_nodup_map hn hf hg h

theorem encodeField_cases {S : Type} (f : StructField S) (x : S)
    (m : Option (List Char × JSON)) (h : encodeField f x = .ok m) :
    (f.omitted x = true ∧ m = none) ∨
      (f.omitted x = false ∧ ∃ j, f.codec.enc (f.get x) = .ok j ∧
        m = some (quoteBody f.name.data, j)) := by
  simp only [encodeField] at h
  by_cases hom : f.omitted x = true
  · left
    simp only [StructField.omitted] at hom
    simp only [hom, if_true, Except.ok.injEq] at h
    exact ⟨by simpa [StructField.omitted] using hom, h.symm⟩
  · right
    have hom' : f.omitted x = false := by simpa using hom
    simp only [StructField.omitted] at hom
    simp only [hom] at h
    cases he : f.codec.enc (f.get x) with
    | error e => simp [he] at h
    | ok j => exact ⟨hom', j, rfl, by simpa [he] using h.symm⟩

theorem encodeFields_cons {S : Type} (f : StructField S) (fs : List (StructField S)) (x : S)
    (ms : List (List Char × JSON)) (h : encodeFields (f :: fs) x = .ok ms) :
    ∃ m ms1, encodeField f x = .ok m ∧ encodeFields fs x = .ok ms1 ∧ ms = m.toList ++ ms1 := by
  simp only [encodeFields] at h
  cases hm : encodeField f x with
  | error e => simp [hm] at h
  | ok m =>
      cases hl : encodeFields fs x with
      | error e => simp [hm, hl] at h
      | ok ms1 => exact ⟨m, ms1, rfl, rfl, by simpa [hm, hl] using h.symm⟩

/-- The keys written for a struct value are the keys of the fields that are not
left out, in the order of the fields. -/
theorem encodeFields_keys {S : Type} (x : S) :
    ∀ (fs : List (StructField S)) (ms : List (List Char × JSON)),
      encodeFields fs x = .ok ms →
      ms.map (fun m => m.1) =
        (fs.filter (fun f => !f.omitted x)).map (fun f => quoteBody f.name.data) := by
  intro fs
  induction fs with
  | nil =>
      intro ms h
      simp only [encodeFields, Except.ok.injEq] at h
      subst h
      rfl
  | cons f fs ih =>
      intro ms h
      obtain ⟨m, ms1, hm, hl, rfl⟩ := encodeFields_cons f fs x ms h
      rcases encodeField_cases f x m hm with ⟨hom, rfl⟩ | ⟨hom, j, _, rfl⟩
      · simp [List.filter, hom, ih ms1 hl]
      · simp [List.filter, hom, ih ms1 hl]

/-- The value written under the key of a field that is not left out is the
encoding of the field. -/
theorem encodeFields_lookup {S : Type} (x : S) (g : StructField S) :
    ∀ (fs : List (StructField S)) (ms : List (List Char × JSON)),
      (fs.map (fun f => f.name)).Nodup → g ∈ fs → g.omitted x = false →
      encodeFields fs x = .ok ms →
      ∃ v, (JSON.obj ms).lookup (quoteBody g.name.data) = some v ∧
        g.codec.enc (g.get x) = .ok v := by
  intro fs
  induction fs with
  | nil => intro ms _ hg; simp at hg
  | cons f fs ih =>
      intro ms hn hg hom h
      obtain ⟨m, ms1, hm, hl, rfl⟩ := encodeFields_cons f fs x ms h
      have hn' : (fs.map (fun f => f.name)).Nodup := by
        rw [List.map_cons, List.nodup_cons] at hn
        exact hn.2
      by_cases hfg : f.name = g.name
      · have hfg' : f = g := field_eq_of_name (f :: fs) hn f g (by simp) hg hfg
        subst hfg'
        rcases encodeField_cases f x m hm with ⟨hom1, _⟩ | ⟨_, j, hj, rfl⟩
        · rw [hom] at hom1
          exact absurd hom1 (by decide)
        · exact ⟨j, by simp [JSON.lookup, List.find?], hj⟩
      · have hg' : g ∈ fs := by
          rcases List.mem_cons.mp hg with h1 | h1
          · exact absurd (h1 ▸ rfl) hfg
          · exact h1
        obtain ⟨v, hv, hev⟩ := ih ms1 hn' hg' hom hl
        refine ⟨v, ?_, hev⟩
        rcases encodeField_cases f x m hm with ⟨_, rfl⟩ | ⟨_, j, _, rfl⟩
        · simpa using hv
        · have hk : ¬ quoteBody f.name.data = quoteBody g.name.data := by
            intro hq
            exact hfg (String.ext (quoteBody_injective _ _ hq))
          simp only [JSON.lookup, Option.toList, List.cons_append, List.nil_append,
            List.find?, hk, decide_False] at hv ⊢
          exact hv

theorem encodeFields_total {S : Type} (x : S) :
    ∀ (fs : List (StructField S)),
      (∀ f ∈ fs, f.omitted x = true ∨ ∃ j, f.codec.enc (f.get x) = .ok j) →
      ∃ ms, encodeFields fs x = .ok ms := by
  intro fs
  induction fs with
  | nil => intro _; exact ⟨[], rfl⟩
  | cons f fs ih =>
      intro h
      obtain ⟨ms1, hms1⟩ := ih (fun g hg => h g (by simp [hg]))
      have hf : ∃ m, encodeField f x = .ok m := by
        simp only [encodeField]
        rcases h f (by simp) with hom | ⟨j, hj⟩
        · simp only [StructField.omitted] at hom
          exact ⟨none, by simp [hom]⟩
        · by_cases hom : (f.omitempty && f.codec.isEmpty (f.get x)) = true
          · exact ⟨none, by simp [hom]⟩
          · exact ⟨some (quoteBody f.name.data, j), by simp [hom, hj]⟩
      obtain ⟨m, hm⟩ := hf
      exact ⟨m.toList ++ ms1, by simp [encodeFields, hm, hms1]⟩

theorem stringCodec_total : stringCodec.Total := fun _ => ⟨_, rfl⟩

theorem encodeElems_total {α : Type} (c : Codec α) (hc : c.Total) :
    ∀ l : List α, ∃ js, encodeElems c l = .ok js := by
  intro l
  induction l with
  | nil => exact ⟨[], rfl⟩
  | cons x l ih =>
      obtain ⟨j, hj⟩ := hc x
      obtain ⟨js, hjs⟩ := ih
      exact ⟨j :: js, by simp [encodeElems, hj, hjs]⟩

theorem sliceCodec_total {α : Type} (c : Codec α) (hc : c.Total) : (sliceCodec c).Total := by
  intro xs
  cases xs with
  | none => exact ⟨.null, rfl⟩
  | some l =>
      obtain ⟨js, hjs⟩ := encodeElems_total c hc l
      exact ⟨.arr js, by simp [sliceCodec, hjs]⟩

theorem ptrCodec_total {α : Type} (c : Codec α) (hc : c.Total) : (ptrCodec c).Total := by
  intro p
  cases p with
  | none => exact ⟨.null, rfl⟩
  | some x => exact hc x

theorem structCodec_total {S : Type} (goType : String) (zero : S) (fs : List (StructField S))
    (h : ∀ f ∈ fs, f.codec.Total) : (structCodec goType zero fs).Total := by
  intro x
  obtain ⟨ms, hms⟩ := encodeFields_total x fs (fun f hf => Or.inr (h f hf _))
  exact ⟨.obj ms, by simp [structCodec, hms]⟩

/-! ## The marshalers of prd.go never fail, the one of the timestamp apart -/

theorem ownerCodec_total : ownerCodec.Total :=
  structCodec_total _ _ _ (by
    intro f hf
    simp only [ownerFields, List.mem_cons, List.mem_singleton, List.not_mem_nil, or_false] at hf
    rcases hf with rfl | rfl | rfl
    exacts [stringCodec_total,
    stringCodec_total,
    stringCodec_total])

theorem stakeholderCodec_total : stakeholderCodec.Total :=
  structCodec_total _ _ _ (by
    intro f hf
    simp only [stakeholderFields, List.mem_cons, List.mem_singleton, List.not_mem_nil, or_false] at hf
    rcases hf with rfl | rfl | rfl | rfl
    exacts [stringCodec_total,
    stringCodec_total,
    stringCodec_total,
    stringCodec_total])

theorem overviewCodec_total : overviewCodec.Total :=
  structCodec_total _ _ _ (by
    intro f hf
    simp only [overviewFields, List.mem_cons, List.mem_singleton, List.not_mem_nil, or_false] at hf
    rcases hf with rfl | rfl | rfl | rfl
    exacts [stringCodec_total,
    stringCodec_total,
    stringCodec_total,
    stringCodec_total])

theorem successMetricCodec_total : successMetricCodec.Total :=
  structCodec_total _ _ _ (by
    intro f hf
    simp only [successMetricFields, List.mem_cons, List.mem_singleton, List.not_mem_nil, or_false] at hf
    rcases hf with rfl | rfl | rfl
    exacts [stringCodec_total,
    stringCodec_total,
    stringCodec_total])

theorem okrCodec_total : okrCodec.Total :=
  structCodec_total _ _ _ (by
    intro f hf
    simp only [okrFields, List.mem_cons, List.mem_singleton, List.not_mem_nil, or_false] at hf
    rcases hf with rfl | rfl
    exacts [stringCodec_total,
    sliceCodec_total _ stringCodec_total])

theorem objectivesCodec_total : objectivesCodec.Total :=
  structCodec_total _ _ _ (by
    intro f hf
    simp only [objectivesFields, List.mem_cons, List.mem_singleton, List.not_mem_nil, or_false] at hf
    rcases hf with rfl | rfl | rfl
    exacts [sliceCodec_total _ stringCodec_total,
    sliceCodec_total _ (successMetricCodec_total),
    sliceCodec_total _ (okrCodec_total)])

theorem userPersonaCodec_total : userPersonaCodec.Total :=
  structCodec_total _ _ _ (by
    intro f hf
    simp only [userPersonaFields, List.mem_cons, List.mem_singleton, List.not_mem_nil, or_false] at hf
    rcases hf with rfl | rfl | rfl | rfl
    exacts [stringCodec_total,
    stringCodec_total,
    sliceCodec_total _ stringCodec_total,
    sliceCodec_total _ stringCodec_total])

theorem userStoryCodec_total : userStoryCodec.Total :=
  structCodec_total _ _ _ (by
    intro f hf
    simp only [userStoryFields, List.mem_cons, List.mem_singleton, List.not_mem_nil, or_false] at hf
    rcases hf with rfl | rfl | rfl | rfl | rfl
    exacts [stringCodec_total,
    stringCodec_total,
    sliceCodec_total _ stringCodec_total,
    stringCodec_total,
    stringCodec_total])

theorem functionalRequirementCodec_total : functionalRequirementCodec.Total :=
  structCodec_total _ _ _ (by
    intro f hf
    simp only [functionalRequirementFields, List.mem_cons, List.mem_singleton, List.not_mem_nil, or_false] at hf
    rcases hf with rfl | rfl | rfl | rfl
    exacts [stringCodec_total,
    stringCodec_total,
    stringCodec_total,
    sliceCodec_total _ stringCodec_total])

theorem nonFunctionalRequirementCodec_total : nonFunctionalRequirementCodec.Total :=
  structCodec_total _ _ _ (by
    intro f hf
    simp only [nonFunctionalRequirementFields, List.mem_cons, List.mem_singleton, List.not_mem_nil, or_false] at hf
    rcases hf with rfl | rfl | rfl | rfl
    exacts [stringCodec_total,
    stringCodec_total,
    stringCodec_total,
    stringCodec_total])

theorem requirementsCodec_total : requirementsCodec.Total :=
  structCodec_total _ _ _ (by
    intro f hf
    simp only [requirementsFields, List.mem_cons, List.mem_singleton, List.not_mem_nil, or_false] at hf
    rcases hf with rfl | rfl
    exacts [sliceCodec_total _ (functionalRequirementCodec_total),
    sliceCodec_total _ (nonFunctionalRequirementCodec_total)])

theorem technologyStackCodec_total : technologyStackCodec.Total :=
  structCodec_total _ _ _ (by
    intro f hf
    simp only [technologyStackFields, List.mem_cons, List.mem_singleton, List.not_mem_nil, or_false] at hf
    rcases hf with rfl | rfl | rfl | rfl
    exacts [sliceCodec_total _ stringCodec_total,
    sliceCodec_total _ stringCodec_total,
    sliceCodec_total _ stringCodec_total,
    sliceCodec_total _ stringCodec_total])

theorem apiSpecificationCodec_total : apiSpecificationCodec.Total :=
  structCodec_total _ _ _ (by
    intro f hf
    simp only [apiSpecificationFields, List.mem_cons, List.mem_singleton, List.not_mem_nil, or_false] at hf
    rcases hf with rfl | rfl | rfl | rfl | rfl
    exacts [stringCodec_total,
    stringCodec_total,
    stringCodec_total,
    stringCodec_total,
    stringCodec_total])

theorem technicalSpecificationsCodec_total : technicalSpecificationsCodec.Total :=
  structCodec_total _ _ _ (by
    intro f hf
    simp only [technicalSpecificationsFields, List.mem_cons, List.mem_singleton, List.not_mem_nil, or_false] at hf
    rcases hf with rfl | rfl | rfl | rfl
    exacts [stringCodec_total,
    ptrCodec_total _ (technologyStackCodec_total),
    sliceCodec_total _ (apiSpecificationCodec_total),
    sliceCodec_total _ stringCodec_total])

theorem milestoneCodec_total : milestoneCodec.Total :=
  structCodec_total _ _ _ (by
    intro f hf
    simp only [milestoneFields, List.mem_cons, List.mem_singleton, List.not_mem_nil, or_false] at hf
    rcases hf with rfl | rfl | rfl | rfl
    exacts [stringCodec_total,
    stringCodec_total,
    stringCodec_total,
    sliceCodec_total _ stringCodec_total])

theorem timelineCodec_total : timelineCodec.Total :=
  structCodec_total _ _ _ (by
    intro f hf
    simp only [timelineFields, List.mem_cons, List.mem_singleton, List.not_mem_nil, or_false] at hf
    rcases hf with rfl | rfl
    exacts [sliceCodec_total _ (milestoneCodec_total),
    stringCodec_total])

theorem riskCodec_total : riskCodec.Total :=
  structCodec_total _ _ _ (by
    intro f hf
    simp only [riskFields, List.mem_cons, List.mem_singleton, List.not_mem_nil, or_false] at hf
    rcases hf with rfl | rfl | rfl | rfl
    exacts [stringCodec_total,
    stringCodec_total,
    stringCodec_total,
    stringCodec_total])

theorem risksAndAssumptionsCodec_total : risksAndAssumptionsCodec.Total :=
  structCodec_total _ _ _ (by
    intro f hf
    simp only [risksAndAssumptionsFields, List.mem_cons, List.mem_singleton, List.not_mem_nil, or_false] at hf
    rcases hf with rfl | rfl
    exacts [sliceCodec_total _ (riskCodec_total),
    sliceCodec_total _ stringCodec_total])

theorem mockupWireframeCodec_total : mockupWireframeCodec.Total :=
  structCodec_total _ _ _ (by
    intro f hf
    simp only [mockupWireframeFields, List.mem_cons, List.mem_singleton, List.not_mem_nil, or_false] at hf
    rcases hf with rfl | rfl | rfl
    exacts [stringCodec_total,
    stringCodec_total,
    stringCodec_total])

theorem relatedDocumentCodec_total : relatedDocumentCodec.Total :=
  structCodec_total _ _ _ (by
    intro f hf
    simp only [relatedDocumentFields, List.mem_cons, List.mem_singleton, List.not_mem_nil, or_false] at hf
    rcases hf with rfl | rfl | rfl
    exacts [stringCodec_total,
    stringCodec_total,
    stringCodec_total])

theorem appendicesCodec_total : appendicesCodec.Total :=
  structCodec_total _ _ _ (by
    intro f hf
    simp only [appendicesFields, List.mem_cons, List.mem_singleton, List.not_mem_nil, or_false] at hf
    rcases hf with rfl | rfl | rfl
    exacts [stringCodec_total,
    sliceCodec_total _ (mockupWireframeCodec_total),
    sliceCodec_total _ (relatedDocumentCodec_total)])

/-- A document is written when its timestamp, if set, has a text form. -/
theorem prdCodec_enc_ok {Time : Type} (tc : TimeCodec Time) (d : PRD Time)
    (hT : ∀ t, d.LastUpdated = some t → ∃ s, tc.MarshalJSON t = .ok s) :
    ∃ j, (prdCodec tc).enc d = .ok j := by
  have hlu : (⟨"last_updated", true, Option Time, fun s => s.LastUpdated,
      fun s v => { s with LastUpdated := v }, timePtrCodec tc⟩ : StructField (PRD Time)).omitted d
        = true ∨
      ∃ j, (timePtrCodec tc).enc d.LastUpdated = .ok j := by
    cases hl : d.LastUpdated with
    | none => left; simp [StructField.omitted, timePtrCodec, hl]
    | some t =>
        right
        obtain ⟨s, hs⟩ := hT t hl
        exact ⟨.str s.data, by simp [timePtrCodec, hs]⟩
  obtain ⟨ms, hms⟩ := encodeFields_total d (prdFields tc) (by
    intro f hf
    simp only [prdFields, List.mem_cons, List.mem_singleton, List.not_mem_nil, or_false] at hf
    rcases hf with rfl | rfl | rfl | rfl | rfl | rfl | rfl | rfl | rfl | rfl | rfl | rfl | rfl | rfl | rfl | rfl | rfl | rfl | rfl
    exacts [Or.inr (stringCodec_total _),
    Or.inr (stringCodec_total _),
    Or.inr (stringCodec_total _),
    Or.inr (stringCodec_total _),
    hlu,
    Or.inr (ownerCodec_total _),
    Or.inr (sliceCodec_total _ (stakeholderCodec_total) _),
    Or.inr (stringCodec_total _),
    Or.inr (stringCodec_total _),
    Or.inr (overviewCodec_total _),
    Or.inr (objectivesCodec_total _),
    Or.inr (sliceCodec_total _ (userPersonaCodec_total) _),
    Or.inr (sliceCodec_total _ (userStoryCodec_total) _),
    Or.inr (requirementsCodec_total _),
    Or.inr (ptrCodec_total _ (technicalSpecificationsCodec_total) _),
    Or.inr (ptrCodec_total _ (timelineCodec_total) _),
    Or.inr (ptrCodec_total _ (risksAndAssumptionsCodec_total) _),
    Or.inr (sliceCodec_total _ stringCodec_total _),
    Or.inr (ptrCodec_total _ (appendicesCodec_total) _)])
  exact ⟨.obj ms, by simp [prdCodec, structCodec, hms]⟩

/-! ## ToJSON and FromJSON -/

theorem ToJSON_of_enc {Time : Type} (tc : TimeCodec Time) (d : PRD Time) (j : JSON)
    (h : (prdCodec tc).enc d = .ok j) : ToJSON tc d = .ok (String.mk (render 0 j)) := by
  simp [ToJSON, h]

theorem enc_of_ToJSON {Time : Type} (tc : TimeCodec Time) (d : PRD Time) (text : String)
    (h : ToJSON tc d = .ok text) :
    ∃ j, (prdCodec tc).enc d = .ok j ∧ text = String.mk (render 0 j) := by
  simp only [ToJSON] at h
  cases he : (prdCodec tc).enc d with
  | error e => simp [he] at h
  | ok j => exact ⟨j, rfl, by simpa [he] using h.symm⟩

/-- ToJSON returns a text exactly when the timestamp, if set, has a text
form. -/
theorem ToJSON_ok_of_time {Time : Type} (tc : TimeCodec Time) (d : PRD Time)
    (hT : ∀ t, d.LastUpdated = some t → ∃ s, tc.MarshalJSON t = .ok s) :
    ∃ j, (prdCodec tc).enc d = .ok j ∧ ToJSON tc d = .ok (String.mk (render 0 j)) := by
  obtain ⟨j, hj⟩ := prdCodec_enc_ok tc d hT
  exact ⟨j, hj, ToJSON_of_enc tc d j hj⟩

/-- The text ToJSON writes is read as the JSON value that was encoded. -/
theorem parseJSON_of_enc {Time : Type} (tc : TimeCodec Time) (d : PRD Time) (j : JSON)
    (h : (prdCodec tc).enc d = .ok j) : parseJSON (render 0 j) = some j := by
  obtain ⟨hc, hh⟩ := prdCodec_cleanEnc tc d j h
  exact parseJSON_render j hc (by simp only [maxNestingDepth]; omega)

theorem FromJSON_of_enc {Time : Type} (tc : TimeCodec Time) (d : PRD Time) (j : JSON)
    (h : (prdCodec tc).enc d = .ok j) (y : PRD Time)
    (hy : (prdCodec tc).dec (prdCodec tc).zero j = .ok y) :
    FromJSON tc (String.mk (render 0 j)) = .ok y := by
  have hz : (prdCodec tc).zero = zeroPRD := rfl
  rw [hz] at hy
  simp [FromJSON, parseJSON_of_enc tc d j h, hy]

/-- Whatever ToJSON writes, FromJSON reads, and every field of the document
read is what `DecodedAs` says. -/
theorem FromJSON_ToJSON_decodes {Time : Type} (tc : TimeCodec Time) (d : PRD Time)
    (text : String) (h : ToJSON tc d = .ok text) :
    ∃ y, FromJSON tc text = .ok y ∧ ∀ f ∈ prdFields tc, f.DecodedAs d (f.get y) := by
  obtain ⟨j, hj, rfl⟩ := enc_of_ToJSON tc d text h
  obtain ⟨y, hy, hf⟩ := structCodec_decodes "prd.PRD" (prdFields_lawful tc) (prdFields_reads tc)
    d j hj
  exact ⟨y, FromJSON_of_enc tc d j hj y hy, hf⟩

/-- A document in which no list tagged `omitempty` is empty but not nil, and
whose timestamp, if set, has a text form that is read back as the same time, is
written by ToJSON and read back by FromJSON as it is. -/
theorem FromJSON_ToJSON_of_noEmptyOmitted {Time : Type} (tc : TimeCodec Time) (d : PRD Time)
    (hne : d.NoEmptyOmitted)
    (ht : ∀ t, d.LastUpdated = some t →
      ∃ s, tc.MarshalJSON t = .ok s ∧ tc.UnmarshalJSON s = .ok t) :
    ∃ text, ToJSON tc d = .ok text ∧ FromJSON tc text = .ok d := by
  obtain ⟨j, hj, htext⟩ := ToJSON_ok_of_time tc d (fun t h => by
    obtain ⟨s, hs, _⟩ := ht t h
    exact ⟨s, hs⟩)
  refine ⟨_, htext, ?_⟩
  have hst := prdCodec_stable tc d hne (fun t s h hs => by
    obtain ⟨s1, hs1, hu⟩ := ht t h
    rw [hs1] at hs
    cases hs
    exact hu)
  exact FromJSON_of_enc tc d j hj d (hst j hj)

/-- C1 (as amended). For a document that passes Validate, in which no list
tagged `omitempty` is empty but not nil, and whose timestamp, if set, has a text
form that is read back as the same time, ToJSON returns a text and FromJSON of
that text yields the document itself: equal on every field, an absent list
still absent and a present nested record still present, also when all its
fields are empty. -/
theorem FromJSON_ToJSON_roundtrip {Time : Type} (tc : TimeCodec Time) (d : PRD Time)
    (_hv : Validate d = none) (hne : d.NoEmptyOmitted)
    (ht : ∀ t, d.LastUpdated = some t →
      ∃ s, tc.MarshalJSON t = .ok s ∧ tc.UnmarshalJSON s = .ok t) :
    ∃ text, ToJSON tc d = .ok text ∧ FromJSON tc text = .ok d :=
  FromJSON_ToJSON_of_noEmptyOmitted tc d hne ht

theorem FromJSON_ToJSON_roundtrip_witness :
    Validate fullPRD = none ∧ fullPRD.NoEmptyOmitted ∧
      ∃ text, ToJSON yearCodec fullPRD = .ok text ∧ FromJSON yearCodec text = .ok fullPRD :=
  have hne : fullPRD.NoEmptyOmitted := by
    simp [PRD.NoEmptyOmitted, Objectives.NoEmptyOmitted, UserPersona.NoEmptyOmitted,
      Requirements.NoEmptyOmitted, FunctionalRequirement.NoEmptyOmitted,
      TechnicalSpecifications.NoEmptyOmitted, Timeline.NoEmptyOmitted,
      Milestone.NoEmptyOmitted, RisksAndAssumptions.NoEmptyOmitted, fullPRD, minimalPRD]
  ⟨by decide, hne,
   FromJSON_ToJSON_roundtrip yearCodec fullPRD (by decide) hne (fun t h => by
     cases h
     exact ⟨_, rfl, rfl⟩)⟩

/-- C1 (counterexample). The document `emptyDepsPRD` passes Validate, and its
requirement holds an empty list of dependencies that is not nil; ToJSON leaves
the list out, and FromJSON of the text ToJSON returns yields `minimalPRD`, in
which the list is nil: the document read differs from the document written. -/
theorem FromJSON_ToJSON_loses_empty_list :
    Validate emptyDepsPRD = none ∧
      ∃ text, ToJSON yearCodec emptyDepsPRD = .ok text ∧
        FromJSON yearCodec text = .ok minimalPRD ∧ minimalPRD ≠ emptyDepsPRD := by
  have hmin : minimalPRD.NoEmptyOmitted := by
    simp [PRD.NoEmptyOmitted, Objectives.NoEmptyOmitted, Requirements.NoEmptyOmitted,
      FunctionalRequirement.NoEmptyOmitted, minimalPRD]
  obtain ⟨text, h1, h2⟩ := FromJSON_ToJSON_of_noEmptyOmitted yearCodec minimalPRD hmin
    (fun t h => by cases h)
  have henc : (prdCodec yearCodec).enc emptyDepsPRD = (prdCodec yearCodec).enc minimalPRD :=
    rfl
  have h3 : ToJSON yearCodec emptyDepsPRD = ToJSON yearCodec minimalPRD := by
    simp only [ToJSON, henc]
  exact ⟨by decide, text, h3.trans h1, h2, by decide⟩

/-! ## The keys of the object ToJSON writes -/

theorem lookup_eq_none_of_not_mem (k : List Char) (j : JSON) (h : k ∉ j.keys) :
    j.lookup k = none := by
  cases j with
  | obj ms =>
      simp only [JSON.keys, List.mem_map, not_exists, not_and] at h
      simp only [JSON.lookup, Option.map_eq_none', List.find?_eq_none, decide_eq_true_eq]
      intro m hm he
      exact h m hm he
  | _ => rfl

/-- The key of a field is among the keys written exactly when the field is not
left out, and then its value is the encoding of the field. -/
theorem structCodec_key_iff {S : Type} (goType : String) (zero : S)
    (fs : List (StructField S)) (hn : (fs.map (fun f => f.name)).Nodup) (x : S) (j : JSON)
    (hj : (structCodec goType zero fs).enc x = .ok j) (g : StructField S) (hg : g ∈ fs) :
    (quoteBody g.name.data ∈ j.keys ↔ g.omitted x = false) ∧
      (g.omitted x = false →
        ∃ v, j.lookup (quoteBody g.name.data) = some v ∧ g.codec.enc (g.get x) = .ok v) ∧
      (g.omitted x = true → j.lookup (quoteBody g.name.data) = none) := by
  simp only [structCodec] at hj
  cases hl : encodeFields fs x with
  | error e => simp [hl] at hj
  | ok ms =>
      simp only [hl, Except.ok.injEq] at hj
      subst hj
      have hkeys := encodeFields_keys x fs ms hl
      have hiff : quoteBody g.name.data ∈ (JSON.obj ms).keys ↔ g.omitted x = false := by
        simp only [JSON.keys, hkeys, List.mem_map, List.mem_filter, Bool.not_eq_true']
        constructor
        · rintro ⟨f, ⟨hf, hom⟩, hq⟩
          have := field_eq_of_name fs hn f g hf hg (String.ext (quoteBody_injective _ _ hq))
          rw [← this]
          exact hom
        · intro hom
          exact ⟨g, ⟨hg, hom⟩, rfl⟩
      refine ⟨hiff, fun hom => encodeFields_lookup x g fs ms hn hg hom hl, fun hom => ?_⟩
      apply lookup_eq_none_of_not_mem
      rw [hiff, hom]
      decide

theorem sliceCodec_enc_nonempty {α : Type} (c : Codec α) (xs : Option (List α)) (v : JSON)
    (hne : (sliceCodec c).isEmpty xs = false) (h : (sliceCodec c).enc xs = .ok v) :
    v ≠ .null ∧ v ≠ .arr [] := by
  cases xs with
  | none => simp [sliceCodec, len] at hne
  | some l =>
      cases l with
      | nil => simp [sliceCodec, len] at hne
      | cons a l =>
          simp only [sliceCodec, encodeElems] at h
          cases ha : c.enc a with
          | error e => simp [ha] at h
          | ok ja =>
              cases hl : encodeElems c l with
              | error e => simp [ha, hl] at h
              | ok js =>
                  simp only [ha, hl, Except.ok.injEq] at h
                  subst h
                  exact ⟨fun h => JSON.noConfusion h, fun h => by cases h⟩

theorem stringCodec_enc_ne (s : String) (v : JSON) (h : stringCodec.enc s = .ok v) :
    v ≠ .null ∧ v ≠ .arr [] := by
  simp only [stringCodec, Except.ok.injEq] at h
  subst h
  exact ⟨fun h => JSON.noConfusion h, fun h => JSON.noConfusion h⟩

theorem ptrStructCodec_enc_ne {S : Type} (goType : String) (zero : S)
    (fs : List (StructField S)) (p : Option S) (v : JSON)
    (hne : (ptrCodec (structCodec goType zero fs)).isEmpty p = false)
    (h : (ptrCodec (structCodec goType zero fs)).enc p = .ok v) :
    v ≠ .null ∧ v ≠ .arr [] := by
  cases p with
  | none => simp [ptrCodec] at hne
  | some x =>
      simp only [ptrCodec, structCodec] at h
      cases hl : encodeFields fs x with
      | error e => simp [hl] at h
      | ok ms =>
          simp only [hl, Except.ok.injEq] at h
          subst h
          exact ⟨fun h => JSON.noConfusion h, fun h => JSON.noConfusion h⟩

theorem timePtrCodec_enc_ne {Time : Type} (tc : TimeCodec Time) (p : Option Time) (v : JSON)
    (hne : (timePtrCodec tc).isEmpty p = false) (h : (timePtrCodec tc).enc p = .ok v) :
    v ≠ .null ∧ v ≠ .arr [] := by
  cases p with
  | none => simp [timePtrCodec] at hne
  | some t =>
      simp only [timePtrCodec] at h
      cases hs : tc.MarshalJSON t with
      | error e => simp [hs] at h
      | ok s =>
          simp only [hs, Except.ok.injEq] at h
          subst h
          exact ⟨fun h => JSON.noConfusion h, fun h => JSON.noConfusion h⟩

/-- For a field tagged `omitempty` of the document: its key is written exactly
when the field is not empty, and the value under the key is neither `null` nor
an empty array. -/
theorem prd_optional_key {Time : Type} (tc : TimeCodec Time) (d : PRD Time) (j : JSON)
    (hj : (prdCodec tc).enc d = .ok j) (g : StructField (PRD Time)) (hg : g ∈ prdFields tc)
    (hopt : g.omitempty = true)
    (hval : ∀ v, g.codec.isEmpty (g.get d) = false → g.codec.enc (g.get d) = .ok v →
      v ≠ .null ∧ v ≠ .arr []) :
    (quoteBody g.name.data ∈ j.keys ↔ g.codec.isEmpty (g.get d) = false) ∧
      j.lookup (quoteBody g.name.data) ≠ some .null ∧
      j.lookup (quoteBody g.name.data) ≠ some (.arr []) := by
  obtain ⟨h1, h2, h3⟩ := structCodec_key_iff "prd.PRD" zeroPRD (prdFields tc)
    (prdFields_lawful tc).names_nodup d j hj g hg
  have hom : g.omitted d = g.codec.isEmpty (g.get d) := by
    simp [StructField.omitted, hopt]
  rw [hom] at h1 h2 h3
  refine ⟨h1, ?_, ?_⟩
  · cases he : g.codec.isEmpty (g.get d) with
    | true => rw [h3 he]; exact fun h => Option.noConfusion h
    | false =>
        obtain ⟨v, hv, hev⟩ := h2 he
        rw [hv]
        intro h
        exact (hval v he hev).1 (Option.some.inj h)
  · cases he : g.codec.isEmpty (g.get d) with
    | true => rw [h3 he]; exact fun h => Option.noConfusion h
    | false =>
        obtain ⟨v, hv, hev⟩ := h2 he
        rw [hv]
        intro h
        exact (hval v he hev).2 (Option.some.inj h)

theorem prdFields_length {Time : Type} (tc : TimeCodec Time) : (prdFields tc).length = 19 :=
  rfl

/-- C7. In the object ToJSON writes, the key of each optional top-level field
is present exactly when the field is not empty (a list with an element, a
non-empty priority, a nested record or timestamp that is present), and the
value under such a key is never `null` and never an empty array. -/
theorem ToJSON_optional_keys {Time : Type} (tc : TimeCodec Time) (d : PRD Time)
    (text : String) (h : ToJSON tc d = .ok text) :
    ∃ j, parseJSON text.data = some j ∧
      ("last_updated".data ∈ j.keys ↔ d.LastUpdated ≠ none) ∧
      ("stakeholders".data ∈ j.keys ↔ 0 < len d.Stakeholders) ∧
      ("priority".data ∈ j.keys ↔ d.Priority ≠ "") ∧
      ("user_personas".data ∈ j.keys ↔ 0 < len d.UserPersonas) ∧
      ("user_stories".data ∈ j.keys ↔ 0 < len d.UserStories) ∧
      ("technical_specifications".data ∈ j.keys ↔ d.TechnicalSpecifications ≠ none) ∧
      ("timeline".data ∈ j.keys ↔ d.Timeline ≠ none) ∧
      ("risks_and_assumptions".data ∈ j.keys ↔ d.RisksAndAssumptions ≠ none) ∧
      ("out_of_scope".data ∈ j.keys ↔ 0 < len d.OutOfScope) ∧
      ("appendices".data ∈ j.keys ↔ d.Appendices ≠ none) ∧
      ∀ k ∈ optionalKeys, j.lookup k ≠ some .null ∧ j.lookup k ≠ some (.arr []) := by
  obtain ⟨j, hj, rfl⟩ := enc_of_ToJSON tc d text h
  refine ⟨j, parseJSON_of_enc tc d j hj, ?_⟩
  have hb : ∀ i : Nat, i < 19 → i < (prdFields tc).length := by
    intro i hi
    rw [prdFields_length]
    exact hi
  have h4 : ("last_updated".data ∈ j.keys ↔ d.LastUpdated.isNone = false) ∧
      j.lookup "last_updated".data ≠ some .null ∧
      j.lookup "last_updated".data ≠ some (.arr []) :=
    prd_optional_key tc d j hj ((prdFields tc).get ⟨4, hb 4 (by decide)⟩) (List.get_mem _ _ _)
      rfl (fun v hne hv => timePtrCodec_enc_ne tc _ v hne hv)
  have h6 : ("stakeholders".data ∈ j.keys ↔ decide (len d.Stakeholders = 0) = false) ∧
      j.lookup "stakeholders".data ≠ some .null ∧
      j.lookup "stakeholders".data ≠ some (.arr []) :=
    prd_optional_key tc d j hj ((prdFields tc).get ⟨6, hb 6 (by decide)⟩) (List.get_mem _ _ _)
      rfl (fun v hne hv => sliceCodec_enc_nonempty _ _ v hne hv)
  have h8 : ("priority".data ∈ j.keys ↔ decide (d.Priority = "") = false) ∧
      j.lookup "priority".data ≠ some .null ∧
      j.lookup "priority".data ≠ some (.arr []) :=
    prd_optional_key tc d j hj ((prdFields tc).get ⟨8, hb 8 (by decide)⟩) (List.get_mem _ _ _)
      rfl (fun v _ hv => stringCodec_enc_ne _ v hv)
  have h11 : ("user_personas".data ∈ j.keys ↔ decide (len d.UserPersonas = 0) = false) ∧
      j.lookup "user_personas".data ≠ some .null ∧
      j.lookup "user_personas".data ≠ some (.arr []) :=
    prd_optional_key tc d j hj ((prdFields tc).get ⟨11, hb 11 (by decide)⟩)
      (List.get_mem _ _ _) rfl (fun v hne hv => sliceCodec_enc_nonempty _ _ v hne hv)
  have h12 : ("user_stories".data ∈ j.keys ↔ decide (len d.UserStories = 0) = false) ∧
      j.lookup "user_stories".data ≠ some .null ∧
      j.lookup "user_stories".data ≠ some (.arr []) :=
    prd_optional_key tc d j hj ((prdFields tc).get ⟨12, hb 12 (by decide)⟩)
      (List.get_mem _ _ _) rfl (fun v hne hv => sliceCodec_enc_nonempty _ _ v hne hv)
  have h14 : ("technical_specifications".data ∈ j.keys ↔
        d.TechnicalSpecifications.isNone = false) ∧
      j.lookup "technical_specifications".data ≠ some .null ∧
      j.lookup "technical_specifications".data ≠ some (.arr []) :=
    prd_optional_key tc d j hj ((prdFields tc).get ⟨14, hb 14 (by decide)⟩)
      (List.get_mem _ _ _) rfl (fun v hne hv => ptrStructCodec_enc_ne _ _ _ _ v hne hv)
  have h15 : ("timeline".data ∈ j.keys ↔ d.Timeline.isNone = false) ∧
      j.lookup "timeline".data ≠ some .null ∧
      j.lookup "timeline".data ≠ some (.arr []) :=
    prd_optional_key tc d j hj ((prdFields tc).get ⟨15, hb 15 (by decide)⟩)
      (List.get_mem _ _ _) rfl (fun v hne hv => ptrStructCodec_enc_ne _ _ _ _ v hne hv)
  have h16 : ("risks_and_assumptions".data ∈ j.keys ↔
        d.RisksAndAssumptions.isNone = false) ∧
      j.lookup "risks_and_assumptions".data ≠ some .null ∧
      j.lookup "risks_and_assumptions".data ≠ some (.arr []) :=
    prd_optional_key tc d j hj ((prdFields tc).get ⟨16, hb 16 (by decide)⟩)
      (List.get_mem _ _ _) rfl (fun v hne hv => ptrStructCodec_enc_ne _ _ _ _ v hne hv)
  have h17 : ("out_of_scope".data ∈ j.keys ↔ decide (len d.OutOfScope = 0) = false) ∧
      j.lookup "out_of_scope".data ≠ some .null ∧
      j.lookup "out_of_scope".data ≠ some (.arr []) :=
    prd_optional_key tc d j hj ((prdFields tc).get ⟨17, hb 17 (by decide)⟩)
      (List.get_mem _ _ _) rfl (fun v hne hv => sliceCodec_enc_nonempty _ _ v hne hv)
  have h18 : ("appendices".data ∈ j.keys ↔ d.Appendices.isNone = false) ∧
      j.lookup "appendices".data ≠ some .null ∧
      j.lookup "appendices".data ≠ some (.arr []) :=
    prd_optional_key tc d j hj ((prdFields tc).get ⟨18, hb 18 (by decide)⟩)
      (List.get_mem _ _ _) rfl (fun v hne hv => ptrStructCodec_enc_ne _ _ _ _ v hne hv)
  have hnone : ∀ {α : Type} (o : Option α), o.isNone = false ↔ o ≠ none := by
    intro α o
    cases o <;> simp
  have hlen : ∀ n : Nat, decide (n = 0) = false ↔ 0 < n := by
    intro n
    simp [Nat.pos_iff_ne_zero]
  have hstr : ∀ s : String, decide (s = "") = false ↔ s ≠ "" := by
    intro s
    simp
  refine ⟨h4.1.trans (hnone _), h6.1.trans (hlen _), h8.1.trans (hstr _), h11.1.trans (hlen _),
    h12.1.trans (hlen _), h14.1.trans (hnone _), h15.1.trans (hnone _), h16.1.trans (hnone _),
    h17.1.trans (hlen _), h18.1.trans (hnone _), ?_⟩
  intro k hk
  simp only [optionalKeys, List.mem_cons, List.mem_singleton, List.not_mem_nil, or_false] at hk
  rcases hk with rfl | rfl | rfl | rfl | rfl | rfl | rfl | rfl | rfl | rfl
  exacts [h4.2, h6.2, h8.2, h11.2, h12.2, h14.2, h15.2, h16.2, h17.2, h18.2]

theorem ToJSON_optional_keys_witness :
    ∃ text, ToJSON yearCodec fullPRD = .ok text ∧
      ∃ j, parseJSON text.data = some j ∧ "stakeholders".data ∈ j.keys ∧
        "technical_specifications".data ∈ j.keys ∧ "appendices".data ∉ j.keys := by
  obtain ⟨j0, _, h⟩ := ToJSON_ok_of_time yearCodec fullPRD (fun t ht => by
    cases ht
    exact ⟨_, rfl⟩)
  obtain ⟨j, hp, _, h6, _, _, _, h14, _, _, _, h18, _⟩ :=
    ToJSON_optional_keys yearCodec fullPRD _ h
  exact ⟨_, h, j, hp, h6.mpr (by decide), h14.mpr (by decide), fun hm => h18.mp hm rfl⟩

/-! ## The priority key and the required keys -/

/-- C8 (as amended). For a document whose priority is unset, the root object of
the text ToJSON returns has no "priority" key, and FromJSON of that text yields
a document whose priority is unset.  (Inside a requirement or a user story
whose own priority is set, the key "priority" is still written.) -/
theorem ToJSON_priority_unset {Time : Type} (tc : TimeCodec Time) (d : PRD Time)
    (text : String) (hp : d.Priority = "") (h : ToJSON tc d = .ok text) :
    (∃ j, parseJSON text.data = some j ∧ "priority".data ∉ j.keys) ∧
      ∃ d1, FromJSON tc text = .ok d1 ∧ d1.Priority = "" := by
  have hb : 8 < (prdFields tc).length := by
    rw [prdFields_length]
    decide
  refine ⟨?_, ?_⟩
  · obtain ⟨j, hj, rfl⟩ := enc_of_ToJSON tc d text h
    refine ⟨j, parseJSON_of_enc tc d j hj, ?_⟩
    have h8 : ("priority".data ∈ j.keys ↔ decide (d.Priority = "") = false) ∧
        j.lookup "priority".data ≠ some .null ∧
        j.lookup "priority".data ≠ some (.arr []) :=
      prd_optional_key tc d j hj ((prdFields tc).get ⟨8, hb⟩) (List.get_mem _ _ _)
        rfl (fun v _ hv => stringCodec_enc_ne _ v hv)
    intro hm
    have := h8.1.mp hm
    simp [hp] at this
  · obtain ⟨y, hy, hf⟩ := FromJSON_ToJSON_decodes tc d text h
    refine ⟨y, hy, ?_⟩
    have h8 := hf ((prdFields tc).get ⟨8, hb⟩) (List.get_mem _ _ _)
    have hom : ((prdFields tc).get ⟨8, hb⟩).omitted d = true := by
      show (true && decide (d.Priority = "")) = true
      simp [hp]
    simp only [StructField.DecodedAs, hom, if_true] at h8
    exact h8

theorem reqPriorityPRD_text :
    (prdCodec yearCodec).enc reqPriorityPRD = .ok reqPriorityJSON ∧
      ToJSON yearCodec reqPriorityPRD = .ok (String.mk (render 0 reqPriorityJSON)) := by
  have h : (prdCodec yearCodec).enc reqPriorityPRD = .ok reqPriorityJSON := rfl
  exact ⟨h, ToJSON_of_enc yearCodec reqPriorityPRD _ h⟩

theorem ToJSON_priority_unset_witness :
    ∃ text, ToJSON yearCodec reqPriorityPRD = .ok text ∧
      (∃ j, parseJSON text.data = some j ∧ "priority".data ∉ j.keys) ∧
      ∃ d1, FromJSON yearCodec text = .ok d1 ∧ d1.Priority = "" :=
  ⟨_, reqPriorityPRD_text.2,
    ToJSON_priority_unset yearCodec reqPriorityPRD _ rfl reqPriorityPRD_text.2⟩

/-- C8 (counterexample). The priority of `reqPriorityPRD` is unset, and the
text ToJSON returns for it is read as a JSON value in which the key "priority"
occurs: the one of its functional requirement, whose priority is
"must_have". -/
theorem ToJSON_priority_key_of_requirement :
    reqPriorityPRD.Priority = "" ∧
      ∃ text j, ToJSON yearCodec reqPriorityPRD = .ok text ∧
        parseJSON text.data = some j ∧ j.hasKey "priority".data = true :=
  ⟨rfl, _, reqPriorityJSON, reqPriorityPRD_text.2,
    parseJSON_of_enc yearCodec reqPriorityPRD _ reqPriorityPRD_text.1, by rfl⟩

/-- The key of a field without `omitempty` is always written, and its value is
the encoding of the field. -/
theorem struct_required_key {S : Type} (goType : String) {zero : S}
    {fs : List (StructField S)} (laws : LawfulFields zero fs) (x : S) (j : JSON)
    (hj : (structCodec goType zero fs).enc x = .ok j) (g : StructField S) (hg : g ∈ fs)
    (hreq : g.omitempty = false) :
    quoteBody g.name.data ∈ j.keys ∧
      ∃ v, j.lookup (quoteBody g.name.data) = some v ∧ g.codec.enc (g.get x) = .ok v := by
  obtain ⟨h1, h2, _⟩ := structCodec_key_iff goType zero fs laws.names_nodup x j hj g hg
  have hom : g.omitted x = false := by simp [StructField.omitted, hreq]
  exact ⟨h1.mpr hom, h2 hom⟩

/-- C9. The object ToJSON writes always has the keys id, title, version,
created_date, owner, status, overview, objectives and requirements, with name
and email inside owner, problem_statement and solution_summary inside overview,
business_goals inside objectives and functional inside requirements, whatever
their values. -/
theorem ToJSON_required_keys {Time : Type} (tc : TimeCodec Time) (d : PRD Time)
    (text : String) (h : ToJSON tc d = .ok text) :
    ∃ j, parseJSON text.data = some j ∧
      (∀ k ∈ requiredKeys, k ∈ j.keys) ∧
      (∃ o, j.lookup "owner".data = some o ∧ "name".data ∈ o.keys ∧ "email".data ∈ o.keys) ∧
      (∃ o, j.lookup "overview".data = some o ∧ "problem_statement".data ∈ o.keys ∧
        "solution_summary".data ∈ o.keys) ∧
      (∃ o, j.lookup "objectives".data = some o ∧ "business_goals".data ∈ o.keys) ∧
      (∃ o, j.lookup "requirements".data = some o ∧ "functional".data ∈ o.keys) := by
  obtain ⟨j, hj, rfl⟩ := enc_of_ToJSON tc d text h
  refine ⟨j, parseJSON_of_enc tc d j hj, ?_⟩
  have hb : ∀ i : Nat, i < 19 → i < (prdFields tc).length := by
    intro i hi
    rw [prdFields_length]
    exact hi
  have key : ∀ (i : Nat) (hi : i < 19),
      ((prdFields tc).get ⟨i, hb i hi⟩).omitempty = false →
      quoteBody ((prdFields tc).get ⟨i, hb i hi⟩).name.data ∈ j.keys ∧
        ∃ v, j.lookup (quoteBody ((prdFields tc).get ⟨i, hb i hi⟩).name.data) = some v ∧
          ((prdFields tc).get ⟨i, hb i hi⟩).codec.enc
            (((prdFields tc).get ⟨i, hb i hi⟩).get d) = .ok v :=
    fun i hi hreq => struct_required_key "prd.PRD" (prdFields_lawful tc) d j hj _
      (List.get_mem _ _ _) hreq
  have k0 : "id".data ∈ j.keys := (key 0 (by decide) rfl).1
  have k1 : "title".data ∈ j.keys := (key 1 (by decide) rfl).1
  have k2 : "version".data ∈ j.keys := (key 2 (by decide) rfl).1
  have k3 : "created_date".data ∈ j.keys := (key 3 (by decide) rfl).1
  have k5 : "owner".data ∈ j.keys ∧
      ∃ v, j.lookup "owner".data = some v ∧ ownerCodec.enc d.Owner = .ok v :=
    key 5 (by decide) rfl
  have k7 : "status".data ∈ j.keys := (key 7 (by decide) rfl).1
  have k9 : "overview".data ∈ j.keys ∧
      ∃ v, j.lookup "overview".data = some v ∧ overviewCodec.enc d.Overview = .ok v :=
    key 9 (by decide) rfl
  have k10 : "objectives".data ∈ j.keys ∧
      ∃ v, j.lookup "objectives".data = some v ∧ objectivesCodec.enc d.Objectives = .ok v :=
    key 10 (by decide) rfl
  have k13 : "requirements".data ∈ j.keys ∧
      ∃ v, j.lookup "requirements".data = some v ∧
        requirementsCodec.enc d.Requirements = .ok v :=
    key 13 (by decide) rfl
  refine ⟨?_, ?_, ?_, ?_, ?_⟩
  · intro k hk
    simp only [requiredKeys, List.mem_cons, List.mem_singleton, List.not_mem_nil,
      or_false] at hk
    rcases hk with rfl | rfl | rfl | rfl | rfl | rfl | rfl | rfl | rfl
    exacts [k0, k1, k2, k3, k5.1, k7, k9.1, k10.1, k13.1]
  · obtain ⟨v, hv, hev⟩ := k5.2
    have n0 : "name".data ∈ v.keys :=
      (struct_required_key "prd.Owner" ownerFields_lawful d.Owner v hev
        (ownerFields.get ⟨0, by decide⟩) (List.get_mem _ _ _) rfl).1
    have n1 : "email".data ∈ v.keys :=
      (struct_required_key "prd.Owner" ownerFields_lawful d.Owner v hev
        (ownerFields.get ⟨1, by decide⟩) (List.get_mem _ _ _) rfl).1
    exact ⟨v, hv, n0, n1⟩
  · obtain ⟨v, hv, hev⟩ := k9.2
    have n0 : "problem_statement".data ∈ v.keys :=
      (struct_required_key "prd.Overview" overviewFields_lawful d.Overview v hev
        (overviewFields.get ⟨0, by decide⟩) (List.get_mem _ _ _) rfl).1
    have n1 : "solution_summary".data ∈ v.keys :=
      (struct_required_key "prd.Overview" overviewFields_lawful d.Overview v hev
        (overviewFields.get ⟨1, by decide⟩) (List.get_mem _ _ _) rfl).1
    exact ⟨v, hv, n0, n1⟩
  · obtain ⟨v, hv, hev⟩ := k10.2
    have n0 : "business_goals".data ∈ v.keys :=
      (struct_required_key "prd.Objectives" objectivesFields_lawful d.Objectives v hev
        (objectivesFields.get ⟨0, by decide⟩) (List.get_mem _ _ _) rfl).1
    exact ⟨v, hv, n0⟩
  · obtain ⟨v, hv, hev⟩ := k13.2
    have n0 : "functional".data ∈ v.keys :=
      (struct_required_key "prd.Requirements" requirementsFields_lawful d.Requirements v hev
        (requirementsFields.get ⟨0, by decide⟩) (List.get_mem _ _ _) rfl).1
    exact ⟨v, hv, n0⟩

theorem ToJSON_required_keys_witness :
    ∃ text, ToJSON yearCodec (zeroPRD : PRD Nat) = .ok text ∧
      ∃ j, parseJSON text.data = some j ∧ (∀ k ∈ requiredKeys, k ∈ j.keys) ∧
        ∃ o, j.lookup "objectives".data = some o ∧ "business_goals".data ∈ o.keys := by
  obtain ⟨j0, _, h⟩ := ToJSON_ok_of_time yearCodec (zeroPRD : PRD Nat) (fun t ht => by
    cases ht)
  obtain ⟨j, hp, hk, _, _, ho, _⟩ := ToJSON_required_keys yearCodec zeroPRD _ h
  exact ⟨_, h, j, hp, hk, ho⟩

/-! ## The layout of the text ToJSON writes -/

theorem checkLayout_replicate (k : Nat) :
    ∀ (n d : Nat) (t : List Char),
      checkLayout (.indent n) d (List.replicate k ' ' ++ t) = checkLayout (.indent (n + k)) d t := by
  induction k with
  | zero => intro n d t; rfl
  | succ k ih =>
      intro n d t
      rw [List.replicate_succ, List.cons_append, checkLayout]
      simp only [layoutStep, if_true]
      rw [ih]
      congr 2
      omega

theorem checkLayout_newline (m : Layout) (hm : m = .inline ∨ m = .opened ∨ m = .comma)
    (e d : Nat) (t : List Char) :
    checkLayout m d (newline e ++ t) = checkLayout (.indent (2 * e)) d t := by
  rw [newline, List.cons_append, checkLayout]
  rcases hm with rfl | rfl | rfl <;>
    simp [layoutStep, checkLayout_replicate]

theorem isHex_ne (c : Char) (h : isHex c = true) : c ≠ '"' ∧ c ≠ '\\' := by
  constructor <;> rintro rfl <;> exact absurd h (by decide)

theorem checkLayout_scanString (d : Nat) :
    ∀ (t : List Char) (st : StrState) (l r : List Char), scanString st t = some (l, r) →
      checkLayout st.layout d t = checkLayout .inline d r := by
  intro t
  induction t with
  | nil => intro st l r h; cases st <;> simp [scanString] at h
  | cons c cs ih =>
      intro st l r h
      cases st with
      | text =>
          simp only [scanString] at h
          by_cases hq : c = '"'
          · simp only [hq, if_true, Option.some.injEq, Prod.mk.injEq] at h
            simp [StrState.layout, checkLayout, layoutStep, hq, h.2]
          · simp only [hq, if_false] at h
            by_cases hb : c = '\\'
            · simp only [hb, if_true, Option.map_eq_some'] at h
              obtain ⟨⟨l1, r1⟩, h1, h2⟩ := h
              have hr : r1 = r := by simpa using congrArg Prod.snd h2
              subst hr
              have := ih .esc l1 r1 h1
              simp only [StrState.layout] at this
              simp [StrState.layout, checkLayout, layoutStep, hb, this]
            · simp only [hb, if_false] at h
              split at h
              · simp at h
              · simp only [Option.map_eq_some'] at h
                obtain ⟨⟨l1, r1⟩, h1, h2⟩ := h
                have hr : r1 = r := by simpa using congrArg Prod.snd h2
                subst hr
                have := ih .text l1 r1 h1
                simp only [StrState.layout] at this
                simp [StrState.layout, checkLayout, layoutStep, hq, hb, this]
      | esc =>
          simp only [scanString] at h
          split at h
          · simp only [Option.map_eq_some'] at h
            obtain ⟨⟨l1, r1⟩, h1, h2⟩ := h
            have hr : r1 = r := by simpa using congrArg Prod.snd h2
            subst hr
            have := ih (.hex 3) l1 r1 h1
            simp only [StrState.layout] at this
            simp [StrState.layout, checkLayout, layoutStep, this]
          · split at h
            · simp only [Option.map_eq_some'] at h
              obtain ⟨⟨l1, r1⟩, h1, h2⟩ := h
              have hr : r1 = r := by simpa using congrArg Prod.snd h2
              subst hr
              have := ih .text l1 r1 h1
              simp only [StrState.layout] at this
              simp [StrState.layout, checkLayout, layoutStep, this]
            · simp at h
      | hex n =>
          simp only [scanString] at h
          split at h
          · rename_i hx
            obtain ⟨hq, hb⟩ := isHex_ne c hx
            simp only [Option.map_eq_some'] at h
            obtain ⟨⟨l1, r1⟩, h1, h2⟩ := h
            have hr : r1 = r := by simpa using congrArg Prod.snd h2
            subst hr
            cases n with
            | zero =>
                have := ih .text l1 r1 h1
                simp only [StrState.layout] at this
                simp [StrState.layout, checkLayout, layoutStep, hq, hb, this]
            | succ k =>
                have := ih (.hex k) l1 r1 h1
                simp only [StrState.layout] at this
                simp [StrState.layout, checkLayout, layoutStep, hq, hb, this]
          · simp at h

theorem checkLayout_body (d : Nat) (l rest : List Char) (h : ValidBody l) :
    checkLayout .str d (l ++ '"' :: rest) = checkLayout .inline d rest :=
  checkLayout_scanString d _ .text l rest (h rest)

theorem checkLayout_memberHead (d : Nat) (k t : List Char) (hk : ValidBody k) :
    checkLayout (.indent (2 * d)) d (memberHead k ++ t) = checkLayout .value d t := by
  have h := checkLayout_body d k (':' :: ' ' :: t) hk
  simp only [memberHead, List.cons_append, List.append_assoc, List.nil_append]
  rw [checkLayout]
  simp only [layoutStep, layoutToken]
  simp only [show ('"' : Char) ≠ ' ' by decide, if_false, if_true,
    show ¬ ('"' = '}' ∨ '"' = ']') by decide]
  rw [h, checkLayout]
  simp only [layoutStep]
  simp only [show (':' : Char) ≠ ',' by decide, if_false, if_true]
  rw [checkLayout]
  simp [layoutStep]

theorem checkLayout_indent_value (d : Nat) (j : JSON) (rest : List Char) (hj : j.Clean) :
    checkLayout (.indent (2 * d)) d (render d j ++ rest) =
      checkLayout .value d (render d j ++ rest) := by
  obtain ⟨c, cs, hcs, hsp, hb, hc⟩ := render_head d j hj
  have hblank : c ≠ ' ' := by
    rintro rfl
    exact absurd hsp (by decide)
  rw [hcs, List.cons_append, checkLayout, checkLayout]
  simp [layoutStep, hblank, hb, hc]

theorem checkLayout_close (d : Nat) (c : Char) (hc : c = '}' ∨ c = ']') (rest : List Char) :
    checkLayout (.indent (2 * d)) (d + 1) (c :: rest) = checkLayout .inline d rest := by
  have hblank : c ≠ ' ' := by
    rcases hc with rfl | rfl <;> decide
  rw [checkLayout]
  simp [layoutStep, hblank, hc]

theorem checkLayout_open (d : Nat) (c : Char) (hc : c = '{' ∨ c = '[') (rest : List Char) :
    checkLayout .value d (c :: rest) = checkLayout .opened (d + 1) rest := by
  have hq : c ≠ '"' := by
    rcases hc with rfl | rfl <;> decide
  rw [checkLayout]
  simp [layoutStep, layoutToken, hq, hc]

mutual
theorem layout_render : ∀ (j : JSON) (d : Nat) (rest : List Char), j.Clean →
    checkLayout .value d (render d j ++ rest) = checkLayout .inline d rest
  | .null, d, rest, _ => by
      simp [render, checkLayout, layoutStep, layoutToken, isSpace]
  | .bool true, d, rest, _ => by
      simp [render, checkLayout, layoutStep, layoutToken, isSpace]
  | .bool false, d, rest, _ => by
      simp [render, checkLayout, layoutStep, layoutToken, isSpace]
  | .num l, d, rest, h => by simp [JSON.Clean] at h
  | .str l, d, rest, h => by
      simp only [JSON.Clean] at h
      have hb := checkLayout_body d l rest h
      simp only [render, List.cons_append, List.append_assoc, List.nil_append]
      rw [checkLayout]
      simp [layoutStep, layoutToken, hb]
  | .arr [], d, rest, _ => by
      simp only [render, List.cons_append, List.nil_append]
      rw [checkLayout_open d '[' (Or.inr rfl), checkLayout]
      simp [layoutStep]
  | .arr (x :: xs), d, rest, h => by
      simp only [JSON.Clean, JSON.CleanElems] at h
      simp only [render, List.cons_append, List.append_assoc, List.nil_append]
      rw [checkLayout_open d '[' (Or.inr rfl),
        checkLayout_newline .opened (Or.inr (Or.inl rfl)),
        checkLayout_indent_value (d + 1) x _ h.1, layout_render x (d + 1) _ h.1,
        layout_elems xs (d + 1) _ h.2, checkLayout_newline .inline (Or.inl rfl),
        checkLayout_close d ']' (Or.inr rfl)]
  | .obj [], d, rest, _ => by
      simp only [render, List.cons_append, List.nil_append]
      rw [checkLayout_open d '{' (Or.inl rfl), checkLayout]
      simp [layoutStep]
  | .obj ((k, v) :: ms), d, rest, h => by
      simp only [JSON.Clean, JSON.CleanMembers] at h
      simp only [render, List.cons_append, List.append_assoc, List.nil_append]
      rw [checkLayout_open d '{' (Or.inl rfl),
        checkLayout_newline .opened (Or.inr (Or.inl rfl)),
        checkLayout_memberHead (d + 1) k _ h.1, layout_render v (d + 1) _ h.2.1,
        layout_members ms (d + 1) _ h.2.2, checkLayout_newline .inline (Or.inl rfl),
        checkLayout_close d '}' (Or.inl rfl)]
theorem layout_elems : ∀ (xs : List JSON) (d : Nat) (rest : List Char), JSON.CleanElems xs →
    checkLayout .inline d (renderElems d xs ++ rest) = checkLayout .inline d rest
  | [], d, rest, _ => by simp [renderElems]
  | x :: xs, d, rest, h => by
      simp only [JSON.CleanElems] at h
      simp only [renderElems, List.cons_append, List.append_assoc]
      rw [checkLayout]
      simp only [layoutStep, if_true]
      rw [checkLayout_newline .comma (Or.inr (Or.inr rfl)),
        checkLayout_indent_value d x _ h.1, layout_render x d _ h.1, layout_elems xs d _ h.2]
theorem layout_members : ∀ (ms : List (List Char × JSON)) (d : Nat) (rest : List Char),
    JSON.CleanMembers ms →
    checkLayout .inline d (renderMembers d ms ++ rest) = checkLayout .inline d rest
  | [], d, rest, _ => by simp [renderMembers]
  | (k, v) :: ms, d, rest, h => by
      simp only [JSON.CleanMembers] at h
      simp only [renderMembers, List.cons_append, List.append_assoc]
      rw [checkLayout]
      simp only [layoutStep, if_true]
      rw [checkLayout_newline .comma (Or.inr (Or.inr rfl)),
        checkLayout_memberHead d k _ h.1, layout_render v d _ h.2.1,
        layout_members ms d _ h.2.2]
end

/-- The text of a clean value is laid out with two blanks for every level of
nesting and no line prefix. -/
theorem indentedByTwo_render (j : JSON) (hj : j.Clean) : indentedByTwo (render 0 j) = true := by
  have h := layout_render j 0 [] hj
  rw [List.append_nil] at h
  rw [indentedByTwo, h]
  rfl

theorem schemaKeys_eq {Time : Type} (tc : TimeCodec Time) :
    (prdFields tc).map (fun f => quoteBody f.name.data) = schemaKeys := rfl

/-- C10. The text ToJSON returns is laid out with two blanks for every level of
nesting and nothing else before the first token of a line, and the keys of its
root object follow the order of the schema: id, title, version, created_date,
last_updated, owner, stakeholders, status, priority, overview, objectives,
user_personas, user_stories, requirements, technical_specifications, timeline,
risks_and_assumptions, out_of_scope, appendices. -/
theorem ToJSON_layout_and_key_order {Time : Type} (tc : TimeCodec Time) (d : PRD Time)
    (text : String) (h : ToJSON tc d = .ok text) :
    indentedByTwo text.data = true ∧
      ∃ j, parseJSON text.data = some j ∧ List.Sublist j.keys schemaKeys := by
  obtain ⟨j, hj, rfl⟩ := enc_of_ToJSON tc d text h
  refine ⟨indentedByTwo_render j (prdCodec_cleanEnc tc d j hj).1, j,
    parseJSON_of_enc tc d j hj, ?_⟩
  simp only [prdCodec, structCodec] at hj
  cases hl : encodeFields (prdFields tc) d with
  | error e => simp [hl] at hj
  | ok ms =>
      simp only [hl, Except.ok.injEq] at hj
      subst hj
      rw [JSON.keys, encodeFields_keys d (prdFields tc) ms hl, ← schemaKeys_eq tc]
      exact (List.filter_sublist _).map _

theorem ToJSON_layout_and_key_order_witness :
    ∃ text, ToJSON yearCodec fullPRD = .ok text ∧ indentedByTwo text.data = true ∧
      ∃ j, parseJSON text.data = some j ∧ List.Sublist j.keys schemaKeys := by
  obtain ⟨j0, _, h⟩ := ToJSON_ok_of_time yearCodec fullPRD (fun t ht => by
    cases ht
    exact ⟨_, rfl⟩)
  exact ⟨_, h, ToJSON_layout_and_key_order yearCodec fullPRD _ h⟩

/-! ## Members the decoder does not know -/

theorem findField_none_of_fold {S : Type} (fs : List (StructField S)) (key : List Char)
    (h : ∀ f ∈ fs, foldName f.name.data ≠ foldName key) : findField fs key = none := by
  have h1 : fs.find? (fun f => decide (f.name.data = key)) = none := by
    rw [List.find?_eq_none]
    intro f hf
    have := h f hf
    simp only [decide_eq_true_eq]
    intro he
    exact this (by rw [he])
  have h2 : fs.find? (fun f => decide (foldName f.name.data = foldName key)) = none := by
    rw [List.find?_eq_none]
    intro f hf
    simpa using h f hf
  simp only [findField, h1, h2]

theorem decodeMembers_append {S : Type} (fs : List (StructField S)) :
    ∀ (a b : List (List Char × JSON)) (cur : S),
      decodeMembers fs cur (a ++ b) =
        match decodeMembers fs cur a with
        | .error e => .error e
        | .ok c => decodeMembers fs c b
  | [], b, cur => by simp [decodeMembers]
  | m :: a, b, cur => by
      simp only [List.cons_append, decodeMembers]
      cases decodeMember fs cur m with
      | error e => rfl
      | ok c => exact decodeMembers_append fs a b c

theorem decodeElems_middle {α : Type} (c : Codec α) (v v1 : JSON)
    (h : ∀ cur, c.dec cur v1 = c.dec cur v) (post : List JSON) :
    ∀ (pre : List JSON) (cur : List α),
      decodeElems c cur (pre ++ v1 :: post) = decodeElems c cur (pre ++ v :: post)
  | [], cur => by simp only [List.nil_append, decodeElems, h]
  | x :: pre, cur => by
      simp only [List.cons_append, decodeElems]
      cases c.dec (cur.headD c.zero) x with
      | error e => rfl
      | ok y =>
          have ih := decodeElems_middle c v v1 h post pre cur.tail
          simp only [List.append_eq, ih]

/-- A member with a key no field matches, and a change inside a value that
adds such a member, are not seen by the decoder. -/
theorem AddsUnknown.dec_eq {β : Type} {c : Codec β} {j j1 : JSON} (h : AddsUnknown c j j1) :
    (∀ cur, c.dec cur j1 = c.dec cur j) ∧ j ≠ .null ∧ j1 ≠ .null := by
  induction h with
  | here goType zero fs pre post k v key hk hno =>
      refine ⟨fun cur => ?_, by simp, by simp⟩
      show decodeMembers fs cur (pre ++ (k, v) :: post) = decodeMembers fs cur (pre ++ post)
      rw [decodeMembers_append, decodeMembers_append]
      cases decodeMembers fs cur pre with
      | error e => rfl
      | ok c1 =>
          simp only [decodeMembers, decodeMember, hk, findField_none_of_fold fs key hno]
  | field goType zero fs pre post k key f v v1 hk hf _ ih =>
      refine ⟨fun cur => ?_, by simp, by simp⟩
      show decodeMembers fs cur (pre ++ (k, v1) :: post) =
        decodeMembers fs cur (pre ++ (k, v) :: post)
      rw [decodeMembers_append, decodeMembers_append]
      cases decodeMembers fs cur pre with
      | error e => rfl
      | ok c1 => simp only [decodeMembers, decodeMember, hk, hf, ih.1]
  | elem c pre post v v1 _ ih =>
      refine ⟨fun cur => ?_, by simp, by simp⟩
      simp only [sliceCodec, decodeElems_middle c v v1 ih.1 post pre]
  | ptr c v v1 _ ih =>
      refine ⟨fun cur => ?_, ih.2.1, ih.2.2⟩
      obtain ⟨h1, h2, h3⟩ := ih
      cases v with
      | null => exact absurd rfl h2
      | _ =>
        cases v1 with
        | null => exact absurd rfl h3
        | _ => simp only [ptrCodec, h1]

/-- C11 (as amended). When a member is added to an object of a JSON text that
FromJSON accepts, at the root or inside a nested record, and the key of the
member matches no field name of that record, also when the case of letters is
ignored, and the text with the member is well-formed JSON (within the nesting
limit), then FromJSON accepts that text too and decodes it to the same
document. -/
theorem FromJSON_ignores_unknown_member {Time : Type} (tc : TimeCodec Time)
    (text text1 : String) (j j1 : JSON)
    (hj : parseJSON text.data = some j) (hj1 : parseJSON text1.data = some j1)
    (hadd : AddsUnknown (prdCodec tc) j j1) (d : PRD Time)
    (hd : FromJSON tc text = .ok d) : FromJSON tc text1 = .ok d := by
  have h := hadd.dec_eq.1 zeroPRD
  simp only [FromJSON, hj] at hd
  simp only [FromJSON, hj1, h]
  exact hd

theorem FromJSON_ignores_unknown_member_witness :
    FromJSON yearCodec "\x7b\"id\": \"a\", \"owner\": \x7b\"name\": \"n\"\x7d\x7d" =
        .ok { (zeroPRD : PRD Nat) with ID := "a", Owner := { zeroOwner with Name := "n" } } ∧
      FromJSON yearCodec
          "\x7b\"id\": \"a\", \"owner\": \x7b\"name\": \"n\", \"nickname\": 7\x7d\x7d" =
        .ok { (zeroPRD : PRD Nat) with ID := "a", Owner := { zeroOwner with Name := "n" } } :=
  ⟨rfl,
   FromJSON_ignores_unknown_member yearCodec
    "\x7b\"id\": \"a\", \"owner\": \x7b\"name\": \"n\"\x7d\x7d"
    "\x7b\"id\": \"a\", \"owner\": \x7b\"name\": \"n\", \"nickname\": 7\x7d\x7d"
    (.obj [("id".data, .str "a".data), ("owner".data, .obj [("name".data, .str "n".data)])])
    (.obj [("id".data, .str "a".data),
      ("owner".data, .obj [("name".data, .str "n".data), ("nickname".data, .num "7".data)])])
    rfl rfl
    (AddsUnknown.field "prd.PRD" zeroPRD (prdFields yearCodec) [("id".data, .str "a".data)] []
      "owner".data "owner".data
      { name := "owner", omitempty := false, β := Owner,
        get := fun s => s.Owner, set := fun s v => { s with Owner := v },
        codec := ownerCodec }
      (.obj [("name".data, .str "n".data)])
      (.obj [("name".data, .str "n".data), ("nickname".data, .num "7".data)])
      rfl rfl
      (AddsUnknown.here "prd.Owner" zeroOwner ownerFields [("name".data, .str "n".data)] []
        "nickname".data (.num "7".data) "nickname".data rfl (by decide)))
    _ rfl⟩

/-- C11 (counterexample). The key `ID` is none of the key names of the schema,
which are all written in small letters; yet FromJSON reads the member `ID`
into the field `id`, whose name it matches when the case of letters is
ignored: the text with the member added is decoded to another document than
the text without it. -/
theorem FromJSON_reads_member_ID :
    "ID" ∉ schemaKeyNames ∧
      FromJSON yearCodec "\x7b\"id\": \"a\"\x7d" =
        .ok { (zeroPRD : PRD Nat) with ID := "a" } ∧
      FromJSON yearCodec "\x7b\"id\": \"a\", \"ID\": \"b\"\x7d" =
        .ok { (zeroPRD : PRD Nat) with ID := "b" } ∧
      ({ (zeroPRD : PRD Nat) with ID := "a" } : PRD Nat) ≠
        { (zeroPRD : PRD Nat) with ID := "b" } :=
  ⟨by decide, rfl, rfl, by decide⟩

/-! ## What FromJSON accepts and what it rejects -/

/-- C12. FromJSON validates nothing and leaves every field that is missing at
its zero value: for the text of the empty object it succeeds, and the document
it returns holds the empty string in every string field, no list, and no
timestamp, priority, technical specifications, timeline, risks and assumptions
or appendices (it is the zero value of the type); Validate, applied to the
document returned, reports the missing id. -/
theorem FromJSON_empty_object {Time : Type} (tc : TimeCodec Time) :
    FromJSON tc "\x7b\x7d" =
        .ok { ID := "", Title := "", Version := "", CreatedDate := "", LastUpdated := none,
              Owner := { Name := "", Email := "", Team := "" },
              Stakeholders := none, Status := "", Priority := "",
              Overview := { ProblemStatement := "", SolutionSummary := "",
                            TargetAudience := "", MarketContext := "" },
              Objectives := { BusinessGoals := none, SuccessMetrics := none, OKRs := none },
              UserPersonas := none, UserStories := none,
              Requirements := { Functional := none, NonFunctional := none },
              TechnicalSpecifications := none, Timeline := none,
              RisksAndAssumptions := none, OutOfScope := none, Appendices := none } ∧
      FromJSON tc "\x7b\x7d" = .ok zeroPRD ∧
      (FromJSON tc "\x7b\x7d").map Validate = .ok (some "PRD ID is required") :=
  ⟨rfl, rfl, rfl⟩

theorem decodeMembers_error_of_mem {S : Type} (fs : List (StructField S))
    (m : List Char × JSON) (hm : ∀ cur, ∃ e, decodeMember fs cur m = .error e) :
    ∀ (ms : List (List Char × JSON)), m ∈ ms →
      ∀ cur, ∃ e, decodeMembers fs cur ms = .error e
  | [], h, _ => by cases h
  | x :: ms, h, cur => by
      simp only [decodeMembers]
      cases hx : decodeMember fs cur x with
      | error e => exact ⟨e, rfl⟩
      | ok c1 =>
          rcases List.mem_cons.1 h with h1 | h1
          · subst h1
            obtain ⟨e, he⟩ := hm cur
            rw [he] at hx
            cases hx
          · exact decodeMembers_error_of_mem fs m hm ms h1 c1

theorem decodeElems_error_of_mem {α : Type} (c : Codec α) (v : JSON)
    (hv : ∀ cur, ∃ e, c.dec cur v = .error e) :
    ∀ (js : List JSON), v ∈ js → ∀ cur, ∃ e, decodeElems c cur js = .error e
  | [], h, _ => by cases h
  | x :: js, h, cur => by
      simp only [decodeElems]
      cases hx : c.dec (cur.headD c.zero) x with
      | error e => exact ⟨e, rfl⟩
      | ok y =>
          rcases List.mem_cons.1 h with h1 | h1
          · subst h1
            obtain ⟨e, he⟩ := hv (cur.headD c.zero)
            rw [he] at hx
            cases hx
          · obtain ⟨e, he⟩ := decodeElems_error_of_mem c v hv js h1 cur.tail
            exact ⟨e, by simp only [he]⟩

/-- A value that does not have the structure its type takes is rejected,
whatever the variable holds it is decoded into. -/
theorem Incompatible.dec_error {β : Type} {c : Codec β} {j : JSON} (h : Incompatible c j) :
    (∀ cur, ∃ e, c.dec cur j = .error e) ∧ j ≠ .null := by
  induction h with
  | string j hn hs =>
      refine ⟨fun cur => ?_, hn⟩
      cases j with
      | null => exact absurd rfl hn
      | str lit => exact absurd rfl (hs lit)
      | _ => exact ⟨_, rfl⟩
  | time tc j hn hs =>
      refine ⟨fun cur => ?_, hn⟩
      cases j with
      | null => exact absurd rfl hn
      | str lit => exact absurd rfl (hs lit)
      | _ => exact ⟨_, rfl⟩
  | record goType zero fs j hn ho =>
      refine ⟨fun cur => ?_, hn⟩
      cases j with
      | null => exact absurd rfl hn
      | obj ms => exact absurd rfl (ho ms)
      | _ => exact ⟨_, rfl⟩
  | list c j hn ha =>
      refine ⟨fun cur => ?_, hn⟩
      cases j with
      | null => exact absurd rfl hn
      | arr js => exact absurd rfl (ha js)
      | _ => exact ⟨_, rfl⟩
  | member goType zero fs ms k key f v hm hk hf _ ih =>
      refine ⟨fun cur => ?_, by simp⟩
      show ∃ e, decodeMembers fs cur ms = .error e
      refine decodeMembers_error_of_mem fs (k, v) (fun c1 => ?_) ms hm cur
      obtain ⟨e, he⟩ := ih.1 (f.get c1)
      exact ⟨e, by simp only [decodeMember, hk, hf, he]⟩
  | elem c js v hm _ ih =>
      refine ⟨fun cur => ?_, by simp⟩
      obtain ⟨e, he⟩ := decodeElems_error_of_mem c v ih.1 js hm (cur.getD [])
      exact ⟨e, by simp only [sliceCodec, he]⟩
  | ptr c v _ ih =>
      refine ⟨fun cur => ?_, ih.2⟩
      obtain ⟨e, he⟩ := ih.1 (cur.getD c.zero)
      cases v with
      | null => exact absurd rfl ih.2
      | _ => exact ⟨e, by simp only [ptrCodec, he]⟩

/-- C13 (as amended). For every text FromJSON returns a document or an error
whose text begins with `failed to unmarshal JSON: `, one of the two and never
both.  It returns the error when the text is not well-formed JSON, and when
the JSON value of the text holds, in a place the schema reads, a value of
another kind than that place takes, `null` apart, as a number where the string
`id` is expected.  With the error comes no document. -/
theorem FromJSON_document_or_error {Time : Type} (tc : TimeCodec Time) (text : String) :
    ((∃ d, FromJSON tc text = .ok d) ∨
        ∃ e, FromJSON tc text = .error ("failed to unmarshal JSON: " ++ e)) ∧
      ¬ ((∃ d, FromJSON tc text = .ok d) ∧ ∃ msg, FromJSON tc text = .error msg) ∧
      (parseJSON text.data = none →
        ∃ e, FromJSON tc text = .error ("failed to unmarshal JSON: " ++ e)) ∧
      (∀ j, parseJSON text.data = some j → Incompatible (prdCodec tc) j →
        ∃ e, FromJSON tc text = .error ("failed to unmarshal JSON: " ++ e)) := by
  refine ⟨?_, ?_, fun h => ⟨"invalid character in JSON text", by simp only [FromJSON, h]⟩,
    fun j hj hi => ?_⟩
  · simp only [FromJSON]
    cases parseJSON text.data with
    | none => exact Or.inr ⟨_, rfl⟩
    | some j =>
        cases hdec : (prdCodec tc).dec zeroPRD j with
        | error e => exact Or.inr ⟨e, by simp only [hdec]⟩
        | ok p => exact Or.inl ⟨p, by simp only [hdec]⟩
  · rintro ⟨⟨d, hd⟩, ⟨msg, hm⟩⟩
    rw [hd] at hm
    cases hm
  · obtain ⟨e, he⟩ := hi.dec_error.1 zeroPRD
    exact ⟨e, by simp only [FromJSON, hj, he]⟩

theorem FromJSON_document_or_error_witness :
    (∃ e, FromJSON yearCodec "\x7b\"id\": \"a\"" =
        .error ("failed to unmarshal JSON: " ++ e)) ∧
      (∃ e, FromJSON yearCodec "\x7b\"id\": 5\x7d" =
        .error ("failed to unmarshal JSON: " ++ e)) ∧
      FromJSON yearCodec "\x7b\"id\": \"a\"\x7d" = .ok { (zeroPRD : PRD Nat) with ID := "a" } :=
  ⟨(FromJSON_document_or_error yearCodec "\x7b\"id\": \"a\"").2.2.1 rfl,
   (FromJSON_document_or_error yearCodec "\x7b\"id\": 5\x7d").2.2.2
     (.obj [("id".data, .num "5".data)]) rfl
     (Incompatible.member "prd.PRD" zeroPRD (prdFields yearCodec)
       [("id".data, .num "5".data)] "id".data "id".data
       { name := "id", omitempty := false, β := String,
         get := fun s => s.ID, set := fun s v => { s with ID := v },
         codec := stringCodec }
       (.num "5".data) (List.mem_singleton.2 rfl) rfl rfl
       (Incompatible.string (.num "5".data) (by simp) (by simp))),
   rfl⟩

/-- C13 (counterexample). The text `null` is well-formed JSON and not an
object, and the text of an object with `null` where the string `id` is
expected, or where the record `owner` and the list `stakeholders` are expected,
does not have the structure of the schema either; FromJSON returns no error
for them but the document of the empty object. -/
theorem FromJSON_accepts_null :
    FromJSON yearCodec "null" = .ok (zeroPRD : PRD Nat) ∧
      FromJSON yearCodec "\x7b\"id\": null\x7d" = .ok (zeroPRD : PRD Nat) ∧
      FromJSON yearCodec "\x7b\"owner\": null, \"stakeholders\": null\x7d" =
        .ok (zeroPRD : PRD Nat) ∧
      FromJSON yearCodec "\x7b\x7d" = .ok (zeroPRD : PRD Nat) :=
  ⟨rfl, rfl, rfl, rfl⟩

/-- C14. Whenever ToJSON returns a text for a document, FromJSON of that text
succeeds, and the document it returns has the same id, the same title and the
same name of the owner; the document need not pass Validate. -/
theorem FromJSON_ToJSON_key_fields {Time : Type} (tc : TimeCodec Time) (d : PRD Time)
    (text : String) (h : ToJSON tc d = .ok text) :
    ∃ y, FromJSON tc text = .ok y ∧ y.ID = d.ID ∧ y.Title = d.Title ∧
      y.Owner.Name = d.Owner.Name := by
  obtain ⟨y, hy, hf⟩ := FromJSON_ToJSON_decodes tc d text h
  have hstr : ∀ (s t : String), (∃ j, stringCodec.enc s = .ok j ∧
      stringCodec.dec stringCodec.zero j = .ok t) → t = s := by
    rintro s t ⟨j, hj, hd⟩
    have := stringCodec_stable s j hj
    rw [this] at hd
    cases hd
    rfl
  have h0 := hf ((prdFields tc).get ⟨0, by rw [prdFields_length]; decide⟩) (List.get_mem _ _ _)
  have h1 := hf ((prdFields tc).get ⟨1, by rw [prdFields_length]; decide⟩) (List.get_mem _ _ _)
  have h5 := hf ((prdFields tc).get ⟨5, by rw [prdFields_length]; decide⟩) (List.get_mem _ _ _)
  refine ⟨y, hy, hstr _ _ h0, hstr _ _ h1, ?_⟩
  obtain ⟨j, hj, hd⟩ := h5
  obtain ⟨o, ho, hof⟩ := structCodec_decodes "prd.Owner" ownerFields_lawful ownerFields_reads
    d.Owner j hj
  have hd1 : ownerCodec.dec ownerCodec.zero j = .ok y.Owner := hd
  have ho1 : ownerCodec.dec ownerCodec.zero j = .ok o := ho
  rw [ho1] at hd1
  cases hd1
  have hn := hof (ownerFields.get ⟨0, by decide⟩) (List.get_mem _ _ _)
  exact hstr _ _ hn

theorem FromJSON_ToJSON_key_fields_witness :
    ∃ text, ToJSON yearCodec emptyDepsPRD = .ok text ∧
      ∃ y, FromJSON yearCodec text = .ok y ∧ y.ID = "PRD-1" ∧ y.Title = "X" ∧
        y.Owner.Name = "A" :=
  have h := ToJSON_ok_of_time yearCodec emptyDepsPRD (fun t ht => by cases ht)
  ⟨_, h.choose_spec.2, FromJSON_ToJSON_key_fields yearCodec emptyDepsPRD _ h.choose_spec.2⟩

/-! ## The timestamp and the receiver of the methods -/

/-- C15. UpdateLastModified sets the timestamp to the time read at the call,
whether the timestamp was unset or set before, and leaves every other field of
the document as it was. -/
theorem UpdateLastModified_sets_only_LastUpdated {Time : Type} (now : Time) (p : PRD Time) :
    (UpdateLastModified now p).LastUpdated = some now ∧
      (callUpdateLastModified now p).2 = UpdateLastModified now p ∧
      ({ UpdateLastModified now p with LastUpdated := p.LastUpdated } : PRD Time) = p ∧
      (UpdateLastModified now p).ID = p.ID ∧
      (UpdateLastModified now p).Title = p.Title ∧
      (UpdateLastModified now p).Version = p.Version ∧
      (UpdateLastModified now p).CreatedDate = p.CreatedDate ∧
      (UpdateLastModified now p).Owner = p.Owner ∧
      (UpdateLastModified now p).Stakeholders = p.Stakeholders ∧
      (UpdateLastModified now p).Status = p.Status ∧
      (UpdateLastModified now p).Priority = p.Priority ∧
      (UpdateLastModified now p).Overview = p.Overview ∧
      (UpdateLastModified now p).Objectives = p.Objectives ∧
      (UpdateLastModified now p).UserPersonas = p.UserPersonas ∧
      (UpdateLastModified now p).UserStories = p.UserStories ∧
      (UpdateLastModified now p).Requirements = p.Requirements ∧
      (UpdateLastModified now p).TechnicalSpecifications = p.TechnicalSpecifications ∧
      (UpdateLastModified now p).Timeline = p.Timeline ∧
      (UpdateLastModified now p).RisksAndAssumptions = p.RisksAndAssumptions ∧
      (UpdateLastModified now p).OutOfScope = p.OutOfScope ∧
      (UpdateLastModified now p).Appendices = p.Appendices :=
  ⟨rfl, rfl, rfl, rfl, rfl, rfl, rfl, rfl, rfl, rfl, rfl, rfl, rfl, rfl, rfl, rfl, rfl, rfl,
    rfl, rfl, rfl⟩

/-- C16. The timestamp changes only through UpdateLastModified: after a call
of Validate, of ToJSON, of SaveToFile or of ToMarkdown the document the
receiver points to is the document it pointed to before, so its timestamp,
unset or set, is as it was; after a call of UpdateLastModified the timestamp
is the time of the call. -/
theorem LastUpdated_changes_only_through_UpdateLastModified {Time : Type}
    (tc : TimeCodec Time) (format : Time → String) (fs : FileSystem) (filename : String)
    (now : Time) (p : PRD Time) :
    ((callValidate p).2.LastUpdated = p.LastUpdated ∧
        (callToJSON tc p).2.LastUpdated = p.LastUpdated ∧
        (callSaveToFile tc fs p filename).2.LastUpdated = p.LastUpdated ∧
        (callToMarkdown format p).2.LastUpdated = p.LastUpdated) ∧
      ((callValidate p).2 = p ∧ (callToJSON tc p).2 = p ∧
        (callSaveToFile tc fs p filename).2 = p ∧ (callToMarkdown format p).2 = p) ∧
      (callUpdateLastModified now p).2.LastUpdated = some now :=
  ⟨⟨rfl, rfl, rfl, rfl⟩, ⟨rfl, rfl, rfl, rfl⟩, rfl⟩

/-- C19. Validate is deterministic and changes nothing: a second call, made
on the document the first call leaves, returns what the first call returned,
and the document after the two calls is the document before them, equal on
every field. -/
theorem Validate_twice {Time : Type} (p : PRD Time) :
    (callValidate (callValidate p).2).1 = (callValidate p).1 ∧
      (callValidate (callValidate p).2).2 = p ∧
      (callValidate p).1 = Validate p :=
  ⟨rfl, rfl, rfl⟩

/-! ## LoadFromFile and SaveToFile -/

/-- LoadFromFile does to the content of the file what FromJSON does to a
text. -/
theorem LoadFromFile_of_read {Time : Type} (tc : TimeCodec Time) (fs : FileSystem)
    (path text : String) (h : ReadFile fs path = .ok text) :
    LoadFromFile tc fs path = FromJSON tc text := by
  simp only [LoadFromFile, FromJSON, h]

/-- When SaveToFile succeeds, ToJSON returns a text, and that text is the
content of the file afterwards. -/
theorem SaveToFile_ok {Time : Type} (tc : TimeCodec Time) (fs fs1 : FileSystem)
    (d : PRD Time) (path : String) (h : SaveToFile tc fs d path = (none, fs1)) :
    ∃ text, ToJSON tc d = .ok text ∧ ReadFile fs1 path = .ok text := by
  simp only [SaveToFile] at h
  cases henc : (prdCodec tc).enc d with
  | error e => simp [henc] at h
  | ok j =>
      refine ⟨String.mk (render 0 j), ToJSON_of_enc tc d j henc, ?_⟩
      simp only [henc, WriteFile] at h
      cases hw : fs.writeError path (String.mk (render 0 j)) with
      | some e => simp [hw] at h
      | none =>
          simp only [hw, Prod.mk.injEq, true_and] at h
          subst h
          simp [ReadFile]

/-- SaveToFile succeeds when the document has a JSON form and the path can be
written. -/
theorem SaveToFile_of_writable {Time : Type} (tc : TimeCodec Time) (fs : FileSystem)
    (d : PRD Time) (path : String) (j : JSON) (hj : (prdCodec tc).enc d = .ok j)
    (hw : fs.writeError path (String.mk (render 0 j)) = none) :
    (SaveToFile tc fs d path).1 = none := by
  simp [SaveToFile, hj, WriteFile, hw]

/-- The two kinds of message differ in their eleventh character. -/
theorem read_message_ne_unmarshal_message (path a b : String) :
    "failed to read file " ++ path ++ ": " ++ a ≠ "failed to unmarshal JSON: " ++ b := by
  intro h
  have e1 : "failed to read file " = "failed to r" ++ "ead file " := by decide
  have e2 : "failed to unmarshal JSON: " = "failed to u" ++ "nmarshal JSON: " := by decide
  rw [e1, e2] at h
  have h1 := congrArg String.data h
  simp only [String.data_append, List.append_assoc] at h1
  exact absurd (List.append_inj h1 rfl).1 (by decide)

/-- In a document that holds only required fields no optional list is empty
without being nil. -/
theorem PRD.OnlyRequired.noEmptyOmitted {Time : Type} {d : PRD Time} (h : d.OnlyRequired) :
    d.NoEmptyOmitted := by
  obtain ⟨_, h2, _, h4, h5, h6, h7, h8, h9, h10, _, _, _, h14, h15, h16, h17⟩ := h
  simp only [PRD.NoEmptyOmitted, Objectives.NoEmptyOmitted, Requirements.NoEmptyOmitted,
    FunctionalRequirement.NoEmptyOmitted, h2, h4, h5, h6, h7, h8, h9, h10, h14, h15, h16]
  refine ⟨by simp, ⟨by simp, by simp⟩, by simp, by simp, by simp, ⟨fun u hu => ?_, by simp⟩,
    by simp, by simp, by simp, by simp, by simp⟩
  rw [(h17 u hu).2]
  simp

/-- C17. SaveToFile and LoadFromFile are ToJSON and FromJSON with the file in
between: when SaveToFile succeeds, ToJSON returns a text and the file holds
exactly that text, and LoadFromFile of the path then returns what FromJSON
returns on that text.  For a document that holds only the required fields the
document loaded is the document saved, equal on every field; so it is for
every document whose timestamp is unset and none of whose optional lists is
empty without being nil. -/
theorem SaveToFile_LoadFromFile {Time : Type} (tc : TimeCodec Time) (fs fs1 : FileSystem)
    (d : PRD Time) (path : String) (h : SaveToFile tc fs d path = (none, fs1)) :
    (∃ text, ToJSON tc d = .ok text ∧ ReadFile fs1 path = .ok text ∧
        LoadFromFile tc fs1 path = FromJSON tc text) ∧
      (d.OnlyRequired → LoadFromFile tc fs1 path = .ok d) ∧
      (d.LastUpdated = none → d.NoEmptyOmitted → LoadFromFile tc fs1 path = .ok d) := by
  obtain ⟨text, ht, hr⟩ := SaveToFile_ok tc fs fs1 d path h
  have key : d.LastUpdated = none → d.NoEmptyOmitted → LoadFromFile tc fs1 path = .ok d := by
    intro hl hne
    obtain ⟨text1, ht1, hf⟩ := FromJSON_ToJSON_of_noEmptyOmitted tc d hne
      (fun t h => by rw [hl] at h; cases h)
    rw [ht] at ht1
    cases ht1
    rw [LoadFromFile_of_read tc fs1 path text hr, hf]
  exact ⟨⟨text, ht, hr, LoadFromFile_of_read tc fs1 path text hr⟩,
    fun ho => key ho.1 ho.noEmptyOmitted, key⟩

theorem SaveToFile_LoadFromFile_witness :
    (SaveToFile yearCodec emptyFS minimalPRD "prd.json").1 = none ∧
      Validate minimalPRD = none ∧ minimalPRD.OnlyRequired ∧
      LoadFromFile yearCodec (SaveToFile yearCodec emptyFS minimalPRD "prd.json").2 "prd.json" =
        .ok minimalPRD :=
  have ho : minimalPRD.OnlyRequired := by
    simp [PRD.OnlyRequired, minimalPRD]
  ⟨rfl, by decide, ho,
   (SaveToFile_LoadFromFile yearCodec emptyFS
      (SaveToFile yearCodec emptyFS minimalPRD "prd.json").2 minimalPRD "prd.json" rfl).2.1 ho⟩

/-- C18. LoadFromFile tells its two failures apart.  When the file cannot be
read it returns no document and the error `failed to read file <path>: `
followed by the error of reading; when the file was read it returns a document
or the error `failed to unmarshal JSON: ` followed by the error of decoding.
No message is of both kinds: a file that cannot be read never gives a message
that begins like the second, and a file that was read never gives a message
that begins like the first. -/
theorem LoadFromFile_error_kinds {Time : Type} (tc : TimeCodec Time) (fs : FileSystem)
    (path : String) :
    (∀ err, ReadFile fs path = .error err →
        LoadFromFile tc fs path = .error ("failed to read file " ++ path ++ ": " ++ err) ∧
          ∀ e, LoadFromFile tc fs path ≠ .error ("failed to unmarshal JSON: " ++ e)) ∧
      (∀ data, ReadFile fs path = .ok data →
        ((∃ d, LoadFromFile tc fs path = .ok d) ∨
            ∃ e, LoadFromFile tc fs path = .error ("failed to unmarshal JSON: " ++ e)) ∧
          ∀ e, LoadFromFile tc fs path ≠
            .error ("failed to read file " ++ path ++ ": " ++ e)) := by
  refine ⟨fun err h => ?_, fun data h => ?_⟩
  · have h1 : LoadFromFile tc fs path =
        .error ("failed to read file " ++ path ++ ": " ++ err) := by
      simp only [LoadFromFile, h]
    refine ⟨h1, fun e he => ?_⟩
    rw [h1] at he
    exact read_message_ne_unmarshal_message path err e (Except.error.inj he)
  · rw [LoadFromFile_of_read tc fs path data h]
    simp only [FromJSON]
    cases parseJSON data.data with
    | none =>
        refine ⟨Or.inr ⟨_, rfl⟩, fun e he => ?_⟩
        exact read_message_ne_unmarshal_message path e _ (Except.error.inj he).symm
    | some j =>
        cases hdec : (prdCodec tc).dec zeroPRD j with
        | error e1 =>
            simp only [hdec]
            refine ⟨Or.inr ⟨e1, rfl⟩, fun e he => ?_⟩
            exact read_message_ne_unmarshal_message path e _ (Except.error.inj he).symm
        | ok p =>
            simp only [hdec]
            exact ⟨Or.inl ⟨p, rfl⟩, fun e he => by cases he⟩

theorem LoadFromFile_error_kinds_witness :
    LoadFromFile yearCodec emptyFS "prd.json" =
        (.error ("failed to read file prd.json: open prd.json: no such file or directory") :
          Except String (PRD Nat)) ∧
      ∃ e, LoadFromFile yearCodec (WriteFile emptyFS "prd.json" "\x7b\"id\": 5\x7d").2
          "prd.json" = .error ("failed to unmarshal JSON: " ++ e) :=
  ⟨((LoadFromFile_error_kinds yearCodec emptyFS "prd.json").1 _ rfl).1,
   (((LoadFromFile_error_kinds yearCodec (WriteFile emptyFS "prd.json" "\x7b\"id\": 5\x7d").2
      "prd.json").2 _ rfl).1).resolve_left (by
        rintro ⟨d, hd⟩
        cases hd)⟩

/-! ## The templates -/

theorem createBasicTemplate_valid {Time : Type} (created : String) :
    Validate (createBasicTemplate created : PRD Time) = none := by
  simp [Validate, createBasicTemplate, len, validStatuses]

theorem createFeatureTemplate_valid {Time : Type} (created : String) :
    Validate (createFeatureTemplate created : PRD Time) = none := by
  simp [Validate, createFeatureTemplate, len, validStatuses]

theorem createEpicTemplate_valid {Time : Type} (created : String) :
    Validate (createEpicTemplate created : PRD Time) = none := by
  simp [Validate, createEpicTemplate, len, validStatuses]

/-- Validate reads neither the date of creation nor the timestamp. -/
theorem Validate_stamped {Time : Type} (p : PRD Time) (now : Time) (created : String) :
    Validate { p with LastUpdated := some now, CreatedDate := created } = Validate p := rfl

/-- C20. Each template carries the required fields: the documents
createBasicTemplate, createFeatureTemplate and createEpicTemplate return pass
Validate, whatever the date they are created on, and for each of the three
names createFromTemplate saves one of them with the timestamp and the date of
creation set from the clock, a document that passes Validate as well; when
createFromTemplate succeeds, the file holds the text ToJSON returns for that
document. -/
theorem templates_pass_Validate {Time : Type} (tc : TimeCodec Time) (date : Time → String)
    (clock : Nat → Time) (fs : FileSystem) (filename templateType created : String) :
    (Validate (createBasicTemplate created : PRD Time) = none ∧
        Validate (createFeatureTemplate created : PRD Time) = none ∧
        Validate (createEpicTemplate created : PRD Time) = none) ∧
      (templateType = "basic" ∨ templateType = "feature" ∨ templateType = "epic" →
        ∃ t d : PRD Time,
          (t = createBasicTemplate (date (clock 0)) ∨
              t = createFeatureTemplate (date (clock 1)) ∨
              t = createEpicTemplate (date (clock 2))) ∧
            d = { t with LastUpdated := some (clock 3), CreatedDate := date (clock 3) } ∧
            Validate d = none ∧
            createFromTemplate tc date clock fs filename templateType =
              (match SaveToFile tc fs d filename with
                | (some err, fs1) => (some ("failed to save PRD: " ++ err), fs1)
                | (none, fs1) => (none, fs1)) ∧
            ∀ fs1, createFromTemplate tc date clock fs filename templateType = (none, fs1) →
              ∃ text, ToJSON tc d = .ok text ∧ ReadFile fs1 filename = .ok text) := by
  refine ⟨⟨createBasicTemplate_valid created, createFeatureTemplate_valid created,
    createEpicTemplate_valid created⟩, fun h => ?_⟩
  have key : ∀ t : PRD Time, Validate t = none →
      createFromTemplate tc date clock fs filename templateType =
        (match SaveToFile tc fs
            { t with LastUpdated := some (clock 3), CreatedDate := date (clock 3) }
            filename with
          | (some err, fs1) => (some ("failed to save PRD: " ++ err), fs1)
          | (none, fs1) => (none, fs1)) →
      Validate ({ t with LastUpdated := some (clock 3), CreatedDate := date (clock 3) } :
          PRD Time) = none ∧
        createFromTemplate tc date clock fs filename templateType =
          (match SaveToFile tc fs
              { t with LastUpdated := some (clock 3), CreatedDate := date (clock 3) }
              filename with
            | (some err, fs1) => (some ("failed to save PRD: " ++ err), fs1)
            | (none, fs1) => (none, fs1)) ∧
        ∀ fs1, createFromTemplate tc date clock fs filename templateType = (none, fs1) →
          ∃ text, ToJSON tc
              { t with LastUpdated := some (clock 3), CreatedDate := date (clock 3) } =
                .ok text ∧ ReadFile fs1 filename = .ok text := by
    intro t hv hc
    refine ⟨(Validate_stamped t (clock 3) (date (clock 3))).trans hv, hc, fun fs1 hs => ?_⟩
    rw [hc] at hs
    refine SaveToFile_ok tc fs fs1 _ filename ?_
    cases hsave : SaveToFile tc fs
        { t with LastUpdated := some (clock 3), CreatedDate := date (clock 3) } filename with
    | mk e fs2 =>
        rw [hsave] at hs
        cases e with
        | some err => simp at hs
        | none => simpa using hs
  rcases h with h | h | h
  · subst h
    exact ⟨_, _, Or.inl rfl, rfl, key _ (createBasicTemplate_valid _) rfl⟩
  · subst h
    exact ⟨_, _, Or.inr (Or.inl rfl), rfl, key _ (createFeatureTemplate_valid _) rfl⟩
  · subst h
    exact ⟨_, _, Or.inr (Or.inr rfl), rfl, key _ (createEpicTemplate_valid _) rfl⟩

theorem templates_pass_Validate_witness :
    Validate (createEpicTemplate "2026-11-04" : PRD Nat) = none ∧
      ∃ t d : PRD Nat,
        (t = createBasicTemplate (yearText (2024 + 0)) ∨
            t = createFeatureTemplate (yearText (2024 + 1)) ∨
            t = createEpicTemplate (yearText (2024 + 2))) ∧
          d = { t with LastUpdated := some (2024 + 3), CreatedDate := yearText (2024 + 3) } ∧
          Validate d = none ∧
          ∃ text, ToJSON yearCodec d = .ok text ∧
            ReadFile (createFromTemplate yearCodec yearText (fun n => 2024 + n) emptyFS
              "new.json" "epic").2 "new.json" = .ok text := by
  have h := templates_pass_Validate yearCodec yearText (fun n => 2024 + n) emptyFS
    "new.json" "epic" "2026-11-04"
  obtain ⟨t, d, ht, hd, hv, hc, hfile⟩ := h.2 (Or.inr (Or.inr rfl))
  refine ⟨h.1.2.2, t, d, ht, hd, hv, hfile _ ?_⟩
  obtain ⟨j, hj, _⟩ := ToJSON_ok_of_time yearCodec d (fun u hu => by
    rw [hd] at hu
    cases hu
    exact ⟨_, rfl⟩)
  have hs := SaveToFile_of_writable yearCodec emptyFS d "new.json" j hj rfl
  rw [hc]
  cases hsave : SaveToFile yearCodec emptyFS d "new.json" with
  | mk e fs2 =>
      rw [hsave] at hs
      cases hs
      rfl

/-! ## truncateString and wrapText -/

/-- C26. For a length of at least 3, truncateString returns the string itself
when it has at most `length` bytes, and otherwise its first `length - 3` bytes
followed by three dots; the result has at most `length` bytes, and the slice
bound is in range, so that the call does not panic.  Every call of the
function passes a length from 25 to 60. -/
theorem truncateString_spec (s : List UInt8) (length : Int) (h : 3 ≤ length) :
    ((s.length : Int) ≤ length → truncateString s length = some s) ∧
      (length < (s.length : Int) →
        truncateString s length = some (s.take (length - 3).toNat ++ [46, 46, 46]) ∧
          ((s.take (length - 3).toNat).length : Int) = length - 3) ∧
      (∃ r, truncateString s length = some r ∧ (r.length : Int) ≤ length) ∧
      (0 ≤ length - 3 ∧ (length < (s.length : Int) → length - 3 ≤ (s.length : Int))) ∧
      ∀ n ∈ truncateCallLengths, 3 ≤ n ∧ 25 ≤ n ∧ n ≤ 60 := by
  have hlong : length < (s.length : Int) →
      truncateString s length = some (s.take (length - 3).toNat ++ [46, 46, 46]) ∧
        ((s.take (length - 3).toNat).length : Int) = length - 3 := by
    intro hl
    constructor
    · unfold truncateString
      rw [if_neg (by omega), if_pos ⟨by omega, by omega⟩]
    · rw [List.length_take]
      omega
  refine ⟨fun hs => by unfold truncateString; rw [if_pos hs], hlong, ?_, ⟨by omega, by omega⟩, ?_⟩
  · by_cases hs : (s.length : Int) ≤ length
    · exact ⟨s, by unfold truncateString; rw [if_pos hs], hs⟩
    · obtain ⟨h1, h2⟩ := hlong (by omega)
      refine ⟨_, h1, ?_⟩
      rw [List.length_append]
      simp only [List.length_cons, List.length_nil]
      omega
  · decide

theorem truncateString_spec_witness :
    truncateString [80, 82, 68, 32, 116, 105, 116, 108, 101] 6 =
        some [80, 82, 68, 46, 46, 46] ∧
      truncateString [80, 82, 68] 6 = some [80, 82, 68] :=
  ⟨((truncateString_spec [80, 82, 68, 32, 116, 105, 116, 108, 101] 6 (by decide)).2.1
      (by decide)).1,
   (truncateString_spec [80, 82, 68] 6 (by decide)).1 (by decide)⟩

theorem byteLen_append (a b : List Char) : byteLen (a ++ b) = byteLen a + byteLen b := by
  simp [byteLen]

theorem byteLen_reverse (a : List Char) : byteLen a.reverse = byteLen a := by
  simp [byteLen, List.sum_reverse]

theorem byteLen_pos (a : List Char) (h : a ≠ []) : 0 < byteLen a := by
  cases a with
  | nil => exact absurd rfl h
  | cons c cs =>
      have := Char.utf8Size_pos c
      simp only [byteLen, List.map_cons, List.sum_cons]
      omega

theorem fieldsAux_word (rest : List Char) :
    ∀ (w cur : List Char), (∀ c ∈ w, IsSpace c = false) →
      fieldsAux cur (w ++ rest) = fieldsAux (w.reverse ++ cur) rest
  | [], cur, _ => by simp
  | c :: w, cur, h => by
      have hc : IsSpace c = false := h c (List.mem_cons_self _ _)
      have ih := fieldsAux_word rest w (c :: cur) (fun x hx => h x (List.mem_cons_of_mem _ hx))
      simp only [List.cons_append, fieldsAux, hc, Bool.false_eq_true, if_false,
        List.reverse_cons, List.append_assoc, List.singleton_append, List.append_eq,
        List.nil_append]
      exact ih

theorem fieldsAux_mem :
    ∀ (s cur : List Char), (∀ c ∈ cur, IsSpace c = false) →
      ∀ w ∈ fieldsAux cur s, w ≠ [] ∧ ∀ c ∈ w, IsSpace c = false
  | [], cur, hcur, w, hw => by
      simp only [fieldsAux] at hw
      split at hw
      · cases hw
      · rename_i hne
        rw [List.mem_singleton] at hw
        subst hw
        exact ⟨by simpa using hne, fun c hc => hcur c (List.mem_reverse.1 hc)⟩
  | c :: cs, cur, hcur, w, hw => by
      simp only [fieldsAux] at hw
      split at hw
      · split at hw
        · exact fieldsAux_mem cs [] (fun _ h => by cases h) w hw
        · rename_i hne
          rcases List.mem_cons.1 hw with h1 | h1
          · subst h1
            exact ⟨by simpa using hne, fun c hc => hcur c (List.mem_reverse.1 hc)⟩
          · exact fieldsAux_mem cs [] (fun _ h => by cases h) w h1
      · rename_i hsp
        refine fieldsAux_mem cs (c :: cur) (fun x hx => ?_) w hw
        rcases List.mem_cons.1 hx with h1 | h1
        · subst h1
          simpa using hsp
        · exact hcur x h1

/-- The words of the text the loop writes are the words it was given. -/
theorem fieldsAux_wrapWords (width : Int) :
    ∀ (words : List (List Char)) (i lineLength : Nat) (cur : List Char),
      (∀ w ∈ words, w ≠ [] ∧ ∀ c ∈ w, IsSpace c = false) →
      (0 < i → 0 < lineLength) → (cur ≠ [] → 0 < i) →
      fieldsAux cur (wrapWords width i lineLength words) =
        (if cur = [] then [] else [cur.reverse]) ++ words
  | [], i, ll, cur, _, _, _ => by simp [wrapWords, fieldsAux]
  | word :: words, i, ll, cur, hw, hi, hcur => by
      obtain ⟨hne, hsp⟩ := hw word (List.mem_cons_self _ _)
      have hws : ∀ w ∈ words, w ≠ [] ∧ ∀ c ∈ w, IsSpace c = false :=
        fun w h => hw w (List.mem_cons_of_mem _ h)
      have hlen := byteLen_pos word hne
      have hrev : word.reverse ≠ [] := by simpa using hne
      have ih : ∀ l2, fieldsAux word.reverse (wrapWords width (i + 1) (l2 + byteLen word) words) =
          word :: words := by
        intro l2
        rw [fieldsAux_wrapWords width words (i + 1) (l2 + byteLen word) word.reverse hws
          (fun _ => by omega) (fun _ => by omega)]
        simp [hrev]
      by_cases h0 : i = 0
      · subst h0
        have hc : cur = [] := by
          by_contra hc
          exact absurd (hcur hc) (by decide)
        subst hc
        by_cases hl : 0 < ll
        · simp only [wrapWords, gt_iff_lt, lt_self_iff_false, decide_False, Bool.false_and,
            Bool.false_eq_true, if_false, hl, if_true, List.nil_append, List.append_assoc,
            List.singleton_append, fieldsAux]
          rw [if_pos (by decide)]
          simp only [List.append_eq, if_true]
          rw [fieldsAux_word _ word [] hsp, List.append_nil, ih]
        · simp only [wrapWords, gt_iff_lt, lt_self_iff_false, decide_False, Bool.false_and,
            Bool.false_eq_true, if_false, hl, List.nil_append, List.append_assoc]
          rw [fieldsAux_word _ word [] hsp, List.append_nil, ih]
          simp
      · have hi0 : 0 < i := Nat.pos_of_ne_zero h0
        have hl : 0 < ll := hi hi0
        have key : ∀ (s : Char) (l2 : Nat), IsSpace s = true →
            fieldsAux cur (s :: (word ++ wrapWords width (i + 1) (l2 + byteLen word) words)) =
              (if cur = [] then [] else [cur.reverse]) ++ word :: words := by
          intro s l2 hs
          simp only [fieldsAux, hs, if_true]
          by_cases hc : cur = []
          · simp only [hc, if_true, List.nil_append]
            rw [fieldsAux_word _ word [] hsp, List.append_nil, ih]
          · simp only [hc, if_false, List.singleton_append]
            rw [fieldsAux_word _ word [] hsp, List.append_nil, ih]
        by_cases hb : (ll : Int) + byteLen word + 1 > width
        · have := key '\n' 0 (by decide)
          simpa [wrapWords, hi0, hb] using this
        · have := key ' ' (ll + 1) (by decide)
          simpa [wrapWords, hi0, hb, hl] using this

/-- C27. The words of the text wrapText returns, separated by white space,
are the words of the text it was given, in the same order, for every text and
every width; a text of at most `width` bytes is returned as it is. -/
theorem wrapText_words (text : String) (width : Int) :
    Fields (wrapText text width).data = Fields text.data ∧
      ((byteLen text.data : Int) ≤ width → wrapText text width = text) := by
  refine ⟨?_, fun h => by unfold wrapText; rw [if_pos h]⟩
  unfold wrapText
  split
  · rfl
  · have h := fieldsAux_wrapWords width (Fields text.data) 0 0 []
      (fieldsAux_mem text.data [] (fun _ h => by cases h)) (fun h => absurd h (by decide))
      (fun h => absurd rfl h)
    simpa [Fields] using h

theorem wrapText_words_witness :
    wrapText "the quick  brown fox" 10 = "the quick\nbrown fox" ∧
      Fields "the quick\nbrown fox".data = Fields "the quick  brown fox".data ∧
      wrapText "the quick" 10 = "the quick" :=
  ⟨by decide,
   (by decide : wrapText "the quick  brown fox" 10 = "the quick\nbrown fox") ▸
     (wrapText_words "the quick  brown fox" 10).1,
   (wrapText_words "the quick" 10).2 (by decide)⟩

theorem linesAux_word (rest : List Char) :
    ∀ (w cur : List Char), (∀ c ∈ w, IsSpace c = false) →
      linesAux cur (w ++ rest) = linesAux (w.reverse ++ cur) rest
  | [], cur, _ => by simp
  | c :: w, cur, h => by
      have hc : c ≠ '\n' := by
        intro he
        have := h c (List.mem_cons_self _ _)
        rw [he] at this
        exact absurd this (by decide)
      have ih := linesAux_word rest w (c :: cur) (fun x hx => h x (List.mem_cons_of_mem _ hx))
      simp only [List.cons_append, linesAux, hc, if_false,
        List.reverse_cons, List.append_assoc, List.singleton_append, List.append_eq,
        List.nil_append]
      exact ih

/-- Every line the loop writes fits the width or is a single word. -/
theorem linesAux_wrapWords (width : Int) (all : List (List Char)) :
    ∀ (words : List (List Char)) (i lineLength : Nat) (cur : List Char),
      (∀ w ∈ words, (w ≠ [] ∧ ∀ c ∈ w, IsSpace c = false) ∧ w ∈ all) →
      0 < i → lineLength = byteLen cur.reverse → 0 < lineLength →
      ((byteLen cur.reverse : Int) ≤ width ∨
        (cur.reverse ∈ all ∧ width < (byteLen cur.reverse : Int))) →
      ∀ line ∈ linesAux cur (wrapWords width i lineLength words),
        (byteLen line : Int) ≤ width ∨ (line ∈ all ∧ width < (byteLen line : Int))
  | [], i, ll, cur, _, _, _, _, hgood, line, hline => by
      simp only [wrapWords, linesAux, List.mem_singleton] at hline
      subst hline
      exact hgood
  | word :: words, i, ll, cur, hw, hi, hll, hpos, hgood, line, hline => by
      obtain ⟨⟨hne, hsp⟩, hall⟩ := hw word (List.mem_cons_self _ _)
      have hws : ∀ w ∈ words, (w ≠ [] ∧ ∀ c ∈ w, IsSpace c = false) ∧ w ∈ all :=
        fun w h => hw w (List.mem_cons_of_mem _ h)
      have hlen := byteLen_pos word hne
      by_cases hb : (ll : Int) + byteLen word + 1 > width
      · have hout : wrapWords width i ll (word :: words) =
            '\n' :: (word ++ wrapWords width (i + 1) (0 + byteLen word) words) := by
          simp [wrapWords, hi, hb]
        rw [hout] at hline
        simp only [linesAux, if_true] at hline
        rcases List.mem_cons.1 hline with h1 | h1
        · subst h1
          exact hgood
        · rw [linesAux_word _ word [] hsp, List.append_nil] at h1
          refine linesAux_wrapWords width all words (i + 1) (0 + byteLen word) word.reverse hws
            (by omega) (by simp) (by omega) ?_ line h1
          rw [List.reverse_reverse]
          by_cases hfit : (byteLen word : Int) ≤ width
          · exact Or.inl hfit
          · exact Or.inr ⟨hall, by omega⟩
      · have hout : wrapWords width i ll (word :: words) =
            ' ' :: (word ++ wrapWords width (i + 1) (ll + 1 + byteLen word) words) := by
          simp [wrapWords, hi, hb, hpos]
        rw [hout] at hline
        simp only [linesAux] at hline
        rw [if_neg (by decide), linesAux_word _ word (' ' :: cur) hsp] at hline
        refine linesAux_wrapWords width all words (i + 1) (ll + 1 + byteLen word)
          (word.reverse ++ ' ' :: cur) hws (by omega) ?_ (by omega) ?_ line hline
        · have h1 : byteLen [' '] = 1 := by decide
          simp only [List.reverse_append, List.reverse_reverse, List.reverse_cons,
            byteLen_append, List.append_assoc, h1]
          omega
        · left
          have h1 : byteLen [' '] = 1 := by decide
          simp only [List.reverse_append, List.reverse_reverse, List.reverse_cons,
            byteLen_append, List.append_assoc, h1]
          push_cast
          omega

/-- C28. When the text is longer than `width` bytes, every line of the text
wrapText returns has at most `width` bytes, unless the line is a single word
of the text that is itself longer than `width`. -/
theorem wrapText_lines (text : String) (width : Int)
    (h : width < (byteLen text.data : Int)) :
    ∀ line ∈ textLines (wrapText text width).data,
      (byteLen line : Int) ≤ width ∨
        (line ∈ Fields text.data ∧ width < (byteLen line : Int)) := by
  unfold wrapText
  rw [if_neg (by omega)]
  have hf := fieldsAux_mem text.data [] (fun _ h => by cases h)
  change ∀ w ∈ Fields text.data, _ at hf
  cases hws : Fields text.data with
  | nil => simp [wrapWords, textLines]
  | cons word words =>
      rw [hws] at hf
      obtain ⟨hne, hsp⟩ := hf word (List.mem_cons_self _ _)
      have hout : wrapWords width 0 0 (word :: words) =
          word ++ wrapWords width 1 (0 + byteLen word) words := by
        simp [wrapWords]
      have hnil : word ++ wrapWords width 1 (0 + byteLen word) words ≠ [] := by
        simp [hne]
      intro line hline
      simp only [hout, textLines, hnil, if_false] at hline
      rw [linesAux_word _ word [] hsp, List.append_nil] at hline
      have hlen := byteLen_pos word hne
      refine linesAux_wrapWords width (word :: words) words 1 (0 + byteLen word) word.reverse
        (fun w hw => ⟨hf w (List.mem_cons_of_mem _ hw), List.mem_cons_of_mem _ hw⟩)
        (by decide) (by simp) (by omega) ?_ line hline
      rw [List.reverse_reverse]
      by_cases hfit : (byteLen word : Int) ≤ width
      · exact Or.inl hfit
      · exact Or.inr ⟨List.mem_cons_self _ _, by omega⟩

theorem wrapText_lines_witness :
    textLines (wrapText "a supercalifragilistic b c" 5).data =
        ["a".data, "supercalifragilistic".data, "b c".data] ∧
      ∀ line ∈ textLines (wrapText "a supercalifragilistic b c" 5).data,
        (byteLen line : Int) ≤ 5 ∨
          (line ∈ Fields "a supercalifragilistic b c".data ∧ (5 : Int) < (byteLen line : Int)) :=
  ⟨by decide, wrapText_lines "a supercalifragilistic b c" 5 (by decide)⟩

/-! ## The editors and the wizard -/

/-- Validate accepts a document exactly when the ten conditions hold. -/
theorem Validate_eq_none_iff {Time : Type} (p : PRD Time) :
    Validate p = none ↔
      p.ID ≠ "" ∧ p.Title ≠ "" ∧ p.Version ≠ "" ∧ p.Owner.Name ≠ "" ∧ p.Owner.Email ≠ "" ∧
        p.Overview.ProblemStatement ≠ "" ∧ p.Overview.SolutionSummary ≠ "" ∧
        len p.Objectives.BusinessGoals ≠ 0 ∧ len p.Requirements.Functional ≠ 0 ∧
        validStatuses p.Status = true := by
  unfold Validate
  by_cases h1 : p.ID = ""
  · simp [h1]
  by_cases h2 : p.Title = ""
  · simp [h1, h2]
  by_cases h3 : p.Version = ""
  · simp [h1, h2, h3]
  by_cases h4 : p.Owner.Name = ""
  · simp [h1, h2, h3, h4]
  by_cases h5 : p.Owner.Email = ""
  · simp [h1, h2, h3, h4, h5]
  by_cases h6 : p.Overview.ProblemStatement = ""
  · simp [h1, h2, h3, h4, h5, h6]
  by_cases h7 : p.Overview.SolutionSummary = ""
  · simp [h1, h2, h3, h4, h5, h6, h7]
  by_cases h8 : len p.Objectives.BusinessGoals = 0
  · simp [h1, h2, h3, h4, h5, h6, h7, h8]
  by_cases h9 : len p.Requirements.Functional = 0
  · simp [h1, h2, h3, h4, h5, h6, h7, h8, h9]
  simp only [h1, h2, h3, h4, h5, h6, h7, h8, h9, if_false, ne_eq, not_false_eq_true,
    true_and]
  cases validStatuses p.Status <;> simp

theorem selectFromOptions_mem (options : List String) (inp : Input) (h : options ≠ []) :
    (selectFromOptions options inp).1 ∈ options := by
  have hhead : options.headD "" ∈ options := by
    cases options with
    | nil => exact absurd rfl h
    | cons a l => simp
  cases hA : Atoi (TrimSpace (ReadString inp).1) with
  | none =>
      simp only [selectFromOptions, hA]
      exact hhead
  | some choice =>
      simp only [selectFromOptions, hA]
      split_ifs with hc
      · have hlt : (choice - 1).toNat < options.length := by omega
        simp only [List.getD_eq_getElem?_getD, List.getElem?_eq_getElem hlt, Option.getD_some]
        exact List.getElem_mem _
      · exact hhead

theorem len_append {α : Type} (s : Option (List α)) (xs : List α) :
    len s ≤ len (append s xs) := by
  cases xs with
  | nil => exact Nat.le_refl _
  | cons x xs =>
      cases s <;> simp [append, len, elems]

theorem len_removeAt {α : Type} (s : Option (List α)) (idx : Int) (h0 : 0 ≤ idx)
    (h1 : idx < (len s : Int)) :
    len (removeAt s idx) + 1 = len s ∧ (len s = 1 → removeAt s idx = some []) := by
  cases s with
  | none => simp [len] at h1; omega
  | some l =>
      have hlt : idx.toNat < l.length := by
        simp only [len] at h1
        omega
      have hlen : (l.eraseIdx idx.toNat).length + 1 = l.length := by
        rw [List.length_eraseIdx, if_pos hlt]
        omega
      refine ⟨by simpa [removeAt, len, elems] using hlen, fun h => ?_⟩
      simp only [len] at h
      simp only [removeAt, elems, Option.some.injEq]
      apply List.eq_nil_of_length_eq_zero
      omega

theorem editBasicInfo_valid {Time : Type} (p : PRD Time) (inp : Input)
    (h : Validate p = none) : Validate (editBasicInfo p inp).1 = none := by
  rw [Validate_eq_none_iff] at h ⊢
  obtain ⟨h1, h2, h3, h4, h5, h6, h7, h8, h9, h10⟩ := h
  refine ⟨h1, ?_, ?_, h4, h5, h6, h7, h8, h9, ?_⟩
  · simp only [editBasicInfo]
    split_ifs with ht
    · exact ht
    · exact h2
  · simp only [editBasicInfo]
    split_ifs with ht
    · exact ht
    · exact h3
  · simp only [editBasicInfo]
    split_ifs with hc
    · rw [validStatuses_iff]
      exact selectFromOptions_mem _ _ (by simp)
    · exact h10

theorem editText_ne (current : String) (inp : Input) (h : current ≠ "") :
    (editText current inp).1 ≠ "" := by
  simp only [editText]
  split_ifs with hc ht
  · exact ht
  · exact h
  · exact h

theorem editOverview_valid {Time : Type} (p : PRD Time) (inp : Input)
    (h : Validate p = none) : Validate (editOverview p inp).1 = none := by
  rw [Validate_eq_none_iff] at h ⊢
  obtain ⟨h1, h2, h3, h4, h5, h6, h7, h8, h9, h10⟩ := h
  exact ⟨h1, h2, h3, h4, h5, editText_ne _ _ h6, editText_ne _ _ h7, h8, h9, h10⟩

theorem editObjectives_goals {Time : Type} (p : PRD Time) (inp : Input)
    (h0 : len p.Objectives.BusinessGoals ≠ 0) :
    len (editObjectives p inp).1.Objectives.BusinessGoals ≠ 0 ∨
      (len p.Objectives.BusinessGoals = 1 ∧
        (editObjectives p inp).1.Objectives.BusinessGoals = some []) := by
  simp only [editObjectives]
  generalize (confirmChange inp) = c
  generalize (selectFromOptions ["add", "remove", "replace_all"] c.2) = a
  generalize (collectMultipleInputs 3 a.2) = n3
  generalize (collectMultipleInputs 5 a.2) = n5
  generalize (selectGoalToRemove p.Objectives.BusinessGoals a.2) = idx
  split_ifs with hc ha hr hl hi hrep hn
  · have := len_append p.Objectives.BusinessGoals (elems n3.1)
    left
    simp only []
    omega
  · have := len_removeAt p.Objectives.BusinessGoals _ hi.1 hi.2
    by_cases h1 : len p.Objectives.BusinessGoals = 1
    · exact Or.inr ⟨h1, this.2 h1⟩
    · left
      simp only []
      omega
  · exact Or.inl h0
  · exact Or.inl h0
  · left
    simp only []
    omega
  · exact Or.inl h0
  · exact Or.inl h0
  · exact Or.inl h0

theorem editRequirements_functional {Time : Type} (p : PRD Time) (inp : Input)
    (h0 : len p.Requirements.Functional ≠ 0) :
    len (editRequirements p inp).1.Requirements.Functional ≠ 0 ∨
      (len p.Requirements.Functional = 1 ∧
        (editRequirements p inp).1.Requirements.Functional = some []) := by
  simp only [editRequirements]
  generalize (confirmChange inp) = c
  generalize (selectFromOptions ["add", "remove", "edit", "replace_all"] c.2) = a
  generalize (collectFunctionalRequirements a.2) = n
  generalize (selectRequirementToRemove p.Requirements.Functional a.2) = idx
  generalize (selectRequirementToEdit p.Requirements.Functional a.2) = idx2
  split_ifs with hc ha hr hl hi he hl2 hi2 hrep hn
  · have := len_append p.Requirements.Functional
      (renumber (len p.Requirements.Functional + 1) (elems n.1))
    left
    simp only []
    omega
  · have := len_removeAt p.Requirements.Functional _ hi.1 hi.2
    by_cases h1 : len p.Requirements.Functional = 1
    · exact Or.inr ⟨h1, this.2 h1⟩
    · left
      simp only []
      omega
  · exact Or.inl h0
  · exact Or.inl h0
  · left
    split
    · simp only [len, List.length_set]
      cases hf : p.Requirements.Functional with
      | none => simp [hf, len] at h0
      | some l =>
          simp only [elems]
          simpa [hf, len] using h0
    · exact h0
  · exact Or.inl h0
  · exact Or.inl h0
  · left
    simp only []
    omega
  · exact Or.inl h0
  · exact Or.inl h0
  · exact Or.inl h0

/-- What the editors keep: a document that passes Validate still passes it
after `editBasicInfo` and after `editOverview`, and after `editObjectives` and
`editRequirements` unless the only business goal or the only functional
requirement has been removed. -/
theorem editors_keep_valid {Time : Type} (p : PRD Time) (inp : Input)
    (h : Validate p = none) :
    Validate (editBasicInfo p inp).1 = none ∧ Validate (editOverview p inp).1 = none ∧
      (Validate (editObjectives p inp).1 = none ∨
        (len p.Objectives.BusinessGoals = 1 ∧
          (editObjectives p inp).1.Objectives.BusinessGoals = some [])) ∧
      (Validate (editRequirements p inp).1 = none ∨
        (len p.Requirements.Functional = 1 ∧
          (editRequirements p inp).1.Requirements.Functional = some [])) := by
  refine ⟨editBasicInfo_valid p inp h, editOverview_valid p inp h, ?_, ?_⟩
  · rw [Validate_eq_none_iff] at h
    obtain ⟨h1, h2, h3, h4, h5, h6, h7, h8, h9, h10⟩ := h
    rcases editObjectives_goals p inp h8 with hg | hg
    · left
      rw [Validate_eq_none_iff]
      exact ⟨h1, h2, h3, h4, h5, h6, h7, hg, h9, h10⟩
    · exact Or.inr hg
  · rw [Validate_eq_none_iff] at h
    obtain ⟨h1, h2, h3, h4, h5, h6, h7, h8, h9, h10⟩ := h
    rcases editRequirements_functional p inp h9 with hg | hg
    · left
      rw [Validate_eq_none_iff]
      exact ⟨h1, h2, h3, h4, h5, h6, h7, h8, hg, h10⟩
    · exact Or.inr hg

theorem savedMinimalFS_load :
    LoadFromFile yearCodec savedMinimalFS "prd.json" = .ok minimalPRD := by
  have hsave : SaveToFile yearCodec emptyFS minimalPRD "prd.json" = (none, savedMinimalFS) :=
    rfl
  obtain ⟨text, ht, hr⟩ := SaveToFile_ok yearCodec emptyFS savedMinimalFS minimalPRD "prd.json"
    hsave
  obtain ⟨text1, ht1, hf⟩ := FromJSON_ToJSON_of_noEmptyOmitted yearCodec minimalPRD
    (by simp [PRD.NoEmptyOmitted, Objectives.NoEmptyOmitted, Requirements.NoEmptyOmitted,
      FunctionalRequirement.NoEmptyOmitted, minimalPRD])
    (fun t h => by cases h)
  rw [ht] at ht1
  cases ht1
  rw [LoadFromFile_of_read yearCodec savedMinimalFS "prd.json" text hr, hf]

/-- What `editPRD` does with a file it can load, for a section with an
editor: it saves the document the editor leaves, with the timestamp of the
call, and does not validate it. -/
theorem editPRD_saves {Time : Type} (tc : TimeCodec Time) (now : Time) (fs : FileSystem)
    (inp : Input) (filename section_ : String) (d : PRD Time) (e : PRD Time × Input)
    (hload : LoadFromFile tc fs filename = .ok d) (hs : section_ ≠ "")
    (he : editedDocument d section_ inp = some e) :
    editPRD tc now fs inp filename section_ =
      (match SaveToFile tc fs (UpdateLastModified now e.1) filename with
        | (some err, fs1) => (some ("failed to save PRD: " ++ err), fs1)
        | (none, fs1) => (none, fs1)) := by
  simp only [editPRD, hload, hs, if_false, he]

/-- A save that is written to a directory in which every path can be written
succeeds when the timestamp has a text form, and the file then holds the text
of the document. -/
theorem SaveToFile_emptyFS (d : PRD Nat) (path : String) (fs : FileSystem)
    (hw : ∀ data, fs.writeError path data = none)
    (ht : ∀ t, d.LastUpdated = some t → t ≤ 9999) :
    (SaveToFile yearCodec fs d path).1 = none ∧
      ∃ text, ToJSON yearCodec d = .ok text ∧
        ReadFile (SaveToFile yearCodec fs d path).2 path = .ok text := by
  obtain ⟨j, hj, _⟩ := ToJSON_ok_of_time yearCodec d (fun t h => by
    have := ht t h
    exact ⟨yearText t, by simp [yearCodec, marshalYear, this]⟩)
  have h1 := SaveToFile_of_writable yearCodec fs d path j hj (hw _)
  refine ⟨h1, SaveToFile_ok yearCodec fs _ d path ?_⟩
  cases hsave : SaveToFile yearCodec fs d path with
  | mk e fs2 =>
      rw [hsave] at h1
      cases h1
      rfl

/-- C23 (failing input). The minimal document passes Validate and has one
business goal.  When the user confirms, chooses the action `remove` and the
goal number 1, `editObjectives` leaves a document without business goals,
which fails Validate; `editPRD` saves it all the same.  The action `remove` of
`editRequirements` does the same with the only functional requirement. -/
theorem editObjectives_removes_only_goal :
    Validate minimalPRD = none ∧
      (editObjectives minimalPRD ["y", "2", "1", "n"]).1.Objectives.BusinessGoals = some [] ∧
      Validate (editObjectives minimalPRD ["y", "2", "1", "n"]).1 =
        some "at least one business goal is required" ∧
      Validate (editRequirements minimalPRD ["y", "2", "1"]).1 =
        some "at least one functional requirement is required" ∧
      (editPRD yearCodec 2025 savedMinimalFS ["y", "2", "1", "n"] "prd.json"
        "objectives").1 = none ∧
      ∃ text, ToJSON yearCodec
          (UpdateLastModified 2025 (editObjectives minimalPRD ["y", "2", "1", "n"]).1) =
            .ok text ∧
        ReadFile (editPRD yearCodec 2025 savedMinimalFS ["y", "2", "1", "n"] "prd.json"
          "objectives").2 "prd.json" = .ok text ∧
        Validate (UpdateLastModified 2025
          (editObjectives minimalPRD ["y", "2", "1", "n"]).1) =
            some "at least one business goal is required" := by
  have hedit := editPRD_saves yearCodec 2025 savedMinimalFS ["y", "2", "1", "n"] "prd.json"
    "objectives" minimalPRD (editObjectives minimalPRD ["y", "2", "1", "n"])
    savedMinimalFS_load (by decide) rfl
  obtain ⟨hs1, text, ht, hr⟩ := SaveToFile_emptyFS
    (UpdateLastModified 2025 (editObjectives minimalPRD ["y", "2", "1", "n"]).1) "prd.json"
    savedMinimalFS (fun _ => rfl) (fun t h => by cases h; decide)
  have hpair : editPRD yearCodec 2025 savedMinimalFS ["y", "2", "1", "n"] "prd.json"
      "objectives" = SaveToFile yearCodec savedMinimalFS
        (UpdateLastModified 2025 (editObjectives minimalPRD ["y", "2", "1", "n"]).1)
        "prd.json" := by
    rw [hedit]
    cases hsave : SaveToFile yearCodec savedMinimalFS
        (UpdateLastModified 2025 (editObjectives minimalPRD ["y", "2", "1", "n"]).1)
        "prd.json" with
    | mk e fs2 =>
        rw [hsave] at hs1
        cases hs1
        rfl
  refine ⟨by decide, rfl, rfl, rfl, ?_, text, ht, ?_, rfl⟩
  · rw [hpair]
    exact hs1
  · rw [hpair]
    exact hr

/-- C22 (failing input). The identifiers of the three requirements are
distinct, and so are those of the two that are left when the user removes the
second.  When the user then adds a requirement, the action `add` numbers it
from the count of the requirements, which is 3: the new requirement gets the
identifier `FR-003`, which the document holds already. -/
theorem editRequirements_add_repeats_ID :
    (functionalIDs threeRequirementsPRD).Nodup ∧
      functionalIDs (editRequirements threeRequirementsPRD ["y", "2", "2"]).1 =
        ["FR-001", "FR-003"] ∧
      (functionalIDs (editRequirements threeRequirementsPRD ["y", "2", "2"]).1).Nodup ∧
      functionalIDs (editRequirements (editRequirements threeRequirementsPRD
        ["y", "2", "2"]).1 ["y", "1", "d", "1", ""]).1 = ["FR-001", "FR-003", "FR-003"] ∧
      ¬ (functionalIDs (editRequirements (editRequirements threeRequirementsPRD
        ["y", "2", "2"]).1 ["y", "1", "d", "1", ""]).1).Nodup := by
  have h1 : functionalIDs (editRequirements threeRequirementsPRD ["y", "2", "2"]).1 =
      ["FR-001", "FR-003"] := by decide
  have h2 : functionalIDs (editRequirements (editRequirements threeRequirementsPRD
      ["y", "2", "2"]).1 ["y", "1", "d", "1", ""]).1 = ["FR-001", "FR-003", "FR-003"] := by
    decide
  refine ⟨by decide, h1, ?_, h2, ?_⟩
  · rw [h1]
    decide
  · rw [h2]
    decide

/-- The wizard validates before it saves: when Validate rejects the document
built from the answers, `createInteractivePRD` returns the error and leaves
the files as they are, and when it returns no error the document passes
Validate and the file holds its text. -/
theorem createInteractivePRD_validates {Time : Type} (tc : TimeCodec Time)
    (date : Time → String) (now : Time) (fs : FileSystem) (inp : Input) (filename : String) :
    (∀ err, Validate (interactiveDocument date now inp) = some err →
        createInteractivePRD tc date now fs inp filename =
          (some ("validation failed: " ++ err), fs)) ∧
      (∀ fs1, createInteractivePRD tc date now fs inp filename = (none, fs1) →
        Validate (interactiveDocument date now inp) = none ∧
          ∃ text, ToJSON tc (interactiveDocument date now inp) = .ok text ∧
            ReadFile fs1 filename = .ok text) := by
  constructor
  · intro err he
    simp only [createInteractivePRD, he]
  · intro fs1 h
    cases hv : Validate (interactiveDocument date now inp) with
    | some err => simp [createInteractivePRD, hv] at h
    | none =>
        refine ⟨rfl, SaveToFile_ok tc fs fs1 _ filename ?_⟩
        simp only [createInteractivePRD, hv] at h
        cases hsave : SaveToFile tc fs (interactiveDocument date now inp) filename with
        | mk e fs2 =>
            rw [hsave] at h
            cases e with
            | some err => simp at h
            | none => simpa using h

/-- C24 (failing input). With an empty answer for the title, the document
`createBasicPRD` builds fails Validate; the command saves it all the same and
returns no error, and the file holds its text. -/
theorem createBasicPRD_saves_invalid :
    Validate (basicDocument yearText yearUnix 2024 ["", "A", "a@b.com"]) =
        some "PRD title is required" ∧
      (createBasicPRD yearCodec yearText yearUnix 2024 emptyFS ["", "A", "a@b.com"]
        "new_prd.json").1 = none ∧
      ∃ text, ToJSON yearCodec (basicDocument yearText yearUnix 2024 ["", "A", "a@b.com"]) =
          .ok text ∧
        ReadFile (createBasicPRD yearCodec yearText yearUnix 2024 emptyFS
          ["", "A", "a@b.com"] "new_prd.json").2 "new_prd.json" = .ok text := by
  obtain ⟨hs1, text, ht, hr⟩ := SaveToFile_emptyFS
    (basicDocument yearText yearUnix 2024 ["", "A", "a@b.com"]) "new_prd.json" emptyFS
    (fun _ => rfl) (fun t h => by cases h; decide)
  have hpair : createBasicPRD yearCodec yearText yearUnix 2024 emptyFS ["", "A", "a@b.com"]
      "new_prd.json" = SaveToFile yearCodec emptyFS
        (basicDocument yearText yearUnix 2024 ["", "A", "a@b.com"]) "new_prd.json" := by
    simp only [createBasicPRD]
    cases hsave : SaveToFile yearCodec emptyFS
        (basicDocument yearText yearUnix 2024 ["", "A", "a@b.com"]) "new_prd.json" with
    | mk e fs2 =>
        rw [hsave] at hs1
        cases hs1
        rfl
  refine ⟨rfl, ?_, text, ht, ?_⟩
  · rw [hpair]
    exact hs1
  · rw [hpair]
    exact hr

theorem String.join_cons (a : String) (l : List String) :
    String.join (a :: l) = a ++ String.join l := by
  have h : ∀ (l : List String) (acc : String),
      List.foldl (fun r s => r ++ s) acc l = acc ++ String.join l := by
    intro l
    induction l with
    | nil => intro acc; simp [String.join]
    | cons b l ih =>
        intro acc
        simp only [String.join, List.foldl_cons]
        rw [ih, ih ("" ++ b)]
        simp [String.append_assoc]
  rw [String.join, List.foldl_cons, h]
  simp

theorem String.join_nil1 : String.join [] = "" := rfl

theorem enum_numbered (f : Nat → String → String) (xs : List String) (k : Nat) :
    (xs.enumFrom k).map (fun ig => f (ig.1 + 1) ig.2) =
      List.zipWith f (List.range' (k + 1) xs.length) xs := by
  induction xs generalizing k with
  | nil => rfl
  | cons x xs ih =>
      simp only [List.enumFrom_cons, List.map_cons, List.length_cons, List.range'_succ,
        List.zipWith_cons_cons]
      rw [ih]

theorem len_eq_zero_elems {α : Type} (s : Option (List α)) (h : len s = 0) : elems s = [] := by
  cases s with
  | none => rfl
  | some xs =>
      simp only [len, List.length_eq_zero] at h
      simp [elems, h]

theorem requirement_entries {Time : Type} (p : PRD Time)
    (h : ∀ r ∈ elems p.Requirements.Functional, r.Priority = "" ∧ len r.Dependencies = 0) :
    (elems p.Requirements.Functional).map (fun req =>
        String.join
          [ "#### " ++ req.ID ++ "\n\n",
            req.Description ++ "\n\n",
            (if req.Priority ≠ "" then "**Priority:** " ++ req.Priority ++ "\n" else ""),
            (if len req.Dependencies > 0 then
              String.join [ "**Dependencies:**\n", writeItems req.Dependencies ]
            else ""),
            "\n" ]) =
      (elems p.Requirements.Functional).map (fun req =>
        "#### " ++ req.ID ++ "\n\n" ++ req.Description ++ "\n\n" ++ "\n") := by
  apply List.map_congr_left
  intro r hr
  obtain ⟨ha, hb⟩ := h r hr
  simp only [ha, hb, String.join_cons, String.join_nil1, ne_eq, not_true_eq_false, if_false,
    gt_iff_lt, lt_self_iff_false, String.append_empty, String.empty_append,
    String.append_assoc]

theorem goals_numbered {Time : Type} (p : PRD Time) :
    (elems p.Objectives.BusinessGoals).enum.map (fun ig =>
        toString (ig.1 + 1) ++ ". " ++ ig.2 ++ "\n") =
      List.zipWith (fun i goal => toString i ++ ". " ++ goal ++ "\n")
        (List.range' 1 (len p.Objectives.BusinessGoals)) (elems p.Objectives.BusinessGoals) := by
  have := enum_numbered (fun i goal => toString i ++ ". " ++ goal ++ "\n")
    (elems p.Objectives.BusinessGoals) 0
  have hl : (elems p.Objectives.BusinessGoals).length = len p.Objectives.BusinessGoals := by
    cases p.Objectives.BusinessGoals <;> rfl
  rw [hl] at this
  exact this

theorem absent_or_allEmpty {α : Type} (x : Option α) (P : α → Prop)
    (h : ∀ a, x = some a → P a) : x = none ∨ ∃ a, x = some a ∧ P a := by
  cases x with
  | none => exact Or.inl rfl
  | some a => exact Or.inr ⟨a, rfl, h a rfl⟩

/-- The text of ToMarkdown for a document whose optional fields are all unset
or empty. -/
theorem ToMarkdown_eq_required {Time : Type} (format : Time → String) (p : PRD Time)
    (h : p.OptionalEmpty) :
    ToMarkdown format p = requiredMarkdown p ++ presentHeadings p := by
  obtain ⟨h1, h2, h3, h4, h5, h6, h7, h8, h9, h10, h11, h12, h13, h14, h15, h16, h17⟩ := h
  simp only [ToMarkdown, requiredMarkdown, presentHeadings]
  rw [requirement_entries p h11, goals_numbered p]
  simp only [h1, h2, h3, h4, h5, h6, h7, h8, h9, h10, h12, h16, String.join_cons,
    String.join_nil1, ne_eq, not_true_eq_false, if_false, gt_iff_lt, lt_self_iff_false,
    String.append_empty, String.empty_append]
  rcases absent_or_allEmpty _ _ h13 with e13 | ⟨ts, e13, a1, a2, a3, a4⟩
  · rcases absent_or_allEmpty _ _ h14 with e14 | ⟨tl, e14, b1, b2⟩ <;>
    rcases absent_or_allEmpty _ _ h15 with e15 | ⟨ra, e15, c1, c2⟩ <;>
    rcases absent_or_allEmpty _ _ h17 with e17 | ⟨ap, e17, d1, d2, d3⟩ <;>
    clear h11 h13 h14 h15 h17 <;>
    simp only [*, String.join_cons, String.join_nil1, ne_eq, not_true_eq_false, if_false,
      gt_iff_lt, lt_self_iff_false, String.append_empty, String.empty_append,
      String.append_assoc]
  · rcases absent_or_allEmpty _ _ a2 with es | ⟨st, es, s1, s2, s3, s4⟩ <;>
    rcases absent_or_allEmpty _ _ h14 with e14 | ⟨tl, e14, b1, b2⟩ <;>
    rcases absent_or_allEmpty _ _ h15 with e15 | ⟨ra, e15, c1, c2⟩ <;>
    rcases absent_or_allEmpty _ _ h17 with e17 | ⟨ap, e17, d1, d2, d3⟩ <;>
    clear h11 h13 h14 h15 h17 a2 <;>
    simp only [*, String.join_cons, String.join_nil1, ne_eq, not_true_eq_false, if_false,
      gt_iff_lt, lt_self_iff_false, String.append_empty, String.empty_append,
      String.append_assoc]

theorem append_eq_self_iff (a b : String) : a ++ b = a ↔ b = "" := by
  constructor
  · intro h
    have h1 := congrArg String.data h
    rw [String.data_append] at h1
    have h2 : b.data = [] := List.append_right_eq_self.mp h1
    exact String.ext h2
  · intro h
    rw [h, String.append_empty]

theorem append_eq_empty_iff (a b : String) : a ++ b = "" ↔ a = "" ∧ b = "" := by
  constructor
  · intro h
    have h1 := congrArg String.data h
    rw [String.data_append] at h1
    have h2 := List.append_eq_nil.mp h1
    exact ⟨String.ext h2.1, String.ext h2.2⟩
  · rintro ⟨h1, h2⟩
    rw [h1, h2]
    rfl

theorem presentHeadings_eq_empty_iff {Time : Type} (p : PRD Time) :
    presentHeadings p = "" ↔
      (p.TechnicalSpecifications = none ∧ p.Timeline = none ∧ p.RisksAndAssumptions = none ∧
        p.Appendices = none) := by
  constructor
  · intro h
    simp only [presentHeadings, append_eq_empty_iff] at h
    obtain ⟨⟨⟨hA, hB⟩, hC⟩, hD⟩ := h
    refine ⟨?_, ?_, ?_, ?_⟩
    · cases hp : p.TechnicalSpecifications with
      | none => rfl
      | some ts =>
          rw [hp] at hA
          simp only [append_eq_empty_iff] at hA
          exact absurd hA.1 (by decide)
    · cases hp : p.Timeline with
      | none => rfl
      | some tl =>
          rw [hp] at hB
          simp only [] at hB
          exact absurd hB (by decide)
    · cases hp : p.RisksAndAssumptions with
      | none => rfl
      | some ra =>
          rw [hp] at hC
          simp only [] at hC
          exact absurd hC (by decide)
    · cases hp : p.Appendices with
      | none => rfl
      | some ap =>
          rw [hp] at hD
          simp only [] at hD
          exact absurd hD (by decide)
  · rintro ⟨h1, h2, h3, h4⟩
    simp only [presentHeadings, h1, h2, h3, h4]
    rfl

/-- C25 (amended). For a document whose optional fields are all unset or empty
(an optional nested record is absent, or present with all its fields unset or
empty), ToMarkdown returns exactly the title heading, the metadata table with
the rows ID, Version, Created Date and Status, the Owner section with Name and
Email, the Overview with Problem Statement and Solution Summary, the Business
Goals numbered from 1 in the order of the list, and one entry with identifier
and description per functional requirement in the order of the list, followed
by the section heading of each optional nested record that is present, and
nothing else.  There is no text for any other section exactly when the
optional nested records are all absent.  ToMarkdown is a total function, and an
absent nested record is not read: it contributes the empty text. -/
theorem ToMarkdown_of_optionalEmpty {Time : Type} (format : Time → String) (p : PRD Time)
    (h : p.OptionalEmpty) :
    ToMarkdown format p = requiredMarkdown p ++ presentHeadings p ∧
      (p.TechnicalSpecifications = none → p.Timeline = none →
        p.RisksAndAssumptions = none → p.Appendices = none →
          ToMarkdown format p = requiredMarkdown p) ∧
      (ToMarkdown format p = requiredMarkdown p ↔
        (p.TechnicalSpecifications = none ∧ p.Timeline = none ∧
          p.RisksAndAssumptions = none ∧ p.Appendices = none)) := by
  have key := ToMarkdown_eq_required format p h
  have hiff : ToMarkdown format p = requiredMarkdown p ↔
      (p.TechnicalSpecifications = none ∧ p.Timeline = none ∧
        p.RisksAndAssumptions = none ∧ p.Appendices = none) := by
    rw [key, append_eq_self_iff, presentHeadings_eq_empty_iff]
  exact ⟨key, fun h1 h2 h3 h4 => hiff.mpr ⟨h1, h2, h3, h4⟩, hiff⟩

theorem twoGoalsPRD_optionalEmpty : twoGoalsPRD.OptionalEmpty := by
  simp [PRD.OptionalEmpty, twoGoalsPRD, minimalPRD, len, elems]

theorem emptyRecordsPRD_optionalEmpty : emptyRecordsPRD.OptionalEmpty := by
  simp [PRD.OptionalEmpty, TechnicalSpecifications.AllEmpty, TechnologyStack.AllEmpty,
    Timeline.AllEmpty, RisksAndAssumptions.AllEmpty, Appendices.AllEmpty, emptyRecordsPRD,
    minimalPRD, len, elems]

theorem emptyTimelinePRD_optionalEmpty : emptyTimelinePRD.OptionalEmpty := by
  simp [PRD.OptionalEmpty, Timeline.AllEmpty, emptyTimelinePRD, minimalPRD, len, elems]

theorem ToMarkdown_of_optionalEmpty_witness :
    twoGoalsPRD.OptionalEmpty ∧ emptyRecordsPRD.OptionalEmpty ∧
      ToMarkdown yearText twoGoalsPRD =
        "# X\n\n| Field | Value |\n|-------|-------|\n| **ID** | PRD-1 |\n| **Version** | 1.0.0 |\n| **Created Date** |  |\n| **Status** | draft |\n\n## Owner\n\n**Name:** A  \n**Email:** a@b.com  \n\n## Overview\n\n### Problem Statement\n\np\n\n### Solution Summary\n\ns\n\n## Objectives\n\n### Business Goals\n\n1. g1\n2. g2\n\n## Requirements\n\n### Functional Requirements\n\n#### FR-001\n\nd\n\n\n#### FR-002\n\ne\n\n\n" ∧
      ToMarkdown yearText emptyRecordsPRD =
        "# X\n\n| Field | Value |\n|-------|-------|\n| **ID** | PRD-1 |\n| **Version** | 1.0.0 |\n| **Created Date** |  |\n| **Status** | draft |\n\n## Owner\n\n**Name:** A  \n**Email:** a@b.com  \n\n## Overview\n\n### Problem Statement\n\np\n\n### Solution Summary\n\ns\n\n## Objectives\n\n### Business Goals\n\n1. g1\n\n## Requirements\n\n### Functional Requirements\n\n#### FR-001\n\nd\n\n\n## Technical Specifications\n\n### Technology Stack\n\n## Timeline\n\n## Risks and Assumptions\n\n## Appendices\n\n" := by
  have t1 : toString (1 : Nat) = "1" := rfl
  have t2 : toString (2 : Nat) = "2" := rfl
  refine ⟨twoGoalsPRD_optionalEmpty, emptyRecordsPRD_optionalEmpty, ?_, ?_⟩
  · rw [(ToMarkdown_of_optionalEmpty yearText twoGoalsPRD twoGoalsPRD_optionalEmpty).2.1
      rfl rfl rfl rfl]
    simp [requiredMarkdown, twoGoalsPRD, minimalPRD, len, elems, List.range',
      String.join_cons, String.join_nil1, t1, t2]
  · rw [(ToMarkdown_of_optionalEmpty yearText emptyRecordsPRD emptyRecordsPRD_optionalEmpty).1]
    simp [requiredMarkdown, presentHeadings, emptyRecordsPRD, minimalPRD, len, elems,
      List.range', String.join_cons, String.join_nil1, t1]

/-- C25 (counterexample). Every optional field of the document is unset or
empty: it is the minimal document with a timeline that is present and holds no
milestones and no launch date.  ToMarkdown writes the heading of the Timeline
section for it, so its text is not the text of the required sections alone. -/
theorem ToMarkdown_writes_heading_of_empty_timeline :
    emptyTimelinePRD.OptionalEmpty ∧
      ToMarkdown yearText emptyTimelinePRD =
        "# X\n\n| Field | Value |\n|-------|-------|\n| **ID** | PRD-1 |\n| **Version** | 1.0.0 |\n| **Created Date** |  |\n| **Status** | draft |\n\n## Owner\n\n**Name:** A  \n**Email:** a@b.com  \n\n## Overview\n\n### Problem Statement\n\np\n\n### Solution Summary\n\ns\n\n## Objectives\n\n### Business Goals\n\n1. g1\n\n## Requirements\n\n### Functional Requirements\n\n#### FR-001\n\nd\n\n\n## Timeline\n\n" ∧
      ToMarkdown yearText emptyTimelinePRD =
        requiredMarkdown emptyTimelinePRD ++ "## Timeline\n\n" ∧
      ToMarkdown yearText emptyTimelinePRD ≠ requiredMarkdown emptyTimelinePRD := by
  have t1 : toString (1 : Nat) = "1" := rfl
  have key := ToMarkdown_eq_required yearText emptyTimelinePRD emptyTimelinePRD_optionalEmpty
  have hh : presentHeadings emptyTimelinePRD = "## Timeline\n\n" := by decide
  rw [hh] at key
  refine ⟨emptyTimelinePRD_optionalEmpty, ?_, key, ?_⟩
  · rw [key]
    simp [requiredMarkdown, emptyTimelinePRD, minimalPRD, len, elems, List.range',
      String.join_cons, String.join_nil1, t1]
  · rw [key]
    intro h
    have := (append_eq_self_iff _ _).mp h
    exact absurd this (by decide)

/-! ## Theorems about the commands validate and export -/

/-- C29. The strict flag of `validatePRD` only adds warnings: with and without
it the command returns the same error, which is the error of LoadFromFile when
the file cannot be loaded and the error of Validate otherwise; so it returns an
error exactly when loading fails or Validate fails, and never for missing user
stories, a missing timeline or missing non-functional requirements.  Without
the flag there are no warnings. -/
theorem validatePRD_strict_only_warns {Time : Type} (tc : TimeCodec Time) (fs : FileSystem)
    (filename : String) :
    (validatePRD tc fs filename true).1 = (validatePRD tc fs filename false).1 ∧
      (∀ strict, (validatePRD tc fs filename strict).1 =
        match LoadFromFile tc fs filename with
        | .error err => some err
        | .ok prdDoc => Validate prdDoc) ∧
      (∀ strict, (validatePRD tc fs filename strict).1 ≠ none ↔
        ((∃ err, LoadFromFile tc fs filename = .error err) ∨
          ∃ prdDoc err, LoadFromFile tc fs filename = .ok prdDoc ∧
            Validate prdDoc = some err)) ∧
      (∀ strict prdDoc, LoadFromFile tc fs filename = .ok prdDoc → Validate prdDoc = none →
        validatePRD tc fs filename strict =
          (none, if strict then
            (if len prdDoc.UserStories = 0 then ["No user stories defined"] else []) ++
              (if prdDoc.Timeline = none then ["No timeline specified"] else []) ++
              (if len prdDoc.Requirements.NonFunctional = 0 then
                ["No non-functional requirements"] else [])
            else [])) ∧
      (validatePRD tc fs filename false).2 = [] := by
  have key : ∀ strict, (validatePRD tc fs filename strict).1 =
      match LoadFromFile tc fs filename with
      | .error err => some err
      | .ok prdDoc => Validate prdDoc := by
    intro strict
    simp only [validatePRD]
    cases LoadFromFile tc fs filename with
    | error err => rfl
    | ok prdDoc =>
        simp only []
        cases Validate prdDoc <;> rfl
  refine ⟨by rw [key true, key false], key, ?_, ?_, ?_⟩
  · intro strict
    rw [key strict]
    cases LoadFromFile tc fs filename with
    | error err => simp
    | ok prdDoc =>
        cases hv : Validate prdDoc with
        | none => simp [hv]
        | some err => simp [hv]
  · intro strict prdDoc hload hv
    simp only [validatePRD, hload, hv]
  · simp only [validatePRD]
    cases LoadFromFile tc fs filename with
    | error err => rfl
    | ok prdDoc =>
        simp only []
        cases Validate prdDoc <;> rfl

/-- What `exportPRD` does with a file it can load: the formats `markdown` and
`html` are exported, and every other format is refused. -/
theorem exportPRD_of_load {Time : Type} (tc : TimeCodec Time) (format16 formatLong : Time → String)
    (now : Time) (fs : FileSystem) (filename format output : String) (prdDoc : PRD Time)
    (hload : LoadFromFile tc fs filename = .ok prdDoc) :
    exportPRD tc format16 formatLong now fs filename format output =
      if format = "markdown" then
        exportToMarkdown format16 now fs prdDoc
          (if output = "" then TrimSuffix filename ".json" ++ ext format else output)
      else if format = "html" then
        exportToHTML formatLong now fs prdDoc
          (if output = "" then TrimSuffix filename ".json" ++ ext format else output)
      else (some ("export format '" ++ format ++ "' not supported"), fs) := by
  simp only [exportPRD, hload]

/-- C21 (failing input). The file `prd.json` holds the minimal document and can
be loaded.  For the format `pdf` the command `exportPRD` returns the error that
the format is not supported and leaves the files as they are, while for the
formats `markdown` and `html` it returns no error and writes the export to
`prd.md` and to `prd.html`. -/
theorem exportPRD_pdf_not_supported :
    LoadFromFile yearCodec savedMinimalFS "prd.json" = .ok minimalPRD ∧
      ext "pdf" = ".pdf" ∧
      exportPRD yearCodec yearText yearText 2025 savedMinimalFS "prd.json" "pdf" "" =
        (some "export format 'pdf' not supported", savedMinimalFS) ∧
      (exportPRD yearCodec yearText yearText 2025 savedMinimalFS "prd.json" "markdown" "").1 =
        none ∧
      ReadFile (exportPRD yearCodec yearText yearText 2025 savedMinimalFS "prd.json"
        "markdown" "").2 "prd.md" = .ok (exportToMarkdownText yearText 2025 minimalPRD) ∧
      (exportPRD yearCodec yearText yearText 2025 savedMinimalFS "prd.json" "html" "").1 =
        none ∧
      ReadFile (exportPRD yearCodec yearText yearText 2025 savedMinimalFS "prd.json"
        "html" "").2 "prd.html" = .ok (exportToHTMLText yearText 2025 minimalPRD) := by
  have hw : ∀ name data, savedMinimalFS.writeError name data = none := fun _ _ => rfl
  have hmd : TrimSuffix "prd.json" ".json" ++ ext "markdown" = "prd.md" := by decide
  have hhtml : TrimSuffix "prd.json" ".json" ++ ext "html" = "prd.html" := by decide
  refine ⟨savedMinimalFS_load, by decide, ?_, ?_, ?_, ?_, ?_⟩
  · rw [exportPRD_of_load yearCodec yearText yearText 2025 savedMinimalFS "prd.json" "pdf" ""
      minimalPRD savedMinimalFS_load]
    rfl
  · rw [exportPRD_of_load yearCodec yearText yearText 2025 savedMinimalFS "prd.json" "markdown"
      "" minimalPRD savedMinimalFS_load]
    simp only [if_true, hmd, exportToMarkdown, WriteFile, hw]
  · rw [exportPRD_of_load yearCodec yearText yearText 2025 savedMinimalFS "prd.json" "markdown"
      "" minimalPRD savedMinimalFS_load]
    simp only [if_true, hmd, exportToMarkdown, WriteFile, hw, ReadFile]
  · rw [exportPRD_of_load yearCodec yearText yearText 2025 savedMinimalFS "prd.json" "html"
      "" minimalPRD savedMinimalFS_load]
    have hne : ¬ ("html" = "markdown") := by decide
    simp only [if_true, hne, if_false, hhtml, exportToHTML, WriteFile, hw]
  · rw [exportPRD_of_load yearCodec yearText yearText 2025 savedMinimalFS "prd.json" "html"
      "" minimalPRD savedMinimalFS_load]
    have hne : ¬ ("html" = "markdown") := by decide
    simp only [if_true, hne, if_false, hhtml, exportToHTML, WriteFile, hw, ReadFile]

end prd
